import Mathlib

/-!
# Dublin Traceroute (Windows port): probe engine, sniffer and result model

A shallow embedding of

* `cmd/dublin-traceroute/main.go` (`validateParameters`),
* `pkg/capture/windows.go` (`CaptureICMPResponse`),
* `pkg/probe/udp.go`, `pkg/probe/tcp.go` (`craftUDPPacket`, `sendProbe`, `Traceroute`),
* `pkg/results/results.go`, `pkg/results/analysis.go` (the result model, `GetPaths`,
  `pathsEqual`, `GetAverageRTT`, `CalculateHopStatistics`, `AnalyzeNetwork`),
* the routines of the packet library the probes go through (`DecodeFromBytes` of the IPv4 and
  UDP layers, the checksum routines),

followed by the properties established about them.

Conventions. Go's fixed-width unsigned integers are naturals reduced modulo `2^w` at every
operation that can wrap. A Go `error` is an `Option String` (`none` is `nil`). A Go map is a
list of key/value entries with pairwise distinct keys, whose order carries no meaning. Everything
the program reads from the outside world (the clock, the raw socket, the capture channel, the
resolver) is supplied by an explicit environment, one record per probe. A `range` over a map
visits the entries in the order of the list. A loop whose end is not evident takes a bound on
the number of its evaluations and returns `none` when it is still running after that many.
A finite `float64` is the rational it denotes; every `float64` operation is the exact operation
followed by the rounding of IEEE 754 binary64 (to nearest, ties to even). The operands met
here come from 64-bit integers and stay far below the overflow threshold `2^1024`.
-/

namespace DublinTraceroute

/-! ## Machine integers -/

/-- Conversion to `uint8`. -/
def u8 (n : Nat) : Nat := n % 256

/-- Conversion to `uint16`. -/
def u16 (n : Nat) : Nat := n % 65536

/-- Width of Go's `uint` on the 64-bit Windows targets of the program. -/
def uintSize : Nat := 2 ^ 64

/-! ## Go maps -/

/-- A Go `map[K]V` with integer keys: its entries, with pairwise distinct keys. -/
structure GoMap (β : Type) where
  entries : List (Nat × β)
deriving Repr, DecidableEq

namespace GoMap

variable {β : Type}

/-- The result of `make(map[K]V)`. -/
def empty : GoMap β := ⟨[]⟩

/-- The read `v, ok := m[k]`. -/
def lookup (m : GoMap β) (k : Nat) : Option β :=
  (m.entries.find? (fun e => e.1 == k)).map (fun e => e.2)

/-- The assignment `m[k] = v`: any entry already stored under `k` is replaced. -/
def store (m : GoMap β) (k : Nat) (v : β) : GoMap β :=
  ⟨m.entries.filter (fun e => e.1 != k) ++ [(k, v)]⟩

/-- The keys of the map. -/
def keys (m : GoMap β) : List Nat := m.entries.map (fun e => e.1)

/-- The values of the map. -/
def values (m : GoMap β) : List β := m.entries.map (fun e => e.2)

/-- The value of `len(m)`. -/
def len (m : GoMap β) : Nat := m.entries.length

end GoMap

/-! ## Command-line validation (`cmd/dublin-traceroute/main.go`) -/

/-- The flags read by `validateParameters`; the numeric ones are declared with `flag.Uint`. -/
structure Flags where
  target : String
  srcPort : Nat
  dstPort : Nat
  minTTL : Nat
  maxTTL : Nat
  numPaths : Nat
  probeCount : Nat
  showVersion : Bool
  listDevices : Bool
deriving Repr, DecidableEq

/-- The function `validateParameters` of `main.go`; `none` is the `nil` error. The sum
`*srcPort + *numPaths - 1` is computed in `uint` arithmetic. -/
def validateParameters (f : Flags) : Option String :=
  if f.target == "" && !f.listDevices && !f.showVersion then
    some "target host is required"
  else if f.srcPort < 1 || f.srcPort > 65535 then
    some ("invalid source port: " ++ toString f.srcPort ++ " (must be 1-65535)")
  else if f.dstPort < 1 || f.dstPort > 65535 then
    some ("invalid destination port: " ++ toString f.dstPort ++ " (must be 1-65535)")
  else if f.minTTL < 1 || f.minTTL > 255 then
    some ("invalid min-ttl: " ++ toString f.minTTL ++ " (must be 1-255)")
  else if f.maxTTL < 1 || f.maxTTL > 255 then
    some ("invalid max-ttl: " ++ toString f.maxTTL ++ " (must be 1-255)")
  else if f.minTTL > f.maxTTL then
    some ("min-ttl (" ++ toString f.minTTL ++ ") cannot be greater than max-ttl ("
      ++ toString f.maxTTL ++ ")")
  else if f.numPaths < 1 || f.numPaths > 256 then
    some ("invalid npaths: " ++ toString f.numPaths ++ " (must be 1-256)")
  else if f.probeCount < 1 || f.probeCount > 10 then
    some ("invalid count: " ++ toString f.probeCount ++ " (must be 1-10)")
  else
    let maxSrcPort := (f.srcPort + f.numPaths + (uintSize - 1)) % uintSize
    if maxSrcPort > 65535 then
      some ("source port range overflow: " ++ toString f.srcPort ++ "-" ++ toString maxSrcPort
        ++ " exceeds 65535")
    else
      none

/-! ## Addresses, clock readings and durations -/

/-- An IPv4 address, the only kind of `net.IP` the engines accept (`To4() != nil` is checked
when a probe is created, and captured addresses come from decoded IPv4 headers). -/
structure IPv4Addr where
  b0 : Nat
  b1 : Nat
  b2 : Nat
  b3 : Nat
deriving Repr, DecidableEq

/-- The text form `net.IP.String()` of an IPv4 address: dotted decimal. -/
def IPv4Addr.str (ip : IPv4Addr) : String :=
  toString ip.b0 ++ "." ++ toString ip.b1 ++ "." ++ toString ip.b2 ++ "." ++ toString ip.b3

/-- The comparison `net.IP.Equal`, which identifies the 4-byte and the 16-byte form of the same
IPv4 address. -/
def IPv4Addr.Equal (ip x : IPv4Addr) : Bool := decide (ip = x)

/-- A `time.Time`: a reading of the clock in nanoseconds, with `0` for the zero value
`time.Time{}`. -/
abbrev Time := Nat

/-- A `time.Duration`: a signed 64-bit count of nanoseconds. -/
abbrev Duration := Int

/-- Largest `time.Duration`. -/
def maxDuration : Duration := 2 ^ 63 - 1

/-- Smallest `time.Duration`. -/
def minDuration : Duration := -(2 ^ 63)

/-- The method `time.Time.Sub`: the difference `t - u`, saturated to the range of a `Duration`. -/
def Time.Sub (t u : Time) : Duration :=
  let d : Int := (t : Int) - (u : Int)
  if d > maxDuration then maxDuration else if d < minDuration then minDuration else d

/-! ## Captured packets (`gopacket`) -/

/-- The fields of a `layers.IPv4` header. -/
structure IPv4 where
  Version : Nat
  IHL : Nat
  TOS : Nat
  Length : Nat
  Id : Nat
  Flags : Nat
  FragOffset : Nat
  TTL : Nat
  Protocol : Nat
  Checksum : Nat
  SrcIP : IPv4Addr
  DstIP : IPv4Addr
deriving Repr, DecidableEq

/-- The fields of a `layers.ICMPv4` message that the program reads: the 16-bit `TypeCode`
(type in the high byte, code in the low byte) and the bytes that follow the ICMP header. -/
structure ICMPv4 where
  TypeCode : Nat
  Payload : List Nat
deriving Repr, DecidableEq

/-- The byte `ICMPv4TypeCode.Type()`. -/
def ICMPv4.Type (icmp : ICMPv4) : Nat := u8 (icmp.TypeCode / 256)

/-- The byte `ICMPv4TypeCode.Code()`. -/
def ICMPv4.Code (icmp : ICMPv4) : Nat := u8 icmp.TypeCode

/-- The constant `layers.ICMPv4TypeEchoReply`. -/
def ICMPv4TypeEchoReply : Nat := 0

/-- The constant `layers.ICMPv4TypeDestinationUnreachable`. -/
def ICMPv4TypeDestinationUnreachable : Nat := 3

/-- The constant `layers.ICMPv4TypeTimeExceeded`. -/
def ICMPv4TypeTimeExceeded : Nat := 11

/-- A decoded `gopacket.Packet`: the result of `packet.Layer` for the two layer types the
program asks for (`none` when the packet has no such layer). -/
structure Packet where
  ipv4 : Option IPv4
  icmpv4 : Option ICMPv4
deriving Repr, DecidableEq

/-- The option walk at the end of `layers.IPv4.DecodeFromBytes` (library code): `true` when it
ends without an error. The first argument bounds the number of options read. -/
def ipv4OptionsOK : Nat → List Nat → Bool
  | 0, _ => true
  | _ + 1, [] => true
  | n + 1, t :: rest =>
    if t == 0 then true
    else if t == 1 then ipv4OptionsOK n rest
    else
      match rest with
      | [] => false
      | l :: _ =>
        if (t :: rest).length < l then false
        else if l ≤ 2 then false
        else ipv4OptionsOK n ((t :: rest).drop l)

/-- The method `layers.IPv4.DecodeFromBytes` of the packet library, as far as the header fields
go: every field is read at its fixed offset; `none` stands for a returned error (fewer than 20
bytes, a total length or header length that is too small, a truncated header, a malformed
option). -/
def IPv4.DecodeFromBytes (data : List Nat) : Option IPv4 :=
  if data.length < 20 then none
  else
    let byte : Nat → Nat := fun i => data.getD i 0
    let be16 : Nat → Nat := fun i => byte i * 256 + byte (i + 1)
    let flagsfrags := be16 6
    let length := if be16 2 == 0 then u16 data.length else be16 2
    let ihl := byte 0 % 16
    let ip : IPv4 :=
      { Version := byte 0 / 16, IHL := ihl, TOS := byte 1, Length := length, Id := be16 4,
        Flags := flagsfrags / 8192, FragOffset := flagsfrags % 8192, TTL := byte 8,
        Protocol := byte 9, Checksum := be16 10,
        SrcIP := ⟨byte 12, byte 13, byte 14, byte 15⟩,
        DstIP := ⟨byte 16, byte 17, byte 18, byte 19⟩ }
    if length < 20 then none
    else if ihl < 5 then none
    else if ihl * 4 > length then none
    else if data.length < length && ihl * 4 > data.length then none
    else
      let data1 := if data.length > length then data.take length else data
      let opts := (data1.take (ihl * 4)).drop 20
      if ipv4OptionsOK opts.length opts then some ip else none

/-! ## The sniffer (`pkg/capture/windows.go`) -/

/-- One value received from the packet channel while `CaptureICMPResponse` waits: the packet
(`none` is the `nil` packet of a closed channel) and the outcome of the test
`time.Now().After(deadline)` at the bottom of the loop, should the loop reach it after this
packet. -/
structure Captured where
  packet : Option Packet
  late : Bool
deriving Repr, DecidableEq

/-- The method `WindowsCapture.CaptureICMPResponse`. The last argument lists what the packet
channel delivers, in order, before the deadline timer of the `select` fires; when the list is
used up the timer case is taken. `Except.error` carries the message of the returned error. -/
def CaptureICMPResponse (srcIP dstIP : IPv4Addr) (expectedType : Nat) :
    List Captured → Except String (Packet × IPv4Addr)
  | [] => .error "timeout waiting for ICMP response"
  | ⟨none, _⟩ :: _ => .error "packet capture closed unexpectedly"
  | ⟨some packet, late⟩ :: rest =>
    -- the statements after the `select`: the deadline test, then the next iteration
    let next : Except String (Packet × IPv4Addr) :=
      if late then .error "timeout waiting for ICMP response"
      else CaptureICMPResponse srcIP dstIP expectedType rest
    match packet.icmpv4 with
    | none => CaptureICMPResponse srcIP dstIP expectedType rest
    | some icmp =>
      if expectedType != 0 && icmp.TypeCode != expectedType then
        CaptureICMPResponse srcIP dstIP expectedType rest
      else
        match packet.ipv4 with
        | none => CaptureICMPResponse srcIP dstIP expectedType rest
        | some ip =>
          if icmp.Type == ICMPv4TypeTimeExceeded then
            if icmp.Payload.length < 20 then
              CaptureICMPResponse srcIP dstIP expectedType rest
            else
              match IPv4.DecodeFromBytes icmp.Payload with
              | none => CaptureICMPResponse srcIP dstIP expectedType rest
              | some embeddedIP =>
                if embeddedIP.SrcIP.Equal srcIP && embeddedIP.DstIP.Equal dstIP then
                  .ok (packet, ip.SrcIP)
                else next
          else if icmp.Type == ICMPv4TypeDestinationUnreachable
              || icmp.Type == ICMPv4TypeEchoReply then
            if ip.DstIP.Equal srcIP then .ok (packet, ip.SrcIP) else next
          else next

/-! ## The result model (`pkg/results/results.go`) -/

/-- The struct `FlowResult`: the record of one probe. -/
structure FlowResult where
  FlowID : Nat
  SrcPort : Nat
  DstPort : Nat
  SentTime : Time
  RecvTime : Time
  RTT : Duration
  ResponseIP : String
  Hostname : String
  ICMPType : Nat
  ICMPCode : Nat
  Error : String
deriving Repr, DecidableEq

/-- The struct `HopResult`: all probe records of one TTL, keyed by `uint16` flow key. -/
structure HopResult where
  TTL : Nat
  Flows : GoMap FlowResult
deriving Repr, DecidableEq

/-- The struct `TracerouteResult`; `Hops` is keyed by `uint8` TTL. -/
structure TracerouteResult where
  Target : String
  SrcIP : String
  StartTime : Time
  EndTime : Time
  Duration : Duration
  Hops : GoMap HopResult
deriving Repr, DecidableEq

/-- All probe records of a result, hop by hop. -/
def TracerouteResult.records (tr : TracerouteResult) : List FlowResult :=
  tr.Hops.values.flatMap (fun hopResult => hopResult.Flows.values)

/-! ## `float64` arithmetic (IEEE 754 binary64) -/

/-- The power `2 ^ e` of two, for an integer exponent. -/
def pow2 (e : Int) : ℚ :=
  if 0 ≤ e then ((2 ^ e.toNat : Nat) : ℚ) else 1 / ((2 ^ (-e).toNat : Nat) : ℚ)

/-- The greatest integer not above a rational. -/
def ratFloor (x : ℚ) : Int := x.num / (x.den : Int)

/-- Rounding of a rational to the nearest integer, a tie going to the even one. -/
def roundHalfEven (x : ℚ) : Int :=
  let f := ratFloor x
  if x - f < 1 / 2 then f
  else if 1 / 2 < x - f then f + 1
  else if f % 2 = 0 then f else f + 1

/-- The exponent `e` of the binade of `x ≠ 0`: `2^(e+52) ≤ |x| < 2^(e+53)`, so that `|x| / 2^e`
has 53 binary digits before the point. -/
def binadeExponent (x : ℚ) : Int :=
  let d : Int := (Nat.log2 x.num.natAbs : Int) - (Nat.log2 x.den : Int)
  if pow2 d ≤ |x| then d - 52 else d - 53

/-- The exponent of the unit in the last place of the `float64` numbers around `x ≠ 0`: that of
its binade, and not below that of the subnormal numbers, `-1074`. -/
def f64Exponent (x : ℚ) : Int := max (binadeExponent x) (-1074)

/-- The `float64` nearest to the real number `x` (ties to even): the result of a `float64`
operation whose exact result is `x`, and of the conversion `float64(x)` of an integer. -/
def f64Round (x : ℚ) : ℚ :=
  if x = 0 then 0
  else (roundHalfEven (x / pow2 (f64Exponent x)) : ℚ) * pow2 (f64Exponent x)

/-- The binary search of `isqrt`: the bits of the root from bit `b - 1` down, above the part
`r` already found. -/
def isqrtAux (n : Nat) : Nat → Nat → Nat
  | 0, r => r
  | b + 1, r =>
    if (r + 2 ^ b) * (r + 2 ^ b) ≤ n then isqrtAux n b (r + 2 ^ b) else isqrtAux n b r

/-- The integer part of the square root of a natural number. -/
def isqrt (n : Nat) : Nat := isqrtAux n (Nat.log2 n / 2 + 1) 0

/-- The function `math.Sqrt` on a `float64` `x ≥ 0`: the `float64` nearest to the square root
of `x`. With `e` such that `t = x / 4^e` lies in `[2^104, 2^106)`, the root of `t` has 53
binary digits before the point, `s` of them given by the integer root of the integer part of
`t`, and it is rounded up when it passes `s + 1/2`. -/
def f64Sqrt (x : ℚ) : ℚ :=
  if x ≤ 0 then 0
  else
    let e : Int := (binadeExponent x - 52) / 2
    let t : ℚ := x / pow2 (2 * e)
    let s : Nat := isqrt (ratFloor t).toNat
    let mid : ℚ := ((s : ℚ) + 1 / 2) * ((s : ℚ) + 1 / 2)
    let m : Nat :=
      if t < mid then s else if mid < t then s + 1 else if s % 2 = 0 then s else s + 1
    (m : ℚ) * pow2 e

/-- The conversion of a `float64` to an integer type: the fraction is dropped. -/
def f64ToInt (x : ℚ) : Int := if 0 ≤ x then ratFloor x else -ratFloor (-x)

/-- The expression `float64(lost) / float64(total) * 100` of two `int` counters, `total` not
zero: two conversions, a division and a multiplication, each rounded to `float64`. -/
def f64Percent (lost total : Nat) : ℚ :=
  f64Round (f64Round (f64Round (lost : ℚ) / f64Round (total : ℚ)) * 100)

/-! ## Packet loss in `AnalyzeNetwork` (`pkg/results/analysis.go`) -/

/-- The counter `totalProbes` of `AnalyzeNetwork`: one per record of every hop. -/
def TracerouteResult.totalProbes (tr : TracerouteResult) : Nat :=
  tr.records.length

/-- The counter `successfulProbes` of `AnalyzeNetwork`: the records with an empty `Error` and a
positive `RTT`. -/
def TracerouteResult.successfulProbes (tr : TracerouteResult) : Nat :=
  (tr.records.filter (fun flowResult => flowResult.Error == "" && flowResult.RTT > 0)).length

/-- The field `PacketLossRate` computed by `AnalyzeNetwork`,
`float64(totalProbes-successfulProbes) / float64(totalProbes) * 100`, in `float64`
arithmetic; it keeps its initial value `0` when there is no probe. -/
def TracerouteResult.PacketLossRate (tr : TracerouteResult) : ℚ :=
  if tr.totalProbes > 0 then f64Percent (tr.totalProbes - tr.successfulProbes) tr.totalProbes
  else 0

/-! ## Building the UDP probe (`pkg/probe/udp.go`, serialised by `gopacket`) -/

/-- Conversion to `uint32`. -/
def u32 (n : Nat) : Nat := n % 4294967296

/-- The summation loop of the library's checksum routines: the bytes are added to the `uint32`
accumulator as big-endian 16-bit words, an odd last byte as the high byte of a word. -/
def sumWords : List Nat → Nat → Nat
  | a :: b :: rest, csum => sumWords rest (u32 (u32 (csum + a * 256) + b))
  | [a], csum => u32 (csum + a * 256)
  | [], csum => csum

/-- The carry loop `for csum > 0xffff { csum = (csum >> 16) + (csum & 0xffff) }`; the first
argument bounds the number of rounds (two are enough for a `uint32`). -/
def foldCarries : Nat → Nat → Nat
  | 0, csum => csum
  | n + 1, csum => if csum > 65535 then foldCarries n (csum / 65536 + csum % 65536) else csum

/-- The final complement `^uint16(csum)`. -/
def complement16 (csum : Nat) : Nat := 65535 - u16 csum

/-- The library routine `tcpipChecksum(data, csum)`. -/
def tcpipChecksum (data : List Nat) (csum : Nat) : Nat :=
  complement16 (foldCarries 4 (sumWords data csum))

/-- The IPv4 header checksum of the library (`checksum(bytes)`): bytes 10 and 11 are cleared
before the words are summed. -/
def ipv4HeaderChecksum (bytes : List Nat) : Nat :=
  complement16 (foldCarries 4 (sumWords ((bytes.set 10 0).set 11 0) 0))

/-- The struct `UDPProbe`; the socket and the capture handle are the environment. -/
structure UDPProbe where
  Target : IPv4Addr
  SrcIP : IPv4Addr
  SrcPort : Nat
  DstPort : Nat
  NumPaths : Nat
  MinTTL : Nat
  MaxTTL : Nat
  ProbeCount : Nat
  Delay : Duration
  Timeout : Duration
deriving Repr, DecidableEq

/-- The 8-byte payload of a UDP probe. -/
def udpPayload : List Nat := [0xDE, 0xAD, 0xBE, 0xEF, 0xCA, 0xFE, 0xBA, 0xBE]

/-- The method `UDPProbe.craftUDPPacket`: the bytes `gopacket.SerializeLayers` writes for the
IPv4 layer, the UDP layer and the payload with `FixLengths` and `ComputeChecksums` set.
Serialisation cannot fail here: both addresses are IPv4 and the payload is 8 bytes long. -/
def UDPProbe.craftUDPPacket (p : UDPProbe) (ttl flowID : Nat) : List Nat :=
  let srcPort := u16 (p.SrcPort + flowID)
  -- UDP layer
  let udpLength := u16 (u16 udpPayload.length + 8)
  let udp0 : List Nat :=
    [srcPort / 256, srcPort % 256, p.DstPort / 256, p.DstPort % 256,
      udpLength / 256, udpLength % 256, 0, 0] ++ udpPayload
  let length := u32 udp0.length
  let pseudo :=
    u32 (u32 (u32 (u32 ((p.SrcIP.b0 + p.SrcIP.b2) * 256) + (p.SrcIP.b1 + p.SrcIP.b3))
      + (p.Target.b0 + p.Target.b2) * 256) + (p.Target.b1 + p.Target.b3))
  let csum0 := u32 (u32 (u32 (pseudo + 17) + length % 65536) + length / 65536)
  let udpChecksum := tcpipChecksum udp0 csum0
  let udp : List Nat := (udp0.set 6 (udpChecksum / 256)).set 7 (udpChecksum % 256)
  -- IPv4 layer: version 4, IHL 5, identification `flowID`, flag DF, protocol 17
  let ipLength := u16 (20 + udp.length)
  let flagsfrags := 2 * 8192
  let ip0 : List Nat :=
    [4 * 16 + 5, 0, ipLength / 256, ipLength % 256, flowID / 256, flowID % 256,
      flagsfrags / 256, flagsfrags % 256, ttl, 17, 0, 0,
      p.SrcIP.b0, p.SrcIP.b1, p.SrcIP.b2, p.SrcIP.b3,
      p.Target.b0, p.Target.b1, p.Target.b2, p.Target.b3]
  let ipChecksum := ipv4HeaderChecksum ip0
  (ip0.set 10 (ipChecksum / 256)).set 11 (ipChecksum % 256) ++ udp

/-! ## The environment of a run -/

/-- What the outside world contributes to one probe, in the order the engine asks for it. -/
structure ProbeEvents where
  /-- The reading `time.Now()` taken when the record is created. -/
  sentTime : Time
  /-- The error returned by `platform.SendPacket` (`none` when the packet was sent). -/
  sendErr : Option String
  /-- What the packet channel delivers while `CaptureICMPResponse` waits for the reply. -/
  captured : List Captured
  /-- The reading `time.Now()` taken after `CaptureICMPResponse` has returned a packet. -/
  recvTime : Time
  /-- The names returned by `net.LookupAddr` for the responder (empty when it fails). -/
  names : List String

/-- The environment of a run: the clock readings at its start and end, the outcome of
`capture.NewCapture` at the start of the TCP run, and the events of the probes, numbered in the
order in which the probes are made. -/
structure Env where
  startTime : Time
  endTime : Time
  captureErr : Option String
  probe : Nat → ProbeEvents

/-- The key `uniqueFlowID := flowID + uint16(round)*p.NumPaths` under which both engines store
the record of flow `flowID` in round `round`, in `uint16` arithmetic. -/
def flowKey (numPaths round flowID : Nat) : Nat :=
  u16 (flowID + u16 (u16 round * numPaths))

/-- A counted loop `for i := 0; i < n; i++ { body }` over a state. -/
def forRange {σ : Type} : Nat → (Nat → σ → σ) → σ → σ
  | 0, _, s => s
  | n + 1, body, s => body n (forRange n body s)

/-- The state threaded through the two inner loops of `Traceroute`: the map `hopResult.Flows`,
the number of probes made so far in the run, and the log of the calls of `sendProbe`
(`ttl`, `flowID`), oldest first. -/
structure HopRun where
  Flows : GoMap FlowResult
  next : Nat
  sent : List (Nat × Nat)
deriving Repr, DecidableEq

/-- What `Traceroute` returns: the result pointer (`none` is `nil`) and the error. -/
structure TracerouteReturn where
  result : Option TracerouteResult
  err : Option String
deriving Repr, DecidableEq

/-! ## The UDP engine (`pkg/probe/udp.go`) -/

/-- The success path of `NewUDPProbe`, with the resolved target and the local address. -/
def NewUDPProbe (target srcIP : IPv4Addr)
    (srcPort dstPort numPaths minTTL maxTTL probeCount : Nat) : UDPProbe :=
  { Target := target, SrcIP := srcIP, SrcPort := srcPort, DstPort := dstPort,
    NumPaths := numPaths, MinTTL := minTTL, MaxTTL := maxTTL, ProbeCount := probeCount,
    Delay := 10 * 1000000, Timeout := 3 * 1000000000 }

/-- The probe `main` creates from the flags when `-tcp` is not given, with its conversions
`uint16(...)`, `uint8(...)` and `int(...)`. -/
def Flags.udpProbe (f : Flags) (target srcIP : IPv4Addr) : UDPProbe :=
  NewUDPProbe target srcIP (u16 f.srcPort) (u16 f.dstPort) (u16 f.numPaths)
    (u8 f.minTTL) (u8 f.maxTTL) f.probeCount

/-- A probe is validated when its parameters lie in the ranges `validateParameters` accepts. -/
def UDPProbe.Valid (p : UDPProbe) : Prop :=
  (1 ≤ p.SrcPort ∧ p.SrcPort ≤ 65535) ∧ (1 ≤ p.DstPort ∧ p.DstPort ≤ 65535) ∧
    (1 ≤ p.MinTTL ∧ p.MinTTL ≤ 255) ∧ (p.MinTTL ≤ p.MaxTTL ∧ p.MaxTTL ≤ 255) ∧
    (1 ≤ p.NumPaths ∧ p.NumPaths ≤ 256) ∧ (1 ≤ p.ProbeCount ∧ p.ProbeCount ≤ 10) ∧
    p.SrcPort + p.NumPaths - 1 ≤ 65535

instance (p : UDPProbe) : Decidable p.Valid := by
  unfold UDPProbe.Valid; infer_instance

/-- The method `UDPProbe.sendProbe`: the packet is built and handed to `platform.SendPacket`,
whose error, if any, is wrapped. -/
def UDPProbe.sendProbe (p : UDPProbe) (ev : ProbeEvents) (ttl flowID : Nat) : Option String :=
  let _packet := p.craftUDPPacket ttl flowID
  match ev.sendErr with
  | some err =>
    some ("failed to send probe (TTL=" ++ toString ttl ++ ", FlowID=" ++ toString flowID
      ++ "): " ++ err)
  | none => none

/-- The body of the innermost loop of `UDPProbe.Traceroute`, lines 211-264: the record stored
in `hopResult.Flows[uniqueFlowID]` for the probe of flow `flowID` in round `round`. -/
def UDPProbe.probeFlow (p : UDPProbe) (ev : ProbeEvents) (ttl round flowID : Nat) :
    FlowResult :=
  let uniqueFlowID := flowKey p.NumPaths round flowID
  let flowResult : FlowResult :=
    { FlowID := uniqueFlowID, SrcPort := u16 (p.SrcPort + flowID), DstPort := p.DstPort,
      SentTime := ev.sentTime, RecvTime := 0, RTT := 0, ResponseIP := "", Hostname := "",
      ICMPType := 0, ICMPCode := 0, Error := "" }
  match p.sendProbe ev ttl flowID with
  | some err => { flowResult with Error := err }
  | none =>
    match CaptureICMPResponse p.SrcIP p.Target 0 ev.captured with
    | .error _ => { flowResult with Error := "timeout" }
    | .ok (packet, srcIP) =>
      let flowResult :=
        { flowResult with
          RecvTime := ev.recvTime, RTT := Time.Sub ev.recvTime ev.sentTime,
          ResponseIP := srcIP.str }
      let flowResult :=
        match packet.icmpv4 with
        | some icmp => { flowResult with ICMPType := icmp.Type, ICMPCode := icmp.Code }
        | none => flowResult
      if round == 0 then
        match ev.names with
        | name :: _ => { flowResult with Hostname := name }
        | [] => flowResult
      else flowResult

/-- The two inner loops of `UDPProbe.Traceroute` (rounds, then flows) for one TTL. Neither
counter wraps: `flowID` stays below the `uint16` `NumPaths`. -/
def UDPProbe.probeHop (p : UDPProbe) (env : Env) (ttl : Nat) (s : HopRun) : HopRun :=
  forRange p.ProbeCount (fun round s =>
    forRange p.NumPaths (fun flowID s =>
      let flowResult := p.probeFlow (env.probe s.next) ttl round flowID
      { Flows := s.Flows.store flowResult.FlowID flowResult, next := s.next + 1,
        sent := s.sent ++ [(ttl, flowID)] }) s) s

/-- The record of the `i`-th probe of a hop (counting from 0) whose first probe is the `n`-th
probe of the run: probes are made round by round, flow by flow. -/
def UDPProbe.hopRecord (p : UDPProbe) (env : Env) (ttl n i : Nat) : FlowResult :=
  p.probeFlow (env.probe (n + i)) ttl (i / p.NumPaths) (i % p.NumPaths)

/-- A hop record as the two inner loops leave it: one record per round and flow, the `i`-th
probe of the hop stored under key `i`. -/
def UDPProbe.HopOf (p : UDPProbe) (env : Env) (hop : HopResult) : Prop :=
  ∃ n, hop.Flows.entries =
    (List.range (p.ProbeCount * p.NumPaths)).map (fun i => (i, p.hopRecord env hop.TTL n i))

/-- The state of the outer loop of `Traceroute`: the `uint8` loop variable, the map
`result.Hops`, the number of probes made, the log of `sendProbe` calls, and whether the loop
has been left. -/
structure UDPState where
  ttl : Nat
  Hops : GoMap HopResult
  next : Nat
  sent : List (Nat × Nat)
  halted : Bool
deriving Repr, DecidableEq

/-- The state in which the loop `for ttl := p.MinTTL; ...` is entered. -/
def UDPProbe.start (p : UDPProbe) : UDPState :=
  { ttl := p.MinTTL, Hops := GoMap.empty, next := 0, sent := [], halted := false }

/-- One evaluation of the loop `for ttl := p.MinTTL; ttl <= p.MaxTTL; ttl++` of
`UDPProbe.Traceroute`: the test, and when it holds the body (lines 202-294) followed by the
`uint8` increment `ttl++`. -/
def UDPProbe.step (p : UDPProbe) (env : Env) (st : UDPState) : UDPState :=
  if st.halted then st
  else if st.ttl ≤ p.MaxTTL then
    let run := p.probeHop env st.ttl { Flows := GoMap.empty, next := st.next, sent := st.sent }
    let hopResult : HopResult := { TTL := st.ttl, Flows := run.Flows }
    let hops := st.Hops.store st.ttl hopResult
    let reachedTarget := hopResult.Flows.values.any (fun flow => flow.ResponseIP == p.Target.str)
    if reachedTarget then
      { ttl := st.ttl, Hops := hops, next := run.next, sent := run.sent, halted := true }
    else
      { ttl := u8 (st.ttl + 1), Hops := hops, next := run.next, sent := run.sent,
        halted := false }
  else { st with halted := true }

/-- The state of the run after `k` evaluations of the outer loop. -/
def UDPProbe.run (p : UDPProbe) (env : Env) (k : Nat) : UDPState :=
  (p.step env)^[k] p.start

/-- The method `UDPProbe.Traceroute`, given `fuel` evaluations of its outer loop: `none` when
the loop is still running after that many, otherwise the returned result and (`nil`) error. -/
def UDPProbe.Traceroute (p : UDPProbe) (env : Env) (fuel : Nat) : Option TracerouteReturn :=
  let st := p.run env fuel
  if st.halted then
    some
      { result := some
          { Target := p.Target.str, SrcIP := p.SrcIP.str, StartTime := env.startTime,
            EndTime := env.endTime, Duration := Time.Sub env.endTime env.startTime,
            Hops := st.Hops },
        err := none }
  else none

/-! ## The TCP engine (`pkg/probe/tcp.go`) -/

/-- The struct `TCPProbe`; the socket and the capture handle are the environment. -/
structure TCPProbe where
  Target : IPv4Addr
  SrcIP : IPv4Addr
  SrcPort : Nat
  DstPort : Nat
  NumPaths : Nat
  MinTTL : Nat
  MaxTTL : Nat
  ProbeCount : Nat
  Delay : Duration
  Timeout : Duration
deriving Repr, DecidableEq

/-- The success path of `NewTCPProbe`, with the resolved target and the local address. -/
def NewTCPProbe (target srcIP : IPv4Addr)
    (srcPort dstPort numPaths minTTL maxTTL probeCount : Nat) : TCPProbe :=
  { Target := target, SrcIP := srcIP, SrcPort := srcPort, DstPort := dstPort,
    NumPaths := numPaths, MinTTL := minTTL, MaxTTL := maxTTL, ProbeCount := probeCount,
    Delay := 10 * 1000000, Timeout := 1 * 1000000000 }

/-- The probe `main` creates from the flags when `-tcp` is given. -/
def Flags.tcpProbe (f : Flags) (target srcIP : IPv4Addr) : TCPProbe :=
  NewTCPProbe target srcIP (u16 f.srcPort) (u16 f.dstPort) (u16 f.numPaths)
    (u8 f.minTTL) (u8 f.maxTTL) f.probeCount

/-- A probe is validated when its parameters lie in the ranges `validateParameters` accepts. -/
def TCPProbe.Valid (p : TCPProbe) : Prop :=
  (1 ≤ p.SrcPort ∧ p.SrcPort ≤ 65535) ∧ (1 ≤ p.DstPort ∧ p.DstPort ≤ 65535) ∧
    (1 ≤ p.MinTTL ∧ p.MinTTL ≤ 255) ∧ (p.MinTTL ≤ p.MaxTTL ∧ p.MaxTTL ≤ 255) ∧
    (1 ≤ p.NumPaths ∧ p.NumPaths ≤ 256) ∧ (1 ≤ p.ProbeCount ∧ p.ProbeCount ≤ 10) ∧
    p.SrcPort + p.NumPaths - 1 ≤ 65535

instance (p : TCPProbe) : Decidable p.Valid := by
  unfold TCPProbe.Valid; infer_instance

/-- The method `TCPProbe.sendProbe`. The bytes of the SYN packet (`craftTCPPacket`, whose
serialisation cannot fail on IPv4 addresses) do not reach the result and are not represented;
the error of `platform.SendPacket`, if any, is wrapped. -/
def TCPProbe.sendProbe (_p : TCPProbe) (ev : ProbeEvents) (_ttl _flowID : Nat) :
    Option String :=
  match ev.sendErr with
  | some err => some ("failed to send TCP probe: " ++ err)
  | none => none

/-- The method `TCPProbe.lookupHostname`, given the names `net.LookupAddr` returns. -/
def TCPProbe.lookupHostname (names : List String) : String :=
  match names with
  | name :: _ => name
  | [] => ""

/-- The body of the innermost loop of `TCPProbe.Traceroute`, lines 235-289: the record stored
in `hopResult.Flows[uniqueFlowID]`, and whether the statement `reachedTarget = true` is
executed. -/
def TCPProbe.probeFlow (p : TCPProbe) (ev : ProbeEvents) (ttl round flowID : Nat) :
    FlowResult × Bool :=
  let uniqueFlowID := flowKey p.NumPaths round flowID
  let srcPort := u16 (p.SrcPort + flowID)
  let flowResult : FlowResult :=
    { FlowID := uniqueFlowID, SrcPort := srcPort, DstPort := p.DstPort,
      SentTime := ev.sentTime, RecvTime := 0, RTT := 0, ResponseIP := "", Hostname := "",
      ICMPType := 0, ICMPCode := 0, Error := "" }
  match p.sendProbe ev ttl flowID with
  | some sendErr => ({ flowResult with Error := sendErr }, false)
  | none =>
    match CaptureICMPResponse p.SrcIP p.Target 0 ev.captured with
    | .ok (_, srcIP) =>
      let flowResult :=
        { flowResult with
          RecvTime := ev.recvTime, RTT := Time.Sub ev.recvTime ev.sentTime,
          ResponseIP := srcIP.str }
      let flowResult :=
        if round == 0 then
          { flowResult with Hostname := TCPProbe.lookupHostname ev.names }
        else flowResult
      (flowResult, srcIP.Equal p.Target)
    | .error _ => ({ flowResult with Error := "timeout" }, false)

/-- The state threaded through the inner loops of `TCPProbe.Traceroute`: that of the UDP
engine and the variable `reachedTarget`. -/
structure TCPHopRun where
  Flows : GoMap FlowResult
  next : Nat
  sent : List (Nat × Nat)
  reachedTarget : Bool
deriving Repr, DecidableEq

/-- The two inner loops of `TCPProbe.Traceroute` (rounds, then flows) for one TTL. -/
def TCPProbe.probeHop (p : TCPProbe) (env : Env) (ttl : Nat) (s : TCPHopRun) : TCPHopRun :=
  forRange p.ProbeCount (fun round s =>
    forRange p.NumPaths (fun flowID s =>
      let r := p.probeFlow (env.probe s.next) ttl round flowID
      { Flows := s.Flows.store r.1.FlowID r.1, next := s.next + 1,
        sent := s.sent ++ [(ttl, flowID)], reachedTarget := s.reachedTarget || r.2 }) s) s

/-- The record of the `i`-th probe of a hop (counting from 0) whose first probe is the `n`-th
probe of the run. -/
def TCPProbe.hopRecord (p : TCPProbe) (env : Env) (ttl n i : Nat) : FlowResult :=
  (p.probeFlow (env.probe (n + i)) ttl (i / p.NumPaths) (i % p.NumPaths)).1

/-- Whether the `i`-th probe of a hop sets `reachedTarget`. -/
def TCPProbe.hopHit (p : TCPProbe) (env : Env) (ttl n i : Nat) : Bool :=
  (p.probeFlow (env.probe (n + i)) ttl (i / p.NumPaths) (i % p.NumPaths)).2

/-- A hop record as the two inner loops leave it: one record per round and flow, the `i`-th
probe of the hop stored under key `i`. -/
def TCPProbe.HopOf (p : TCPProbe) (env : Env) (hop : HopResult) : Prop :=
  ∃ n, hop.Flows.entries =
    (List.range (p.ProbeCount * p.NumPaths)).map (fun i => (i, p.hopRecord env hop.TTL n i))

/-- The state of the outer loop of `TCPProbe.Traceroute`. -/
structure TCPState where
  ttl : Nat
  Hops : GoMap HopResult
  next : Nat
  sent : List (Nat × Nat)
  reachedTarget : Bool
  halted : Bool
deriving Repr, DecidableEq

/-- The state in which the loop `for ttl := p.MinTTL; ...` is entered. -/
def TCPProbe.start (p : TCPProbe) : TCPState :=
  { ttl := p.MinTTL, Hops := GoMap.empty, next := 0, sent := [], reachedTarget := false,
    halted := false }

/-- One evaluation of the loop
`for ttl := p.MinTTL; ttl <= p.MaxTTL && !reachedTarget; ttl++` of `TCPProbe.Traceroute`:
the test, and when it holds the body (lines 226-297) followed by the `uint8` increment. -/
def TCPProbe.step (p : TCPProbe) (env : Env) (st : TCPState) : TCPState :=
  if st.halted then st
  else if st.ttl ≤ p.MaxTTL && !st.reachedTarget then
    let run := p.probeHop env st.ttl
      { Flows := GoMap.empty, next := st.next, sent := st.sent,
        reachedTarget := st.reachedTarget }
    let hopResult : HopResult := { TTL := st.ttl, Flows := run.Flows }
    let hops := if hopResult.Flows.len > 0 then st.Hops.store st.ttl hopResult else st.Hops
    { ttl := u8 (st.ttl + 1), Hops := hops, next := run.next, sent := run.sent,
      reachedTarget := run.reachedTarget, halted := false }
  else { st with halted := true }

/-- The state of the run after `k` evaluations of the outer loop. -/
def TCPProbe.run (p : TCPProbe) (env : Env) (k : Nat) : TCPState :=
  (p.step env)^[k] p.start

/-- The method `TCPProbe.Traceroute`, given `fuel` evaluations of its outer loop: `none` when
the loop is still running after that many. When `capture.NewCapture` fails the method returns
at once with a `nil` result and the wrapped error. -/
def TCPProbe.Traceroute (p : TCPProbe) (env : Env) (fuel : Nat) : Option TracerouteReturn :=
  match env.captureErr with
  | some err => some { result := none, err := some ("failed to initialize capture: " ++ err) }
  | none =>
    let st := p.run env fuel
    if st.halted then
      some
        { result := some
            { Target := p.Target.str, SrcIP := p.SrcIP.str, StartTime := env.startTime,
              EndTime := env.endTime, Duration := Time.Sub env.endTime env.startTime,
              Hops := st.Hops },
          err := none }
    else none

/-! ## Concrete scenarios -/

/-- An ICMP Time Exceeded message (type 11, code 0) with outer header `outer` that quotes the
IPv4 header and the first 8 transport bytes of the datagram `probe`, followed by the further
quoted bytes `more`. -/
def timeExceededQuoting (outer : IPv4) (probe more : List Nat) : Packet :=
  { ipv4 := some outer,
    icmpv4 := some { TypeCode := 11 * 256, Payload := probe.take 28 ++ more } }

/-- A clock that never returns the zero time, does not run backwards between the sending of a
probe and the arrival of its reply, and whose nanosecond readings fit a signed 64-bit
integer. -/
def Env.Monotonic (env : Env) : Prop :=
  ∀ i, 0 < (env.probe i).sentTime ∧ (env.probe i).sentTime ≤ (env.probe i).recvTime ∧
    (env.probe i).recvTime < 2 ^ 63

namespace Scenario

/-- The local address of the examples. -/
def localIP : IPv4Addr := ⟨192, 168, 1, 10⟩

/-- The target of the examples. -/
def targetIP : IPv4Addr := ⟨8, 8, 8, 8⟩

/-- A router on the path. -/
def routerIP : IPv4Addr := ⟨10, 0, 0, 1⟩

/-- Another host, to which some other program on the local machine sends traffic. -/
def otherIP : IPv4Addr := ⟨1, 1, 1, 1⟩

/-- The outer IPv4 header of an ICMP message sent by `src` to the local host. -/
def outerHeader (src : IPv4Addr) : IPv4 :=
  { Version := 4, IHL := 5, TOS := 0, Length := 56, Id := 0, Flags := 0, FragOffset := 0,
    TTL := 64, Protocol := 1, Checksum := 0, SrcIP := src, DstIP := localIP }

/-- A UDP datagram from the local host to `otherIP`, not a probe of the run towards
`targetIP`. -/
def foreignDatagram : List Nat :=
  (NewUDPProbe otherIP localIP 40000 53 1 1 30 1).craftUDPPacket 64 0

/-- A Destination Unreachable (port unreachable) message from `routerIP` to the local host,
quoting the header and first 8 bytes of `foreignDatagram`. -/
def foreignUnreachable : Packet :=
  { ipv4 := some (outerHeader routerIP),
    icmpv4 := some { TypeCode := 3 * 256 + 3, Payload := foreignDatagram.take 28 } }

/-- A UDP probe towards `targetIP` with two flows, one round and the single TTL 1. -/
def twoFlows : UDPProbe := NewUDPProbe targetIP localIP 33434 33434 2 1 1 1

/-- The Time Exceeded message `routerIP` sends for the probe of `twoFlows` with TTL 1 and
flow 0: it quotes the header and first 8 bytes of that probe. -/
def timeExceededFlow0 : Packet :=
  timeExceededQuoting (outerHeader routerIP) (twoFlows.craftUDPPacket 1 0) []

/-- The events of a probe that is sent and never answered. -/
def unanswered : ProbeEvents :=
  { sentTime := 1000, sendErr := none, captured := [], recvTime := 0, names := [] }

/-- The events of a probe that `platform.SendPacket` refuses to send. -/
def refused : ProbeEvents :=
  { sentTime := 1000, sendErr := some "sendto: access denied", captured := [], recvTime := 0,
    names := [] }

/-- The events of the probe of flow 1 of `twoFlows` when the reply to the earlier probe of
flow 0 reaches the capture channel only now. -/
def lateReplyOfFlow0 : ProbeEvents :=
  { sentTime := 5000, sendErr := none, captured := [⟨some timeExceededFlow0, false⟩],
    recvTime := 6000, names := [] }

/-- The TCP counterpart of `twoFlows`, towards port 80. -/
def tcpTwoFlows : TCPProbe := NewTCPProbe targetIP localIP 33434 80 2 1 1 1

/-- The events of a probe answered by a Time Exceeded message of `routerIP` 2 ms after it was
sent; the resolver knows the router as `gw.example`. -/
def answered : ProbeEvents :=
  { sentTime := 5000000, sendErr := none, captured := [⟨some timeExceededFlow0, false⟩],
    recvTime := 7000000, names := ["gw.example"] }

/-- An environment in which every probe is answered by `routerIP`. -/
def routed : Env :=
  { startTime := 1, endTime := 2, captureErr := none, probe := fun _ => answered }

/-- An environment in which the first probe is sent and not answered in time, and its reply
is captured while the second probe is awaited. -/
def lateReply : Env :=
  { startTime := 1, endTime := 2, captureErr := none,
    probe := fun i => if i = 1 then lateReplyOfFlow0 else unanswered }

/-- An environment in which every probe is sent and none is answered. -/
def silent : Env :=
  { startTime := 1, endTime := 2, captureErr := none, probe := fun _ => unanswered }

/-- An environment in which no probe can be sent. -/
def blocked : Env :=
  { startTime := 1, endTime := 2, captureErr := none, probe := fun _ => refused }

/-- The flags of a run with every default of `main.go` except `-max-ttl 255`. -/
def flags255 : Flags :=
  { target := "8.8.8.8", srcPort := 33434, dstPort := 33434, minTTL := 1, maxTTL := 255,
    numPaths := 4, probeCount := 1, showVersion := false, listDevices := false }

/-- The flags `-min-ttl 255 -max-ttl 255 -npaths 1`. -/
def flagsOnly255 : Flags :=
  { target := "8.8.8.8", srcPort := 33434, dstPort := 33434, minTTL := 255, maxTTL := 255,
    numPaths := 1, probeCount := 1, showVersion := false, listDevices := false }

/-- A Destination Unreachable (port unreachable) message sent by the target to the local host,
quoting the start of a probe of the run. -/
def targetUnreachable : Packet :=
  { ipv4 := some (outerHeader targetIP),
    icmpv4 := some
      { TypeCode := 3 * 256 + 3,
        Payload := ((flagsOnly255.udpProbe targetIP localIP).craftUDPPacket 255 0).take 28 } }

/-- The events of a probe answered by the target. -/
def answeredByTarget : ProbeEvents :=
  { sentTime := 9000000, sendErr := none, captured := [⟨some targetUnreachable, false⟩],
    recvTime := 9500000, names := [] }

/-- An environment in which the first probe is not answered and the second one is answered by
the target. -/
def targetAnswersSecond : Env :=
  { startTime := 1, endTime := 2, captureErr := none,
    probe := fun i => if i = 1 then answeredByTarget else unanswered }

/-- The scenario S4 of the specification: TTLs 1 to 5, two flows, three rounds. -/
def s4 : UDPProbe := NewUDPProbe targetIP localIP 33434 33434 2 1 5 3

/-- The scenario S4 with `MaxTTL = 255`. -/
def s4Max255 : UDPProbe := NewUDPProbe targetIP localIP 33434 33434 2 1 255 3

end Scenario

/-! ## Parsing a probe back (`gopacket`) and checking its checksums -/

/-- An address whose four components are bytes. -/
def IPv4Addr.IsBytes (ip : IPv4Addr) : Prop :=
  ip.b0 < 256 ∧ ip.b1 < 256 ∧ ip.b2 < 256 ∧ ip.b3 < 256

instance (ip : IPv4Addr) : Decidable ip.IsBytes := by
  unfold IPv4Addr.IsBytes; infer_instance

/-- The flag `layers.IPv4DontFragment` of the packet library. -/
def IPv4DontFragment : Nat := 2

/-- The bytes `ip.Payload` that `layers.IPv4.DecodeFromBytes` leaves for the next layer: what
follows the header, cut at the total length of the datagram. -/
def IPv4.payloadOf (data : List Nat) : List Nat :=
  let byte : Nat → Nat := fun i => data.getD i 0
  let be16 : Nat → Nat := fun i => byte i * 256 + byte (i + 1)
  let length := if be16 2 == 0 then u16 data.length else be16 2
  let ihl := byte 0 % 16
  let data1 := if data.length > length then data.take length else data
  data1.drop (ihl * 4)

/-- The fields of a `layers.UDP` header and the payload that follows it. -/
structure UDP where
  SrcPort : Nat
  DstPort : Nat
  Length : Nat
  Checksum : Nat
  Payload : List Nat
deriving Repr, DecidableEq

/-- The method `layers.UDP.DecodeFromBytes` of the packet library; `none` stands for a returned
error (fewer than 8 bytes, or a length field between 1 and 7). -/
def UDP.DecodeFromBytes (data : List Nat) : Option UDP :=
  if data.length < 8 then none
  else
    let byte : Nat → Nat := fun i => data.getD i 0
    let be16 : Nat → Nat := fun i => byte i * 256 + byte (i + 1)
    let length := be16 4
    if length ≥ 8 then
      let hlen := if length > data.length then data.length else length
      some { SrcPort := be16 0, DstPort := be16 2, Length := length, Checksum := be16 6,
             Payload := (data.take hlen).drop 8 }
    else if length == 0 then
      some { SrcPort := be16 0, DstPort := be16 2, Length := length, Checksum := be16 6,
             Payload := data.drop 8 }
    else none

/-- The sum of a byte string read as big-endian 16-bit words, an odd last byte counting as the
high byte of a word (no reduction). -/
def wordSum : List Nat → Nat
  | a :: b :: rest => a * 256 + b + wordSum rest
  | [a] => a * 256
  | [] => 0

/-- The check a receiver makes on an IPv4 header (RFC 791, RFC 1071): the one's-complement sum
of its 16-bit words, checksum included, is `0xFFFF`. -/
def ipv4ChecksumValid (header : List Nat) : Bool :=
  foldCarries 4 (wordSum header) == 65535

/-- The check a receiver makes on a UDP datagram over IPv4 (RFC 768): the one's-complement sum
of the pseudo-header (source, destination, protocol 17, UDP length) and of the datagram,
checksum included, is `0xFFFF`. -/
def udpChecksumValid (src dst : IPv4Addr) (datagram : List Nat) : Bool :=
  foldCarries 4
    (wordSum [src.b0, src.b1, src.b2, src.b3, dst.b0, dst.b1, dst.b2, dst.b3, 0, 17,
        datagram.length / 256, datagram.length % 256]
      + wordSum datagram) == 65535

/-! ## Paths (`pkg/results/results.go`) -/

/-- The struct `PathHop`. -/
structure PathHop where
  TTL : Nat
  IP : String
  Hostname : String
  RTT : Duration
deriving Repr, DecidableEq

/-- The struct `Path`. -/
structure Path where
  PathID : Nat
  Hops : List PathHop
deriving Repr, DecidableEq

/-- The loop `for ttl := uint8(1); ttl <= 255; ttl++` of `GetPaths` for one flow, from the
value `ttl` of the counter on, with the hops collected so far; the first argument bounds the
number of evaluations of the loop, `none` meaning that the loop is still running after that
many. The counter is a `uint8`: the increment wraps from 255 to 0. -/
def TracerouteResult.scanFlow (tr : TracerouteResult) (flowID : Nat) :
    Nat → Nat → List PathHop → Option (List PathHop)
  | 0, _, _ => none
  | fuel + 1, ttl, hops =>
    if ttl ≤ 255 then
      match tr.Hops.lookup ttl with
      | none => some hops
      | some hopResult =>
        match hopResult.Flows.lookup flowID with
        | none => tr.scanFlow flowID fuel (u8 (ttl + 1)) hops
        | some flowResult =>
          if flowResult.Error != "" then tr.scanFlow flowID fuel (u8 (ttl + 1)) hops
          else
            let pathHop : PathHop :=
              { TTL := ttl, IP := flowResult.ResponseIP, Hostname := flowResult.Hostname,
                RTT := flowResult.RTT }
            if flowResult.ResponseIP == tr.Target then some (hops ++ [pathHop])
            else tr.scanFlow flowID fuel (u8 (ttl + 1)) (hops ++ [pathHop])
    else some hops

/-- The loop `for pathID, flowID := range flowIDs` of `GetPaths`, from path number `pathID`
on. -/
def TracerouteResult.buildPaths (tr : TracerouteResult) (fuel : Nat) :
    List Nat → Nat → Option (List Path)
  | [], _ => some []
  | flowID :: rest, pathID =>
    match tr.scanFlow flowID fuel 1 [] with
    | none => none
    | some hops =>
      match tr.buildPaths fuel rest (pathID + 1) with
      | none => none
      | some paths => some ({ PathID := pathID, Hops := hops } :: paths)

/-- The slice `flowIDs` of `GetPaths`: the flow keys of the hop stored under TTL 1, if any. -/
def TracerouteResult.firstHopFlowIDs (tr : TracerouteResult) : List Nat :=
  match tr.Hops.lookup 1 with
  | some firstHop => firstHop.Flows.keys
  | none => []

/-- The method `TracerouteResult.GetPaths`; `fuel` bounds the evaluations of the scan of each
flow, `none` meaning that some scan is still running after that many. -/
def TracerouteResult.GetPaths (tr : TracerouteResult) (fuel : Nat) : Option (List Path) :=
  tr.buildPaths fuel tr.firstHopFlowIDs 0

/-- The loop of `pathsEqual` over two slices of the same length. -/
def sameIPs : List PathHop → List PathHop → Bool
  | a :: as, b :: bs => if a.IP != b.IP then false else sameIPs as bs
  | _, _ => true

/-- The function `pathsEqual`. -/
def pathsEqual (p1 p2 : Path) : Bool :=
  if p1.Hops.length != p2.Hops.length then false
  else sameIPs p1.Hops p2.Hops

/-- What the scan of flow `flowID` appends to a path from the value `ttl` of its counter on,
when no hop is stored under TTL 0: hops of error-free records of the flow at TTLs from `ttl`
to 255, in ascending order; nothing after a hop whose IP is the target; every such record up
to the last hop; and every such record that comes before a gap in the hop keys and not after a
record naming the target. -/
def TracerouteResult.ScanFrom (tr : TracerouteResult) (flowID ttl : Nat)
    (ext : List PathHop) : Prop :=
  (ttl = 0 → ext = []) ∧
  (∀ hop ∈ ext, ttl ≤ hop.TTL ∧ hop.TTL ≤ 255 ∧
    ∃ hopResult flowResult, tr.Hops.lookup hop.TTL = some hopResult ∧
      hopResult.Flows.lookup flowID = some flowResult ∧ flowResult.Error = "" ∧
      hop = { TTL := hop.TTL, IP := flowResult.ResponseIP, Hostname := flowResult.Hostname,
              RTT := flowResult.RTT }) ∧
  (ext.map (fun hop => hop.TTL)).Pairwise (fun a b => a < b) ∧
  (∀ before hop after, ext = before ++ hop :: after → hop.IP = tr.Target → after = []) ∧
  (∀ t hopResult flowResult, ttl ≤ t → (∃ hop ∈ ext, t ≤ hop.TTL) →
    tr.Hops.lookup t = some hopResult → hopResult.Flows.lookup flowID = some flowResult →
    flowResult.Error = "" → ∃ hop ∈ ext, hop.TTL = t) ∧
  (∀ t hopResult flowResult, ttl ≤ t → t ≤ 255 →
    (∀ u, ttl ≤ u → u ≤ t → tr.Hops.lookup u ≠ none) →
    (∀ u earlierHop earlier, ttl ≤ u → u < t → tr.Hops.lookup u = some earlierHop →
      earlierHop.Flows.lookup flowID = some earlier → earlier.Error = "" →
      earlier.ResponseIP ≠ tr.Target) →
    tr.Hops.lookup t = some hopResult → hopResult.Flows.lookup flowID = some flowResult →
    flowResult.Error = "" → ∃ hop ∈ ext, hop.TTL = t)

/-! ## Per-hop statistics (`pkg/results/results.go`) -/

/-- Conversion of an integer to `int64`. -/
def wrapInt64 (x : Int) : Int := (x + 2 ^ 63) % 2 ^ 64 - 2 ^ 63

/-- The sum `total += rtt` of a list of durations, in `int64` arithmetic. -/
def sumDurations (rtts : List Duration) : Duration :=
  rtts.foldl (fun total rtt => wrapInt64 (total + rtt)) 0

/-- The method `time.Duration.Microseconds`. -/
def Duration.Microseconds (d : Duration) : Int := Int.tdiv d 1000

/-- The method `TracerouteResult.GetAverageRTT`. -/
def TracerouteResult.GetAverageRTT (tr : TracerouteResult) (ttl : Nat) :
    DublinTraceroute.Duration :=
  match tr.Hops.lookup ttl with
  | none => 0
  | some hopResult =>
    let rtts := (hopResult.Flows.values.filter
      (fun flowResult => flowResult.Error == "" && flowResult.RTT > 0)).map (fun f => f.RTT)
    if rtts.length == 0 then 0
    else Int.tdiv (sumDurations rtts) (rtts.length : Int)

/-- The struct `HopStatistics`; the `float64` field `LossPercent` is held as the rational it
denotes. -/
structure HopStatistics where
  TTL : Nat
  IP : String
  Hostname : String
  Sent : Nat
  Received : Nat
  LossPercent : ℚ
  RTTs : List Duration
  MinRTT : Duration
  AvgRTT : Duration
  MaxRTT : Duration
  StdDevRTT : Duration
  BestTime : Time
  WorstTime : Time
deriving Repr, DecidableEq

/-- The statement `ipMap[ip]++` on a `map[string]int`, whose entries are kept in the order in
which their keys were first inserted. -/
def countIP (ipMap : List (String × Nat)) (ip : String) : List (String × Nat) :=
  if ipMap.any (fun e => e.1 == ip) then
    ipMap.map (fun e => if e.1 == ip then (e.1, e.2 + 1) else e)
  else ipMap ++ [(ip, 1)]

/-- The body of the first loop of `CalculateHopStatistics` over the records of a hop (lines
344-366), on the statistics and the reply counts `ipMap` built so far. -/
def recordFlow (acc : HopStatistics × List (String × Nat)) (flowResult : FlowResult) :
    HopStatistics × List (String × Nat) :=
  let stat : HopStatistics := { acc.1 with Sent := acc.1.Sent + 1 }
  if flowResult.Error == "" && flowResult.ResponseIP != "" then
    let stat : HopStatistics := { stat with Received := stat.Received + 1 }
    let ipMap := countIP acc.2 flowResult.ResponseIP
    if flowResult.RTT > 0 then
      let stat : HopStatistics := { stat with RTTs := stat.RTTs ++ [flowResult.RTT] }
      let stat : HopStatistics :=
        if stat.BestTime == 0 || flowResult.RTT < stat.MinRTT || stat.MinRTT == 0 then
          { stat with MinRTT := flowResult.RTT, BestTime := flowResult.RecvTime }
        else stat
      let stat : HopStatistics :=
        if flowResult.RTT > stat.MaxRTT then
          { stat with MaxRTT := flowResult.RTT, WorstTime := flowResult.RecvTime }
        else stat
      (stat, ipMap)
    else (stat, ipMap)
  else (stat, acc.2)

/-- The first loop of `CalculateHopStatistics` over the records of a hop: the counters, the
collected RTTs with their extremes, and the reply count of every responder. -/
def aggregateFlows (stat : HopStatistics) (flows : List FlowResult) :
    HopStatistics × List (String × Nat) :=
  flows.foldl recordFlow (stat, [])

/-- The loop `for ip, count := range ipMap` choosing the hop IP (lines 369-376), over the
entries in the order given. -/
def mostCommonIP (ipMap : List (String × Nat)) : String :=
  (ipMap.foldl
    (fun (acc : String × Nat) e => if e.2 > acc.2 then (e.1, e.2) else acc) ("", 0)).1

/-- The standard deviation of lines 402-411, for the collected RTTs and the average `avg`
already stored in `stat.AvgRTT`. The squares of the distances of the RTTs, in whole
microseconds, to the whole microseconds of the average are added up and divided by the number
of RTTs in `float64` arithmetic (every conversion, difference, product, sum and the quotient
rounded; the product and the sum are two operations, as on `amd64`); `math.Sqrt` of the
quotient is cut to an integer by `time.Duration(...)` and multiplied by `time.Microsecond` in
`int64`. -/
def stdDevRTT (rtts : List Duration) (avg : Duration) : Duration :=
  let avgFloat : ℚ := f64Round (Duration.Microseconds avg : ℚ)
  let variance : ℚ :=
    rtts.foldl (fun variance rtt =>
      let diff : ℚ := f64Round (f64Round (Duration.Microseconds rtt : ℚ) - avgFloat)
      f64Round (variance + f64Round (diff * diff))) 0
  let variance : ℚ := f64Round (variance / f64Round (rtts.length : ℚ))
  wrapInt64 (f64ToInt (f64Sqrt variance) * 1000)

/-- The choice of the hostname in `CalculateHopStatistics` (lines 378-386): that of the first
record of the hop IP that has one. -/
def pickHostname (stat : HopStatistics) (flows : List FlowResult) : HopStatistics :=
  if stat.IP != "" then
    match flows.find?
        (fun flowResult => flowResult.ResponseIP == stat.IP && flowResult.Hostname != "") with
    | some flowResult => { stat with Hostname := flowResult.Hostname }
    | none => stat
  else stat

/-- The loss percentage of `CalculateHopStatistics` (lines 388-391),
`float64(stat.Sent-stat.Received) / float64(stat.Sent) * 100.0`, in `float64` arithmetic. -/
def setLossPercent (stat : HopStatistics) : HopStatistics :=
  if stat.Sent > 0 then
    { stat with LossPercent := f64Percent (stat.Sent - stat.Received) stat.Sent }
  else stat

/-- The average and the standard deviation of `CalculateHopStatistics` (lines 393-412). -/
def setRTTStatistics (stat : HopStatistics) : HopStatistics :=
  if stat.RTTs.length > 0 then
    let stat : HopStatistics :=
      { stat with AvgRTT := Int.tdiv (sumDurations stat.RTTs) (stat.RTTs.length : Int) }
    if stat.RTTs.length > 1 then { stat with StdDevRTT := stdDevRTT stat.RTTs stat.AvgRTT }
    else stat
  else stat

/-- The body of the loop of `CalculateHopStatistics` for the hop stored under `ttl`. -/
def hopStatistics (ttl : Nat) (hopResult : HopResult) : HopStatistics :=
  let stat : HopStatistics :=
    { TTL := ttl, IP := "", Hostname := "", Sent := 0, Received := 0, LossPercent := 0,
      RTTs := [], MinRTT := 0, AvgRTT := 0, MaxRTT := 0, StdDevRTT := 0, BestTime := 0,
      WorstTime := 0 }
  let agg := aggregateFlows stat hopResult.Flows.values
  let stat : HopStatistics := { agg.1 with IP := mostCommonIP agg.2 }
  setRTTStatistics (setLossPercent (pickHostname stat hopResult.Flows.values))

/-- The method `TracerouteResult.CalculateHopStatistics`. -/
def TracerouteResult.CalculateHopStatistics (tr : TracerouteResult) : GoMap HopStatistics :=
  tr.Hops.entries.foldl (fun stats e => stats.store e.1 (hopStatistics e.1 e.2)) GoMap.empty

/-! ## Network analysis (`pkg/results/analysis.go`) -/

/-- The struct `LatencyIssue`. -/
structure LatencyIssue where
  TTL : Nat
  IP : String
  Hostname : String
  Latency : Duration
  LatencyJump : Duration
  PossibleCause : String
deriving Repr, DecidableEq

/-- The struct `NetworkAnalysis`; the `float64` field `PacketLossRate` is held as the rational
it denotes. -/
structure NetworkAnalysis where
  HasLoadBalancing : Bool
  LoadBalancingHops : List Nat
  PacketLossRate : ℚ
  AverageRTT : Duration
  MinRTT : Duration
  MaxRTT : Duration
  HighLatencyHops : List LatencyIssue
  AsymmetricRouting : Bool
  UniqueRouters : Nat
  Recommendations : List String
deriving Repr, DecidableEq

/-- The slice `rtts` of `AnalyzeNetwork`: the RTTs of the records with an empty `Error` and a
positive `RTT`. -/
def TracerouteResult.rtts (tr : TracerouteResult) : List DublinTraceroute.Duration :=
  (tr.records.filter (fun flowResult => flowResult.Error == "" && flowResult.RTT > 0)).map
    (fun flowResult => flowResult.RTT)

/-- The set `uniqueRouters` of `AnalyzeNetwork`. -/
def TracerouteResult.uniqueRouters (tr : TracerouteResult) : List String :=
  ((tr.records.filter (fun flowResult => flowResult.ResponseIP != "")).map
    (fun flowResult => flowResult.ResponseIP)).dedup

/-- The set `ips` of the load-balancing loop of `AnalyzeNetwork` (lines 68-73) for one hop: the
responders of its records with a responder and no error. -/
def HopResult.ips (hopResult : HopResult) : List String :=
  ((hopResult.Flows.values.filter
      (fun flowResult => flowResult.ResponseIP != "" && flowResult.Error == "")).map
    (fun flowResult => flowResult.ResponseIP)).dedup

/-- The slice `LoadBalancingHops` built by the loop of lines 67-78. -/
def TracerouteResult.LoadBalancingHops (tr : TracerouteResult) : List Nat :=
  (tr.Hops.entries.filter (fun e => e.2.ips.length > 1)).map (fun e => e.1)

/-- The flag `HasLoadBalancing` set by the loop of lines 67-78. -/
def TracerouteResult.HasLoadBalancing (tr : TracerouteResult) : Bool :=
  tr.Hops.entries.any (fun e => e.2.ips.length > 1)

/-- One millisecond as a `time.Duration`. -/
def millisecond : Duration := 1000000

/-- The loop `for ttl := uint8(1); ttl <= 255; ttl++` of `AnalyzeNetwork` that detects
high-latency hops (lines 81-124), from the value `ttl` of the counter on; the first argument
bounds the number of evaluations of the loop. -/
def TracerouteResult.latencyScan (tr : TracerouteResult) :
    Nat → Nat → DublinTraceroute.Duration → List LatencyIssue → Option (List LatencyIssue)
  | 0, _, _, _ => none
  | fuel + 1, ttl, prevRTT, issues =>
    if ttl ≤ 255 then
      match tr.Hops.lookup ttl with
      | none => some issues
      | some hopResult =>
        let avgHopRTT := tr.GetAverageRTT ttl
        if avgHopRTT == 0 then tr.latencyScan fuel (u8 (ttl + 1)) prevRTT issues
        else
          let jump := wrapInt64 (avgHopRTT - prevRTT)
          let issues :=
            if prevRTT > 0 &&
                (jump > 100 * millisecond ||
                  (prevRTT > 0 && avgHopRTT > wrapInt64 (prevRTT * 3))) then
              match hopResult.Flows.values.find?
                  (fun flowResult => flowResult.Error == "" && flowResult.ResponseIP != "") with
              | some flowResult =>
                let cause :=
                  if jump > 500 * millisecond then "Likely intercontinental or satellite link"
                  else if avgHopRTT > 200 * millisecond then
                    "High latency link - possible congestion or routing inefficiency"
                  else "Long-distance link or congestion"
                issues ++
                  [{ TTL := ttl, IP := flowResult.ResponseIP, Hostname := flowResult.Hostname,
                     Latency := avgHopRTT, LatencyJump := jump, PossibleCause := cause }]
              | none => issues
            else issues
          let prevRTT := if avgHopRTT > 0 then avgHopRTT else prevRTT
          tr.latencyScan fuel (u8 (ttl + 1)) prevRTT issues
    else some issues

/-- The nested loops of lines 131-138: whether some path differs from a later one. The `break`
leaves the inner loop only, and `different` is never reset. -/
def differentPaths (paths : List Path) : Bool :=
  forRange (paths.length - 1) (fun i different =>
    match paths.get? i with
    | none => different
    | some pi =>
      if (paths.drop (i + 1)).any (fun pj => !pathsEqual pi pj) then true else different)
    false

/-- The method `TracerouteResult.AnalyzeNetwork`; `fuel` bounds the evaluations of each of its
two loops over the `uint8` TTL counter (its own and that of `GetPaths`), `none` meaning that one
of them is still running after that many. -/
def TracerouteResult.AnalyzeNetwork (tr : TracerouteResult) (fuel : Nat) :
    Option NetworkAnalysis :=
  let rtts := tr.rtts
  let minRTT := rtts.foldl (fun m rtt => if rtt < m then rtt else m) (rtts.headD 0)
  let maxRTT := rtts.foldl (fun m rtt => if rtt > m then rtt else m) (rtts.headD 0)
  let averageRTT :=
    if rtts.length > 0 then Int.tdiv (sumDurations rtts) (rtts.length : Int) else 0
  match tr.latencyScan fuel 1 0 [] with
  | none => none
  | some highLatencyHops =>
    match tr.GetPaths fuel with
    | none => none
    | some paths =>
      let asymmetricRouting := if paths.length > 1 then differentPaths paths else false
      let recommendations : List String :=
        (if tr.PacketLossRate > 20 then
          ["High packet loss detected (>20%) - some routers may not respond to UDP probes, "
            ++ "or there's network congestion"] else [])
        ++ (if tr.HasLoadBalancing then
          ["Load balancing detected - your traffic takes multiple paths, which can improve "
            ++ "reliability and performance"] else [])
        ++ (if highLatencyHops.length > 0 then
          ["Found " ++ toString highLatencyHops.length
            ++ " high-latency hop(s) - review LatencyIssue details below"] else [])
        ++ (if averageRTT > 200 * millisecond then
          ["High average latency detected - target may be geographically distant or network "
            ++ "path is suboptimal"] else [])
      some
        { HasLoadBalancing := tr.HasLoadBalancing, LoadBalancingHops := tr.LoadBalancingHops,
          PacketLossRate := tr.PacketLossRate, AverageRTT := averageRTT, MinRTT := minRTT,
          MaxRTT := maxRTT, HighLatencyHops := highLatencyHops,
          AsymmetricRouting := asymmetricRouting, UniqueRouters := tr.uniqueRouters.length,
          Recommendations := recommendations }

/-! ## More scenarios -/

namespace Scenario

/-- The result held by what `Traceroute` returned (the empty result when it has not returned
one). -/
def resultOf (ret : Option TracerouteReturn) : TracerouteResult :=
  match ret with
  | some { result := some tr, err := _ } => tr
  | _ => { Target := "", SrcIP := "", StartTime := 0, EndTime := 0, Duration := 0,
           Hops := GoMap.empty }

/-- A second router. -/
def router2IP : IPv4Addr := ⟨10, 0, 0, 2⟩

/-- The events of a probe answered by a Time Exceeded message of `src` 2 ms after it was
sent. -/
def answeredBy (src : IPv4Addr) : ProbeEvents :=
  { sentTime := 5000000, sendErr := none,
    captured := [⟨some (timeExceededQuoting (outerHeader src) (twoFlows.craftUDPPacket 1 0) []),
      false⟩],
    recvTime := 7000000, names := [] }

/-- An environment in which the probes are answered alternately by `routerIP` and
`router2IP`. -/
def alternating : Env :=
  { startTime := 1, endTime := 2, captureErr := none,
    probe := fun i => if i % 2 = 0 then answeredBy routerIP else answeredBy router2IP }

/-- An environment in which the first four probes are answered by `routerIP` and the later ones
by the target. -/
def targetFromFifth : Env :=
  { startTime := 1, endTime := 2, captureErr := none,
    probe := fun i => if i < 4 then answeredBy routerIP else answeredByTarget }

/-- The events of a probe whose reply is read within the clock tick in which the probe was
sent. -/
def answeredAtOnce : ProbeEvents :=
  { sentTime := 5000000, sendErr := none, captured := [⟨some timeExceededFlow0, false⟩],
    recvTime := 5000000, names := [] }

/-- An environment in which every probe is answered within the clock tick of its sending. -/
def sameTick : Env :=
  { startTime := 1, endTime := 2, captureErr := none, probe := fun _ => answeredAtOnce }

/-- The events of a probe that is sent and then finds the packet channel closed. -/
def channelClosed : ProbeEvents :=
  { sentTime := 1000, sendErr := none, captured := [⟨none, false⟩], recvTime := 0, names := [] }

/-- An environment in which the capture source is closed from the first probe on. -/
def closed : Env :=
  { startTime := 1, endTime := 2, captureErr := none, probe := fun _ => channelClosed }

/-- A UDP probe with two flows and one round over the TTLs 2 and 3. -/
def fromTwo : UDPProbe := NewUDPProbe targetIP localIP 33434 33434 2 2 3 1

/-- A UDP probe with two flows and one round over the TTLs 1 to 5. -/
def toFive : UDPProbe := NewUDPProbe targetIP localIP 33434 33434 2 1 5 1

/-- The TCP counterpart of `toFive`, towards port 80. -/
def tcpToFive : TCPProbe := NewTCPProbe targetIP localIP 33434 80 2 1 5 1

/-- A UDP probe with one flow and two rounds at the single TTL 1. -/
def oneFlowTwoRounds : UDPProbe := NewUDPProbe targetIP localIP 33434 33434 1 1 1 2

/-- The TCP counterpart of `oneFlowTwoRounds`. -/
def tcpOneFlowTwoRounds : TCPProbe := NewTCPProbe targetIP localIP 33434 80 1 1 1 2

/-- A UDP probe with one flow and one round at the single TTL 1. -/
def oneProbe : UDPProbe := NewUDPProbe targetIP localIP 33434 33434 1 1 1 1

/-- The TCP counterpart of `oneProbe`. -/
def tcpOneProbe : TCPProbe := NewTCPProbe targetIP localIP 33434 80 1 1 1 1

/-- The probe of the scenario S5 of the specification: the defaults of `main.go`, four
flows. -/
def s5 : UDPProbe := NewUDPProbe targetIP localIP 33434 33434 4 1 30 1

/-- The result of the run of `fromTwo` in which `routerIP` answers every probe. -/
def startingAtTwo : TracerouteResult := resultOf (fromTwo.Traceroute routed 3)

/-- The result of the run of `toFive` in which the target answers at TTL 3. -/
def reachedAtThird : TracerouteResult := resultOf (toFive.Traceroute targetFromFifth 4)

/-- The two paths of `reachedAtThird`. -/
def reachedAtThirdPaths : List Path :=
  [{ PathID := 0,
     Hops := [{ TTL := 1, IP := "10.0.0.1", Hostname := "", RTT := 2000000 },
              { TTL := 2, IP := "10.0.0.1", Hostname := "", RTT := 2000000 },
              { TTL := 3, IP := "8.8.8.8", Hostname := "", RTT := 500000 }] },
   { PathID := 1,
     Hops := [{ TTL := 1, IP := "10.0.0.1", Hostname := "", RTT := 2000000 },
              { TTL := 2, IP := "10.0.0.1", Hostname := "", RTT := 2000000 },
              { TTL := 3, IP := "8.8.8.8", Hostname := "", RTT := 500000 }] }]

/-- The result of the run of `twoFlows` whose two flows are answered by different routers. -/
def balanced : TracerouteResult := resultOf (twoFlows.Traceroute alternating 2)

/-- The hop of `balanced` under TTL 1 (an empty hop if there were none). -/
def balancedHop : HopResult :=
  (balanced.Hops.lookup 1).getD { TTL := 0, Flows := GoMap.empty }

/-- The result of the run of `twoFlows` whose two flows are answered by `routerIP`. -/
def unbalanced : TracerouteResult := resultOf (twoFlows.Traceroute routed 2)

/-- The result of the run of `twoFlows` whose replies come within the clock tick of the
probes. -/
def instant : TracerouteResult := resultOf (twoFlows.Traceroute sameTick 2)

end Scenario

/-! ## The MTR table (`pkg/results/results.go`) -/

/-- The statements `if ttls[i] > ttls[j] { ttls[i], ttls[j] = ttls[j], ttls[i] }` of
`PrintMTRStyle`. -/
def swapIfGreater (ttls : List Nat) (i j : Nat) : List Nat :=
  if ttls.getD i 0 > ttls.getD j 0 then (ttls.set i (ttls.getD j 0)).set j (ttls.getD i 0)
  else ttls

/-- The sort of `PrintMTRStyle` (lines 431-437): for every `i` from 0 and every `j` from
`i + 1`, below `len(ttls)`, the elements at `i` and `j` are exchanged when they are out of
order. -/
def exchangeSort (ttls : List Nat) : List Nat :=
  forRange ttls.length (fun i ttls =>
    forRange (ttls.length - (i + 1)) (fun k ttls => swapIfGreater ttls i (i + 1 + k)) ttls) ttls

/-- The statistics `PrintMTRStyle` prints, row by row, when `for ttl := range stats` yields the
keys in the order `ttls`. -/
def TracerouteResult.mtrRows (tr : TracerouteResult) (ttls : List Nat) : List HopStatistics :=
  (exchangeSort ttls).filterMap (fun ttl => tr.CalculateHopStatistics.lookup ttl)

/-! ## Multiple paths (`pkg/results/results.go`) -/

/-- The nested loops of `HasMultiplePaths` (lines 268-274), which return `true` at the first
pair of a path and a later one that `pathsEqual` tells apart. -/
def hasDifferentPair (paths : List Path) : Bool :=
  (List.range (paths.length - 1)).any (fun i =>
    (List.range (paths.length - (i + 1))).any (fun k =>
      match paths.get? i, paths.get? (i + 1 + k) with
      | some pi, some pj => !pathsEqual pi pj
      | _, _ => false))

/-- The method `TracerouteResult.HasMultiplePaths`; `fuel` is passed to `GetPaths`. -/
def TracerouteResult.HasMultiplePaths (tr : TracerouteResult) (fuel : Nat) : Option Bool :=
  match tr.GetPaths fuel with
  | none => none
  | some paths => some (if paths.length ≤ 1 then false else hasDifferentPair paths)

/-- Whether the body of the scan of flow `flowID` in `GetPaths`, evaluated at `ttl`, reaches
neither of its two `break` statements: there is a hop under `ttl`, and the flow has no record
in it, or a record with an error, or a record whose responder is not the target. -/
def TracerouteResult.scanGoesOn (tr : TracerouteResult) (flowID ttl : Nat) : Bool :=
  match tr.Hops.lookup ttl with
  | none => false
  | some hopResult =>
    match hopResult.Flows.lookup flowID with
    | none => true
    | some flowResult => flowResult.Error != "" || flowResult.ResponseIP != tr.Target

/-! ## The timeout of the capture handle (`pkg/capture/windows.go`, `pkg/probe`) -/

/-- One second as a `time.Duration`. -/
def second : Duration := 1000000000

/-- The fields `iface` and `timeout` of the struct `WindowsCapture`; `closed` records a call of
`Close` on its handle. -/
structure WindowsCapture where
  iface : String
  timeout : Duration
  closed : Bool
deriving Repr, DecidableEq

/-- The function `capture.NewCapture(device, timeout)`: `failure` is the error of one of its
checks or of `pcap.OpenLive`, if any, and `defaultDevice` the device `FindDefaultDevice`
finds. -/
def NewCapture (failure : Option String) (defaultDevice device : String)
    (timeout : Duration) : Except String WindowsCapture :=
  match failure with
  | some err => .error err
  | none =>
    .ok { iface := if device == "" then defaultDevice else device, timeout := timeout,
          closed := false }

/-- The deadline `time.Now().Add(wc.timeout)` that `CaptureICMPResponse` computes when it is
called at the time `now`, in nanoseconds. -/
def WindowsCapture.deadline (wc : WindowsCapture) (now : Time) : Int :=
  (now : Int) + wc.timeout

/-- A `UDPProbe` together with its field `capture`, the handle on which `Traceroute` calls
`CaptureICMPResponse`. -/
structure UDPProber where
  probe : UDPProbe
  capture : Option WindowsCapture
deriving Repr, DecidableEq

/-- The function `NewUDPProbe` from the creation of the capture handle on (lines 89-113). -/
def NewUDPProber (failure : Option String) (defaultDevice : String) (target srcIP : IPv4Addr)
    (srcPort dstPort numPaths minTTL maxTTL probeCount : Nat) : Except String UDPProber :=
  match NewCapture failure defaultDevice "" (3 * second) with
  | .error err => .error ("failed to create packet capture: " ++ err)
  | .ok cap =>
    .ok { probe := NewUDPProbe target srcIP srcPort dstPort numPaths minTTL maxTTL probeCount,
          capture := some cap }

/-- The method `UDPProbe.SetTimeout`: the field is set, the capture handle is closed and a new
one is created with the new timeout; when that fails the closed handle is kept. -/
def UDPProber.SetTimeout (p : UDPProber) (failure : Option String) (defaultDevice : String)
    (timeout : Duration) : UDPProber :=
  let probe : UDPProbe := { p.probe with Timeout := timeout }
  match p.capture with
  | none => { probe := probe, capture := none }
  | some old =>
    match NewCapture failure defaultDevice old.iface timeout with
    | .ok cap => { probe := probe, capture := some cap }
    | .error _ => { probe := probe, capture := some { old with closed := true } }

/-- The method `TCPProbe.SetTimeout`. -/
def TCPProbe.SetTimeout (p : TCPProbe) (timeout : Duration) : TCPProbe :=
  { p with Timeout := timeout }

/-- The capture handle `TCPProbe.Traceroute` creates at its start,
`capture.NewCapture("", 3*time.Second)`, and calls `CaptureICMPResponse` on. -/
def TCPProbe.runCapture (_p : TCPProbe) (failure : Option String) (defaultDevice : String) :
    Except String WindowsCapture :=
  NewCapture failure defaultDevice "" (3 * second)

/-! ## The quantities of the specification -/

/-- The value `&HopStatistics{TTL: ttl, RTTs: make([]time.Duration, 0)}` with which the loop
of `CalculateHopStatistics` starts. -/
def HopStatistics.initial (ttl : Nat) : HopStatistics :=
  { TTL := ttl, IP := "", Hostname := "", Sent := 0, Received := 0, LossPercent := 0,
    RTTs := [], MinRTT := 0, AvgRTT := 0, MaxRTT := 0, StdDevRTT := 0, BestTime := 0,
    WorstTime := 0 }

/-- The number of replies of a hop that name the responder `ip`: the records with no error and
that responder. -/
def HopResult.replyCount (hopResult : HopResult) (ip : String) : Nat :=
  (hopResult.Flows.values.filter
    (fun flowResult => flowResult.Error == "" && flowResult.ResponseIP != ""
      && flowResult.ResponseIP == ip)).length

/-- The records of a hop whose RTT `CalculateHopStatistics` collects: those with no error, a
responder and a positive RTT. -/
def HopResult.timedReplies (hopResult : HopResult) : List FlowResult :=
  hopResult.Flows.values.filter
    (fun flowResult => flowResult.Error == "" && flowResult.ResponseIP != ""
      && flowResult.RTT > 0)

/-- The population variance `Σ (xᵢ − μ)² / N` of a list of values, `μ` being their mean
`Σ xᵢ / N`: the formula of the specification. -/
def populationVariance (xs : List Int) : ℚ :=
  (xs.map (fun (x : Int) => ((x : ℚ) - ((xs.sum : Int) : ℚ) / (xs.length : ℚ)) ^ 2)).sum
    / (xs.length : ℚ)

/-- The standard deviation of the specification: the square root of the population variance of
the RTTs in whole microseconds, cut to a whole number of microseconds, as a duration; zero for
fewer than two RTTs. -/
def specStdDev (rtts : List Duration) : Duration :=
  if rtts.length < 2 then 0
  else ((Nat.sqrt ⌊populationVariance (rtts.map Duration.Microseconds)⌋₊ : Nat) : Int) * 1000

/-! ## Scenarios of the statistics -/

namespace Scenario

/-- The events of a probe answered by a Time Exceeded message of `src` after `rtt`
nanoseconds. -/
def answeredAfter (rtt : Nat) (src : IPv4Addr) : ProbeEvents :=
  { sentTime := 5000000, sendErr := none,
    captured := [⟨some (timeExceededQuoting (outerHeader src) (twoFlows.craftUDPPacket 1 0) []),
      false⟩],
    recvTime := 5000000 + rtt, names := [] }

/-- A UDP probe with one flow and four rounds at the single TTL 1. -/
def fourRounds : UDPProbe := NewUDPProbe targetIP localIP 33434 33434 1 1 1 4

/-- An environment in which the probes are answered after 10, 12, 14, 16, ... ms. -/
def risingRTTs : Env :=
  { startTime := 1, endTime := 2, captureErr := none,
    probe := fun i => answeredAfter ((10 + 2 * i) * 1000000) routerIP }

/-- The result of the run of `fourRounds` with the RTTs 10, 12, 14 and 16 ms. -/
def fourReplies : TracerouteResult := resultOf (fourRounds.Traceroute risingRTTs 2)

/-- The hop of `fourReplies` under TTL 1. -/
def fourRepliesHop : HopResult :=
  (fourReplies.Hops.lookup 1).getD { TTL := 0, Flows := GoMap.empty }

/-- An environment in which the first probe is answered within the clock tick of its sending
and the later ones after 2 ms. -/
def firstAtOnce : Env :=
  { startTime := 1, endTime := 2, captureErr := none,
    probe := fun i => if i = 0 then answeredAtOnce else answered }

/-- The result of the run of `twoFlows` with the RTTs 0 and 2 ms. -/
def mixedTicks : TracerouteResult := resultOf (twoFlows.Traceroute firstAtOnce 2)

/-- The hop of `mixedTicks` under TTL 1. -/
def mixedTicksHop : HopResult :=
  (mixedTicks.Hops.lookup 1).getD { TTL := 0, Flows := GoMap.empty }

/-- An environment in which the first three probes are answered after 1 µs and the later ones
after 3 µs. -/
def microRTTs : Env :=
  { startTime := 1, endTime := 2, captureErr := none,
    probe := fun i => if i < 3 then answeredAfter 1000 routerIP
      else answeredAfter 3000 routerIP }

/-- The result of the run of `fourRounds` with the RTTs 1, 1, 1 and 3 µs. -/
def microReplies : TracerouteResult := resultOf (fourRounds.Traceroute microRTTs 2)

/-- The hop of `microReplies` under TTL 1. -/
def microRepliesHop : HopResult :=
  (microReplies.Hops.lookup 1).getD { TTL := 0, Flows := GoMap.empty }

/-- An environment in which the first probe is answered after 10 ms and the later ones after
16 ms. -/
def tenAndSixteen : Env :=
  { startTime := 1, endTime := 2, captureErr := none,
    probe := fun i => if i = 0 then answeredAfter 10000000 routerIP
      else answeredAfter 16000000 routerIP }

/-- The result of the run of `twoFlows` (one round) with the RTTs 10 and 16 ms. -/
def twoReplies : TracerouteResult := resultOf (twoFlows.Traceroute tenAndSixteen 2)

/-- A record of a probe that timed out. -/
def timedOut : FlowResult :=
  { FlowID := 0, SrcPort := 33434, DstPort := 33434, SentTime := 1000, RecvTime := 0, RTT := 0,
    ResponseIP := "", Hostname := "", ICMPType := 0, ICMPCode := 0, Error := "timeout" }

/-- A result with a hop under every key from 0 to 255, each with the single flow 0, timed
out. -/
def everyKey : TracerouteResult :=
  { Target := "8.8.8.8", SrcIP := "192.168.1.10", StartTime := 1, EndTime := 2, Duration := 1,
    Hops := ⟨(List.range 256).map
      (fun ttl => (ttl, { TTL := ttl, Flows := ⟨[(0, timedOut)]⟩ }))⟩ }

/-- The flags `-max-ttl 255 -npaths 2`, every other flag at its default. -/
def flags255TwoFlows : Flags :=
  { target := "8.8.8.8", srcPort := 33434, dstPort := 33434, minTTL := 1, maxTTL := 255,
    numPaths := 2, probeCount := 1, showVersion := false, listDevices := false }

/-- An environment in which only the probe number 510, the first probe made after 255 hops of
two probes, is answered, and by the target. -/
def targetAnswersProbe510 : Env :=
  { startTime := 1, endTime := 2, captureErr := none,
    probe := fun i => if i = 510 then answeredByTarget else unanswered }

/-- The result the run with `flags255TwoFlows` returns in `targetAnswersProbe510`, after the
TTL counter has wrapped. -/
def wrapped : TracerouteResult :=
  resultOf ((flags255TwoFlows.udpProbe targetIP localIP).Traceroute targetAnswersProbe510 256)

end Scenario

/-! ## The sum of squares of the standard deviation -/

/-- The sum `Σ (xᵢ − m)²` of the squares of the distances between the RTTs `xᵢ` and the
average `m`, both cut to whole microseconds. -/
def sumOfSquares (rtts : List Duration) (avg : Duration) : Nat :=
  (rtts.map (fun rtt =>
    ((Duration.Microseconds rtt - Duration.Microseconds avg) ^ 2).toNat)).sum

/-! ## Scenarios of the loss percentage and of the wrapped TTL counter -/

namespace Scenario

/-- A UDP probe with four flows and five rounds at the single TTL 1: twenty probes. -/
def twentyProbes : UDPProbe := NewUDPProbe targetIP localIP 33434 33434 4 1 1 5

/-- An environment in which the first nine probes are answered and the later ones are not. -/
def nineAnswered : Env :=
  { startTime := 1, endTime := 2, captureErr := none,
    probe := fun i => if i < 9 then answered else unanswered }

/-- The result of the run of `twentyProbes` in which nine probes of twenty are answered. -/
def elevenLost : TracerouteResult := resultOf (twentyProbes.Traceroute nineAnswered 2)

/-- The flags `-max-ttl 255 -npaths 1`, every other flag at its default. -/
def flags255OneFlow : Flags :=
  { target := "8.8.8.8", srcPort := 33434, dstPort := 33434, minTTL := 1, maxTTL := 255,
    numPaths := 1, probeCount := 1, showVersion := false, listDevices := false }

/-- An environment in which a router answers each of the first 255 probes and the target
answers the next one. -/
def routersThenTarget : Env :=
  { startTime := 1, endTime := 2, captureErr := none,
    probe := fun i => if i < 255 then answered else answeredByTarget }

/-- The result the run with `flags255OneFlow` returns in `routersThenTarget`, after the TTL
counter has wrapped: the target answers the probe of the wrapped TTL 0. -/
def wrappedRouted : TracerouteResult :=
  resultOf ((flags255OneFlow.udpProbe targetIP localIP).Traceroute routersThenTarget 256)

/-- The hop the run with `flags255OneFlow` stores under `ttl` when the events of its single
probe are `ev`. -/
def hopWith (ev : ProbeEvents) (ttl : Nat) : HopResult :=
  { TTL := ttl,
    Flows := ⟨[(0, (flags255OneFlow.udpProbe targetIP localIP).probeFlow ev ttl 0 0)]⟩ }

/-- The hops of `wrappedRouted`, in the order in which the run stores them. -/
def wrappedRoutedHops : GoMap HopResult :=
  ⟨(List.range' 1 255).map (fun ttl => (ttl, hopWith answered ttl))
    ++ [(0, hopWith answeredByTarget 0)]⟩

/-- The path hop `GetPaths` builds from the record of `hopWith ev ttl`. -/
def pathHopWith (ev : ProbeEvents) (ttl : Nat) : PathHop :=
  { TTL := ttl,
    IP := ((flags255OneFlow.udpProbe targetIP localIP).probeFlow ev ttl 0 0).ResponseIP,
    Hostname := ((flags255OneFlow.udpProbe targetIP localIP).probeFlow ev ttl 0 0).Hostname,
    RTT := ((flags255OneFlow.udpProbe targetIP localIP).probeFlow ev ttl 0 0).RTT }

/-- The result with the hops `wrappedRoutedHops`: what the run with `flags255OneFlow` returns
in `routersThenTarget`. -/
def wrappedRoutedResult : TracerouteResult :=
  { Target := "8.8.8.8", SrcIP := "192.168.1.10", StartTime := 1, EndTime := 2, Duration := 1,
    Hops := wrappedRoutedHops }

/-- The hop the run with `flags255TwoFlows` stores under `ttl` when the events of its two
probes are `ev0` and `ev1`. -/
def twoFlowHop (ev0 ev1 : ProbeEvents) (ttl : Nat) : HopResult :=
  { TTL := ttl,
    Flows := ⟨[(0, (flags255TwoFlows.udpProbe targetIP localIP).probeFlow ev0 ttl 0 0),
               (1, (flags255TwoFlows.udpProbe targetIP localIP).probeFlow ev1 ttl 0 1)]⟩ }

/-- The hops of `wrapped`, in the order in which the run stores them. -/
def wrappedHops : GoMap HopResult :=
  ⟨(List.range' 1 255).map (fun ttl => (ttl, twoFlowHop unanswered unanswered ttl))
    ++ [(0, twoFlowHop answeredByTarget unanswered 0)]⟩

end Scenario

/-! # Properties

## `float64` arithmetic: rounding, exact cases, accuracy -/


theorem pow2_eq_zpow (e : Int) : pow2 e = (2 : ℚ) ^ e := by
  unfold pow2
  by_cases h : 0 ≤ e
  · rw [if_pos h]
    obtain ⟨n, rfl⟩ := Int.eq_ofNat_of_zero_le h
    simp
  · rw [if_neg h]
    have hneg : 0 ≤ -e := by omega
    obtain ⟨n, hn⟩ := Int.eq_ofNat_of_zero_le hneg
    have he : e = -(n : Int) := by omega
    rw [hn, he]
    simp

theorem pow2_pos (e : Int) : 0 < pow2 e := by
  rw [pow2_eq_zpow]
  positivity

theorem pow2_add (a b : Int) : pow2 (a + b) = pow2 a * pow2 b := by
  rw [pow2_eq_zpow, pow2_eq_zpow, pow2_eq_zpow]
  exact zpow_add₀ (by norm_num) a b

theorem pow2_le_pow2 {a b : Int} (h : a ≤ b) : pow2 a ≤ pow2 b := by
  rw [pow2_eq_zpow, pow2_eq_zpow]
  exact zpow_le_zpow_right₀ (by norm_num) h

theorem pow2_lt_pow2 {a b : Int} (h : a < b) : pow2 a < pow2 b := by
  rw [pow2_eq_zpow, pow2_eq_zpow]
  exact zpow_lt_zpow_right₀ (by norm_num) h

theorem pow2_natCast (n : Nat) : pow2 (n : Int) = ((2 ^ n : Nat) : ℚ) := by
  rw [pow2_eq_zpow]
  simp

theorem ratFloor_eq (x : ℚ) : ratFloor x = ⌊x⌋ := by
  unfold ratFloor
  exact (Rat.floor_def' x).symm


/-- Rounding to the nearest integer moves by at most one half, and stays between the floor and
the floor plus one. -/
theorem roundHalfEven_spec (x : ℚ) :
    (⌊x⌋ ≤ roundHalfEven x ∧ roundHalfEven x ≤ ⌊x⌋ + 1) ∧
    (x - 1 / 2 ≤ (roundHalfEven x : ℚ) ∧ (roundHalfEven x : ℚ) ≤ x + 1 / 2) ∧
    (x - ⌊x⌋ < 1 / 2 → roundHalfEven x = ⌊x⌋) ∧
    (1 / 2 < x - ⌊x⌋ → roundHalfEven x = ⌊x⌋ + 1) := by
  have hf1 : (⌊x⌋ : ℚ) ≤ x := Int.floor_le x
  have hf2 : x < (⌊x⌋ : ℚ) + 1 := Int.lt_floor_add_one x
  unfold roundHalfEven
  simp only [ratFloor_eq]
  by_cases h1 : x - (⌊x⌋ : ℚ) < 1 / 2
  · rw [if_pos h1]
    refine ⟨⟨le_refl _, by omega⟩, ⟨by linarith, by linarith⟩, fun _ => rfl, fun h => ?_⟩
    linarith
  · rw [if_neg h1]
    by_cases h2 : 1 / 2 < x - (⌊x⌋ : ℚ)
    · rw [if_pos h2]
      refine ⟨⟨by omega, le_refl _⟩, ⟨?_, ?_⟩, fun h => absurd h h1, fun _ => rfl⟩
      · push_cast
        linarith
      · push_cast
        linarith
    · rw [if_neg h2]
      have heq : x - (⌊x⌋ : ℚ) = 1 / 2 := le_antisymm (not_lt.1 h2) (not_lt.1 h1)
      split_ifs
      · refine ⟨⟨le_refl _, by omega⟩, ⟨by linarith, by linarith⟩, fun h => absurd h h1,
          fun h => absurd h h2⟩
      · refine ⟨⟨by omega, le_refl _⟩, ⟨?_, ?_⟩, fun h => absurd h h1, fun h => absurd h h2⟩
        · push_cast
          linarith
        · push_cast
          linarith

theorem roundHalfEven_intCast (n : Int) : roundHalfEven (n : ℚ) = n := by
  have h := (roundHalfEven_spec (n : ℚ)).2.2.1
  rw [Int.floor_intCast] at h
  exact h (by norm_num)

theorem roundHalfEven_mono {x y : ℚ} (h : x ≤ y) : roundHalfEven x ≤ roundHalfEven y := by
  have hfl : ⌊x⌋ ≤ ⌊y⌋ := Int.floor_mono h
  obtain ⟨⟨a1, a2⟩, -, a3, a4⟩ := roundHalfEven_spec x
  obtain ⟨⟨b1, b2⟩, -, b3, b4⟩ := roundHalfEven_spec y
  rcases lt_or_eq_of_le hfl with hlt | heq
  · omega
  · -- same floor
    by_cases hx : x - (⌊x⌋ : ℚ) < 1 / 2
    · rw [a3 hx]
      omega
    · by_cases hy : 1 / 2 < y - (⌊y⌋ : ℚ)
      · rw [b4 hy]
        omega
      · -- both fractions are one half
        have hy2 : y - (⌊y⌋ : ℚ) ≤ 1 / 2 := not_lt.1 hy
        have hx2 : 1 / 2 ≤ x - (⌊x⌋ : ℚ) := not_lt.1 hx
        have hxy : x = y := by
          have : (⌊x⌋ : ℚ) = (⌊y⌋ : ℚ) := by rw [heq]
          linarith
        rw [hxy]


theorem abs_eq_natAbs_div_den (x : ℚ) : |x| = (x.num.natAbs : ℚ) / (x.den : ℚ) := by
  have h1 : x = (x.num : ℚ) / (x.den : ℚ) := (Rat.num_div_den x).symm
  have hden : (0 : ℚ) < (x.den : ℚ) := by exact_mod_cast x.den_pos
  conv_lhs => rw [h1]
  rw [abs_div, abs_of_pos hden]
  congr 1
  rw [Nat.cast_natAbs]
  push_cast
  rfl

/-- A positive natural number lies in the binade of its `log2`. -/
theorem natCast_log2_bounds (n : Nat) (hn : n ≠ 0) :
    pow2 (Nat.log2 n : Int) ≤ (n : ℚ) ∧ (n : ℚ) < pow2 ((Nat.log2 n : Int) + 1) := by
  constructor
  · rw [pow2_natCast]
    exact_mod_cast Nat.log2_self_le hn
  · have : ((Nat.log2 n : Int) + 1) = ((Nat.log2 n + 1 : Nat) : Int) := by push_cast; rfl
    rw [this, pow2_natCast]
    exact_mod_cast Nat.lt_log2_self

/-- The binade of a non-zero rational. -/
theorem binadeExponent_spec (x : ℚ) (hx : x ≠ 0) :
    pow2 (binadeExponent x + 52) ≤ |x| ∧ |x| < pow2 (binadeExponent x + 53) := by
  have hp : x.num.natAbs ≠ 0 := by
    intro h
    exact hx (Rat.num_eq_zero.1 (Int.natAbs_eq_zero.1 h))
  have hq : x.den ≠ 0 := x.den_nz
  obtain ⟨p1, p2⟩ := natCast_log2_bounds _ hp
  obtain ⟨q1, q2⟩ := natCast_log2_bounds _ hq
  have hq0 : (0 : ℚ) < (x.den : ℚ) := by exact_mod_cast x.den_pos
  have habs := abs_eq_natAbs_div_den x
  have hlow : pow2 ((Nat.log2 x.num.natAbs : Int) - (Nat.log2 x.den : Int) - 1) < |x| := by
    rw [habs, lt_div_iff₀ hq0]
    have h1 : pow2 ((Nat.log2 x.num.natAbs : Int) - (Nat.log2 x.den : Int) - 1)
        * pow2 ((Nat.log2 x.den : Int) + 1) = pow2 (Nat.log2 x.num.natAbs : Int) := by
      rw [← pow2_add]
      congr 1
      ring
    calc pow2 ((Nat.log2 x.num.natAbs : Int) - (Nat.log2 x.den : Int) - 1) * (x.den : ℚ)
        < pow2 ((Nat.log2 x.num.natAbs : Int) - (Nat.log2 x.den : Int) - 1)
          * pow2 ((Nat.log2 x.den : Int) + 1) :=
          mul_lt_mul_of_pos_left q2 (pow2_pos _)
      _ = pow2 (Nat.log2 x.num.natAbs : Int) := h1
      _ ≤ (x.num.natAbs : ℚ) := p1
  have hhigh : |x| < pow2 ((Nat.log2 x.num.natAbs : Int) - (Nat.log2 x.den : Int) + 1) := by
    rw [habs, div_lt_iff₀ hq0]
    have h1 : pow2 ((Nat.log2 x.num.natAbs : Int) - (Nat.log2 x.den : Int) + 1)
        * pow2 (Nat.log2 x.den : Int) = pow2 ((Nat.log2 x.num.natAbs : Int) + 1) := by
      rw [← pow2_add]
      congr 1
      ring
    calc (x.num.natAbs : ℚ) < pow2 ((Nat.log2 x.num.natAbs : Int) + 1) := p2
      _ = pow2 ((Nat.log2 x.num.natAbs : Int) - (Nat.log2 x.den : Int) + 1)
          * pow2 (Nat.log2 x.den : Int) := h1.symm
      _ ≤ pow2 ((Nat.log2 x.num.natAbs : Int) - (Nat.log2 x.den : Int) + 1) * (x.den : ℚ) :=
          mul_le_mul_of_nonneg_left q1 (le_of_lt (pow2_pos _))
  unfold binadeExponent
  simp only
  by_cases hd : pow2 ((Nat.log2 x.num.natAbs : Int) - (Nat.log2 x.den : Int)) ≤ |x|
  · rw [if_pos hd]
    constructor
    · have : (Nat.log2 x.num.natAbs : Int) - (Nat.log2 x.den : Int) - 52 + 52
          = (Nat.log2 x.num.natAbs : Int) - (Nat.log2 x.den : Int) := by ring
      rw [this]
      exact hd
    · have : (Nat.log2 x.num.natAbs : Int) - (Nat.log2 x.den : Int) - 52 + 53
          = (Nat.log2 x.num.natAbs : Int) - (Nat.log2 x.den : Int) + 1 := by ring
      rw [this]
      exact hhigh
  · rw [if_neg hd]
    constructor
    · have : (Nat.log2 x.num.natAbs : Int) - (Nat.log2 x.den : Int) - 53 + 52
          = (Nat.log2 x.num.natAbs : Int) - (Nat.log2 x.den : Int) - 1 := by ring
      rw [this]
      exact le_of_lt hlow
    · have : (Nat.log2 x.num.natAbs : Int) - (Nat.log2 x.den : Int) - 53 + 53
          = (Nat.log2 x.num.natAbs : Int) - (Nat.log2 x.den : Int) := by ring
      rw [this]
      exact not_le.1 hd

/-- The binade of a non-zero rational is the only one that holds it. -/
theorem binadeExponent_unique (x : ℚ) (hx : x ≠ 0) (e : Int)
    (h1 : pow2 (e + 52) ≤ |x|) (h2 : |x| < pow2 (e + 53)) : binadeExponent x = e := by
  obtain ⟨b1, b2⟩ := binadeExponent_spec x hx
  by_contra hne
  rcases lt_or_gt_of_ne hne with hlt | hgt
  · have : pow2 (binadeExponent x + 53) ≤ pow2 (e + 52) := pow2_le_pow2 (by omega)
    exact absurd (lt_of_lt_of_le b2 (le_trans this h1)) (lt_irrefl _)
  · have : pow2 (e + 53) ≤ pow2 (binadeExponent x + 52) := pow2_le_pow2 (by omega)
    exact absurd (lt_of_lt_of_le h2 (le_trans this b1)) (lt_irrefl _)

/-- The binade exponent grows with the magnitude. -/
theorem binadeExponent_mono {x y : ℚ} (hx : x ≠ 0) (hy : y ≠ 0) (h : |x| ≤ |y|) :
    binadeExponent x ≤ binadeExponent y := by
  obtain ⟨a1, a2⟩ := binadeExponent_spec x hx
  obtain ⟨b1, b2⟩ := binadeExponent_spec y hy
  by_contra hlt
  have hlt : binadeExponent y < binadeExponent x := not_le.1 hlt
  have : pow2 (binadeExponent y + 53) ≤ pow2 (binadeExponent x + 52) := pow2_le_pow2 (by omega)
  exact absurd (lt_of_le_of_lt (le_trans (le_trans this a1) h) b2) (lt_irrefl _)


theorem f64Exponent_ge (x : ℚ) : binadeExponent x ≤ f64Exponent x ∧ -1074 ≤ f64Exponent x := by
  unfold f64Exponent
  exact ⟨le_max_left _ _, le_max_right _ _⟩

theorem f64Exponent_mono {x y : ℚ} (hx : x ≠ 0) (hy : y ≠ 0) (h : |x| ≤ |y|) :
    f64Exponent x ≤ f64Exponent y := by
  unfold f64Exponent
  exact max_le_max (binadeExponent_mono hx hy h) (le_refl _)

/-- The scaled magnitude of a positive number is below `2^53`, and at least `2^52` unless the
number is subnormal. -/
theorem scaled_bounds (x : ℚ) (hx : 0 < x) :
    x / pow2 (f64Exponent x) < pow2 53 ∧
    (f64Exponent x = binadeExponent x → pow2 52 ≤ x / pow2 (f64Exponent x)) := by
  obtain ⟨b1, b2⟩ := binadeExponent_spec x (ne_of_gt hx)
  rw [abs_of_pos hx] at b1 b2
  obtain ⟨g1, -⟩ := f64Exponent_ge x
  constructor
  · rw [div_lt_iff₀ (pow2_pos _), ← pow2_add]
    exact lt_of_lt_of_le b2 (pow2_le_pow2 (by omega))
  · intro he
    rw [le_div_iff₀ (pow2_pos _), ← pow2_add, he, add_comm]
    exact b1

theorem pow2_52 : pow2 52 = ((4503599627370496 : Int) : ℚ) := by
  rw [pow2_eq_zpow]
  norm_num

theorem pow2_53 : pow2 53 = ((9007199254740992 : Int) : ℚ) := by
  rw [pow2_eq_zpow]
  norm_num

theorem f64Round_of_pos (x : ℚ) (hx : 0 < x) :
    f64Round x = (roundHalfEven (x / pow2 (f64Exponent x)) : ℚ) * pow2 (f64Exponent x) := by
  unfold f64Round
  rw [if_neg (ne_of_gt hx)]

theorem f64Round_zero : f64Round 0 = 0 := by
  unfold f64Round
  rw [if_pos rfl]

/-- Rounding keeps the sign of a non-negative number. -/
theorem f64Round_nonneg {x : ℚ} (hx : 0 ≤ x) : 0 ≤ f64Round x := by
  rcases lt_or_eq_of_le hx with hpos | hzero
  · rw [f64Round_of_pos x hpos]
    have h0 : (0 : ℚ) ≤ x / pow2 (f64Exponent x) := le_of_lt (div_pos hpos (pow2_pos _))
    have h1 : roundHalfEven (0 : ℚ) ≤ roundHalfEven (x / pow2 (f64Exponent x)) :=
      roundHalfEven_mono h0
    have h2 : roundHalfEven (0 : ℚ) = 0 := by
      have := roundHalfEven_intCast 0
      simpa using this
    rw [h2] at h1
    have h3 : (0 : ℚ) ≤ (roundHalfEven (x / pow2 (f64Exponent x)) : ℚ) := by exact_mod_cast h1
    exact mul_nonneg h3 (le_of_lt (pow2_pos _))
  · rw [← hzero, f64Round_zero]

/-- Rounding to `float64` is monotone on the positive numbers. -/
theorem f64Round_mono_pos {x y : ℚ} (hx : 0 < x) (h : x ≤ y) : f64Round x ≤ f64Round y := by
  have hy : 0 < y := lt_of_lt_of_le hx h
  rw [f64Round_of_pos x hx, f64Round_of_pos y hy]
  have hexp : f64Exponent x ≤ f64Exponent y :=
    f64Exponent_mono (ne_of_gt hx) (ne_of_gt hy) (by rw [abs_of_pos hx, abs_of_pos hy]; exact h)
  rcases lt_or_eq_of_le hexp with hlt | heq
  · -- different exponents
    obtain ⟨sx, -⟩ := scaled_bounds x hx
    obtain ⟨-, sy⟩ := scaled_bounds y hy
    have hey : f64Exponent y = binadeExponent y := by
      obtain ⟨g1, g2⟩ := f64Exponent_ge x
      unfold f64Exponent at hlt ⊢
      rcases max_cases (binadeExponent y) (-1074) with ⟨hm, _⟩ | ⟨hm, _⟩
      · exact hm
      · rw [hm] at hlt
        unfold f64Exponent at g2
        omega
    have hsy := sy hey
    have h1 : roundHalfEven (x / pow2 (f64Exponent x)) ≤ 9007199254740992 := by
      have := roundHalfEven_mono (le_of_lt sx)
      rw [pow2_53, roundHalfEven_intCast] at this
      exact this
    have h2 : 4503599627370496 ≤ roundHalfEven (y / pow2 (f64Exponent y)) := by
      have := roundHalfEven_mono hsy
      rw [pow2_52, roundHalfEven_intCast] at this
      exact this
    have h1q : (roundHalfEven (x / pow2 (f64Exponent x)) : ℚ) ≤ pow2 53 := by
      rw [pow2_53]
      exact_mod_cast h1
    have h2q : pow2 52 ≤ (roundHalfEven (y / pow2 (f64Exponent y)) : ℚ) := by
      rw [pow2_52]
      exact_mod_cast h2
    calc (roundHalfEven (x / pow2 (f64Exponent x)) : ℚ) * pow2 (f64Exponent x)
        ≤ pow2 53 * pow2 (f64Exponent x) :=
          mul_le_mul_of_nonneg_right h1q (le_of_lt (pow2_pos _))
      _ = pow2 (53 + f64Exponent x) := (pow2_add _ _).symm
      _ ≤ pow2 (52 + f64Exponent y) := pow2_le_pow2 (by omega)
      _ = pow2 52 * pow2 (f64Exponent y) := pow2_add _ _
      _ ≤ (roundHalfEven (y / pow2 (f64Exponent y)) : ℚ) * pow2 (f64Exponent y) :=
          mul_le_mul_of_nonneg_right h2q (le_of_lt (pow2_pos _))
  · rw [heq]
    have hdiv : x / pow2 (f64Exponent y) ≤ y / pow2 (f64Exponent y) :=
      div_le_div_of_nonneg_right h (le_of_lt (pow2_pos _))
    have := roundHalfEven_mono hdiv
    have hq : (roundHalfEven (x / pow2 (f64Exponent y)) : ℚ)
        ≤ (roundHalfEven (y / pow2 (f64Exponent y)) : ℚ) := by exact_mod_cast this
    exact mul_le_mul_of_nonneg_right hq (le_of_lt (pow2_pos _))

/-- Rounding to `float64` is monotone on the non-negative numbers. -/
theorem f64Round_mono {x y : ℚ} (hx : 0 ≤ x) (h : x ≤ y) : f64Round x ≤ f64Round y := by
  rcases lt_or_eq_of_le hx with hpos | hzero
  · exact f64Round_mono_pos hpos h
  · rw [← hzero, f64Round_zero]
    exact f64Round_nonneg (le_trans hx h)

/-- A number that is a whole multiple of the unit in its last place is a `float64`. -/
theorem f64Round_exact (x : ℚ) (n : Int) (hn : x = (n : ℚ) * pow2 (f64Exponent x)) :
    f64Round x = x := by
  unfold f64Round
  by_cases h0 : x = 0
  · rw [if_pos h0, h0]
  · rw [if_neg h0]
    have hdiv : x / pow2 (f64Exponent x) = (n : ℚ) := by
      rw [div_eq_iff (ne_of_gt (pow2_pos _))]
      exact hn
    rw [hdiv, roundHalfEven_intCast]
    exact hn.symm

/-- Every natural number up to `2^53` is a `float64`. -/
theorem f64Round_natCast (n : Nat) (hn : n ≤ 2 ^ 53) : f64Round (n : ℚ) = (n : ℚ) := by
  by_cases h0 : n = 0
  · rw [h0]
    simp [f64Round_zero]
  · have hpos : (0 : ℚ) < (n : ℚ) := by exact_mod_cast Nat.pos_of_ne_zero h0
    obtain ⟨b1, b2⟩ := binadeExponent_spec (n : ℚ) (ne_of_gt hpos)
    rw [abs_of_pos hpos] at b1 b2
    have hle : (n : ℚ) ≤ pow2 53 := by
      rw [pow2_53]
      exact_mod_cast hn
    -- the exponent is at most 1
    have he : f64Exponent (n : ℚ) ≤ 1 := by
      unfold f64Exponent
      apply max_le
      · by_contra hgt
        have hgt : 2 ≤ binadeExponent (n : ℚ) := by omega
        have : pow2 54 ≤ pow2 (binadeExponent (n : ℚ) + 52) := pow2_le_pow2 (by omega)
        have h54 : pow2 53 < pow2 54 := pow2_lt_pow2 (by norm_num)
        linarith
      · norm_num
    rcases lt_or_eq_of_le he with hlt | heq
    · -- exponent ≤ 0: the scaled number is an integer
      have hneg : 0 ≤ -f64Exponent (n : ℚ) := by omega
      obtain ⟨k, hk⟩ := Int.eq_ofNat_of_zero_le hneg
      apply f64Round_exact (n : ℚ) ((n : Int) * (2 ^ k : Nat))
      have hpk : pow2 (f64Exponent (n : ℚ)) * ((2 ^ k : Nat) : ℚ) = 1 := by
        rw [← pow2_natCast, ← pow2_add]
        have : f64Exponent (n : ℚ) + (k : Int) = 0 := by omega
        rw [this]
        rfl
      push_cast
      push_cast at hpk
      calc (n : ℚ) = (n : ℚ) * (pow2 (f64Exponent (n : ℚ)) * (2 : ℚ) ^ k) := by rw [hpk, mul_one]
        _ = (n : ℚ) * (2 : ℚ) ^ k * pow2 (f64Exponent (n : ℚ)) := by ring
    · -- exponent 1: the number is 2^53
      have hb : binadeExponent (n : ℚ) = 1 := by
        unfold f64Exponent at heq
        rcases max_cases (binadeExponent (n : ℚ)) (-1074) with ⟨hm, _⟩ | ⟨hm, _⟩
        · rw [hm] at heq
          exact heq
        · rw [hm] at heq
          norm_num at heq
      rw [hb] at b1
      have hn53 : (n : ℚ) = pow2 53 := le_antisymm hle (by simpa using b1)
      apply f64Round_exact (n : ℚ) (2 ^ 52 : Nat)
      rw [heq, hn53]
      have h52 : (((2 ^ 52 : Nat) : Int) : ℚ) = pow2 52 := by
        rw [pow2_52]
        norm_num
      rw [h52, ← pow2_add]
      rfl


/-- A rational within less than one half of an integer rounds to it. -/
theorem roundHalfEven_eq_of_abs_lt (y : ℚ) (m : Int) (h : |y - (m : ℚ)| < 1 / 2) :
    roundHalfEven y = m := by
  obtain ⟨-, ⟨r1, r2⟩, -, -⟩ := roundHalfEven_spec y
  rw [abs_lt] at h
  have h1 : ((roundHalfEven y - m : Int) : ℚ) < 1 := by
    push_cast
    linarith [h.1, h.2]
  have h2 : (-1 : ℚ) < ((roundHalfEven y - m : Int) : ℚ) := by
    push_cast
    linarith [h.1, h.2]
  have h3 : roundHalfEven y - m < 1 := by exact_mod_cast h1
  have h4 : -1 < roundHalfEven y - m := by exact_mod_cast h2
  omega

/-- The value of a rounding, from its exponent and its significand. -/
theorem f64Round_eq_of (x : ℚ) (m e : Int) (hx : 0 < x) (he : -1074 ≤ e)
    (h1 : pow2 (e + 52) ≤ x) (h2 : x < pow2 (e + 53))
    (h3 : |x / pow2 e - (m : ℚ)| < 1 / 2) : f64Round x = (m : ℚ) * pow2 e := by
  have hb : binadeExponent x = e :=
    binadeExponent_unique x (ne_of_gt hx) e (by rw [abs_of_pos hx]; exact h1)
      (by rw [abs_of_pos hx]; exact h2)
  have hf : f64Exponent x = e := by
    unfold f64Exponent
    rw [hb]
    exact max_eq_left he
  rw [f64Round_of_pos x hx, hf, roundHalfEven_eq_of_abs_lt _ m h3]

/-- Every integer up to `2^53` in magnitude is a `float64`. -/
theorem f64Round_intCast (n : Int) (hn : |n| ≤ 2 ^ 53) : f64Round (n : ℚ) = (n : ℚ) := by
  by_cases h0 : n = 0
  · rw [h0]
    simp [f64Round_zero]
  · have hne : (n : ℚ) ≠ 0 := by exact_mod_cast h0
    obtain ⟨b1, b2⟩ := binadeExponent_spec (n : ℚ) hne
    have habs : |(n : ℚ)| ≤ pow2 53 := by
      rw [pow2_53]
      have : |(n : ℚ)| = ((|n| : Int) : ℚ) := by push_cast; rfl
      rw [this]
      exact_mod_cast hn
    have he : f64Exponent (n : ℚ) ≤ 1 := by
      unfold f64Exponent
      apply max_le
      · by_contra hgt
        have hgt : 2 ≤ binadeExponent (n : ℚ) := by omega
        have : pow2 54 ≤ pow2 (binadeExponent (n : ℚ) + 52) := pow2_le_pow2 (by omega)
        have h54 : pow2 53 < pow2 54 := pow2_lt_pow2 (by norm_num)
        linarith
      · norm_num
    rcases lt_or_eq_of_le he with hlt | heq
    · have hneg : 0 ≤ -f64Exponent (n : ℚ) := by omega
      obtain ⟨k, hk⟩ := Int.eq_ofNat_of_zero_le hneg
      apply f64Round_exact (n : ℚ) (n * (2 ^ k : Nat))
      have hpk : pow2 (f64Exponent (n : ℚ)) * ((2 ^ k : Nat) : ℚ) = 1 := by
        rw [← pow2_natCast, ← pow2_add]
        have : f64Exponent (n : ℚ) + (k : Int) = 0 := by omega
        rw [this]
        rfl
      push_cast
      push_cast at hpk
      calc (n : ℚ) = (n : ℚ) * (pow2 (f64Exponent (n : ℚ)) * (2 : ℚ) ^ k) := by rw [hpk, mul_one]
        _ = (n : ℚ) * (2 : ℚ) ^ k * pow2 (f64Exponent (n : ℚ)) := by ring
    · have hb : binadeExponent (n : ℚ) = 1 := by
        unfold f64Exponent at heq
        rcases max_cases (binadeExponent (n : ℚ)) (-1074) with ⟨hm, _⟩ | ⟨hm, _⟩
        · rw [hm] at heq
          exact heq
        · rw [hm] at heq
          norm_num at heq
      rw [hb] at b1
      have hn53 : |(n : ℚ)| = pow2 53 := le_antisymm habs (by simpa using b1)
      have h52 : pow2 53 = pow2 52 * pow2 1 := by
        rw [← pow2_add]
        rfl
      rcases abs_choice (n : ℚ) with hpos | hneg
      · apply f64Round_exact (n : ℚ) 4503599627370496
        rw [heq, ← pow2_52, ← h52, ← hn53, hpos]
      · apply f64Round_exact (n : ℚ) (-4503599627370496)
        have : (n : ℚ) = -pow2 53 := by
          rw [← hn53, hneg]
          ring
        rw [heq, this, h52, pow2_52]
        push_cast
        ring

/-- Rounding a normal number changes it by at most the `2^53`-th part of it. -/
theorem f64Round_rel_error (x : ℚ) (hx : pow2 (-1022) ≤ x) :
    |f64Round x - x| ≤ x * pow2 (-53) := by
  have hpos : 0 < x := lt_of_lt_of_le (pow2_pos _) hx
  obtain ⟨b1, b2⟩ := binadeExponent_spec x (ne_of_gt hpos)
  rw [abs_of_pos hpos] at b1 b2
  have hbe : -1074 ≤ binadeExponent x := by
    by_contra hlt
    have hlt : binadeExponent x + 53 ≤ -1022 := by omega
    have := pow2_le_pow2 hlt
    linarith
  have hf : f64Exponent x = binadeExponent x := by
    unfold f64Exponent
    exact max_eq_left hbe
  rw [f64Round_of_pos x hpos, hf]
  obtain ⟨-, ⟨r1, r2⟩, -, -⟩ := roundHalfEven_spec (x / pow2 (binadeExponent x))
  have hp := pow2_pos (binadeExponent x)
  have hdiff : (roundHalfEven (x / pow2 (binadeExponent x)) : ℚ) * pow2 (binadeExponent x) - x
      = ((roundHalfEven (x / pow2 (binadeExponent x)) : ℚ) - x / pow2 (binadeExponent x))
        * pow2 (binadeExponent x) := by
    rw [sub_mul, div_mul_cancel₀ x (ne_of_gt hp)]
  rw [hdiff, abs_mul, abs_of_pos hp]
  have habs : |(roundHalfEven (x / pow2 (binadeExponent x)) : ℚ) - x / pow2 (binadeExponent x)|
      ≤ 1 / 2 := by
    rw [abs_le]
    constructor <;> linarith
  have hhalf : (1 / 2 : ℚ) * pow2 (binadeExponent x) = pow2 (binadeExponent x + 52) * pow2 (-53) := by
    rw [← pow2_add]
    have : binadeExponent x + 52 + -53 = -1 + binadeExponent x := by ring
    rw [this, pow2_add]
    congr 1
  calc |(roundHalfEven (x / pow2 (binadeExponent x)) : ℚ) - x / pow2 (binadeExponent x)|
        * pow2 (binadeExponent x)
      ≤ 1 / 2 * pow2 (binadeExponent x) := mul_le_mul_of_nonneg_right habs (le_of_lt hp)
    _ = pow2 (binadeExponent x + 52) * pow2 (-53) := hhalf
    _ ≤ x * pow2 (-53) := mul_le_mul_of_nonneg_right b1 (le_of_lt (pow2_pos _))


theorem f64Round_one : f64Round 1 = 1 := by
  have := f64Round_natCast 1 (by norm_num)
  simpa using this

theorem f64Round_hundred : f64Round 100 = 100 := by
  have := f64Round_natCast 100 (by norm_num)
  simpa using this

/-- The conversion of a positive counter is at least one. -/
theorem one_le_f64Round_natCast (b : Nat) (hb : 1 ≤ b) : 1 ≤ f64Round (b : ℚ) := by
  have h1 : (1 : ℚ) ≤ (b : ℚ) := by exact_mod_cast hb
  have := f64Round_mono_pos (by norm_num : (0 : ℚ) < 1) h1
  rw [f64Round_one] at this
  exact this

/-- The quotient `float64(lost) / float64(total)` of two counters, `lost ≤ total`, lies between
zero and one. -/
theorem f64_fraction_bounds (a b : Nat) (hab : a ≤ b) (hb : 1 ≤ b) :
    0 ≤ f64Round (f64Round (a : ℚ) / f64Round (b : ℚ)) ∧
    f64Round (f64Round (a : ℚ) / f64Round (b : ℚ)) ≤ 1 := by
  have hb1 := one_le_f64Round_natCast b hb
  have hbpos : (0 : ℚ) < f64Round (b : ℚ) := lt_of_lt_of_le (by norm_num) hb1
  have ha0 : (0 : ℚ) ≤ f64Round (a : ℚ) := f64Round_nonneg (by exact_mod_cast Nat.zero_le a)
  have hle : f64Round (a : ℚ) ≤ f64Round (b : ℚ) :=
    f64Round_mono (by exact_mod_cast Nat.zero_le a) (by exact_mod_cast hab)
  have hq0 : (0 : ℚ) ≤ f64Round (a : ℚ) / f64Round (b : ℚ) := div_nonneg ha0 (le_of_lt hbpos)
  have hq1 : f64Round (a : ℚ) / f64Round (b : ℚ) ≤ 1 := (div_le_one hbpos).2 hle
  constructor
  · exact f64Round_nonneg hq0
  · have := f64Round_mono hq0 hq1
    rw [f64Round_one] at this
    exact this

/-- The percentage `float64(lost) / float64(total) * 100` of two counters, `lost ≤ total`, lies
between 0 and 100. -/
theorem f64Percent_bounds (a b : Nat) (hab : a ≤ b) (hb : 1 ≤ b) :
    0 ≤ f64Percent a b ∧ f64Percent a b ≤ 100 := by
  obtain ⟨f0, f1⟩ := f64_fraction_bounds a b hab hb
  unfold f64Percent
  have h0 : (0 : ℚ) ≤ f64Round (f64Round (a : ℚ) / f64Round (b : ℚ)) * 100 :=
    mul_nonneg f0 (by norm_num)
  have h1 : f64Round (f64Round (a : ℚ) / f64Round (b : ℚ)) * 100 ≤ 100 := by linarith
  constructor
  · exact f64Round_nonneg h0
  · have := f64Round_mono h0 h1
    rw [f64Round_hundred] at this
    exact this

/-- No loss gives the percentage 0. -/
theorem f64Percent_zero (b : Nat) : f64Percent 0 b = 0 := by
  unfold f64Percent
  simp [f64Round_zero]

/-- The loss of every probe gives the percentage 100. -/
theorem f64Percent_self (b : Nat) (hb : 1 ≤ b) : f64Percent b b = 100 := by
  have hb1 := one_le_f64Round_natCast b hb
  have hne : f64Round (b : ℚ) ≠ 0 := ne_of_gt (lt_of_lt_of_le (by norm_num) hb1)
  unfold f64Percent
  rw [div_self hne, f64Round_one, one_mul, f64Round_hundred]

theorem pow2_neg53 : pow2 (-53) = 1 / 9007199254740992 := by
  rw [pow2_eq_zpow]
  norm_num

/-- The percentage computed in `float64` from two counters below `2^53` is within `2^-45` of
the exact percentage, and is positive when something is lost. -/
theorem f64Percent_accuracy (a b : Nat) (hab : a ≤ b) (hb : 1 ≤ b) (hb53 : b ≤ 2 ^ 53) :
    |f64Percent a b - 100 * (a : ℚ) / (b : ℚ)| ≤ 1 / 2 ^ 45 ∧
    (0 < a → 0 < f64Percent a b) := by
  by_cases ha : a = 0
  · subst ha
    rw [f64Percent_zero]
    constructor
    · norm_num
    · intro h
      exact absurd h (lt_irrefl _)
  · have ha1 : 1 ≤ a := Nat.one_le_iff_ne_zero.2 ha
    have haq : (1 : ℚ) ≤ (a : ℚ) := by exact_mod_cast ha1
    have hbq : (1 : ℚ) ≤ (b : ℚ) := by exact_mod_cast hb
    have hbpos : (0 : ℚ) < (b : ℚ) := by linarith
    have habq : (a : ℚ) ≤ (b : ℚ) := by exact_mod_cast hab
    have hb53q : (b : ℚ) ≤ 9007199254740992 := by exact_mod_cast hb53
    have hsmall : pow2 (-1022) ≤ 1 / 18014398509481984 := by
      have h1 : pow2 (-1022) ≤ pow2 (-54) := pow2_le_pow2 (by norm_num)
      have h2 : pow2 (-54) = 1 / 18014398509481984 := by
        rw [pow2_eq_zpow]
        norm_num
      rw [← h2]
      exact h1
    -- the quotient
    have hx1 : (a : ℚ) / (b : ℚ) ≤ 1 := (div_le_one hbpos).2 habq
    have hx0 : 1 / 9007199254740992 ≤ (a : ℚ) / (b : ℚ) := by
      rw [le_div_iff₀ hbpos]
      linarith
    have hf := f64Round_rel_error ((a : ℚ) / (b : ℚ)) (by linarith)
    rw [pow2_neg53, abs_le] at hf
    -- the product
    have hfpos : 1 / 18014398509481984 ≤ f64Round ((a : ℚ) / (b : ℚ)) := by linarith [hf.1]
    have hg := f64Round_rel_error (f64Round ((a : ℚ) / (b : ℚ)) * 100) (by linarith)
    rw [pow2_neg53, abs_le] at hg
    unfold f64Percent
    rw [f64Round_natCast a (le_trans hab hb53), f64Round_natCast b hb53]
    constructor
    · have e45 : (1 : ℚ) / 2 ^ 45 = 1 / 35184372088832 := by norm_num
      have hmul : 100 * (a : ℚ) / (b : ℚ) = 100 * ((a : ℚ) / (b : ℚ)) := by ring
      rw [e45, hmul, abs_le]
      constructor <;> linarith [hf.1, hf.2, hg.1, hg.2]
    · intro _
      linarith [hf.1, hf.2, hg.1, hg.2]


/-- The binary search keeps the root between the part found and that part plus `2^b`. -/
theorem isqrtAux_spec (n : Nat) : ∀ b r : Nat, r * r ≤ n → n < (r + 2 ^ b) * (r + 2 ^ b) →
    isqrtAux n b r * isqrtAux n b r ≤ n ∧
      n < (isqrtAux n b r + 1) * (isqrtAux n b r + 1) := by
  intro b
  induction b with
  | zero =>
    intro r h1 h2
    rw [isqrtAux]
    exact ⟨h1, by simpa using h2⟩
  | succ b ih =>
    intro r h1 h2
    rw [isqrtAux]
    by_cases hc : (r + 2 ^ b) * (r + 2 ^ b) ≤ n
    · rw [if_pos hc]
      apply ih _ hc
      have : r + 2 ^ b + 2 ^ b = r + 2 ^ (b + 1) := by
        rw [pow_succ]
        ring
      rw [this]
      exact h2
    · rw [if_neg hc]
      exact ih _ h1 (not_le.1 hc)

/-- The integer square root. -/
theorem isqrt_spec (n : Nat) : isqrt n * isqrt n ≤ n ∧ n < (isqrt n + 1) * (isqrt n + 1) := by
  unfold isqrt
  apply isqrtAux_spec
  · exact Nat.zero_le _
  · have h1 : n < 2 ^ (Nat.log2 n + 1) := Nat.lt_log2_self
    have h2 : Nat.log2 n + 1 ≤ 2 * (Nat.log2 n / 2 + 1) := by omega
    have h3 : 2 ^ (Nat.log2 n + 1) ≤ 2 ^ (2 * (Nat.log2 n / 2 + 1)) :=
      Nat.pow_le_pow_right (by norm_num) h2
    have h4 : (0 + 2 ^ (Nat.log2 n / 2 + 1)) * (0 + 2 ^ (Nat.log2 n / 2 + 1))
        = 2 ^ (2 * (Nat.log2 n / 2 + 1)) := by
      rw [Nat.zero_add, ← pow_add]
      congr 1
      ring
    rw [h4]
    exact lt_of_lt_of_le h1 h3

theorem isqrt_eq (n s : Nat) (h1 : s * s ≤ n) (h2 : n < (s + 1) * (s + 1)) : isqrt n = s := by
  obtain ⟨a1, a2⟩ := isqrt_spec n
  by_contra hne
  rcases Nat.lt_or_gt_of_ne hne with hlt | hgt
  · have : (isqrt n + 1) * (isqrt n + 1) ≤ s * s := Nat.mul_le_mul hlt hlt
    omega
  · have : (s + 1) * (s + 1) ≤ isqrt n * isqrt n := Nat.mul_le_mul hgt hgt
    omega

/-- The conversion of a non-negative `float64` to an integer is its integer part. -/
theorem f64ToInt_of_nonneg (x : ℚ) (hx : 0 ≤ x) : f64ToInt x = ⌊x⌋ := by
  unfold f64ToInt
  rw [if_pos hx, ratFloor_eq]

/-- The scaled argument of `math.Sqrt`: with `e` the exponent the definition takes, `x / 4^e`
lies in `[2^104, 2^106)`. -/
theorem sqrt_scaled_bounds (x : ℚ) (hx : 0 < x) :
    pow2 104 ≤ x / pow2 (2 * ((binadeExponent x - 52) / 2)) ∧
    x / pow2 (2 * ((binadeExponent x - 52) / 2)) < pow2 106 := by
  obtain ⟨b1, b2⟩ := binadeExponent_spec x (ne_of_gt hx)
  rw [abs_of_pos hx] at b1 b2
  have hp := pow2_pos (2 * ((binadeExponent x - 52) / 2))
  have hd1 : 2 * ((binadeExponent x - 52) / 2) ≤ binadeExponent x - 52 := by omega
  have hd2 : binadeExponent x - 52 < 2 * ((binadeExponent x - 52) / 2) + 2 := by omega
  constructor
  · rw [le_div_iff₀ hp, ← pow2_add]
    exact le_trans (pow2_le_pow2 (by omega)) b1
  · rw [div_lt_iff₀ hp, ← pow2_add]
    exact lt_of_lt_of_le b2 (pow2_le_pow2 (by omega))

/-- The exponent the definition of `math.Sqrt` takes is the only one that scales its argument
into `[2^104, 2^106)`. -/
theorem sqrt_exponent_unique (x : ℚ) (hx : 0 < x) (e : Int)
    (h1 : pow2 104 ≤ x / pow2 (2 * e)) (h2 : x / pow2 (2 * e) < pow2 106) :
    (binadeExponent x - 52) / 2 = e := by
  obtain ⟨a1, a2⟩ := sqrt_scaled_bounds x hx
  have hp := pow2_pos (2 * e)
  have hq := pow2_pos (2 * ((binadeExponent x - 52) / 2))
  rw [le_div_iff₀ hp, ← pow2_add] at h1
  rw [div_lt_iff₀ hp, ← pow2_add] at h2
  rw [le_div_iff₀ hq, ← pow2_add] at a1
  rw [div_lt_iff₀ hq, ← pow2_add] at a2
  by_contra hne
  rcases lt_or_gt_of_ne hne with hlt | hgt
  · have : pow2 (106 + 2 * ((binadeExponent x - 52) / 2)) ≤ pow2 (104 + 2 * e) :=
      pow2_le_pow2 (by omega)
    linarith
  · have : pow2 (106 + 2 * e) ≤ pow2 (104 + 2 * ((binadeExponent x - 52) / 2)) :=
      pow2_le_pow2 (by omega)
    linarith

/-- The value of `math.Sqrt`, in terms of the significand the definition computes. -/
theorem f64Sqrt_of_pos (x : ℚ) (hx : 0 < x) :
    f64Sqrt x =
      ((if x / pow2 (2 * ((binadeExponent x - 52) / 2))
            < ((isqrt (ratFloor (x / pow2 (2 * ((binadeExponent x - 52) / 2)))).toNat : ℚ) + 1 / 2)
              * ((isqrt (ratFloor (x / pow2 (2 * ((binadeExponent x - 52) / 2)))).toNat : ℚ)
                + 1 / 2)
          then isqrt (ratFloor (x / pow2 (2 * ((binadeExponent x - 52) / 2)))).toNat
        else if ((isqrt (ratFloor (x / pow2 (2 * ((binadeExponent x - 52) / 2)))).toNat : ℚ)
              + 1 / 2)
              * ((isqrt (ratFloor (x / pow2 (2 * ((binadeExponent x - 52) / 2)))).toNat : ℚ)
                + 1 / 2) < x / pow2 (2 * ((binadeExponent x - 52) / 2))
          then isqrt (ratFloor (x / pow2 (2 * ((binadeExponent x - 52) / 2)))).toNat + 1
        else if isqrt (ratFloor (x / pow2 (2 * ((binadeExponent x - 52) / 2)))).toNat % 2 = 0
          then isqrt (ratFloor (x / pow2 (2 * ((binadeExponent x - 52) / 2)))).toNat
        else isqrt (ratFloor (x / pow2 (2 * ((binadeExponent x - 52) / 2)))).toNat + 1 : Nat) : ℚ)
        * pow2 ((binadeExponent x - 52) / 2) := by
  unfold f64Sqrt
  rw [if_neg (not_le.2 hx)]

/-- The integer root `s` the definition of `math.Sqrt` takes for `t ≥ 0`: the root of `t` lies
in `[s, s + 1)`. -/
theorem sqrt_significand (t : ℚ) (ht : 0 ≤ t) :
    ((isqrt (ratFloor t).toNat : Nat) : ℚ) * ((isqrt (ratFloor t).toNat : Nat) : ℚ) ≤ t ∧
    t < (((isqrt (ratFloor t).toNat : Nat) : ℚ) + 1)
      * (((isqrt (ratFloor t).toNat : Nat) : ℚ) + 1) := by
  have hfl : (0 : Int) ≤ ⌊t⌋ := Int.floor_nonneg.2 ht
  have hn : (((ratFloor t).toNat : Nat) : Int) = ⌊t⌋ := by
    rw [ratFloor_eq, Int.toNat_of_nonneg hfl]
  generalize (ratFloor t).toNat = n at hn
  obtain ⟨a1, a2⟩ := isqrt_spec n
  have h2 : ((⌊t⌋ : Int) : ℚ) ≤ t := Int.floor_le t
  have h3 : t < ((⌊t⌋ : Int) : ℚ) + 1 := Int.lt_floor_add_one t
  have hnq : (n : ℚ) = ((⌊t⌋ : Int) : ℚ) := by
    rw [← hn]
    push_cast
    rfl
  constructor
  · have h1 : ((isqrt n * isqrt n : Nat) : ℚ) ≤ (n : ℚ) := by exact_mod_cast a1
    push_cast at h1
    linarith
  · have h1 : ((n + 1 : Nat) : ℚ) ≤ (((isqrt n + 1) * (isqrt n + 1) : Nat) : ℚ) := by
      exact_mod_cast a2
    push_cast at h1
    linarith


theorem lt_of_sq_lt_sq (a b : ℚ) (hb : 0 ≤ b) (h : a * a < b * b) : a < b := by
  by_contra hle
  have hle : b ≤ a := not_lt.1 hle
  have : b * b ≤ a * a := mul_le_mul hle hle hb (le_trans hb hle)
  exact absurd h (not_lt.2 this)

theorem le_of_sq_le_sq (a b : ℚ) (hb : 0 ≤ b) (h : a * a ≤ b * b) : a ≤ b := by
  by_contra hlt
  have hlt : b < a := not_le.1 hlt
  have : b * b < a * a := mul_lt_mul'' hlt hlt hb hb
  exact absurd h (not_le.2 this)

/-- The significand `math.Sqrt` takes, given the integer root `s` of the scaled argument `t`:
`s` or `s + 1`, and `s` when `t` is below the square of `s + 1/2`. -/
theorem sqrt_round_spec (t : ℚ) (s : Nat) :
    s ≤ (if t < ((s : ℚ) + 1 / 2) * ((s : ℚ) + 1 / 2) then s
      else if ((s : ℚ) + 1 / 2) * ((s : ℚ) + 1 / 2) < t then s + 1
      else if s % 2 = 0 then s else s + 1) ∧
    (if t < ((s : ℚ) + 1 / 2) * ((s : ℚ) + 1 / 2) then s
      else if ((s : ℚ) + 1 / 2) * ((s : ℚ) + 1 / 2) < t then s + 1
      else if s % 2 = 0 then s else s + 1) ≤ s + 1 ∧
    (t < ((s : ℚ) + 1 / 2) * ((s : ℚ) + 1 / 2) →
      (if t < ((s : ℚ) + 1 / 2) * ((s : ℚ) + 1 / 2) then s
        else if ((s : ℚ) + 1 / 2) * ((s : ℚ) + 1 / 2) < t then s + 1
        else if s % 2 = 0 then s else s + 1) = s) ∧
    (((s : ℚ) + 1 / 2) * ((s : ℚ) + 1 / 2) < t →
      (if t < ((s : ℚ) + 1 / 2) * ((s : ℚ) + 1 / 2) then s
        else if ((s : ℚ) + 1 / 2) * ((s : ℚ) + 1 / 2) < t then s + 1
        else if s % 2 = 0 then s else s + 1) = s + 1) := by
  refine ⟨?_, ?_, ?_, ?_⟩
  · split_ifs <;> omega
  · split_ifs <;> omega
  · intro h
    rw [if_pos h]
  · intro h
    rw [if_neg (not_lt.2 (le_of_lt h)), if_pos h]

theorem pow2_two_mul (e : Int) : pow2 (2 * e) = pow2 e * pow2 e := by
  rw [two_mul, pow2_add]

theorem pow2_104 : pow2 104 = 4503599627370496 * 4503599627370496 := by
  rw [pow2_eq_zpow]
  norm_num

/-- The value of `math.Sqrt`, from its exponent and its significand. -/
theorem f64Sqrt_eq_of (x : ℚ) (m : Nat) (e : Int) (hx : 0 < x)
    (h1 : pow2 104 ≤ x / pow2 (2 * e)) (h2 : x / pow2 (2 * e) < pow2 106)
    (h3 : ((m : ℚ) - 1 / 2) * ((m : ℚ) - 1 / 2) < x / pow2 (2 * e))
    (h4 : x / pow2 (2 * e) < ((m : ℚ) + 1 / 2) * ((m : ℚ) + 1 / 2)) :
    f64Sqrt x = (m : ℚ) * pow2 e := by
  have hE := sqrt_exponent_unique x hx e h1 h2
  rw [f64Sqrt_of_pos x hx, hE]
  have ht0 : (0 : ℚ) ≤ x / pow2 (2 * e) := le_of_lt (div_pos hx (pow2_pos _))
  obtain ⟨s1, s2⟩ := sqrt_significand (x / pow2 (2 * e)) ht0
  generalize isqrt (ratFloor (x / pow2 (2 * e))).toNat = s at s1 s2 ⊢
  generalize x / pow2 (2 * e) = t at h1 h2 h3 h4 ht0 s1 s2 ⊢
  obtain ⟨-, -, r3, r4⟩ := sqrt_round_spec t s
  have hs0 : (0 : ℚ) ≤ (s : ℚ) := Nat.cast_nonneg s
  have hm0 : (0 : ℚ) ≤ (m : ℚ) := Nat.cast_nonneg m
  congr 1
  rcases lt_trichotomy t (((s : ℚ) + 1 / 2) * ((s : ℚ) + 1 / 2)) with hlt | heq | hgt
  · rw [r3 hlt]
    -- s ≤ m and m ≤ s
    have a1 : (s : ℚ) < (m : ℚ) + 1 / 2 :=
      lt_of_sq_lt_sq _ _ (by linarith) (lt_of_le_of_lt s1 h4)
    have a2 : (m : ℚ) - 1 / 2 < (s : ℚ) + 1 / 2 :=
      lt_of_sq_lt_sq _ _ (by linarith) (lt_trans h3 hlt)
    have a3 : (s : ℚ) < (m : ℚ) + 1 := by linarith
    have a4 : (m : ℚ) < (s : ℚ) + 1 := by linarith
    have a5 : s < m + 1 := by exact_mod_cast a3
    have a6 : m < s + 1 := by exact_mod_cast a4
    have : s = m := by omega
    rw [this]
  · exfalso
    rw [heq] at h3 h4
    have a1 : (s : ℚ) + 1 / 2 < (m : ℚ) + 1 / 2 := lt_of_sq_lt_sq _ _ (by linarith) h4
    have a2 : (m : ℚ) - 1 / 2 < (s : ℚ) + 1 / 2 := lt_of_sq_lt_sq _ _ (by linarith) h3
    have a3 : (s : ℚ) < (m : ℚ) := by linarith
    have a4 : (m : ℚ) < (s : ℚ) + 1 := by linarith
    have a5 : s < m := by exact_mod_cast a3
    have a6 : m < s + 1 := by exact_mod_cast a4
    omega
  · rw [r4 hgt]
    have a1 : (s : ℚ) + 1 / 2 < (m : ℚ) + 1 / 2 :=
      lt_of_sq_lt_sq _ _ (by linarith) (lt_trans hgt h4)
    have a2 : (m : ℚ) - 1 / 2 < (s : ℚ) + 1 :=
      lt_of_sq_lt_sq _ _ (by linarith) (lt_trans h3 s2)
    have a3 : (s : ℚ) < (m : ℚ) := by linarith
    have a4 : (m : ℚ) < (s : ℚ) + 1 + 1 := by linarith
    have a5 : s < m := by exact_mod_cast a3
    have a6 : m < s + 1 + 1 := by exact_mod_cast a4
    have : s + 1 = m := by omega
    rw [this]

/-- The square root `math.Sqrt` returns lies on the same side of every natural number up to
`2^52` as the exact root: rounding never crosses a number that is a `float64`. -/
theorem f64Sqrt_bracket (x : ℚ) (hx : 0 ≤ x) (c : Nat) (hc : c ≤ 2 ^ 52) :
    ((c : ℚ) * (c : ℚ) ≤ x → (c : ℚ) ≤ f64Sqrt x) ∧
    (x ≤ (c : ℚ) * (c : ℚ) → f64Sqrt x ≤ (c : ℚ)) := by
  have hcq : (c : ℚ) ≤ 4503599627370496 := by exact_mod_cast hc
  have hc0 : (0 : ℚ) ≤ (c : ℚ) := Nat.cast_nonneg c
  rcases lt_or_eq_of_le hx with hpos | hzero
  swap
  · rw [← hzero]
    have h0 : f64Sqrt 0 = 0 := by
      unfold f64Sqrt
      rw [if_pos (le_refl _)]
    rw [h0]
    refine ⟨fun h => ?_, fun _ => hc0⟩
    exact le_of_sq_le_sq _ _ (le_refl _) (by simpa using h)
  · rw [f64Sqrt_of_pos x hpos]
    obtain ⟨t1, t2⟩ := sqrt_scaled_bounds x hpos
    have ht0 : (0 : ℚ) ≤ x / pow2 (2 * ((binadeExponent x - 52) / 2)) :=
      le_of_lt (div_pos hpos (pow2_pos _))
    obtain ⟨s1, s2⟩ := sqrt_significand (x / pow2 (2 * ((binadeExponent x - 52) / 2))) ht0
    have hxt : x = x / pow2 (2 * ((binadeExponent x - 52) / 2))
        * (pow2 ((binadeExponent x - 52) / 2) * pow2 ((binadeExponent x - 52) / 2)) := by
      rw [← pow2_two_mul, div_mul_cancel₀ x (ne_of_gt (pow2_pos _))]
    generalize isqrt (ratFloor (x / pow2 (2 * ((binadeExponent x - 52) / 2)))).toNat = s
      at s1 s2 ⊢
    generalize x / pow2 (2 * ((binadeExponent x - 52) / 2)) = t at t1 t2 ht0 s1 s2 hxt ⊢
    generalize (binadeExponent x - 52) / 2 = E at hxt ⊢
    obtain ⟨r1, r2, r3, -⟩ := sqrt_round_spec t s
    generalize (if t < ((s : ℚ) + 1 / 2) * ((s : ℚ) + 1 / 2) then s
      else if ((s : ℚ) + 1 / 2) * ((s : ℚ) + 1 / 2) < t then s + 1
      else if s % 2 = 0 then s else s + 1) = m at r1 r2 r3 ⊢
    have hP := pow2_pos E
    have hs0 : (0 : ℚ) ≤ (s : ℚ) := Nat.cast_nonneg s
    have r1q : (s : ℚ) ≤ (m : ℚ) := by exact_mod_cast r1
    have r2q : (m : ℚ) ≤ (s : ℚ) + 1 := by exact_mod_cast r2
    -- the root of the scaled argument has 53 digits
    have hs52 : (4503599627370496 : ℚ) ≤ (s : ℚ) := by
      rw [pow2_104] at t1
      have h : (4503599627370496 : ℚ) < (s : ℚ) + 1 :=
        lt_of_sq_lt_sq _ _ (by linarith) (lt_of_le_of_lt t1 s2)
      have h2 : (4503599627370496 : Nat) < s + 1 := by exact_mod_cast h
      have h3 : (4503599627370496 : Nat) ≤ s := by omega
      exact_mod_cast h3
    by_cases hE : E ≤ 0
    · -- the scaled bound is a natural number
      have hneg : 0 ≤ -E := by omega
      obtain ⟨j, hj⟩ := Int.eq_ofNat_of_zero_le hneg
      have hPj : pow2 E * ((2 ^ j : Nat) : ℚ) = 1 := by
        rw [← pow2_natCast, ← pow2_add]
        have : E + (j : Int) = 0 := by omega
        rw [this]
        rfl
      have hK : ((c * 2 ^ j : Nat) : ℚ) * pow2 E = (c : ℚ) := by
        push_cast
        push_cast at hPj
        calc (c : ℚ) * (2 : ℚ) ^ j * pow2 E = (c : ℚ) * (pow2 E * (2 : ℚ) ^ j) := by ring
          _ = (c : ℚ) := by rw [hPj, mul_one]
      generalize c * 2 ^ j = K at hK
      have hK0 : (0 : ℚ) ≤ (K : ℚ) := Nat.cast_nonneg K
      have hPP : 0 < pow2 E * pow2 E := mul_pos hP hP
      constructor
      · intro hcx
        -- K² ≤ t
        have h1 : (K : ℚ) * (K : ℚ) * (pow2 E * pow2 E) ≤ t * (pow2 E * pow2 E) := by
          rw [← hxt]
          calc (K : ℚ) * (K : ℚ) * (pow2 E * pow2 E)
              = ((K : ℚ) * pow2 E) * ((K : ℚ) * pow2 E) := by ring
            _ = (c : ℚ) * (c : ℚ) := by rw [hK]
            _ ≤ x := hcx
        have h2 : (K : ℚ) * (K : ℚ) ≤ t := le_of_mul_le_mul_right h1 hPP
        have h3 : (K : ℚ) < (s : ℚ) + 1 :=
          lt_of_sq_lt_sq _ _ (by linarith) (lt_of_le_of_lt h2 s2)
        have h4 : K < s + 1 := by exact_mod_cast h3
        have h5 : (K : ℚ) ≤ (m : ℚ) := by
          have : K ≤ m := by omega
          exact_mod_cast this
        rw [← hK]
        exact mul_le_mul_of_nonneg_right h5 (le_of_lt hP)
      · intro hxc
        have h1 : t * (pow2 E * pow2 E) ≤ (K : ℚ) * (K : ℚ) * (pow2 E * pow2 E) := by
          rw [← hxt]
          calc x ≤ (c : ℚ) * (c : ℚ) := hxc
            _ = ((K : ℚ) * pow2 E) * ((K : ℚ) * pow2 E) := by rw [hK]
            _ = (K : ℚ) * (K : ℚ) * (pow2 E * pow2 E) := by ring
        have h2 : t ≤ (K : ℚ) * (K : ℚ) := le_of_mul_le_mul_right h1 hPP
        have h3 : (s : ℚ) ≤ (K : ℚ) := le_of_sq_le_sq _ _ hK0 (le_trans s1 h2)
        have h4 : s ≤ K := by exact_mod_cast h3
        have h5 : m ≤ K := by
          rcases Nat.lt_or_ge s K with hlt | hge
          · omega
          · have hsK : s = K := by omega
            have hmid : t < ((s : ℚ) + 1 / 2) * ((s : ℚ) + 1 / 2) := by
              rw [hsK]
              nlinarith
            rw [r3 hmid, hsK]
        have h6 : (m : ℚ) ≤ (K : ℚ) := by exact_mod_cast h5
        rw [← hK]
        exact mul_le_mul_of_nonneg_right h6 (le_of_lt hP)
    · -- a positive exponent: the result is at least 2^53
      have hE1 : 1 ≤ E := by omega
      have hP2 : (2 : ℚ) ≤ pow2 E := by
        have := pow2_le_pow2 hE1
        have h1 : pow2 1 = 2 := by
          rw [pow2_eq_zpow]
          norm_num
        rw [h1] at this
        exact this
      have hbig : (9007199254740992 : ℚ) ≤ (m : ℚ) * pow2 E := by
        have hm52 : (4503599627370496 : ℚ) ≤ (m : ℚ) := le_trans hs52 r1q
        calc (9007199254740992 : ℚ) = 4503599627370496 * 2 := by norm_num
          _ ≤ (m : ℚ) * pow2 E := mul_le_mul hm52 hP2 (by norm_num) (by linarith)
      constructor
      · intro _
        linarith
      · intro hxc
        exfalso
        -- x ≥ 2^104 * 4, while c² ≤ 2^104
        have h1 : pow2 104 * (pow2 E * pow2 E) ≤ x := by
          rw [hxt]
          exact mul_le_mul_of_nonneg_right t1 (le_of_lt (mul_pos hP hP))
        have h2 : (4 : ℚ) ≤ pow2 E * pow2 E := by nlinarith
        have h3 : (c : ℚ) * (c : ℚ) ≤ 4503599627370496 * 4503599627370496 :=
          mul_le_mul hcq hcq hc0 (by norm_num)
        rw [pow2_104] at h1
        nlinarith

/-! ## `validateParameters` -/

/-- C3: `validateParameters` returns no error exactly when a target is given (or
`-list-devices` / `-version` is requested), the source and destination ports are in
`[1, 65535]`, `min-ttl` is in `[1, 255]`, `max-ttl` is in `[min-ttl, 255]`, `npaths` is in
`[1, 256]`, `count` is in `[1, 10]` and `sport + npaths - 1 ≤ 65535`. -/
theorem validateParameters_eq_none_iff (f : Flags) :
    validateParameters f = none ↔
      ((f.target ≠ "" ∨ f.listDevices = true ∨ f.showVersion = true) ∧
        (1 ≤ f.srcPort ∧ f.srcPort ≤ 65535) ∧
        (1 ≤ f.dstPort ∧ f.dstPort ≤ 65535) ∧
        (1 ≤ f.minTTL ∧ f.minTTL ≤ 255) ∧
        (f.minTTL ≤ f.maxTTL ∧ f.maxTTL ≤ 255) ∧
        (1 ≤ f.numPaths ∧ f.numPaths ≤ 256) ∧
        (1 ≤ f.probeCount ∧ f.probeCount ≤ 10) ∧
        f.srcPort + f.numPaths - 1 ≤ 65535) := by
  unfold validateParameters
  by_cases h0 : (f.target == "" && !f.listDevices && !f.showVersion) = true
  · rw [if_pos h0]
    simp only [Bool.and_eq_true, beq_iff_eq, Bool.not_eq_true'] at h0
    obtain ⟨⟨h1, h2⟩, h3⟩ := h0
    simp [h1, h2, h3]
  · rw [if_neg h0]
    have ht : f.target ≠ "" ∨ f.listDevices = true ∨ f.showVersion = true := by
      simp only [Bool.and_eq_true, beq_iff_eq, Bool.not_eq_true'] at h0
      by_cases a : f.target = ""
      · by_cases b : f.listDevices = true
        · exact Or.inr (Or.inl b)
        · have b' : f.listDevices = false := by simpa using b
          by_cases c : f.showVersion = true
          · exact Or.inr (Or.inr c)
          · have c' : f.showVersion = false := by simpa using c
            exact absurd ⟨⟨a, b'⟩, c'⟩ h0
      · exact Or.inl a
    simp only [uintSize, Bool.or_eq_true, decide_eq_true_eq]
    split_ifs <;> simp only [ht, true_and, reduceCtorEq, false_iff, true_iff, not_and, not_le]
      <;> omega

/-! ## The sniffer -/


/-- Soundness of the match: a frame returned by `CaptureICMPResponse` is one of the captured
packets, the returned address is the source of its outer IPv4 header, and either it is a Time Exceeded message whose
quoted header decodes to source `srcIP` and destination `dstIP`, or it is a Destination
Unreachable or Echo Reply message whose outer destination is `srcIP`. -/
theorem CaptureICMPResponse_ok (srcIP dstIP : IPv4Addr) (expectedType : Nat)
    (events : List Captured) (packet : Packet) (addr : IPv4Addr)
    (h : CaptureICMPResponse srcIP dstIP expectedType events = .ok (packet, addr)) :
    (∃ late, ⟨some packet, late⟩ ∈ events) ∧
    ∃ icmp ip, packet.icmpv4 = some icmp ∧ packet.ipv4 = some ip ∧ addr = ip.SrcIP ∧
      ((icmp.Type = ICMPv4TypeTimeExceeded ∧
          ∃ embeddedIP, IPv4.DecodeFromBytes icmp.Payload = some embeddedIP ∧
            embeddedIP.SrcIP = srcIP ∧ embeddedIP.DstIP = dstIP) ∨
        ((icmp.Type = ICMPv4TypeDestinationUnreachable ∨ icmp.Type = ICMPv4TypeEchoReply) ∧
          ip.DstIP = srcIP)) := by
  induction events with
  | nil => simp [CaptureICMPResponse] at h
  | cons ev rest ih =>
    have lift : CaptureICMPResponse srcIP dstIP expectedType rest = .ok (packet, addr) →
        (∃ late, ⟨some packet, late⟩ ∈ ev :: rest) ∧
        ∃ icmp ip, packet.icmpv4 = some icmp ∧ packet.ipv4 = some ip ∧ addr = ip.SrcIP ∧
          ((icmp.Type = ICMPv4TypeTimeExceeded ∧
              ∃ embeddedIP, IPv4.DecodeFromBytes icmp.Payload = some embeddedIP ∧
                embeddedIP.SrcIP = srcIP ∧ embeddedIP.DstIP = dstIP) ∨
            ((icmp.Type = ICMPv4TypeDestinationUnreachable ∨
                icmp.Type = ICMPv4TypeEchoReply) ∧ ip.DstIP = srcIP)) := by
      intro h'
      obtain ⟨⟨late, hl⟩, rest'⟩ := ih h'
      exact ⟨⟨late, List.mem_cons_of_mem _ hl⟩, rest'⟩
    obtain ⟨pk, late⟩ := ev
    cases pk with
    | none => simp [CaptureICMPResponse] at h
    | some pkt =>
      unfold CaptureICMPResponse at h
      simp only at h
      split at h
      · exact lift h
      · rename_i icmp hicmp
        split at h
        · exact lift h
        · split at h
          · exact lift h
          · rename_i ip hip
            split at h
            · rename_i hte
              split at h
              · exact lift h
              · split at h
                · exact lift h
                · rename_i emb hemb
                  split at h
                  · rename_i hmatch
                    simp only [Except.ok.injEq, Prod.mk.injEq] at h
                    obtain ⟨h1, h2⟩ := h
                    subst h1 h2
                    simp only [Bool.and_eq_true, IPv4Addr.Equal, decide_eq_true_eq] at hmatch
                    refine ⟨⟨late, List.mem_cons_self _ _⟩, icmp, ip, hicmp, hip, rfl, Or.inl ?_⟩
                    exact ⟨by simpa using hte, emb, hemb, hmatch.1, hmatch.2⟩
                  · split at h
                    · simp at h
                    · exact lift h
            · split at h
              · rename_i hdu
                split at h
                · rename_i hdst
                  simp only [Except.ok.injEq, Prod.mk.injEq] at h
                  obtain ⟨h1, h2⟩ := h
                  subst h1 h2
                  simp only [IPv4Addr.Equal, decide_eq_true_eq] at hdst
                  refine ⟨⟨late, List.mem_cons_self _ _⟩, icmp, ip, hicmp, hip, rfl, Or.inr ?_⟩
                  exact ⟨by simpa using hdu, hdst⟩
                · split at h
                  · simp at h
                  · exact lift h
              · split at h
                · simp at h
                · exact lift h

/-! ## Loops and maps -/


theorem forRange_rounds_flows {σ : Type} (P N : Nat) (body : Nat → Nat → σ → σ)
    (J : Nat → σ → Prop) (s0 : σ) (h0 : J 0 s0)
    (hstep : ∀ r f s, r < P → f < N → J (r * N + f) s → J (r * N + f + 1) (body r f s)) :
    J (P * N) (forRange P (fun r s => forRange N (fun f s => body r f s) s) s0) := by
  have inner : ∀ r, r < P → ∀ f, f ≤ N → ∀ s, J (r * N) s →
      J (r * N + f) (forRange f (fun f s => body r f s) s) := by
    intro r hr f
    induction f with
    | zero => intro _ s hs; simpa [forRange] using hs
    | succ f ih =>
      intro hf s hs
      exact hstep r f _ hr (by omega) (ih (by omega) s hs)
  have outer : ∀ r, r ≤ P →
      J (r * N) (forRange r (fun r s => forRange N (fun f s => body r f s) s) s0) := by
    intro r
    induction r with
    | zero => intro _; simpa [forRange] using h0
    | succ r ih =>
      intro hr
      have := inner r (by omega) N le_rfl _ (ih (by omega))
      rw [Nat.succ_mul]
      exact this
  exact outer P le_rfl


theorem goMap_store_fresh {β : Type} (m : Nat) (g : Nat → β) (v : β) :
    (GoMap.store ⟨(List.range m).map (fun i => (i, g i))⟩ m v).entries =
      (List.range m).map (fun i => (i, g i)) ++ [(m, v)] := by
  unfold GoMap.store
  simp only [List.append_left_inj]
  rw [List.filter_eq_self]
  intro e he
  simp only [List.mem_map, List.mem_range] at he
  obtain ⟨i, hi, rfl⟩ := he
  simp
  omega


theorem goMap_mem_values_store {β : Type} (m : GoMap β) (k : Nat) (v x : β)
    (h : x ∈ (m.store k v).values) : x ∈ m.values ∨ x = v := by
  simp only [GoMap.values, GoMap.store, List.map_append, List.map_cons, List.map_nil,
    List.mem_append, List.mem_map, List.mem_filter, List.mem_singleton] at h
  rcases h with ⟨e, ⟨he, _⟩, rfl⟩ | h
  · exact Or.inl (List.mem_map_of_mem _ he)
  · exact Or.inr h


theorem goMap_lookup_range {β : Type} (m k : Nat) (g : Nat → β) (hk : k < m) :
    GoMap.lookup ⟨(List.range m).map (fun i => (i, g i))⟩ k = some (g k) := by
  unfold GoMap.lookup
  induction m with
  | zero => omega
  | succ m ih =>
    rw [List.range_succ, List.map_append, List.find?_append]
    by_cases h : k < m
    · have := ih h
      simp only [Option.map_eq_some'] at this
      obtain ⟨e, he, he2⟩ := this
      simp [he, he2]
    · have hkm : k = m := by omega
      subst hkm
      have hnone : List.find? (fun e => e.1 == k) ((List.range k).map (fun i => (i, g i))) = none := by
        rw [List.find?_eq_none]
        intro e he
        simp only [List.mem_map, List.mem_range] at he
        obtain ⟨i, hi, rfl⟩ := he
        simp
        omega
      simp [hnone]

/-! ## Flow keys -/


theorem flowKey_eq (N P r f : Nat) (hNP : P * N ≤ 65536) (hr : r < P) (hf : f < N) :
    flowKey N r f = r * N + f := by
  have h1 : r * N + N ≤ P * N := by
    have : (r + 1) * N ≤ P * N := Nat.mul_le_mul_right N (by omega)
    rwa [Nat.succ_mul] at this
  have h2 : r ≤ r * N := Nat.le_mul_of_pos_right r (by omega)
  unfold flowKey u16
  rw [Nat.mod_eq_of_lt (by omega : r < 65536), Nat.mod_eq_of_lt (by omega : r * N < 65536),
    Nat.mod_eq_of_lt (by omega)]
  omega


theorem index_div (N r f : Nat) (hf : f < N) : (r * N + f) / N = r := by
  rw [Nat.add_comm, Nat.add_mul_div_right _ _ (by omega : 0 < N), Nat.div_eq_of_lt hf]
  omega


theorem index_mod (N r f : Nat) (hf : f < N) : (r * N + f) % N = f := by
  rw [Nat.add_comm, Nat.add_mul_mod_self_right, Nat.mod_eq_of_lt hf]

/-! ## The UDP engine -/


theorem udp_probeFlow_static (p : UDPProbe) (ev : ProbeEvents) (ttl round flowID : Nat) :
    (p.probeFlow ev ttl round flowID).FlowID = flowKey p.NumPaths round flowID ∧
    (p.probeFlow ev ttl round flowID).SrcPort = u16 (p.SrcPort + flowID) ∧
    (p.probeFlow ev ttl round flowID).DstPort = p.DstPort ∧
    (p.probeFlow ev ttl round flowID).SentTime = ev.sentTime := by
  unfold UDPProbe.probeFlow
  simp only
  split
  · exact ⟨rfl, rfl, rfl, rfl⟩
  · split
    · exact ⟨rfl, rfl, rfl, rfl⟩
    · split <;> split <;> (try split) <;> exact ⟨rfl, rfl, rfl, rfl⟩


theorem udp_probeHop_spec (p : UDPProbe) (hNP : p.ProbeCount * p.NumPaths ≤ 65536)
    (env : Env) (ttl n : Nat) (log : List (Nat × Nat)) :
    (p.probeHop env ttl ⟨GoMap.empty, n, log⟩).Flows.entries =
        (List.range (p.ProbeCount * p.NumPaths)).map (fun i => (i, p.hopRecord env ttl n i)) ∧
      (p.probeHop env ttl ⟨GoMap.empty, n, log⟩).next = n + p.ProbeCount * p.NumPaths ∧
      (p.probeHop env ttl ⟨GoMap.empty, n, log⟩).sent =
        log ++ (List.range (p.ProbeCount * p.NumPaths)).map (fun i => (ttl, i % p.NumPaths)) := by
  unfold UDPProbe.probeHop
  refine forRange_rounds_flows p.ProbeCount p.NumPaths
    (fun round flowID s =>
      ({ Flows := s.Flows.store (p.probeFlow (env.probe s.next) ttl round flowID).FlowID
            (p.probeFlow (env.probe s.next) ttl round flowID),
         next := s.next + 1, sent := s.sent ++ [(ttl, flowID)] } : HopRun))
    (fun m s => s.Flows.entries = (List.range m).map (fun i => (i, p.hopRecord env ttl n i)) ∧
      s.next = n + m ∧ s.sent = log ++ (List.range m).map (fun i => (ttl, i % p.NumPaths)))
    ⟨GoMap.empty, n, log⟩ ?_ ?_
  · simp [GoMap.empty]
  · intro r f s hr hf ⟨hF, hn, hs⟩
    have hkey : (p.probeFlow (env.probe s.next) ttl r f).FlowID = r * p.NumPaths + f := by
      rw [(udp_probeFlow_static p _ _ _ _).1]
      exact flowKey_eq _ _ _ _ hNP hr hf
    have hrec : p.probeFlow (env.probe s.next) ttl r f
        = p.hopRecord env ttl n (r * p.NumPaths + f) := by
      unfold UDPProbe.hopRecord
      rw [index_div _ _ _ hf, index_mod _ _ _ hf, hn]
    have hFlows : s.Flows = ⟨(List.range (r * p.NumPaths + f)).map
        (fun i => (i, p.hopRecord env ttl n i))⟩ := by
      cases hs' : s.Flows
      rw [hs'] at hF
      simp only at hF
      rw [hF]
    refine ⟨?_, ?_, ?_⟩
    · simp only
      rw [hkey, hFlows, goMap_store_fresh, List.range_succ, List.map_append, hrec]
      simp
    · simp only
      omega
    · simp only
      rw [hs, List.range_succ, List.map_append, List.append_assoc]
      simp [index_mod _ _ _ hf]

/-! ## Claims about the sniffer -/

theorem udp_run_succ (p : UDPProbe) (env : Env) (k : Nat) :
    p.run env (k + 1) = p.step env (p.run env k) := by
  unfold UDPProbe.run
  exact Function.iterate_succ_apply' _ _ _


/-- The states a run goes through satisfy every property that holds at the start and is kept
by one evaluation of the outer loop. -/
theorem udp_run_induction (p : UDPProbe) (env : Env) (I : UDPState → Prop)
    (h0 : I p.start) (hstep : ∀ st, I st → I (p.step env st)) (k : Nat) : I (p.run env k) := by
  induction k with
  | zero => exact h0
  | succ k ih => rw [udp_run_succ p]; exact hstep _ ih


/-- The hop stored by one evaluation of the outer loop, and the hops kept. -/
theorem udp_step_hops (p : UDPProbe) (env : Env) (st : UDPState) (hop : HopResult)
    (h : hop ∈ (p.step env st).Hops.values) :
    hop ∈ st.Hops.values ∨
      hop = { TTL := st.ttl,
              Flows := (p.probeHop env st.ttl ⟨GoMap.empty, st.next, st.sent⟩).Flows } := by
  unfold UDPProbe.step at h
  split at h
  · exact Or.inl h
  · split at h
    · simp only at h
      split at h
      · exact goMap_mem_values_store _ _ _ _ h
      · exact goMap_mem_values_store _ _ _ _ h
    · exact Or.inl h


/-- Every hop stored during a run is as the inner loops leave it. -/
theorem udp_run_hopOf (p : UDPProbe) (hNP : p.ProbeCount * p.NumPaths ≤ 65536)
    (env : Env) (k : Nat) : ∀ hop ∈ (p.run env k).Hops.values, p.HopOf env hop := by
  refine udp_run_induction p env (fun st => ∀ hop ∈ st.Hops.values, p.HopOf env hop) ?_ ?_ k
  · intro hop h
    simp [UDPProbe.start, GoMap.empty, GoMap.values] at h
  · intro st ih hop h
    rcases udp_step_hops p env st hop h with h | h
    · exact ih hop h
    · subst h
      exact ⟨st.next, (udp_probeHop_spec p hNP env st.ttl st.next st.sent).1⟩


theorem udp_count_le {p : UDPProbe} (hp : p.Valid) :
    p.ProbeCount * p.NumPaths ≤ 65536 := by
  obtain ⟨-, -, -, -, ⟨-, hN⟩, ⟨-, hP⟩, -⟩ := hp
  calc p.ProbeCount * p.NumPaths ≤ 10 * 256 := Nat.mul_le_mul hP hN
    _ ≤ 65536 := by norm_num


/-- The records of a hop left by the inner loops: each is the record of some round and flow. -/
theorem udp_hopOf_mem_values {p : UDPProbe} {env : Env} {hop : HopResult}
    (h : p.HopOf env hop) (hN : 0 < p.NumPaths) (flow : FlowResult)
    (hf : flow ∈ hop.Flows.values) :
    ∃ i round flowID, round < p.ProbeCount ∧ flowID < p.NumPaths ∧
      flow = p.probeFlow (env.probe i) hop.TTL round flowID := by
  obtain ⟨n, hn⟩ := h
  simp only [GoMap.values, hn, List.map_map, List.mem_map, List.mem_range,
    Function.comp_apply] at hf
  obtain ⟨i, hi, rfl⟩ := hf
  refine ⟨n + i, i / p.NumPaths, i % p.NumPaths, ?_, Nat.mod_lt _ hN, rfl⟩
  exact Nat.div_lt_of_lt_mul (by rwa [Nat.mul_comm] at hi)


theorem HopOf_len {M : Nat} {g : Nat → FlowResult} {flows : GoMap FlowResult}
    (h : flows.entries = (List.range M).map (fun i => (i, g i))) :
    flows.len = M ∧ flows.keys = List.range M ∧ flows.keys.Nodup ∧
      ∀ i, i < M → flows.lookup i = some (g i) := by
  refine ⟨?_, ?_, ?_, ?_⟩
  · simp [GoMap.len, h]
  · simp [GoMap.keys, h, List.map_map, Function.comp_def]
  · simp only [GoMap.keys, h, List.map_map, Function.comp_def, List.map_id']
    exact List.nodup_range M
  · intro i hi
    have := goMap_lookup_range M i g hi
    cases hfl : flows
    rw [hfl] at h
    simp only at h
    rw [h]
    exact this

/-! ## Runs of the TCP engine -/


theorem tcp_probeFlow_static (p : TCPProbe) (ev : ProbeEvents) (ttl round flowID : Nat) :
    (p.probeFlow ev ttl round flowID).1.FlowID = flowKey p.NumPaths round flowID ∧
    (p.probeFlow ev ttl round flowID).1.SrcPort = u16 (p.SrcPort + flowID) ∧
    (p.probeFlow ev ttl round flowID).1.DstPort = p.DstPort ∧
    (p.probeFlow ev ttl round flowID).1.SentTime = ev.sentTime := by
  unfold TCPProbe.probeFlow
  simp only
  split
  · exact ⟨rfl, rfl, rfl, rfl⟩
  · split
    · split <;> exact ⟨rfl, rfl, rfl, rfl⟩
    · exact ⟨rfl, rfl, rfl, rfl⟩


theorem tcp_probeHop_spec (p : TCPProbe) (hNP : p.ProbeCount * p.NumPaths ≤ 65536)
    (env : Env) (ttl n : Nat) (log : List (Nat × Nat)) (b : Bool) :
    (p.probeHop env ttl ⟨GoMap.empty, n, log, b⟩).Flows.entries =
        (List.range (p.ProbeCount * p.NumPaths)).map (fun i => (i, p.hopRecord env ttl n i)) ∧
      (p.probeHop env ttl ⟨GoMap.empty, n, log, b⟩).next = n + p.ProbeCount * p.NumPaths ∧
      (p.probeHop env ttl ⟨GoMap.empty, n, log, b⟩).sent =
        log ++ (List.range (p.ProbeCount * p.NumPaths)).map (fun i => (ttl, i % p.NumPaths)) ∧
      (p.probeHop env ttl ⟨GoMap.empty, n, log, b⟩).reachedTarget =
        (b || (List.range (p.ProbeCount * p.NumPaths)).any (fun i => p.hopHit env ttl n i)) := by
  unfold TCPProbe.probeHop
  refine forRange_rounds_flows p.ProbeCount p.NumPaths
    (fun round flowID s =>
      ({ Flows := s.Flows.store (p.probeFlow (env.probe s.next) ttl round flowID).1.FlowID
            (p.probeFlow (env.probe s.next) ttl round flowID).1,
         next := s.next + 1, sent := s.sent ++ [(ttl, flowID)],
         reachedTarget := s.reachedTarget || (p.probeFlow (env.probe s.next) ttl round flowID).2 }
        : TCPHopRun))
    (fun m s => s.Flows.entries = (List.range m).map (fun i => (i, p.hopRecord env ttl n i)) ∧
      s.next = n + m ∧ s.sent = log ++ (List.range m).map (fun i => (ttl, i % p.NumPaths)) ∧
      s.reachedTarget = (b || (List.range m).any (fun i => p.hopHit env ttl n i)))
    ⟨GoMap.empty, n, log, b⟩ ?_ ?_
  · simp [GoMap.empty]
  · intro r f s hr hf ⟨hF, hn, hs, hb⟩
    have hkey : (p.probeFlow (env.probe s.next) ttl r f).1.FlowID = r * p.NumPaths + f := by
      rw [(tcp_probeFlow_static p _ _ _ _).1]
      exact flowKey_eq _ _ _ _ hNP hr hf
    have hrec : (p.probeFlow (env.probe s.next) ttl r f).1
        = p.hopRecord env ttl n (r * p.NumPaths + f) := by
      unfold TCPProbe.hopRecord
      rw [index_div _ _ _ hf, index_mod _ _ _ hf, hn]
    have hhit : (p.probeFlow (env.probe s.next) ttl r f).2
        = p.hopHit env ttl n (r * p.NumPaths + f) := by
      unfold TCPProbe.hopHit
      rw [index_div _ _ _ hf, index_mod _ _ _ hf, hn]
    have hFlows : s.Flows = ⟨(List.range (r * p.NumPaths + f)).map
        (fun i => (i, p.hopRecord env ttl n i))⟩ := by
      cases hs' : s.Flows
      rw [hs'] at hF
      simp only at hF
      rw [hF]
    refine ⟨?_, ?_, ?_, ?_⟩
    · simp only
      rw [hkey, hFlows, goMap_store_fresh, List.range_succ, List.map_append, hrec]
      simp
    · simp only
      omega
    · simp only
      rw [hs, List.range_succ, List.map_append, List.append_assoc]
      simp [index_mod _ _ _ hf]
    · simp only
      rw [hb, hhit, List.range_succ, List.any_append]
      simp [Bool.or_assoc]


theorem tcp_run_succ (p : TCPProbe) (env : Env) (k : Nat) :
    p.run env (k + 1) = p.step env (p.run env k) := by
  unfold TCPProbe.run
  exact Function.iterate_succ_apply' _ _ _


/-- The states a run goes through satisfy every property that holds at the start and is kept
by one evaluation of the outer loop. -/
theorem tcp_run_induction (p : TCPProbe) (env : Env) (I : TCPState → Prop)
    (h0 : I p.start) (hstep : ∀ st, I st → I (p.step env st)) (k : Nat) : I (p.run env k) := by
  induction k with
  | zero => exact h0
  | succ k ih => rw [tcp_run_succ p]; exact hstep _ ih


/-- The hop stored by one evaluation of the outer loop, and the hops kept. -/
theorem tcp_step_hops (p : TCPProbe) (env : Env) (st : TCPState) (hop : HopResult)
    (h : hop ∈ (p.step env st).Hops.values) :
    hop ∈ st.Hops.values ∨
      hop = { TTL := st.ttl,
              Flows := (p.probeHop env st.ttl
                ⟨GoMap.empty, st.next, st.sent, st.reachedTarget⟩).Flows } := by
  unfold TCPProbe.step at h
  split at h
  · exact Or.inl h
  · split at h
    · simp only at h
      split at h
      · exact goMap_mem_values_store _ _ _ _ h
      · exact Or.inl h
    · exact Or.inl h


/-- Every hop stored during a run is as the inner loops leave it. -/
theorem tcp_run_hopOf (p : TCPProbe) (hNP : p.ProbeCount * p.NumPaths ≤ 65536)
    (env : Env) (k : Nat) : ∀ hop ∈ (p.run env k).Hops.values, p.HopOf env hop := by
  refine tcp_run_induction p env (fun st => ∀ hop ∈ st.Hops.values, p.HopOf env hop) ?_ ?_ k
  · intro hop h
    simp [TCPProbe.start, GoMap.empty, GoMap.values] at h
  · intro st ih hop h
    rcases tcp_step_hops p env st hop h with h | h
    · exact ih hop h
    · subst h
      exact ⟨st.next, (tcp_probeHop_spec p hNP env st.ttl st.next st.sent st.reachedTarget).1⟩


theorem tcp_count_le {p : TCPProbe} (hp : p.Valid) :
    p.ProbeCount * p.NumPaths ≤ 65536 := by
  obtain ⟨-, -, -, -, ⟨-, hN⟩, ⟨-, hP⟩, -⟩ := hp
  calc p.ProbeCount * p.NumPaths ≤ 10 * 256 := Nat.mul_le_mul hP hN
    _ ≤ 65536 := by norm_num


/-- The records of a hop left by the inner loops: each is the record of some round and flow. -/
theorem tcp_hopOf_mem_values {p : TCPProbe} {env : Env} {hop : HopResult}
    (h : p.HopOf env hop) (hN : 0 < p.NumPaths) (flow : FlowResult)
    (hf : flow ∈ hop.Flows.values) :
    ∃ i round flowID, round < p.ProbeCount ∧ flowID < p.NumPaths ∧
      flow = (p.probeFlow (env.probe i) hop.TTL round flowID).1 := by
  obtain ⟨n, hn⟩ := h
  simp only [GoMap.values, hn, List.map_map, List.mem_map, List.mem_range,
    Function.comp_apply] at hf
  obtain ⟨i, hi, rfl⟩ := hf
  refine ⟨n + i, i / p.NumPaths, i % p.NumPaths, ?_, Nat.mod_lt _ hN, rfl⟩
  exact Nat.div_lt_of_lt_mul (by rwa [Nat.mul_comm] at hi)

/-! ## Probe records -/

theorem length_append_ne_zero (a b : String) (h : a.length ≠ 0) : (a ++ b).length ≠ 0 := by
  rw [String.length_append]
  omega


theorem ne_empty_of_length_ne_zero (a : String) (h : a.length ≠ 0) : a ≠ "" := by
  intro e
  rw [e] at h
  exact h rfl


/-- The error message of a failed `UDPProbe.sendProbe` is not empty. -/
theorem udp_sendProbe_ne_empty (p : UDPProbe) (ev : ProbeEvents) (ttl flowID : Nat)
    (err : String) (h : p.sendProbe ev ttl flowID = some err) : err ≠ "" := by
  unfold UDPProbe.sendProbe at h
  simp only at h
  split at h
  · simp only [Option.some.injEq] at h
    subst h
    apply ne_empty_of_length_ne_zero
    repeat apply length_append_ne_zero
    decide
  · simp at h


/-- The error message of a failed `TCPProbe.sendProbe` is not empty. -/
theorem tcp_sendProbe_ne_empty (p : TCPProbe) (ev : ProbeEvents) (ttl flowID : Nat)
    (err : String) (h : p.sendProbe ev ttl flowID = some err) : err ≠ "" := by
  unfold TCPProbe.sendProbe at h
  split at h
  · simp only [Option.some.injEq] at h
    subst h
    apply ne_empty_of_length_ne_zero
    apply length_append_ne_zero
    decide
  · simp at h


theorem udp_sendProbe_eq_none (p : UDPProbe) (ev : ProbeEvents) (ttl flowID : Nat) :
    p.sendProbe ev ttl flowID = none ↔ ev.sendErr = none := by
  unfold UDPProbe.sendProbe
  simp only
  split <;> simp_all


theorem tcp_sendProbe_eq_none (p : TCPProbe) (ev : ProbeEvents) (ttl flowID : Nat) :
    p.sendProbe ev ttl flowID = none ↔ ev.sendErr = none := by
  unfold TCPProbe.sendProbe
  split <;> simp_all


theorem time_sub_eq (t u : Time) (h1 : u ≤ t) (h2 : t < 2 ^ 63) :
    Time.Sub t u = (t : Int) - (u : Int) := by
  unfold Time.Sub maxDuration minDuration
  have h3 : (t : Int) < 9223372036854775808 := by exact_mod_cast h2
  have h4 : (u : Int) ≤ (t : Int) := by exact_mod_cast h1
  have h5 : (0 : Int) ≤ (u : Int) := Int.natCast_nonneg u
  have e : (2 : Int) ^ 63 = 9223372036854775808 := by norm_num
  simp only [e]
  split_ifs <;> first | rfl | omega


/-- Whether the probe with events `ev` is answered: it is sent and the sniffer returns a
frame. -/
theorem udp_probeFlow_outcome (p : UDPProbe) (ev : ProbeEvents) (ttl round flowID : Nat) :
    (ev.sendErr = none ∧
      (∃ packet addr, CaptureICMPResponse p.SrcIP p.Target 0 ev.captured = .ok (packet, addr) ∧
        (p.probeFlow ev ttl round flowID).ResponseIP = addr.str) ∧
      (p.probeFlow ev ttl round flowID).Error = "" ∧
      (p.probeFlow ev ttl round flowID).RecvTime = ev.recvTime ∧
      (p.probeFlow ev ttl round flowID).RTT = Time.Sub ev.recvTime ev.sentTime) ∨
    ((ev.sendErr ≠ none ∨
        ∃ e, CaptureICMPResponse p.SrcIP p.Target 0 ev.captured = .error e) ∧
      (p.probeFlow ev ttl round flowID).Error ≠ "" ∧
      (ev.sendErr = none → (p.probeFlow ev ttl round flowID).Error = "timeout") ∧
      (p.probeFlow ev ttl round flowID).RecvTime = 0 ∧
      (p.probeFlow ev ttl round flowID).RTT = 0 ∧
      (p.probeFlow ev ttl round flowID).ResponseIP = "") := by
  unfold UDPProbe.probeFlow
  simp only
  split
  · rename_i err herr
    right
    have hne := udp_sendProbe_ne_empty p ev ttl flowID err herr
    have hs : ev.sendErr ≠ none := by
      intro h
      rw [(udp_sendProbe_eq_none p ev ttl flowID).2 h] at herr
      simp at herr
    exact ⟨Or.inl hs, hne, fun h => absurd h hs, rfl, rfl, rfl⟩
  · rename_i hnone
    have hs : ev.sendErr = none := (udp_sendProbe_eq_none p ev ttl flowID).1 hnone
    split
    · rename_i e hcap
      right
      exact ⟨Or.inr ⟨e, hcap⟩, (by decide : "timeout" ≠ ""), fun _ => rfl, rfl, rfl, rfl⟩
    · rename_i packet addr hcap
      left
      refine ⟨hs, ⟨packet, addr, hcap, ?_⟩, ?_, ?_, ?_⟩ <;>
        (split <;> split <;> (try split) <;> rfl)


theorem tcp_probeFlow_outcome (p : TCPProbe) (ev : ProbeEvents) (ttl round flowID : Nat) :
    (ev.sendErr = none ∧
      (∃ packet addr, CaptureICMPResponse p.SrcIP p.Target 0 ev.captured = .ok (packet, addr) ∧
        (p.probeFlow ev ttl round flowID).1.ResponseIP = addr.str ∧
        (p.probeFlow ev ttl round flowID).2 = addr.Equal p.Target) ∧
      (p.probeFlow ev ttl round flowID).1.Error = "" ∧
      (p.probeFlow ev ttl round flowID).1.RecvTime = ev.recvTime ∧
      (p.probeFlow ev ttl round flowID).1.RTT = Time.Sub ev.recvTime ev.sentTime) ∨
    ((ev.sendErr ≠ none ∨
        ∃ e, CaptureICMPResponse p.SrcIP p.Target 0 ev.captured = .error e) ∧
      (p.probeFlow ev ttl round flowID).1.Error ≠ "" ∧
      (ev.sendErr = none → (p.probeFlow ev ttl round flowID).1.Error = "timeout") ∧
      (p.probeFlow ev ttl round flowID).1.RecvTime = 0 ∧
      (p.probeFlow ev ttl round flowID).1.RTT = 0 ∧
      (p.probeFlow ev ttl round flowID).1.ResponseIP = "" ∧
      (p.probeFlow ev ttl round flowID).2 = false) := by
  unfold TCPProbe.probeFlow
  simp only
  split
  · rename_i err herr
    right
    have hne := tcp_sendProbe_ne_empty p ev ttl flowID err herr
    have hs : ev.sendErr ≠ none := by
      intro h
      rw [(tcp_sendProbe_eq_none p ev ttl flowID).2 h] at herr
      simp at herr
    exact ⟨Or.inl hs, hne, fun h => absurd h hs, rfl, rfl, rfl, rfl⟩
  · rename_i hnone
    have hs : ev.sendErr = none := (tcp_sendProbe_eq_none p ev ttl flowID).1 hnone
    split
    · rename_i packet addr hcap
      left
      refine ⟨hs, ⟨packet, addr, hcap, ?_, rfl⟩, ?_, ?_, ?_⟩ <;> (split <;> rfl)
    · rename_i e hcap
      right
      exact ⟨Or.inr ⟨e, hcap⟩, (by decide : "timeout" ≠ ""), fun _ => rfl, rfl, rfl, rfl, rfl⟩


/-- Whatever the parameters, every record the inner loops store is the record of a probe. -/
theorem udp_probeHop_records (p : UDPProbe) (env : Env) (ttl n : Nat)
    (log : List (Nat × Nat)) :
    ∀ flow ∈ (p.probeHop env ttl ⟨GoMap.empty, n, log⟩).Flows.values,
      ∃ i round flowID, flow = p.probeFlow (env.probe i) ttl round flowID := by
  unfold UDPProbe.probeHop
  refine forRange_rounds_flows p.ProbeCount p.NumPaths
    (fun round flowID s =>
      ({ Flows := s.Flows.store (p.probeFlow (env.probe s.next) ttl round flowID).FlowID
            (p.probeFlow (env.probe s.next) ttl round flowID),
         next := s.next + 1, sent := s.sent ++ [(ttl, flowID)] } : HopRun))
    (fun _ s => ∀ flow ∈ s.Flows.values,
      ∃ i round flowID, flow = p.probeFlow (env.probe i) ttl round flowID)
    ⟨GoMap.empty, n, log⟩ ?_ ?_
  · intro flow h
    simp [GoMap.empty, GoMap.values] at h
  · intro r f s _ _ ih flow h
    rcases goMap_mem_values_store _ _ _ _ h with h | h
    · exact ih flow h
    · exact ⟨s.next, r, f, h⟩


theorem tcp_probeHop_records (p : TCPProbe) (env : Env) (ttl n : Nat)
    (log : List (Nat × Nat)) (b : Bool) :
    ∀ flow ∈ (p.probeHop env ttl ⟨GoMap.empty, n, log, b⟩).Flows.values,
      ∃ i round flowID, flow = (p.probeFlow (env.probe i) ttl round flowID).1 := by
  unfold TCPProbe.probeHop
  refine forRange_rounds_flows p.ProbeCount p.NumPaths
    (fun round flowID s =>
      ({ Flows := s.Flows.store (p.probeFlow (env.probe s.next) ttl round flowID).1.FlowID
            (p.probeFlow (env.probe s.next) ttl round flowID).1,
         next := s.next + 1, sent := s.sent ++ [(ttl, flowID)],
         reachedTarget := s.reachedTarget || (p.probeFlow (env.probe s.next) ttl round flowID).2 }
        : TCPHopRun))
    (fun _ s => ∀ flow ∈ s.Flows.values,
      ∃ i round flowID, flow = (p.probeFlow (env.probe i) ttl round flowID).1)
    ⟨GoMap.empty, n, log, b⟩ ?_ ?_
  · intro flow h
    simp [GoMap.empty, GoMap.values] at h
  · intro r f s _ _ ih flow h
    rcases goMap_mem_values_store _ _ _ _ h with h | h
    · exact ih flow h
    · exact ⟨s.next, r, f, h⟩


/-- Every record held by a state of a UDP run is the record of a probe of the run. -/
theorem udp_run_records (p : UDPProbe) (env : Env) (k : Nat) :
    ∀ hop ∈ (p.run env k).Hops.values, ∀ flow ∈ hop.Flows.values,
      ∃ i round flowID, flow = p.probeFlow (env.probe i) hop.TTL round flowID := by
  refine udp_run_induction p env (fun st => ∀ hop ∈ st.Hops.values, ∀ flow ∈ hop.Flows.values,
      ∃ i round flowID, flow = p.probeFlow (env.probe i) hop.TTL round flowID) ?_ ?_ k
  · intro hop h
    simp [UDPProbe.start, GoMap.empty, GoMap.values] at h
  · intro st ih hop h
    rcases udp_step_hops p env st hop h with h | h
    · exact ih hop h
    · subst h
      exact udp_probeHop_records p env st.ttl st.next st.sent


/-- Every record held by a state of a TCP run is the record of a probe of the run. -/
theorem tcp_run_records (p : TCPProbe) (env : Env) (k : Nat) :
    ∀ hop ∈ (p.run env k).Hops.values, ∀ flow ∈ hop.Flows.values,
      ∃ i round flowID, flow = (p.probeFlow (env.probe i) hop.TTL round flowID).1 := by
  refine tcp_run_induction p env (fun st => ∀ hop ∈ st.Hops.values, ∀ flow ∈ hop.Flows.values,
      ∃ i round flowID, flow = (p.probeFlow (env.probe i) hop.TTL round flowID).1) ?_ ?_ k
  · intro hop h
    simp [TCPProbe.start, GoMap.empty, GoMap.values] at h
  · intro st ih hop h
    rcases tcp_step_hops p env st hop h with h | h
    · exact ih hop h
    · subst h
      exact tcp_probeHop_records p env st.ttl st.next st.sent st.reachedTarget


/-- In 16-bit arithmetic the keys of distinct (round, flow) pairs are distinct as long as
`ProbeCount * NumPaths` does not exceed `65536`. -/
theorem flowKey_injective (N P : Nat) (hNP : P * N ≤ 65536) (r f r' f' : Nat)
    (hr : r < P) (hf : f < N) (hr' : r' < P) (hf' : f' < N)
    (h : flowKey N r f = flowKey N r' f') : r = r' ∧ f = f' := by
  rw [flowKey_eq N P r f hNP hr hf, flowKey_eq N P r' f' hNP hr' hf'] at h
  have h1 := congrArg (fun x => x / N) h
  have h2 := congrArg (fun x => x % N) h
  simp only [index_div _ _ _ hf, index_div _ _ _ hf', index_mod _ _ _ hf,
    index_mod _ _ _ hf'] at h1 h2
  exact ⟨h1, h2⟩


/-- What a hop left by the inner loops holds, in terms of the parameters. -/
theorem hop_complete (N P : Nat) (hNP : P * N ≤ 65536) (g : Nat → FlowResult)
    (hg : ∀ i, i < P * N → (g i).FlowID = i) (flows : GoMap FlowResult)
    (h : flows.entries = (List.range (P * N)).map (fun i => (i, g i))) :
    flows.len = N * P ∧ flows.keys.Nodup ∧
      ∀ r f, r < P → f < N →
        ∃ flow, flows.lookup (flowKey N r f) = some flow ∧ flow.FlowID = flowKey N r f := by
  obtain ⟨h1, -, h3, h4⟩ := HopOf_len h
  refine ⟨by rw [h1, Nat.mul_comm], h3, ?_⟩
  intro r f hr hf
  have hlt : r * N + f < P * N := by
    have : (r + 1) * N ≤ P * N := Nat.mul_le_mul_right N (by omega)
    rw [Nat.succ_mul] at this
    omega
  rw [flowKey_eq N P r f hNP hr hf]
  exact ⟨g (r * N + f), h4 _ hlt, hg _ hlt⟩

/-! ## Claims about the records of a run -/

/-! ## Claims about the sniffer -/

/-- C5, as the code has it: `CaptureICMPResponse(srcIP, dstIP, expectedType)` returns a frame
only if it was captured and its ICMPv4 type is Time Exceeded, Destination Unreachable or Echo
Reply; for Time Exceeded only if the quoted inner IP header has source `srcIP` and destination
`dstIP`; for Destination Unreachable and Echo Reply only if the destination of the outer IP
header is `srcIP` (the quoted header is not read). The returned address is the outer source. -/
theorem capture_returns_only_matching_frames (srcIP dstIP : IPv4Addr) (expectedType : Nat)
    (events : List Captured) (packet : Packet) (addr : IPv4Addr)
    (h : CaptureICMPResponse srcIP dstIP expectedType events = .ok (packet, addr)) :
    (∃ late, ⟨some packet, late⟩ ∈ events) ∧
    ∃ icmp ip, packet.icmpv4 = some icmp ∧ packet.ipv4 = some ip ∧ addr = ip.SrcIP ∧
      ((icmp.Type = ICMPv4TypeTimeExceeded ∧
          ∃ embeddedIP, IPv4.DecodeFromBytes icmp.Payload = some embeddedIP ∧
            embeddedIP.SrcIP = srcIP ∧ embeddedIP.DstIP = dstIP) ∨
        ((icmp.Type = ICMPv4TypeDestinationUnreachable ∨ icmp.Type = ICMPv4TypeEchoReply) ∧
          ip.DstIP = srcIP)) :=
  CaptureICMPResponse_ok srcIP dstIP expectedType events packet addr h


/-- Witness of C5: the Time Exceeded reply to a probe of the run is returned, and it quotes
the addresses of the run. -/
theorem capture_returns_only_matching_frames_witness :
    CaptureICMPResponse Scenario.localIP Scenario.targetIP 0
        [⟨some Scenario.timeExceededFlow0, false⟩]
      = .ok (Scenario.timeExceededFlow0, Scenario.routerIP) ∧
    ((∃ late, ⟨some Scenario.timeExceededFlow0, late⟩ ∈
        [(⟨some Scenario.timeExceededFlow0, false⟩ : Captured)]) ∧
    ∃ icmp ip, Scenario.timeExceededFlow0.icmpv4 = some icmp ∧
      Scenario.timeExceededFlow0.ipv4 = some ip ∧ Scenario.routerIP = ip.SrcIP ∧
      ((icmp.Type = ICMPv4TypeTimeExceeded ∧
          ∃ embeddedIP, IPv4.DecodeFromBytes icmp.Payload = some embeddedIP ∧
            embeddedIP.SrcIP = Scenario.localIP ∧ embeddedIP.DstIP = Scenario.targetIP) ∨
        ((icmp.Type = ICMPv4TypeDestinationUnreachable ∨ icmp.Type = ICMPv4TypeEchoReply) ∧
          ip.DstIP = Scenario.localIP))) :=
  ⟨rfl, capture_returns_only_matching_frames Scenario.localIP Scenario.targetIP 0
    [⟨some Scenario.timeExceededFlow0, false⟩] Scenario.timeExceededFlow0 Scenario.routerIP rfl⟩


/-- Counterexample to C5 as stated: a Destination Unreachable message addressed to the local
host is returned although the header it quotes names another destination than `dstIP`. -/
theorem capture_returns_unreachable_quoting_other_destination :
    ¬ ∀ (srcIP dstIP : IPv4Addr) (events : List Captured) (packet : Packet) (addr : IPv4Addr),
      CaptureICMPResponse srcIP dstIP 0 events = .ok (packet, addr) →
      ∃ icmp, packet.icmpv4 = some icmp ∧
        (icmp.Type = ICMPv4TypeTimeExceeded ∨ icmp.Type = ICMPv4TypeDestinationUnreachable ∨
          icmp.Type = ICMPv4TypeEchoReply) ∧
        (icmp.Type = ICMPv4TypeTimeExceeded ∨ icmp.Type = ICMPv4TypeDestinationUnreachable →
          ∃ embeddedIP, IPv4.DecodeFromBytes icmp.Payload = some embeddedIP ∧
            embeddedIP.SrcIP = srcIP ∧ embeddedIP.DstIP = dstIP) := by
  intro h
  have hret : CaptureICMPResponse Scenario.localIP Scenario.targetIP 0
      [⟨some Scenario.foreignUnreachable, false⟩]
        = .ok (Scenario.foreignUnreachable, Scenario.routerIP) := rfl
  obtain ⟨icmp, hicmp, -, hq⟩ := h _ _ _ _ _ hret
  have hi : icmp = { TypeCode := 3 * 256 + 3, Payload := Scenario.foreignDatagram.take 28 } := by
    simp only [Scenario.foreignUnreachable, Option.some.injEq] at hicmp
    exact hicmp.symm
  subst hi
  obtain ⟨emb, hemb, -, hdst⟩ := hq (Or.inr (by decide))
  have hdec : (IPv4.DecodeFromBytes (Scenario.foreignDatagram.take 28)).map (fun e => e.DstIP)
      = some Scenario.otherIP := by decide
  simp only at hemb
  rw [hemb] at hdec
  simp only [Option.map_some', Option.some.injEq] at hdec
  rw [hdst] at hdec
  exact absurd hdec (by decide)


/-- Decoding the quoted start of a probe built by `craftUDPPacket` gives back the addresses
and the TTL of the probe. -/
theorem decode_quoted_probe (p : UDPProbe) (ttl flowID : Nat) (more : List Nat) :
    ∃ emb, IPv4.DecodeFromBytes ((p.craftUDPPacket ttl flowID).take 28 ++ more) = some emb ∧
      emb.SrcIP = p.SrcIP ∧ emb.DstIP = p.Target ∧ emb.TTL = ttl := by
  have h : ∃ c0 c1 u0 u1 u2 u3 u4 u5 u6 u7,
      (p.craftUDPPacket ttl flowID).take 28 =
        [69, 0, 0, 36, flowID / 256, flowID % 256, 64, 0, ttl, 17, c0, c1,
          p.SrcIP.b0, p.SrcIP.b1, p.SrcIP.b2, p.SrcIP.b3,
          p.Target.b0, p.Target.b1, p.Target.b2, p.Target.b3,
          u0, u1, u2, u3, u4, u5, u6, u7] := by
    simp [UDPProbe.craftUDPPacket, udpPayload, u16]
  obtain ⟨c0, c1, u0, u1, u2, u3, u4, u5, u6, u7, h⟩ := h
  rw [h]
  simp [IPv4.DecodeFromBytes, u16, ipv4OptionsOK]


/-- C6, as the code has it: a Time Exceeded frame whose quoted inner packet is the probe built
for (`t`, `k`) is returned by the match primitive to whichever probe of the run is being
awaited when the frame is read. The primitive is called with the addresses of the run only,
which all probes share, so the frame is recorded as the reply of the awaited probe
(`t'`, round `r'`, flow `k'`) whatever `t'` and `k'` are. -/
theorem quoted_probe_is_reply_of_awaited_probe (p : UDPProbe) (t k : Nat) (outer : IPv4)
    (more : List Nat) (late : Bool) (rest : List Captured) (sentTime recvTime : Time)
    (names : List String) (t' r' k' : Nat) :
    CaptureICMPResponse p.SrcIP p.Target 0
        (⟨some (timeExceededQuoting outer (p.craftUDPPacket t k) more), late⟩ :: rest)
      = .ok (timeExceededQuoting outer (p.craftUDPPacket t k) more, outer.SrcIP) ∧
    (p.probeFlow
        { sentTime := sentTime, sendErr := none,
          captured := ⟨some (timeExceededQuoting outer (p.craftUDPPacket t k) more), late⟩ :: rest,
          recvTime := recvTime, names := names } t' r' k').ResponseIP = outer.SrcIP.str ∧
    (p.probeFlow
        { sentTime := sentTime, sendErr := none,
          captured := ⟨some (timeExceededQuoting outer (p.craftUDPPacket t k) more), late⟩ :: rest,
          recvTime := recvTime, names := names } t' r' k').Error = "" := by
  obtain ⟨emb, hemb, hsrc, hdst, -⟩ := decode_quoted_probe p t k more
  have hlen : ¬ ((p.craftUDPPacket t k).take 28 ++ more).length < 20 := by
    have h36 : (p.craftUDPPacket t k).length = 36 := by
      simp [UDPProbe.craftUDPPacket, udpPayload]
    rw [List.length_append, List.length_take, h36]
    omega
  have hcap : CaptureICMPResponse p.SrcIP p.Target 0
        (⟨some (timeExceededQuoting outer (p.craftUDPPacket t k) more), late⟩ :: rest)
      = .ok (timeExceededQuoting outer (p.craftUDPPacket t k) more, outer.SrcIP) := by
    have hty : (⟨11 * 256, (p.craftUDPPacket t k).take 28 ++ more⟩ : ICMPv4).Type
        = ICMPv4TypeTimeExceeded := by
      simp only [ICMPv4.Type, ICMPv4TypeTimeExceeded, u8]
    unfold CaptureICMPResponse
    simp only [timeExceededQuoting, hty, hemb, hsrc, hdst, IPv4Addr.Equal, if_neg hlen,
      bne_self_eq_false, Bool.false_and, Bool.false_eq_true, if_false, beq_self_eq_true,
      if_true, decide_True, Bool.and_self]
  refine ⟨hcap, ?_⟩
  rcases udp_probeFlow_outcome p
      { sentTime := sentTime, sendErr := none,
        captured := ⟨some (timeExceededQuoting outer (p.craftUDPPacket t k) more), late⟩ :: rest,
        recvTime := recvTime, names := names } t' r' k' with
    ⟨-, ⟨packet, addr, hc, hip⟩, herr, -⟩ | ⟨hcause, -⟩
  · simp only at hc
    rw [hcap] at hc
    simp only [Except.ok.injEq, Prod.mk.injEq] at hc
    rw [hc.2]
    exact ⟨hip, herr⟩
  · rcases hcause with h | ⟨e, he⟩
    · exact absurd rfl h
    · simp only at he
      rw [hcap] at he
      simp at he


/-- Counterexample to C6 as stated: while the engine awaits the reply to the probe of flow 1,
the Time Exceeded frame that quotes the probe of flow 0 is accepted as its reply. -/
theorem reply_to_flow0_accepted_for_flow1 :
    ¬ ∀ (p : UDPProbe) (t k k' : Nat) (outer : IPv4) (ev : ProbeEvents), k' ≠ k →
      ev.sendErr = none →
      ev.captured = [⟨some (timeExceededQuoting outer (p.craftUDPPacket t k) []), false⟩] →
      (p.probeFlow ev t 0 k').Error ≠ "" := by
  intro h
  exact h Scenario.twoFlows 1 0 1 (Scenario.outerHeader Scenario.routerIP)
    Scenario.lateReplyOfFlow0 (by decide) rfl rfl (by decide)

/-! ## Runs of the UDP engine -/

/-! ## Claims about the records of a run -/
/-- C2: for validated parameters the 16-bit keys `flowKey NumPaths r f` of the probes of a hop
are pairwise distinct, and every hop stored at any moment of a UDP or TCP run holds exactly
`NumPaths * ProbeCount` records, one under the key of every round and flow. -/
theorem hops_hold_one_record_per_probe (p : UDPProbe) (q : TCPProbe) (hp : p.Valid)
    (hq : q.Valid) (env : Env) (k : Nat) :
    (∀ r f r' f', r < p.ProbeCount → f < p.NumPaths → r' < p.ProbeCount → f' < p.NumPaths →
      flowKey p.NumPaths r f = flowKey p.NumPaths r' f' → r = r' ∧ f = f') ∧
    (∀ hop ∈ (p.run env k).Hops.values,
      hop.Flows.len = p.NumPaths * p.ProbeCount ∧ hop.Flows.keys.Nodup ∧
      ∀ r f, r < p.ProbeCount → f < p.NumPaths →
        ∃ flow, hop.Flows.lookup (flowKey p.NumPaths r f) = some flow ∧
          flow.FlowID = flowKey p.NumPaths r f) ∧
    (∀ r f r' f', r < q.ProbeCount → f < q.NumPaths → r' < q.ProbeCount → f' < q.NumPaths →
      flowKey q.NumPaths r f = flowKey q.NumPaths r' f' → r = r' ∧ f = f') ∧
    (∀ hop ∈ (q.run env k).Hops.values,
      hop.Flows.len = q.NumPaths * q.ProbeCount ∧ hop.Flows.keys.Nodup ∧
      ∀ r f, r < q.ProbeCount → f < q.NumPaths →
        ∃ flow, hop.Flows.lookup (flowKey q.NumPaths r f) = some flow ∧
          flow.FlowID = flowKey q.NumPaths r f) := by
  have hpc := udp_count_le hp
  have hqc := tcp_count_le hq
  refine ⟨?_, ?_, ?_, ?_⟩
  · intro r f r' f' hr hf hr' hf' h
    exact flowKey_injective _ _ hpc r f r' f' hr hf hr' hf' h
  · intro hop hmem
    obtain ⟨n, hn⟩ := udp_run_hopOf p hpc env k hop hmem
    refine hop_complete p.NumPaths p.ProbeCount hpc _ ?_ hop.Flows hn
    intro i hi
    have hN : 0 < p.NumPaths := hp.2.2.2.2.1.1
    unfold UDPProbe.hopRecord
    rw [(udp_probeFlow_static p _ _ _ _).1,
      flowKey_eq _ _ _ _ hpc (Nat.div_lt_of_lt_mul (by rwa [Nat.mul_comm] at hi))
        (Nat.mod_lt _ hN)]
    exact Nat.div_add_mod' i p.NumPaths
  · intro r f r' f' hr hf hr' hf' h
    exact flowKey_injective _ _ hqc r f r' f' hr hf hr' hf' h
  · intro hop hmem
    obtain ⟨n, hn⟩ := tcp_run_hopOf q hqc env k hop hmem
    refine hop_complete q.NumPaths q.ProbeCount hqc _ ?_ hop.Flows hn
    intro i hi
    have hN : 0 < q.NumPaths := hq.2.2.2.2.1.1
    unfold TCPProbe.hopRecord
    rw [(tcp_probeFlow_static q _ _ _ _).1,
      flowKey_eq _ _ _ _ hqc (Nat.div_lt_of_lt_mul (by rwa [Nat.mul_comm] at hi))
        (Nat.mod_lt _ hN)]
    exact Nat.div_add_mod' i q.NumPaths


/-- Witness of C2: both engines, two flows and one round, run for two evaluations of the outer
loop against a late reply. -/
theorem hops_hold_one_record_per_probe_witness :
    Scenario.twoFlows.Valid ∧ Scenario.tcpTwoFlows.Valid ∧
    (Scenario.twoFlows.run Scenario.lateReply 2).Hops.keys = [1] ∧
    (∀ hop ∈ (Scenario.twoFlows.run Scenario.lateReply 2).Hops.values, hop.Flows.len = 2 * 1) ∧
    (∀ hop ∈ (Scenario.tcpTwoFlows.run Scenario.lateReply 2).Hops.values,
      hop.Flows.len = 2 * 1) :=
  ⟨by decide, by decide, by decide,
    fun hop h => ((hops_hold_one_record_per_probe Scenario.twoFlows Scenario.tcpTwoFlows
      (by decide) (by decide) Scenario.lateReply 2).2.1 hop h).1,
    fun hop h => ((hops_hold_one_record_per_probe Scenario.twoFlows Scenario.tcpTwoFlows
      (by decide) (by decide) Scenario.lateReply 2).2.2.2 hop h).1⟩


/-- The source ports of a hop left by the inner loops are the `NumPaths` ports from the base
port on. -/
theorem hop_ports (N P base : Nat) (hN : 0 < N) (hP : 0 < P) (g : Nat → FlowResult)
    (hg : ∀ i, i < P * N → (g i).SrcPort = base + i % N) (flows : GoMap FlowResult)
    (h : flows.entries = (List.range (P * N)).map (fun i => (i, g i))) :
    (flows.values.map (fun flow => flow.SrcPort)).toFinset.card = N := by
  have hset : (flows.values.map (fun flow => flow.SrcPort)).toFinset
      = (Finset.range N).image (fun f => base + f) := by
    ext x
    simp only [GoMap.values, h, List.map_map, List.mem_toFinset, List.mem_map, List.mem_range,
      Function.comp_apply, Finset.mem_image, Finset.mem_range]
    constructor
    · rintro ⟨i, hi, rfl⟩
      exact ⟨i % N, Nat.mod_lt _ hN, (hg i hi).symm⟩
    · rintro ⟨f, hf, rfl⟩
      have hlt : f < P * N := lt_of_lt_of_le hf (Nat.le_mul_of_pos_left N hP)
      refine ⟨f, hlt, ?_⟩
      rw [hg f hlt, Nat.mod_eq_of_lt hf]
  rw [hset, Finset.card_image_of_injective _ (fun a b hab => by simpa using hab),
    Finset.card_range]


/-- C4: for validated parameters every record of every hop stored at any moment of a UDP or
TCP run has `SrcPort = BaseSrcPort + FlowID mod NumPaths` as an equation between integers, the
sum staying within 16 bits, and the records of a hop use exactly `NumPaths` distinct source
ports. -/
theorem records_use_base_port_plus_flow (p : UDPProbe) (q : TCPProbe) (hp : p.Valid)
    (hq : q.Valid) (env : Env) (k : Nat) :
    (∀ hop ∈ (p.run env k).Hops.values,
      (∀ flow ∈ hop.Flows.values,
        flow.SrcPort = p.SrcPort + flow.FlowID % p.NumPaths ∧
          p.SrcPort + flow.FlowID % p.NumPaths ≤ 65535) ∧
      (hop.Flows.values.map (fun flow => flow.SrcPort)).toFinset.card = p.NumPaths) ∧
    (∀ hop ∈ (q.run env k).Hops.values,
      (∀ flow ∈ hop.Flows.values,
        flow.SrcPort = q.SrcPort + flow.FlowID % q.NumPaths ∧
          q.SrcPort + flow.FlowID % q.NumPaths ≤ 65535) ∧
      (hop.Flows.values.map (fun flow => flow.SrcPort)).toFinset.card = q.NumPaths) := by
  have hpc := udp_count_le hp
  have hqc := tcp_count_le hq
  constructor
  · obtain ⟨-, -, -, -, ⟨hN, -⟩, ⟨hP, -⟩, hport⟩ := hp
    have key : ∀ ev ttl r f, r < p.ProbeCount → f < p.NumPaths →
        (p.probeFlow ev ttl r f).SrcPort = p.SrcPort + (p.probeFlow ev ttl r f).FlowID % p.NumPaths
          ∧ p.SrcPort + (p.probeFlow ev ttl r f).FlowID % p.NumPaths ≤ 65535 := by
      intro ev ttl r f hr hf
      obtain ⟨h1, h2, -, -⟩ := udp_probeFlow_static p ev ttl r f
      rw [h1, h2, flowKey_eq _ _ _ _ hpc hr hf, index_mod _ _ _ hf]
      unfold u16
      constructor
      · exact Nat.mod_eq_of_lt (by omega)
      · omega
    intro hop hmem
    have hof := udp_run_hopOf p hpc env k hop hmem
    constructor
    · intro flow hflow
      obtain ⟨i, r, f, hr, hf, rfl⟩ := udp_hopOf_mem_values hof hN flow hflow
      exact key _ _ r f hr hf
    · obtain ⟨n, hn⟩ := hof
      refine hop_ports p.NumPaths p.ProbeCount p.SrcPort hN hP _ ?_ hop.Flows hn
      intro i hi
      have hr : i / p.NumPaths < p.ProbeCount :=
        Nat.div_lt_of_lt_mul (by rwa [Nat.mul_comm] at hi)
      have hf : i % p.NumPaths < p.NumPaths := Nat.mod_lt _ hN
      have := (key (env.probe (n + i)) hop.TTL _ _ hr hf).1
      unfold UDPProbe.hopRecord
      rw [this, (udp_probeFlow_static p _ _ _ _).1, flowKey_eq _ _ _ _ hpc hr hf,
        index_mod _ _ _ hf]
  · obtain ⟨-, -, -, -, ⟨hN, -⟩, ⟨hP, -⟩, hport⟩ := hq
    have key : ∀ ev ttl r f, r < q.ProbeCount → f < q.NumPaths →
        (q.probeFlow ev ttl r f).1.SrcPort
            = q.SrcPort + (q.probeFlow ev ttl r f).1.FlowID % q.NumPaths
          ∧ q.SrcPort + (q.probeFlow ev ttl r f).1.FlowID % q.NumPaths ≤ 65535 := by
      intro ev ttl r f hr hf
      obtain ⟨h1, h2, -, -⟩ := tcp_probeFlow_static q ev ttl r f
      rw [h1, h2, flowKey_eq _ _ _ _ hqc hr hf, index_mod _ _ _ hf]
      unfold u16
      constructor
      · exact Nat.mod_eq_of_lt (by omega)
      · omega
    intro hop hmem
    have hof := tcp_run_hopOf q hqc env k hop hmem
    constructor
    · intro flow hflow
      obtain ⟨i, r, f, hr, hf, rfl⟩ := tcp_hopOf_mem_values hof hN flow hflow
      exact key _ _ r f hr hf
    · obtain ⟨n, hn⟩ := hof
      refine hop_ports q.NumPaths q.ProbeCount q.SrcPort hN hP _ ?_ hop.Flows hn
      intro i hi
      have hr : i / q.NumPaths < q.ProbeCount :=
        Nat.div_lt_of_lt_mul (by rwa [Nat.mul_comm] at hi)
      have hf : i % q.NumPaths < q.NumPaths := Nat.mod_lt _ hN
      have := (key (env.probe (n + i)) hop.TTL _ _ hr hf).1
      unfold TCPProbe.hopRecord
      rw [this, (tcp_probeFlow_static q _ _ _ _).1, flowKey_eq _ _ _ _ hqc hr hf,
        index_mod _ _ _ hf]


/-- Witness of C4: the two flows of the example use the two ports 33434 and 33435. -/
theorem records_use_base_port_plus_flow_witness :
    Scenario.twoFlows.Valid ∧ Scenario.tcpTwoFlows.Valid ∧
    (Scenario.twoFlows.run Scenario.lateReply 2).Hops.keys = [1] ∧
    (∀ hop ∈ (Scenario.twoFlows.run Scenario.lateReply 2).Hops.values,
      (hop.Flows.values.map (fun flow => flow.SrcPort)).toFinset.card = 2) ∧
    (∀ hop ∈ (Scenario.tcpTwoFlows.run Scenario.lateReply 2).Hops.values,
      (hop.Flows.values.map (fun flow => flow.SrcPort)).toFinset.card = 2) :=
  ⟨by decide, by decide, by decide,
    fun hop h => ((records_use_base_port_plus_flow Scenario.twoFlows Scenario.tcpTwoFlows
      (by decide) (by decide) Scenario.lateReply 2).1 hop h).2,
    fun hop h => ((records_use_base_port_plus_flow Scenario.twoFlows Scenario.tcpTwoFlows
      (by decide) (by decide) Scenario.lateReply 2).2 hop h).2⟩


/-- C8: under a monotonic clock, every record of every hop stored at any moment of a UDP or
TCP run has exactly one of `RecvTime` and `Error` populated. The record belongs to a probe of
the run: if that probe was sent and the sniffer returned a frame, `RecvTime` is the (non-zero)
arrival time, `Error` is empty, `RecvTime ≥ SentTime` and `RTT = RecvTime - SentTime`; if the
send failed or the wait ended without a frame, `Error` is set and `RecvTime` is zero. -/
theorem records_have_reply_or_error (p : UDPProbe) (q : TCPProbe) (env : Env)
    (hclock : env.Monotonic) (k : Nat) :
    (∀ hop ∈ (p.run env k).Hops.values, ∀ flow ∈ hop.Flows.values,
      ((flow.RecvTime ≠ 0 ∧ flow.Error = "") ∨ (flow.RecvTime = 0 ∧ flow.Error ≠ "")) ∧
      ∃ i, flow.SentTime = (env.probe i).sentTime ∧
        (((env.probe i).sendErr = none ∧
            (∃ packet addr, CaptureICMPResponse p.SrcIP p.Target 0 (env.probe i).captured
              = .ok (packet, addr)) ∧
            flow.RecvTime = (env.probe i).recvTime ∧ flow.Error = "" ∧
            flow.SentTime ≤ flow.RecvTime ∧
            flow.RTT = (flow.RecvTime : Int) - (flow.SentTime : Int)) ∨
          (((env.probe i).sendErr ≠ none ∨
              ∃ e, CaptureICMPResponse p.SrcIP p.Target 0 (env.probe i).captured = .error e) ∧
            flow.Error ≠ "" ∧ flow.RecvTime = 0))) ∧
    (∀ hop ∈ (q.run env k).Hops.values, ∀ flow ∈ hop.Flows.values,
      ((flow.RecvTime ≠ 0 ∧ flow.Error = "") ∨ (flow.RecvTime = 0 ∧ flow.Error ≠ "")) ∧
      ∃ i, flow.SentTime = (env.probe i).sentTime ∧
        (((env.probe i).sendErr = none ∧
            (∃ packet addr, CaptureICMPResponse q.SrcIP q.Target 0 (env.probe i).captured
              = .ok (packet, addr)) ∧
            flow.RecvTime = (env.probe i).recvTime ∧ flow.Error = "" ∧
            flow.SentTime ≤ flow.RecvTime ∧
            flow.RTT = (flow.RecvTime : Int) - (flow.SentTime : Int)) ∨
          (((env.probe i).sendErr ≠ none ∨
              ∃ e, CaptureICMPResponse q.SrcIP q.Target 0 (env.probe i).captured = .error e) ∧
            flow.Error ≠ "" ∧ flow.RecvTime = 0))) := by
  constructor
  · intro hop hmem flow hflow
    obtain ⟨i, r, f, rfl⟩ := udp_run_records p env k hop hmem flow hflow
    obtain ⟨h0, h1, h2⟩ := hclock i
    have hsent := (udp_probeFlow_static p (env.probe i) hop.TTL r f).2.2.2
    rcases udp_probeFlow_outcome p (env.probe i) hop.TTL r f with
      ⟨hs, ⟨packet, addr, hcap, -⟩, herr, hrecv, hrtt⟩ | ⟨hcause, herr, -, hrecv, -, -⟩
    · have hne : (p.probeFlow (env.probe i) hop.TTL r f).RecvTime ≠ 0 := by
        rw [hrecv]; exact Nat.ne_of_gt (lt_of_lt_of_le h0 h1)
      refine ⟨Or.inl ⟨hne, herr⟩, i, hsent, Or.inl ⟨hs, ⟨packet, addr, hcap⟩, hrecv, herr, ?_, ?_⟩⟩
      · rw [hrecv, hsent]; exact h1
      · rw [hrtt, hrecv, hsent]; exact time_sub_eq _ _ h1 h2
    · exact ⟨Or.inr ⟨hrecv, herr⟩, i, hsent, Or.inr ⟨hcause, herr, hrecv⟩⟩
  · intro hop hmem flow hflow
    obtain ⟨i, r, f, rfl⟩ := tcp_run_records q env k hop hmem flow hflow
    obtain ⟨h0, h1, h2⟩ := hclock i
    have hsent := (tcp_probeFlow_static q (env.probe i) hop.TTL r f).2.2.2
    rcases tcp_probeFlow_outcome q (env.probe i) hop.TTL r f with
      ⟨hs, ⟨packet, addr, hcap, -, -⟩, herr, hrecv, hrtt⟩ | ⟨hcause, herr, -, hrecv, -, -, -⟩
    · have hne : (q.probeFlow (env.probe i) hop.TTL r f).1.RecvTime ≠ 0 := by
        rw [hrecv]; exact Nat.ne_of_gt (lt_of_lt_of_le h0 h1)
      refine ⟨Or.inl ⟨hne, herr⟩, i, hsent, Or.inl ⟨hs, ⟨packet, addr, hcap⟩, hrecv, herr, ?_, ?_⟩⟩
      · rw [hrecv, hsent]; exact h1
      · rw [hrtt, hrecv, hsent]; exact time_sub_eq _ _ h1 h2
    · exact ⟨Or.inr ⟨hrecv, herr⟩, i, hsent, Or.inr ⟨hcause, herr, hrecv⟩⟩


/-- The clock of the environment `Scenario.routed` is monotonic. -/
theorem scenario_routed_monotonic : Scenario.routed.Monotonic := by
  intro i
  show 0 < 5000000 ∧ 5000000 ≤ 7000000 ∧ 7000000 < 2 ^ 63
  decide

/-- Witness of C8: a run in which every probe is answered after 2 ms. -/
theorem records_have_reply_or_error_witness :
    Scenario.routed.Monotonic ∧
    (Scenario.twoFlows.run Scenario.routed 2).Hops.keys = [1] ∧
    (∀ hop ∈ (Scenario.twoFlows.run Scenario.routed 2).Hops.values, ∀ flow ∈ hop.Flows.values,
      (flow.RecvTime ≠ 0 ∧ flow.Error = "") ∨ (flow.RecvTime = 0 ∧ flow.Error ≠ "")) ∧
    (∀ hop ∈ (Scenario.tcpTwoFlows.run Scenario.routed 2).Hops.values,
      ∀ flow ∈ hop.Flows.values,
      (flow.RecvTime ≠ 0 ∧ flow.Error = "") ∨ (flow.RecvTime = 0 ∧ flow.Error ≠ "")) :=
  ⟨scenario_routed_monotonic, by decide,
    fun hop h flow hf => ((records_have_reply_or_error Scenario.twoFlows Scenario.tcpTwoFlows
      Scenario.routed scenario_routed_monotonic 2).1 hop h flow hf).1,
    fun hop h flow hf => ((records_have_reply_or_error Scenario.twoFlows Scenario.tcpTwoFlows
      Scenario.routed scenario_routed_monotonic 2).2 hop h flow hf).1⟩

/-! ## The outer loop and the `uint8` counter -/
/-- The text form of an address is never empty. -/
theorem ipv4Addr_str_ne_empty (ip : IPv4Addr) : ip.str ≠ "" := by
  unfold IPv4Addr.str
  apply ne_empty_of_length_ne_zero
  simp only [String.length_append]
  have : ".".length = 1 := rfl
  omega


/-- A probe that is not answered leaves the responder of its record empty. -/
theorem udp_probeFlow_unanswered (p : UDPProbe) (ev : ProbeEvents) (ttl round flowID : Nat)
    (h : ev.sendErr ≠ none ∨ ev.captured = []) :
    (p.probeFlow ev ttl round flowID).ResponseIP ≠ p.Target.str := by
  have hne := ipv4Addr_str_ne_empty p.Target
  rcases udp_probeFlow_outcome p ev ttl round flowID with
    ⟨hs, ⟨packet, addr, hcap, -⟩, -⟩ | ⟨-, -, -, -, -, hip⟩
  · rcases h with h | h
    · exact absurd hs h
    · rw [h] at hcap
      simp [CaptureICMPResponse] at hcap
  · rw [hip]
    exact fun e => hne e.symm


/-- A probe that is not answered does not set `reachedTarget`. -/
theorem tcp_probeFlow_unanswered (p : TCPProbe) (ev : ProbeEvents) (ttl round flowID : Nat)
    (h : ev.sendErr ≠ none ∨ ev.captured = []) :
    (p.probeFlow ev ttl round flowID).2 = false := by
  rcases tcp_probeFlow_outcome p ev ttl round flowID with
    ⟨hs, ⟨packet, addr, hcap, -⟩, -⟩ | ⟨-, -, -, -, -, -, hit⟩
  · rcases h with h | h
    · exact absurd hs h
    · rw [h] at hcap
      simp [CaptureICMPResponse] at hcap
  · exact hit


/-- With `MaxTTL = 255` the test `ttl <= p.MaxTTL` holds for every `uint8`: as long as no
record names the target, the UDP loop is never left. -/
theorem udp_run_never_halts (p : UDPProbe) (env : Env) (hmax : p.MaxTTL = 255)
    (hmin : p.MinTTL ≤ 255)
    (hno : ∀ i ttl r f, (p.probeFlow (env.probe i) ttl r f).ResponseIP ≠ p.Target.str)
    (k : Nat) : (p.run env k).halted = false ∧ (p.run env k).ttl ≤ 255 := by
  refine udp_run_induction p env (fun st => st.halted = false ∧ st.ttl ≤ 255) ?_ ?_ k
  · exact ⟨rfl, hmin⟩
  · intro st ⟨hh, ht⟩
    have hany : (p.probeHop env st.ttl ⟨GoMap.empty, st.next, st.sent⟩).Flows.values.any
        (fun flow => flow.ResponseIP == p.Target.str) = false := by
      rw [List.any_eq_false]
      intro flow hflow
      obtain ⟨i, r, f, rfl⟩ := udp_probeHop_records p env st.ttl st.next st.sent flow hflow
      simpa using hno i st.ttl r f
    unfold UDPProbe.step
    rw [if_neg (by simp [hh]), if_pos (by omega)]
    simp only [hany, Bool.false_eq_true, if_false]
    have hu : u8 (st.ttl + 1) ≤ 255 := by unfold u8; omega
    exact ⟨trivial, hu⟩


/-- Whatever the parameters, `reachedTarget` stays unset in the inner loops when no probe sets
it. -/
theorem tcp_probeHop_no_hit (p : TCPProbe) (env : Env) (ttl n : Nat)
    (log : List (Nat × Nat)) (hno : ∀ i r f, (p.probeFlow (env.probe i) ttl r f).2 = false) :
    (p.probeHop env ttl ⟨GoMap.empty, n, log, false⟩).reachedTarget = false := by
  unfold TCPProbe.probeHop
  refine forRange_rounds_flows p.ProbeCount p.NumPaths
    (fun round flowID s =>
      ({ Flows := s.Flows.store (p.probeFlow (env.probe s.next) ttl round flowID).1.FlowID
            (p.probeFlow (env.probe s.next) ttl round flowID).1,
         next := s.next + 1, sent := s.sent ++ [(ttl, flowID)],
         reachedTarget := s.reachedTarget || (p.probeFlow (env.probe s.next) ttl round flowID).2 }
        : TCPHopRun))
    (fun _ s => s.reachedTarget = false)
    ⟨GoMap.empty, n, log, false⟩ rfl ?_
  intro r f s _ _ ih
  simp [ih, hno]


/-- With `MaxTTL = 255` the test `ttl <= p.MaxTTL` holds for every `uint8`: as long as no
probe sets `reachedTarget`, the TCP loop is never left. -/
theorem tcp_run_never_halts (p : TCPProbe) (env : Env) (hmax : p.MaxTTL = 255)
    (hmin : p.MinTTL ≤ 255)
    (hno : ∀ i ttl r f, (p.probeFlow (env.probe i) ttl r f).2 = false)
    (k : Nat) :
    (p.run env k).halted = false ∧ (p.run env k).reachedTarget = false ∧
      (p.run env k).ttl ≤ 255 := by
  refine tcp_run_induction p env
    (fun st => st.halted = false ∧ st.reachedTarget = false ∧ st.ttl ≤ 255) ?_ ?_ k
  · exact ⟨rfl, rfl, hmin⟩
  · intro st ⟨hh, hr, ht⟩
    unfold TCPProbe.step
    rw [if_neg (by simp [hh]), if_pos (by simp [hr]; omega)]
    simp only [hr]
    have hu : u8 (st.ttl + 1) ≤ 255 := by unfold u8; omega
    exact ⟨trivial,
      tcp_probeHop_no_hit p env st.ttl st.next st.sent (fun i r f => hno i st.ttl r f), hu⟩


theorem udp_Traceroute_eq_none (p : UDPProbe) (env : Env) (fuel : Nat)
    (h : (p.run env fuel).halted = false) : p.Traceroute env fuel = none := by
  unfold UDPProbe.Traceroute
  simp [h]


theorem tcp_Traceroute_eq_none (p : TCPProbe) (env : Env) (fuel : Nat)
    (hc : env.captureErr = none) (h : (p.run env fuel).halted = false) :
    p.Traceroute env fuel = none := by
  unfold TCPProbe.Traceroute
  simp [h, hc]

/-! ## Claims about the run as a whole -/


/-- C1 fails on the code at `-max-ttl 255`, which `validateParameters` accepts: against a
target that never answers, neither `UDPProbe.Traceroute` nor `TCPProbe.Traceroute` returns,
whatever the number of evaluations of the outer loop, because the `uint8` counter wraps from
255 to 0. With `-min-ttl 255 -max-ttl 255 -npaths 1` three evaluations of the loop have made
three probes instead of one and stored hops under the keys 255, 0 and 1. -/
theorem traceroute_never_returns_at_max_ttl_255 :
    validateParameters Scenario.flags255 = none ∧
    (∀ fuel,
      (Scenario.flags255.udpProbe Scenario.targetIP Scenario.localIP).Traceroute
          Scenario.silent fuel = none ∧
      (Scenario.flags255.tcpProbe Scenario.targetIP Scenario.localIP).Traceroute
          Scenario.silent fuel = none) ∧
    validateParameters Scenario.flagsOnly255 = none ∧
    ((Scenario.flagsOnly255.udpProbe Scenario.targetIP Scenario.localIP).run
        Scenario.silent 3).sent = [(255, 0), (0, 0), (1, 0)] ∧
    ((Scenario.flagsOnly255.udpProbe Scenario.targetIP Scenario.localIP).run
        Scenario.silent 3).Hops.keys = [255, 0, 1] ∧
    ((Scenario.flagsOnly255.tcpProbe Scenario.targetIP Scenario.localIP).run
        Scenario.silent 3).sent = [(255, 0), (0, 0), (1, 0)] ∧
    ((Scenario.flagsOnly255.tcpProbe Scenario.targetIP Scenario.localIP).run
        Scenario.silent 3).Hops.keys = [255, 0, 1] := by
  refine ⟨by decide, ?_, by decide, by decide, by decide, by decide, by decide⟩
  intro fuel
  constructor
  · apply udp_Traceroute_eq_none
    refine (udp_run_never_halts _ _ (by decide) (by decide) ?_ fuel).1
    intro i ttl r f
    exact udp_probeFlow_unanswered _ _ _ _ _ (Or.inr rfl)
  · apply tcp_Traceroute_eq_none _ _ _ rfl
    refine (tcp_run_never_halts _ _ (by decide) (by decide) ?_ fuel).1
    intro i ttl r f
    exact tcp_probeFlow_unanswered _ _ _ _ _ (Or.inr rfl)

/-- C7 fails on the code after the `uint8` counter has wrapped. With
`-min-ttl 255 -max-ttl 255 -npaths 1`, the probe with TTL 255 is not answered, the counter
wraps to 0 and the probe with TTL 0 is answered by the target: both engines stop there and
return a result whose hops have the keys 255 and 0, the target appearing under key 0 only. The
returned result so has a hop with a key greater than the first TTL answered by the target. -/
theorem returned_hops_exceed_target_ttl_after_wrap :
    validateParameters Scenario.flagsOnly255 = none ∧
    ((Scenario.flagsOnly255.udpProbe Scenario.targetIP Scenario.localIP).Traceroute
        Scenario.targetAnswersSecond 3).map
      (fun ret => ret.result.map (fun tr => tr.Hops.keys)) = some (some [255, 0]) ∧
    ((Scenario.flagsOnly255.udpProbe Scenario.targetIP Scenario.localIP).Traceroute
        Scenario.targetAnswersSecond 3).map
      (fun ret => ret.result.map (fun tr =>
        (tr.Hops.entries.filter (fun e =>
          e.2.Flows.values.any (fun flow => flow.ResponseIP == tr.Target))).map (fun e => e.1)))
      = some (some [0]) ∧
    ((Scenario.flagsOnly255.tcpProbe Scenario.targetIP Scenario.localIP).Traceroute
        Scenario.targetAnswersSecond 3).map
      (fun ret => ret.result.map (fun tr => tr.Hops.keys)) = some (some [255, 0]) ∧
    ((Scenario.flagsOnly255.tcpProbe Scenario.targetIP Scenario.localIP).Traceroute
        Scenario.targetAnswersSecond 3).map
      (fun ret => ret.result.map (fun tr =>
        (tr.Hops.entries.filter (fun e =>
          e.2.Flows.values.any (fun flow => flow.ResponseIP == tr.Target))).map (fun e => e.1)))
      = some (some [0]) := by
  refine ⟨by decide, by decide, by decide, by decide, by decide⟩

/-- C9 fails on the code at `MaxTTL = 255`: in the scenario S4 with that bound (every probe
sent, every wait timing out) `UDPProbe.Traceroute` returns no result at all, whatever the
number of evaluations of its outer loop. With the bound 5 of S4 itself the run returns after
TTL 5 with the hops 1 to 5, 30 records, each with `Error = "timeout"`, and a packet loss
rate of 100. -/
theorem all_timeouts_never_return_at_max_ttl_255 :
    Scenario.s4Max255.Valid ∧
    (∀ fuel, Scenario.s4Max255.Traceroute Scenario.silent fuel = none) ∧
    (Scenario.s4.Traceroute Scenario.silent 6).map
      (fun ret => ret.result.map (fun tr =>
        (tr.Hops.keys, tr.totalProbes, tr.records.all (fun flow => flow.Error == "timeout"))))
      = some (some ([1, 2, 3, 4, 5], 30, true)) ∧
    (Scenario.s4.Traceroute Scenario.silent 6).map
      (fun ret => ret.result.map (fun tr => tr.PacketLossRate)) = some (some 100) := by
  refine ⟨by decide, ?_, by decide, ?_⟩
  · intro fuel
    apply udp_Traceroute_eq_none
    refine (udp_run_never_halts _ _ (by decide) (by decide) ?_ fuel).1
    intro i ttl r f
    exact udp_probeFlow_unanswered _ _ _ _ _ (Or.inr rfl)
  · have h : (Scenario.s4.Traceroute Scenario.silent 6).map
        (fun ret => ret.result.map (fun tr => (tr.totalProbes, tr.successfulProbes)))
        = some (some (30, 0)) := by decide
    unfold UDPProbe.Traceroute at h ⊢
    have hh : (Scenario.s4.run Scenario.silent 6).halted = true := by decide
    simp only [hh, if_true, Option.map_some', Option.some.injEq, Prod.mk.injEq] at h ⊢
    unfold TracerouteResult.PacketLossRate
    rw [h.1, h.2]
    norm_num
    exact f64Percent_self 30 (by norm_num)

/-- C10 fails on the code at `-max-ttl 255`: when `platform.SendPacket` refuses every probe,
neither engine ever returns a result, because no hop can name the target and the `uint8`
counter wraps from 255 to 0. With the single TTL 1 the same failures are recorded in the two
records of the hop and the run returns its result with a `nil` error. -/
theorem send_failures_never_return_at_max_ttl_255 :
    validateParameters Scenario.flags255 = none ∧
    (∀ fuel,
      (Scenario.flags255.udpProbe Scenario.targetIP Scenario.localIP).Traceroute
          Scenario.blocked fuel = none ∧
      (Scenario.flags255.tcpProbe Scenario.targetIP Scenario.localIP).Traceroute
          Scenario.blocked fuel = none) ∧
    (Scenario.twoFlows.Traceroute Scenario.blocked 2).map
      (fun ret => (ret.err, ret.result.map (fun tr =>
        tr.records.map (fun flow => (flow.FlowID, flow.Error, flow.RecvTime)))))
      = some (none, some
          [(0, "failed to send probe (TTL=1, FlowID=0): sendto: access denied", 0),
           (1, "failed to send probe (TTL=1, FlowID=1): sendto: access denied", 0)]) ∧
    (Scenario.tcpTwoFlows.Traceroute Scenario.blocked 2).map
      (fun ret => (ret.err, ret.result.map (fun tr =>
        tr.records.map (fun flow => (flow.FlowID, flow.Error, flow.RecvTime)))))
      = some (none, some
          [(0, "failed to send TCP probe: sendto: access denied", 0),
           (1, "failed to send TCP probe: sendto: access denied", 0)]) := by
  refine ⟨by decide, ?_, by decide, by decide⟩
  intro fuel
  constructor
  · apply udp_Traceroute_eq_none
    refine (udp_run_never_halts _ _ (by decide) (by decide) ?_ fuel).1
    intro i ttl r f
    exact udp_probeFlow_unanswered _ _ _ _ _ (Or.inl (fun h => Option.noConfusion h))
  · apply tcp_Traceroute_eq_none _ _ _ rfl
    refine (tcp_run_never_halts _ _ (by decide) (by decide) ?_ fuel).1
    intro i ttl r f
    exact tcp_probeFlow_unanswered _ _ _ _ _ (Or.inl (fun h => Option.noConfusion h))

/-! ## Comparing paths -/

/-- On slices of the same length, the loop of `pathsEqual` compares the sequences of IPs. -/
theorem sameIPs_eq_true_iff (h1 h2 : List PathHop) (hlen : h1.length = h2.length) :
    sameIPs h1 h2 = true ↔ h1.map (fun h => h.IP) = h2.map (fun h => h.IP) := by
  induction h1 generalizing h2 with
  | nil =>
    cases h2 with
    | nil => simp [sameIPs]
    | cons b bs => simp at hlen
  | cons a as ih =>
    cases h2 with
    | nil => simp at hlen
    | cons b bs =>
      have hl : as.length = bs.length := by simpa using hlen
      by_cases hab : a.IP = b.IP
      · simp [sameIPs, hab, ih bs hl]
      · simp [sameIPs, hab]

/-- The function `pathsEqual` compares the sequences of hop IPs. -/
theorem pathsEqual_eq_true_iff (p1 p2 : Path) :
    pathsEqual p1 p2 = true ↔
      p1.Hops.map (fun h => h.IP) = p2.Hops.map (fun h => h.IP) := by
  unfold pathsEqual
  by_cases hlen : p1.Hops.length = p2.Hops.length
  · simp [hlen, sameIPs_eq_true_iff _ _ hlen]
  · have hne : p1.Hops.map (fun h => h.IP) ≠ p2.Hops.map (fun h => h.IP) := by
      intro h
      apply hlen
      have := congrArg List.length h
      simpa using this
    simp [hlen, hne]

/-- C15: `pathsEqual p1 p2` is true exactly when the two paths have the same number of hops and
the same IP at every position, which is to say the same ordered sequence of hop IPs; the path
identifiers and the TTL, hostname and RTT of the hops play no part, so that two paths with the
same sequence of IPs are equal whatever these are. -/
theorem pathsEqual_iff_same_ip_sequence (p1 p2 : Path) :
    (pathsEqual p1 p2 = true ↔
      p1.Hops.map (fun h => h.IP) = p2.Hops.map (fun h => h.IP)) ∧
    (pathsEqual p1 p2 = true ↔
      p1.Hops.length = p2.Hops.length ∧
        ∀ i : Nat, (p1.Hops.get? i).map (fun h => h.IP)
          = (p2.Hops.get? i).map (fun h => h.IP)) := by
  have key := pathsEqual_eq_true_iff p1 p2
  refine ⟨key, key.trans ⟨fun h => ⟨?_, fun i => ?_⟩, fun h => ?_⟩⟩
  · have := congrArg List.length h
    simpa using this
  · have := congrArg (fun l => l.get? i) h
    simpa [List.get?_eq_getElem?, List.getElem?_map] using this
  · apply List.ext_get?
    intro i
    have := h.2 i
    simpa [List.get?_eq_getElem?, List.getElem?_map] using this

/-! ## The scan of a flow in `GetPaths` -/

/-- The increment of the `uint8` counter: one more below 255, and 0 after 255. -/
theorem u8_succ_cases (ttl : Nat) (h : ttl ≤ 255) :
    (ttl < 255 ∧ u8 (ttl + 1) = ttl + 1) ∨ (ttl = 255 ∧ u8 (ttl + 1) = 0) := by
  unfold u8
  omega

/-- The scan appends nothing where it finds no hop. -/
theorem scanFrom_nil_of_none (tr : TracerouteResult) (flowID ttl : Nat)
    (hl : tr.Hops.lookup ttl = none) : tr.ScanFrom flowID ttl [] := by
  refine ⟨fun _ => rfl, ?_, ?_, ?_, ?_, ?_⟩
  · intro hop h
    cases h
  · simp
  · intro before hop after h
    simp at h
  · rintro t hr fr - ⟨hop, h, -⟩
    cases h
  · intro t hr fr ht _ hcont
    exact absurd hl (hcont ttl (le_refl _) ht)

/-- The scan appends nothing beyond TTL 255. -/
theorem scanFrom_nil_of_gt (tr : TracerouteResult) (flowID ttl : Nat) (h : 255 < ttl) :
    tr.ScanFrom flowID ttl [] := by
  refine ⟨fun _ => rfl, ?_, ?_, ?_, ?_, ?_⟩
  · intro hop h
    cases h
  · simp
  · intro before hop after h
    simp at h
  · rintro t hr fr - ⟨hop, h, -⟩
    cases h
  · intro t hr fr ht ht2
    omega

/-- The scan from the next value of the counter, seen from a nonzero `ttl`. -/
theorem scanFrom_next (tr : TracerouteResult) (flowID ttl : Nat) (ext : List PathHop)
    (httl : ttl ≤ 255) (h : tr.ScanFrom flowID (u8 (ttl + 1)) ext) :
    tr.ScanFrom flowID (ttl + 1) ext := by
  rcases u8_succ_cases ttl httl with ⟨-, he⟩ | ⟨h255, he⟩
  · rwa [he] at h
  · rw [he] at h
    have : ext = [] := h.1 rfl
    subst this
    exact scanFrom_nil_of_gt tr flowID _ (by omega)

theorem scanFrom_skip (tr : TracerouteResult) (flowID ttl : Nat) (ext : List PathHop)
    (httl : ttl ≤ 255) (hne : ttl ≠ 0)
    (hno : ∀ hopResult flowResult, tr.Hops.lookup ttl = some hopResult →
      hopResult.Flows.lookup flowID = some flowResult → flowResult.Error ≠ "")
    (h : tr.ScanFrom flowID (u8 (ttl + 1)) ext) : tr.ScanFrom flowID ttl ext := by
  obtain ⟨-, h2, h3, h4, h5, h6⟩ := scanFrom_next tr flowID ttl ext httl h
  refine ⟨fun h => absurd h hne, ?_, h3, h4, ?_, ?_⟩
  · intro hop hm
    obtain ⟨a, b, c⟩ := h2 hop hm
    exact ⟨by omega, b, c⟩
  · intro t hr fr ht hex hl hf herr
    by_cases htt : t = ttl
    · subst htt
      exact absurd herr (hno hr fr hl hf)
    · exact h5 t hr fr (by omega) hex hl hf herr
  · intro t hr fr ht ht2 hcont hnot hl hf herr
    by_cases htt : t = ttl
    · subst htt
      exact absurd herr (hno hr fr hl hf)
    · exact h6 t hr fr (by omega) ht2 (fun u hu1 hu2 => hcont u (by omega) hu2)
        (fun u eh e hu1 hu2 => hnot u eh e (by omega) hu2) hl hf herr

/-- The scan stops with the hop of a record that names the target. -/
theorem scanFrom_target (tr : TracerouteResult) (flowID ttl : Nat)
    (hopResult : HopResult) (flowResult : FlowResult) (httl : ttl ≤ 255) (hne : ttl ≠ 0)
    (hl : tr.Hops.lookup ttl = some hopResult)
    (hf : hopResult.Flows.lookup flowID = some flowResult) (herr : flowResult.Error = "")
    (htarget : flowResult.ResponseIP = tr.Target) :
    tr.ScanFrom flowID ttl
      [{ TTL := ttl, IP := flowResult.ResponseIP, Hostname := flowResult.Hostname,
         RTT := flowResult.RTT }] := by
  refine ⟨fun h => absurd h hne, ?_, ?_, ?_, ?_, ?_⟩
  · intro hop hm
    rw [List.mem_singleton] at hm
    subst hm
    exact ⟨le_refl _, httl, hopResult, flowResult, hl, hf, herr, rfl⟩
  · simp
  · intro before hop after he _
    cases before with
    | nil =>
      simp only [List.nil_append, List.cons.injEq] at he
      exact he.2.symm
    | cons b bs =>
      simp only [List.cons_append, List.cons.injEq] at he
      have := congrArg List.length he.2
      simp only [List.length_nil, List.length_append, List.length_cons] at this
      omega
  · intro t hr fr ht hex _ _ _
    obtain ⟨hop, hm, hle⟩ := hex
    rw [List.mem_singleton] at hm
    subst hm
    exact ⟨_, List.mem_singleton.2 rfl, le_antisymm ht hle⟩
  · intro t hr fr ht _ _ hnot _ _ _
    by_cases htt : t = ttl
    · exact ⟨_, List.mem_singleton.2 rfl, htt.symm⟩
    · exact absurd htarget (hnot ttl hopResult flowResult (le_refl _) (by omega) hl hf herr)

theorem scanFrom_cons (tr : TracerouteResult) (flowID ttl : Nat) (ext : List PathHop)
    (hopResult : HopResult) (flowResult : FlowResult) (httl : ttl ≤ 255) (hne : ttl ≠ 0)
    (hl : tr.Hops.lookup ttl = some hopResult)
    (hf : hopResult.Flows.lookup flowID = some flowResult) (herr : flowResult.Error = "")
    (htarget : flowResult.ResponseIP ≠ tr.Target)
    (h : tr.ScanFrom flowID (u8 (ttl + 1)) ext) :
    tr.ScanFrom flowID ttl
      ({ TTL := ttl, IP := flowResult.ResponseIP, Hostname := flowResult.Hostname,
         RTT := flowResult.RTT } :: ext) := by
  obtain ⟨-, h2, h3, h4, h5, h6⟩ := scanFrom_next tr flowID ttl ext httl h
  refine ⟨fun h => absurd h hne, ?_, ?_, ?_, ?_, ?_⟩
  · intro hop hm
    rcases List.mem_cons.1 hm with rfl | hm
    · exact ⟨le_refl _, httl, hopResult, flowResult, hl, hf, herr, rfl⟩
    · obtain ⟨a, b, c⟩ := h2 hop hm
      exact ⟨by omega, b, c⟩
  · rw [List.map_cons, List.pairwise_cons]
    refine ⟨?_, h3⟩
    intro a ha
    obtain ⟨hop, hm, rfl⟩ := List.mem_map.1 ha
    have := (h2 hop hm).1
    show ttl < hop.TTL
    omega
  · intro before hop after he hip
    cases before with
    | nil =>
      simp only [List.nil_append, List.cons.injEq] at he
      obtain ⟨rfl, rfl⟩ := he
      exact absurd hip htarget
    | cons b bs =>
      simp only [List.cons_append, List.cons.injEq] at he
      exact h4 bs hop after he.2 hip
  · intro t hr fr ht hex hlt hft herrt
    by_cases htt : t = ttl
    · exact ⟨_, List.mem_cons_self _ _, htt.symm⟩
    · obtain ⟨hop, hm, hle⟩ := hex
      rcases List.mem_cons.1 hm with rfl | hm
      · exact absurd (le_antisymm hle ht) htt
      · obtain ⟨hop2, hm2, e2⟩ := h5 t hr fr (by omega) ⟨hop, hm, hle⟩ hlt hft herrt
        exact ⟨hop2, List.mem_cons_of_mem _ hm2, e2⟩
  · intro t hr fr ht ht2 hcont hnot hlt hft herrt
    by_cases htt : t = ttl
    · exact ⟨_, List.mem_cons_self _ _, htt.symm⟩
    · obtain ⟨hop2, hm2, e2⟩ := h6 t hr fr (by omega) ht2
        (fun u hu1 hu2 => hcont u (by omega) hu2)
        (fun u eh e hu1 hu2 => hnot u eh e (by omega) hu2) hlt hft herrt
      exact ⟨hop2, List.mem_cons_of_mem _ hm2, e2⟩

/-- What the scan of a flow returns, on a result with no hop under TTL 0. -/
theorem scanFlow_spec (tr : TracerouteResult) (flowID : Nat) (h0 : tr.Hops.lookup 0 = none) :
    ∀ fuel ttl hops res, ttl ≤ 255 → tr.scanFlow flowID fuel ttl hops = some res →
      ∃ ext, res = hops ++ ext ∧ tr.ScanFrom flowID ttl ext := by
  intro fuel
  induction fuel with
  | zero =>
    intro ttl hops res _ h
    simp [TracerouteResult.scanFlow] at h
  | succ n ih =>
    intro ttl hops res httl h
    rw [TracerouteResult.scanFlow] at h
    simp only [httl, if_true] at h
    have hnext : u8 (ttl + 1) ≤ 255 := by unfold u8; omega
    cases hl : tr.Hops.lookup ttl with
    | none =>
      rw [hl] at h
      simp only [Option.some.injEq] at h
      exact ⟨[], by simp [h], scanFrom_nil_of_none tr flowID ttl hl⟩
    | some hopResult =>
      have hne : ttl ≠ 0 := by
        intro e
        rw [e, h0] at hl
        cases hl
      rw [hl] at h
      simp only at h
      cases hf : hopResult.Flows.lookup flowID with
      | none =>
        rw [hf] at h
        simp only at h
        obtain ⟨ext, e, hs⟩ := ih _ _ _ hnext h
        refine ⟨ext, e, scanFrom_skip tr flowID ttl ext httl hne ?_ hs⟩
        intro hr fr hl2 hf2
        rw [hl] at hl2
        cases hl2
        rw [hf] at hf2
        cases hf2
      | some flowResult =>
        rw [hf] at h
        simp only at h
        by_cases herr : flowResult.Error = ""
        · simp only [herr, bne_self_eq_false, Bool.false_eq_true, if_false] at h
          by_cases ht : flowResult.ResponseIP = tr.Target
          · simp only [ht, beq_self_eq_true, if_true, Option.some.injEq] at h
            refine ⟨[_], h.symm, ?_⟩
            rw [← ht]
            exact scanFrom_target tr flowID ttl hopResult flowResult httl hne hl hf herr ht
          · have hb : (flowResult.ResponseIP == tr.Target) = false := by
              simpa using ht
            simp only [hb, Bool.false_eq_true, if_false] at h
            obtain ⟨ext, e, hs⟩ := ih _ _ _ hnext h
            refine ⟨{ TTL := ttl, IP := flowResult.ResponseIP, Hostname := flowResult.Hostname,
                      RTT := flowResult.RTT } :: ext, by simp [e], ?_⟩
            exact scanFrom_cons tr flowID ttl ext hopResult flowResult httl hne hl hf herr
              ht hs
        · have hb : (flowResult.Error != "") = true := by
            simpa using herr
          simp only [hb, if_true] at h
          obtain ⟨ext, e, hs⟩ := ih _ _ _ hnext h
          refine ⟨ext, e, scanFrom_skip tr flowID ttl ext httl hne ?_ hs⟩
          intro hr fr hl2 hf2
          rw [hl] at hl2
          cases hl2
          rw [hf] at hf2
          cases hf2
          exact herr

/-- On a result with no hop under TTL 0 the scan of a flow ends: from the value `ttl` of the
counter, after at most `256 - ttl + 1` evaluations of the loop. -/
theorem scanFlow_returns (tr : TracerouteResult) (flowID : Nat)
    (h0 : tr.Hops.lookup 0 = none) :
    ∀ n ttl hops, ttl ≤ 255 → (ttl = 0 ∨ 256 - ttl ≤ n) →
      ∃ res, tr.scanFlow flowID (n + 1) ttl hops = some res := by
  have hzero : ∀ n hops, tr.scanFlow flowID (n + 1) 0 hops = some hops := by
    intro n hops
    rw [TracerouteResult.scanFlow]
    simp [h0]
  intro n
  induction n with
  | zero =>
    intro ttl hops httl h
    have : ttl = 0 := by omega
    subst this
    exact ⟨hops, hzero 0 hops⟩
  | succ n ih =>
    intro ttl hops httl h
    by_cases hz : ttl = 0
    · subst hz
      exact ⟨hops, hzero _ hops⟩
    · have hnext : u8 (ttl + 1) ≤ 255 := by unfold u8; omega
      have hfuel : u8 (ttl + 1) = 0 ∨ 256 - u8 (ttl + 1) ≤ n := by
        rcases u8_succ_cases ttl httl with ⟨_, he⟩ | ⟨_, he⟩
        · rw [he]; omega
        · exact Or.inl he
      rw [TracerouteResult.scanFlow]
      simp only [httl, if_true]
      cases hl : tr.Hops.lookup ttl with
      | none => exact ⟨hops, rfl⟩
      | some hopResult =>
        simp only
        cases hf : hopResult.Flows.lookup flowID with
        | none => exact ih _ _ hnext hfuel
        | some flowResult =>
          simp only
          split_ifs
          · exact ih _ _ hnext hfuel
          · exact ⟨_, rfl⟩
          · exact ih _ _ hnext hfuel

/-- The loop over the flows returns once every scan does. -/
theorem buildPaths_returns (tr : TracerouteResult) (fuel : Nat)
    (h : ∀ flowID, ∃ hops, tr.scanFlow flowID fuel 1 [] = some hops) :
    ∀ ids pathID, ∃ paths, tr.buildPaths fuel ids pathID = some paths := by
  intro ids
  induction ids with
  | nil => intro pathID; exact ⟨[], rfl⟩
  | cons flowID rest ih =>
    intro pathID
    obtain ⟨hops, hh⟩ := h flowID
    obtain ⟨paths, hp⟩ := ih (pathID + 1)
    exact ⟨{ PathID := pathID, Hops := hops } :: paths,
      by simp [TracerouteResult.buildPaths, hh, hp]⟩

/-- The loop over the flows returns one path for each flow, in order: the scan of the flow,
numbered from `pathID` on. -/
theorem buildPaths_spec (tr : TracerouteResult) (fuel : Nat) :
    ∀ ids pathID paths, tr.buildPaths fuel ids pathID = some paths →
      paths.length = ids.length ∧
      ∀ i path, paths.get? i = some path →
        ∃ flowID, ids.get? i = some flowID ∧ path.PathID = pathID + i ∧
          tr.scanFlow flowID fuel 1 [] = some path.Hops := by
  intro ids
  induction ids with
  | nil =>
    intro pathID paths h
    simp only [TracerouteResult.buildPaths, Option.some.injEq] at h
    subst h
    exact ⟨rfl, fun i path hp => by simp at hp⟩
  | cons flowID rest ih =>
    intro pathID paths h
    rw [TracerouteResult.buildPaths] at h
    cases hs : tr.scanFlow flowID fuel 1 [] with
    | none => rw [hs] at h; cases h
    | some hops =>
      rw [hs] at h
      simp only at h
      cases hb : tr.buildPaths fuel rest (pathID + 1) with
      | none => rw [hb] at h; cases h
      | some tail =>
        rw [hb] at h
        simp only [Option.some.injEq] at h
        subst h
        obtain ⟨hlen, hrest⟩ := ih _ _ hb
        refine ⟨by simp [hlen], ?_⟩
        intro i path hp
        cases i with
        | zero =>
          simp only [List.get?_cons_zero, Option.some.injEq] at hp
          subst hp
          exact ⟨flowID, rfl, rfl, hs⟩
        | succ i =>
          simp only [List.get?_cons_succ] at hp
          obtain ⟨f, hf, hid, hsc⟩ := hrest i path hp
          exact ⟨f, by simpa using hf, by omega, hsc⟩

/-- On a result with no hop under TTL 0, `GetPaths` returns. -/
theorem getPaths_returns (tr : TracerouteResult) (h0 : tr.Hops.lookup 0 = none) :
    ∃ paths, tr.GetPaths 257 = some paths :=
  buildPaths_returns tr 257
    (fun flowID => scanFlow_returns tr flowID h0 256 1 [] (by omega) (Or.inr (by omega))) _ _

/-! ## The paths of a result -/

/-- The paths of `GetPaths` are those of the flows of the hop under TTL 1: without such a hop
there is no path, whatever the other hops hold. -/
theorem getPaths_without_first_hop (tr : TracerouteResult) (h1 : tr.Hops.lookup 1 = none)
    (fuel : Nat) : tr.GetPaths fuel = some [] := by
  simp [TracerouteResult.GetPaths, TracerouteResult.firstHopFlowIDs, h1,
    TracerouteResult.buildPaths]

/-- C13 fails on the code when the run starts above TTL 1. The validated run over the TTLs 2
and 3 with two flows, every probe answered by a router, returns a result whose first probed
hop, under TTL 2, has the two flows 0 and 1; `GetPaths` reads the flows of the hop under the
constant key 1, finds none and returns no path at all. The same run from TTL 1 gives one path
for each of the two flows. -/
theorem no_path_is_found_when_min_ttl_is_2 :
    Scenario.fromTwo.Valid ∧ Scenario.fromTwo.MinTTL = 2 ∧
    Scenario.fromTwo.Traceroute Scenario.routed 3
      = some { result := some Scenario.startingAtTwo, err := none } ∧
    Scenario.startingAtTwo.Hops.keys = [2, 3] ∧
    (Scenario.startingAtTwo.Hops.lookup 2).map (fun hopResult => hopResult.Flows.keys)
      = some [0, 1] ∧
    (∀ fuel, Scenario.startingAtTwo.GetPaths fuel = some []) ∧
    (Scenario.reachedAtThird.Hops.lookup 1).map (fun hopResult => hopResult.Flows.keys)
      = some [0, 1] ∧
    (Scenario.reachedAtThird.GetPaths 257).map (fun paths => paths.map (fun path => path.PathID))
      = some [0, 1] := by
  refine ⟨by decide, rfl, by decide, by decide, by decide, ?_, by decide, by decide⟩
  intro fuel
  exact getPaths_without_first_hop _ (by decide) fuel

/-- On a result with no hop stored under TTL 0, `GetPaths` returns, and every path it returns
is that of one flow of the first hop: the
TTLs of its hops are strictly ascending; each hop gives the responder IP of the record of that
flow at its TTL, a record without error; every error-free record of the flow at a TTL from 1
to that of the last hop of the path has its hop in the path, and so has every error-free
record of the flow at a TTL `t` such that the hops 1 to `t` are all there and none of the
flow's error-free records before `t` names the target; and a hop whose IP is the target is
followed by no hop, so that the target appears at most once, as the last hop. -/
theorem getPaths_paths_without_hop_0 (tr : TracerouteResult)
    (h0 : tr.Hops.lookup 0 = none) :
    (∃ paths, tr.GetPaths 257 = some paths) ∧
    ∀ fuel paths, tr.GetPaths fuel = some paths →
      paths.length = tr.firstHopFlowIDs.length ∧
      ∀ i path, paths.get? i = some path →
        ∃ flowID, tr.firstHopFlowIDs.get? i = some flowID ∧
          (path.Hops.map (fun hop => hop.TTL)).Pairwise (fun a b => a < b) ∧
          (∀ hop ∈ path.Hops, ∃ hopResult flowResult,
            tr.Hops.lookup hop.TTL = some hopResult ∧
            hopResult.Flows.lookup flowID = some flowResult ∧ flowResult.Error = "" ∧
            hop.IP = flowResult.ResponseIP) ∧
          (∀ t hopResult flowResult, 1 ≤ t → (∃ hop ∈ path.Hops, t ≤ hop.TTL) →
            tr.Hops.lookup t = some hopResult →
            hopResult.Flows.lookup flowID = some flowResult → flowResult.Error = "" →
            ∃ hop ∈ path.Hops, hop.TTL = t ∧ hop.IP = flowResult.ResponseIP) ∧
          (∀ t hopResult flowResult, 1 ≤ t → t ≤ 255 →
            (∀ u, 1 ≤ u → u ≤ t → tr.Hops.lookup u ≠ none) →
            (∀ u earlierHop earlier, 1 ≤ u → u < t → tr.Hops.lookup u = some earlierHop →
              earlierHop.Flows.lookup flowID = some earlier → earlier.Error = "" →
              earlier.ResponseIP ≠ tr.Target) →
            tr.Hops.lookup t = some hopResult →
            hopResult.Flows.lookup flowID = some flowResult → flowResult.Error = "" →
            ∃ hop ∈ path.Hops, hop.TTL = t ∧ hop.IP = flowResult.ResponseIP) ∧
          (∀ before hop after, path.Hops = before ++ hop :: after → hop.IP = tr.Target →
            after = []) ∧
          (path.Hops.filter (fun hop => hop.IP == tr.Target)).length ≤ 1 := by
  refine ⟨getPaths_returns tr h0, ?_⟩
  intro fuel paths hp
  obtain ⟨hlen, hspec⟩ := buildPaths_spec tr fuel _ _ _ hp
  refine ⟨hlen, ?_⟩
  intro i path hi
  obtain ⟨flowID, hf, -, hscan⟩ := hspec i path hi
  obtain ⟨ext, he, -, h2, h3, h4, h5, h6⟩ :=
    scanFlow_spec tr flowID h0 fuel 1 [] _ (by omega) hscan
  rw [List.nil_append] at he
  subst he
  have hrec : ∀ hop ∈ path.Hops, ∃ hopResult flowResult,
      tr.Hops.lookup hop.TTL = some hopResult ∧
      hopResult.Flows.lookup flowID = some flowResult ∧ flowResult.Error = "" ∧
      hop.IP = flowResult.ResponseIP := by
    intro hop hm
    obtain ⟨-, -, hr, fr, a, b, c, d⟩ := h2 hop hm
    exact ⟨hr, fr, a, b, c, by rw [d]⟩
  have hip : ∀ t hopResult flowResult, tr.Hops.lookup t = some hopResult →
      hopResult.Flows.lookup flowID = some flowResult →
      (∃ hop ∈ path.Hops, hop.TTL = t) →
      ∃ hop ∈ path.Hops, hop.TTL = t ∧ hop.IP = flowResult.ResponseIP := by
    intro t hr fr hl hfl ⟨hop, hm, e⟩
    refine ⟨hop, hm, e, ?_⟩
    obtain ⟨hr2, fr2, a, b, -, d⟩ := hrec hop hm
    rw [e, hl] at a
    cases a
    rw [hfl] at b
    cases b
    exact d
  refine ⟨flowID, hf, h3, hrec, ?_, ?_, h4, ?_⟩
  · intro t hr fr ht hex hl hfl herr
    exact hip t hr fr hl hfl (h5 t hr fr ht hex hl hfl herr)
  · intro t hr fr ht ht2 hcont hnot hl hfl herr
    exact hip t hr fr hl hfl (h6 t hr fr ht ht2 hcont hnot hl hfl herr)
  · generalize path.Hops = l at h4
    clear h2 h3 h5 h6 hrec hip hscan
    induction l with
    | nil => simp
    | cons a as ih =>
      by_cases ha : a.IP = tr.Target
      · have : as = [] := h4 [] a as rfl ha
        subst this
        simp [ha]
      · have hb : (a.IP == tr.Target) = false := by simpa using ha
        rw [List.filter_cons, hb]
        simp only [Bool.false_eq_true, if_false]
        exact ih (fun before hop after e hip => h4 (a :: before) hop after (by simp [e]) hip)

/-! ## The loops of `AnalyzeNetwork` -/

/-- On a result with no hop under TTL 0 the latency loop ends. -/
theorem latencyScan_returns (tr : TracerouteResult) (h0 : tr.Hops.lookup 0 = none) :
    ∀ n ttl prevRTT issues, ttl ≤ 255 → (ttl = 0 ∨ 256 - ttl ≤ n) →
      ∃ res, tr.latencyScan (n + 1) ttl prevRTT issues = some res := by
  have hzero : ∀ n prevRTT issues, tr.latencyScan (n + 1) 0 prevRTT issues = some issues := by
    intro n prevRTT issues
    rw [TracerouteResult.latencyScan]
    simp [h0]
  intro n
  induction n with
  | zero =>
    intro ttl prevRTT issues httl h
    have : ttl = 0 := by omega
    subst this
    exact ⟨issues, hzero 0 prevRTT issues⟩
  | succ n ih =>
    intro ttl prevRTT issues httl h
    by_cases hz : ttl = 0
    · subst hz
      exact ⟨issues, hzero _ prevRTT issues⟩
    · have hnext : u8 (ttl + 1) ≤ 255 := by unfold u8; omega
      have hfuel : u8 (ttl + 1) = 0 ∨ 256 - u8 (ttl + 1) ≤ n := by
        rcases u8_succ_cases ttl httl with ⟨_, he⟩ | ⟨_, he⟩
        · rw [he]; omega
        · exact Or.inl he
      rw [TracerouteResult.latencyScan]
      simp only [httl, if_true]
      cases hl : tr.Hops.lookup ttl with
      | none => exact ⟨issues, rfl⟩
      | some hopResult =>
        simp only
        by_cases havg : (tr.GetAverageRTT ttl == 0) = true
        · rw [if_pos havg]
          exact ih _ _ _ hnext hfuel
        · rw [if_neg havg]
          exact ih _ _ _ hnext hfuel

/-- What `AnalyzeNetwork` returns, when it returns. -/
theorem analyzeNetwork_eq_some (tr : TracerouteResult) (fuel : Nat) (a : NetworkAnalysis)
    (h : tr.AnalyzeNetwork fuel = some a) :
    ∃ issues paths, tr.latencyScan fuel 1 0 [] = some issues ∧ tr.GetPaths fuel = some paths ∧
      a.HasLoadBalancing = tr.HasLoadBalancing ∧
      a.LoadBalancingHops = tr.LoadBalancingHops ∧
      a.PacketLossRate = tr.PacketLossRate ∧
      a.HighLatencyHops = issues ∧
      a.AsymmetricRouting = (if paths.length > 1 then differentPaths paths else false) ∧
      a.UniqueRouters = tr.uniqueRouters.length := by
  unfold TracerouteResult.AnalyzeNetwork at h
  simp only at h
  cases hl : tr.latencyScan fuel 1 0 [] with
  | none => rw [hl] at h; cases h
  | some issues =>
    rw [hl] at h
    simp only at h
    cases hp : tr.GetPaths fuel with
    | none => rw [hp] at h; cases h
    | some paths =>
      rw [hp] at h
      simp only [Option.some.injEq] at h
      subst h
      exact ⟨issues, paths, rfl, rfl, rfl, rfl, rfl, rfl, rfl, rfl⟩

/-- On a result with no hop under TTL 0, `AnalyzeNetwork` returns. -/
theorem analyzeNetwork_returns (tr : TracerouteResult) (h0 : tr.Hops.lookup 0 = none) :
    ∃ a, tr.AnalyzeNetwork 257 = some a := by
  obtain ⟨issues, hl⟩ := latencyScan_returns tr h0 256 1 0 [] (by omega) (Or.inr (by omega))
  obtain ⟨paths, hp⟩ := getPaths_returns tr h0
  unfold TracerouteResult.AnalyzeNetwork
  simp only [hl, hp]
  exact ⟨_, rfl⟩

/-! ## Maps with distinct keys -/

/-- In a map with distinct keys, the read `m[k]` returns the value of the entry of `k`. -/
theorem goMap_lookup_iff_mem {β : Type} (m : GoMap β) (hk : m.keys.Nodup) (k : Nat) (v : β) :
    m.lookup k = some v ↔ (k, v) ∈ m.entries := by
  cases m with
  | mk entries =>
    simp only [GoMap.keys, GoMap.lookup] at hk ⊢
    induction entries with
    | nil => simp
    | cons e es ih =>
      rw [List.map_cons, List.nodup_cons] at hk
      by_cases he : e.1 = k
      · have hfind : List.find? (fun e => e.1 == k) (e :: es) = some e := by
          simp [List.find?_cons, he]
        rw [hfind]
        simp only [Option.map_some', Option.some.injEq, List.mem_cons]
        constructor
        · intro h
          left
          rw [← h, ← he]
        · rintro (h | h)
          · rw [← h]
          · exfalso
            apply hk.1
            rw [he]
            exact List.mem_map.2 ⟨(k, v), h, rfl⟩
      · have hfind : List.find? (fun e => e.1 == k) (e :: es)
            = List.find? (fun e => e.1 == k) es := by
          simp [List.find?_cons, he]
        rw [hfind, ih hk.2]
        simp only [List.mem_cons]
        constructor
        · exact Or.inr
        · rintro (h | h)
          · exfalso
            apply he
            rw [← h]
          · exact h

/-- A list without duplicates has more than one element exactly when two of the elements of the
list it was made from differ. -/
theorem one_lt_length_dedup_iff (l : List String) :
    1 < l.dedup.length ↔ ∃ x ∈ l, ∃ y ∈ l, x ≠ y := by
  constructor
  · intro h
    match hd : l.dedup, h with
    | a :: b :: rest, _ =>
      have hn := List.nodup_dedup l
      rw [hd] at hn
      have ha : a ∈ l := List.mem_dedup.1 (by rw [hd]; simp)
      have hb : b ∈ l := List.mem_dedup.1 (by rw [hd]; simp)
      refine ⟨a, ha, b, hb, ?_⟩
      intro e
      rw [List.nodup_cons] at hn
      exact hn.1 (by rw [e]; simp)
  · rintro ⟨x, hx, y, hy, hxy⟩
    have hx2 := List.mem_dedup.2 hx
    have hy2 := List.mem_dedup.2 hy
    match hd : l.dedup with
    | [] => rw [hd] at hx2; cases hx2
    | [a] =>
      rw [hd] at hx2 hy2
      simp only [List.mem_singleton] at hx2 hy2
      exact absurd (hx2.trans hy2.symm) hxy
    | a :: b :: rest => simp

/-- The set `ips` of a hop has more than one element exactly when two error-free replies of
the hop name different responders. -/
theorem ips_length_gt_one_iff (hopResult : HopResult) :
    hopResult.ips.length > 1 ↔
      ∃ f1 ∈ hopResult.Flows.values, ∃ f2 ∈ hopResult.Flows.values,
        (f1.ResponseIP ≠ "" ∧ f1.Error = "") ∧ (f2.ResponseIP ≠ "" ∧ f2.Error = "") ∧
        f1.ResponseIP ≠ f2.ResponseIP := by
  unfold HopResult.ips
  rw [gt_iff_lt, one_lt_length_dedup_iff]
  constructor
  · rintro ⟨x, hx, y, hy, hxy⟩
    obtain ⟨f1, h1, rfl⟩ := List.mem_map.1 hx
    obtain ⟨f2, h2, rfl⟩ := List.mem_map.1 hy
    rw [List.mem_filter] at h1 h2
    refine ⟨f1, h1.1, f2, h2.1, ?_, ?_, hxy⟩
    · simpa using h1.2
    · simpa using h2.2
  · rintro ⟨f1, h1, f2, h2, c1, c2, hne⟩
    refine ⟨f1.ResponseIP, List.mem_map.2 ⟨f1, List.mem_filter.2 ⟨h1, by simpa using c1⟩, rfl⟩,
      f2.ResponseIP, List.mem_map.2 ⟨f2, List.mem_filter.2 ⟨h2, by simpa using c2⟩, rfl⟩, hne⟩

/-- The hops listed in `LoadBalancingHops`. -/
theorem mem_loadBalancingHops_iff (tr : TracerouteResult) (hk : tr.Hops.keys.Nodup)
    (ttl : Nat) :
    ttl ∈ tr.LoadBalancingHops ↔
      ∃ hopResult, tr.Hops.lookup ttl = some hopResult ∧ hopResult.ips.length > 1 := by
  unfold TracerouteResult.LoadBalancingHops
  simp only [List.mem_map, List.mem_filter, decide_eq_true_eq]
  constructor
  · rintro ⟨⟨k, hop⟩, ⟨hm, hl⟩, rfl⟩
    exact ⟨hop, (goMap_lookup_iff_mem _ hk _ _).2 hm, hl⟩
  · rintro ⟨hop, hl, hlen⟩
    exact ⟨(ttl, hop), ⟨(goMap_lookup_iff_mem _ hk _ _).1 hl, hlen⟩, rfl⟩

/-- The flag `HasLoadBalancing` is set exactly when `LoadBalancingHops` is not empty. -/
theorem hasLoadBalancing_iff (tr : TracerouteResult) :
    tr.HasLoadBalancing = true ↔ ∃ ttl, ttl ∈ tr.LoadBalancingHops := by
  unfold TracerouteResult.HasLoadBalancing TracerouteResult.LoadBalancingHops
  simp only [List.any_eq_true, List.mem_map, List.mem_filter]
  constructor
  · rintro ⟨e, he, hl⟩
    exact ⟨e.1, e, ⟨he, hl⟩, rfl⟩
  · rintro ⟨ttl, e, ⟨he, hl⟩, -⟩
    exact ⟨e, he, hl⟩

theorem loadBalancingHops_nodup (tr : TracerouteResult) (hk : tr.Hops.keys.Nodup) :
    tr.LoadBalancingHops.Nodup := by
  unfold TracerouteResult.LoadBalancingHops
  exact List.Nodup.sublist (List.Sublist.map _ (List.filter_sublist _)) hk

/-! ## Load balancing -/

/-- On a result whose hop map has distinct keys, whenever `AnalyzeNetwork` returns (it does
when no hop is stored under TTL 0), `HasLoadBalancing` is true exactly when some TTL has a
hop in which two replies without error name different responders, `LoadBalancingHops` lists
exactly the TTLs of such hops, and it lists none of them twice. -/
theorem load_balancing_flag_iff_two_responders (tr : TracerouteResult)
    (hk : tr.Hops.keys.Nodup) :
    (tr.Hops.lookup 0 = none → ∃ a, tr.AnalyzeNetwork 257 = some a) ∧
    ∀ fuel a, tr.AnalyzeNetwork fuel = some a →
      (a.HasLoadBalancing = true ↔
        ∃ ttl hopResult, tr.Hops.lookup ttl = some hopResult ∧
          ∃ f1 ∈ hopResult.Flows.values, ∃ f2 ∈ hopResult.Flows.values,
            (f1.ResponseIP ≠ "" ∧ f1.Error = "") ∧ (f2.ResponseIP ≠ "" ∧ f2.Error = "") ∧
            f1.ResponseIP ≠ f2.ResponseIP) ∧
      (∀ ttl, ttl ∈ a.LoadBalancingHops ↔
        ∃ hopResult, tr.Hops.lookup ttl = some hopResult ∧
          ∃ f1 ∈ hopResult.Flows.values, ∃ f2 ∈ hopResult.Flows.values,
            (f1.ResponseIP ≠ "" ∧ f1.Error = "") ∧ (f2.ResponseIP ≠ "" ∧ f2.Error = "") ∧
            f1.ResponseIP ≠ f2.ResponseIP) ∧
      a.LoadBalancingHops.Nodup := by
  refine ⟨analyzeNetwork_returns tr, ?_⟩
  intro fuel a h
  obtain ⟨issues, paths, -, -, h1, h2, -⟩ := analyzeNetwork_eq_some tr fuel a h
  have hmem : ∀ ttl, ttl ∈ tr.LoadBalancingHops ↔
      ∃ hopResult, tr.Hops.lookup ttl = some hopResult ∧
        ∃ f1 ∈ hopResult.Flows.values, ∃ f2 ∈ hopResult.Flows.values,
          (f1.ResponseIP ≠ "" ∧ f1.Error = "") ∧ (f2.ResponseIP ≠ "" ∧ f2.Error = "") ∧
          f1.ResponseIP ≠ f2.ResponseIP := by
    intro ttl
    rw [mem_loadBalancingHops_iff tr hk]
    constructor
    · rintro ⟨hop, hl, hlen⟩
      exact ⟨hop, hl, (ips_length_gt_one_iff hop).1 hlen⟩
    · rintro ⟨hop, hl, htwo⟩
      exact ⟨hop, hl, (ips_length_gt_one_iff hop).2 htwo⟩
  rw [h1, h2]
  refine ⟨?_, hmem, loadBalancingHops_nodup tr hk⟩
  rw [hasLoadBalancing_iff]
  constructor
  · rintro ⟨ttl, hm⟩
    exact ⟨ttl, (hmem ttl).1 hm⟩
  · rintro ⟨ttl, hop, h⟩
    exact ⟨ttl, (hmem ttl).2 ⟨hop, h⟩⟩

/-- The hops of a result whose hops hold at most one record each show no load balancing. -/
theorem ips_length_le (hopResult : HopResult) :
    hopResult.ips.length ≤ hopResult.Flows.values.length := by
  unfold HopResult.ips
  calc _ ≤ ((hopResult.Flows.values.filter
            (fun flowResult => flowResult.ResponseIP != "" && flowResult.Error == "")).map
            (fun flowResult => flowResult.ResponseIP)).length :=
        (List.dedup_sublist _).length_le
    _ ≤ hopResult.Flows.values.length := by
        rw [List.length_map]
        exact List.length_filter_le _ _

theorem no_load_balancing_of_single_records (tr : TracerouteResult)
    (h : ∀ hop ∈ tr.Hops.values, hop.Flows.values.length ≤ 1) :
    tr.HasLoadBalancing = false ∧ tr.LoadBalancingHops = [] := by
  have hall : ∀ e ∈ tr.Hops.entries, ¬ (e.2.ips.length > 1) := by
    intro e he
    have := h e.2 (List.mem_map.2 ⟨e, he, rfl⟩)
    have := ips_length_le e.2
    omega
  constructor
  · unfold TracerouteResult.HasLoadBalancing
    rw [Bool.eq_false_iff]
    intro hany
    obtain ⟨e, he, hl⟩ := List.any_eq_true.1 hany
    exact hall e he (by simpa using hl)
  · unfold TracerouteResult.LoadBalancingHops
    rw [List.map_eq_nil_iff, List.filter_eq_nil_iff]
    intro e he
    simpa using hall e he

/-- Counterexample to C17 as stated: with one flow and two rounds (`-npaths 1 -count 2`), the
two probes of TTL 1 are stored as two records of the hop; when the first is answered by
10.0.0.1 and the second by 10.0.0.2, `AnalyzeNetwork` reports `HasLoadBalancing = true` with
`LoadBalancingHops = [1]`, in the UDP and in the TCP engine. -/
theorem one_flow_in_two_rounds_reports_load_balancing :
    Scenario.oneFlowTwoRounds.Valid ∧ Scenario.oneFlowTwoRounds.NumPaths = 1 ∧
    (Scenario.oneFlowTwoRounds.Traceroute Scenario.alternating 2).map
      (fun ret => ret.result.map (fun tr =>
        (tr.records.map (fun flow => (flow.FlowID, flow.SrcPort, flow.ResponseIP, flow.Error)),
          (tr.AnalyzeNetwork 257).map (fun a => (a.HasLoadBalancing, a.LoadBalancingHops)))))
      = some (some ([(0, 33434, "10.0.0.1", ""), (1, 33434, "10.0.0.2", "")],
          some (true, [1]))) ∧
    Scenario.tcpOneFlowTwoRounds.Valid ∧ Scenario.tcpOneFlowTwoRounds.NumPaths = 1 ∧
    (Scenario.tcpOneFlowTwoRounds.Traceroute Scenario.alternating 2).map
      (fun ret => ret.result.map (fun tr =>
        (tr.records.map (fun flow => (flow.FlowID, flow.SrcPort, flow.ResponseIP, flow.Error)),
          (tr.AnalyzeNetwork 257).map (fun a => (a.HasLoadBalancing, a.LoadBalancingHops)))))
      = some (some ([(0, 33434, "10.0.0.1", ""), (1, 33434, "10.0.0.2", "")],
          some (true, [1]))) := by
  refine ⟨by decide, rfl, rfl, by decide, rfl, rfl⟩

/-- C17, as the code has it: a run with `NumPaths = 1` and `ProbeCount = 1`, in the UDP or in
the TCP engine and whoever answers the probes, stores one record in every hop, so that no hop
of its result has two responders; when the result has no hop under TTL 0, `AnalyzeNetwork`
returns within 257 evaluations of its loops, and whenever `AnalyzeNetwork` returns it reports
`HasLoadBalancing = false` and no load-balancing hop. -/
theorem one_probe_per_hop_reports_no_load_balancing (p : UDPProbe) (q : TCPProbe)
    (hp : p.NumPaths = 1 ∧ p.ProbeCount = 1) (hq : q.NumPaths = 1 ∧ q.ProbeCount = 1)
    (env : Env) (fuel : Nat) (ret : TracerouteReturn) (tr : TracerouteResult)
    (h : p.Traceroute env fuel = some ret ∨ q.Traceroute env fuel = some ret)
    (hr : ret.result = some tr) :
    (∀ hop ∈ tr.Hops.values, hop.Flows.len = 1) ∧
    tr.HasLoadBalancing = false ∧ tr.LoadBalancingHops = [] ∧
    (tr.Hops.lookup 0 = none →
      ∃ a, tr.AnalyzeNetwork 257 = some a ∧
        a.HasLoadBalancing = false ∧ a.LoadBalancingHops = []) ∧
    ∀ fuel2 a, tr.AnalyzeNetwork fuel2 = some a →
      a.HasLoadBalancing = false ∧ a.LoadBalancingHops = [] := by
  have hone : ∀ hop ∈ tr.Hops.values, hop.Flows.len = 1 := by
    rcases h with h | h
    · unfold UDPProbe.Traceroute at h
      simp only at h
      split_ifs at h with hh
      simp only [Option.some.injEq] at h
      subst h
      simp only [Option.some.injEq] at hr
      subst hr
      intro hop hm
      obtain ⟨n, hn⟩ := udp_run_hopOf p (by rw [hp.1, hp.2]; norm_num) env fuel hop hm
      rw [hp.1, hp.2] at hn
      simp [GoMap.len, hn]
    · unfold TCPProbe.Traceroute at h
      cases hc : env.captureErr with
      | some err =>
        rw [hc] at h
        simp only [Option.some.injEq] at h
        subst h
        cases hr
      | none =>
        rw [hc] at h
        simp only at h
        split_ifs at h with hh
        simp only [Option.some.injEq] at h
        subst h
        simp only [Option.some.injEq] at hr
        subst hr
        intro hop hm
        obtain ⟨n, hn⟩ := tcp_run_hopOf q (by rw [hq.1, hq.2]; norm_num) env fuel hop hm
        rw [hq.1, hq.2] at hn
        simp [GoMap.len, hn]
  have hsmall : ∀ hop ∈ tr.Hops.values, hop.Flows.values.length ≤ 1 := by
    intro hop hm
    have := hone hop hm
    simp only [GoMap.len] at this
    simp [GoMap.values, this]
  obtain ⟨h1, h2⟩ := no_load_balancing_of_single_records tr hsmall
  have hall : ∀ fuel2 a, tr.AnalyzeNetwork fuel2 = some a →
      a.HasLoadBalancing = false ∧ a.LoadBalancingHops = [] := by
    intro fuel2 a ha
    obtain ⟨_, _, -, -, e1, e2, -⟩ := analyzeNetwork_eq_some tr fuel2 a ha
    rw [e1, e2]
    exact ⟨h1, h2⟩
  refine ⟨hone, h1, h2, ?_, hall⟩
  intro h0
  obtain ⟨a, ha⟩ := analyzeNetwork_returns tr h0
  exact ⟨a, ha, hall 257 a ha⟩

/-- A run with one flow and one round, for C17: its single probe is answered, the returned
result has no hop under TTL 0, and its analysis returns and reports no load balancing. -/
theorem one_probe_per_hop_reports_no_load_balancing_witness :
    (Scenario.oneProbe.NumPaths = 1 ∧ Scenario.oneProbe.ProbeCount = 1) ∧
    Scenario.oneProbe.Traceroute Scenario.alternating 2
      = some { result := some (Scenario.resultOf
          (Scenario.oneProbe.Traceroute Scenario.alternating 2)), err := none } ∧
    (Scenario.resultOf (Scenario.oneProbe.Traceroute Scenario.alternating 2)).Hops.lookup 0
      = none ∧
    (Scenario.resultOf (Scenario.oneProbe.Traceroute Scenario.alternating 2)).HasLoadBalancing
      = false ∧
    ∃ a, (Scenario.resultOf (Scenario.oneProbe.Traceroute Scenario.alternating 2)).AnalyzeNetwork
        257 = some a ∧
      a.HasLoadBalancing = false ∧ a.LoadBalancingHops = [] :=
  ⟨⟨rfl, rfl⟩, by decide, by decide,
    (one_probe_per_hop_reports_no_load_balancing Scenario.oneProbe Scenario.tcpOneProbe
      ⟨rfl, rfl⟩ ⟨rfl, rfl⟩ Scenario.alternating 2
      { result := some (Scenario.resultOf
          (Scenario.oneProbe.Traceroute Scenario.alternating 2)), err := none }
      (Scenario.resultOf (Scenario.oneProbe.Traceroute Scenario.alternating 2))
      (Or.inl (by decide)) rfl).2.1,
    (one_probe_per_hop_reports_no_load_balancing Scenario.oneProbe Scenario.tcpOneProbe
      ⟨rfl, rfl⟩ ⟨rfl, rfl⟩ Scenario.alternating 2
      { result := some (Scenario.resultOf
          (Scenario.oneProbe.Traceroute Scenario.alternating 2)), err := none }
      (Scenario.resultOf (Scenario.oneProbe.Traceroute Scenario.alternating 2))
      (Or.inl (by decide)) rfl).2.2.2.1 (by decide)⟩

/-! ## Asymmetric routing -/

theorem pathsEqual_comm (p1 p2 : Path) : pathsEqual p1 p2 = pathsEqual p2 p1 := by
  rw [Bool.eq_iff_iff, pathsEqual_eq_true_iff, pathsEqual_eq_true_iff]
  exact eq_comm

/-- The paths after position `n`. -/
theorem mem_drop_succ_iff (paths : List Path) (n : Nat) (pj : Path) :
    pj ∈ paths.drop (n + 1) ↔ ∃ j, n < j ∧ paths.get? j = some pj := by
  rw [List.mem_iff_getElem?]
  simp only [List.getElem?_drop, List.get?_eq_getElem?]
  constructor
  · rintro ⟨k, hk⟩
    exact ⟨n + 1 + k, by omega, hk⟩
  · rintro ⟨j, hj, hg⟩
    refine ⟨j - (n + 1), ?_⟩
    rw [← hg]
    congr 1
    omega

/-- The nested loops of `AnalyzeNetwork` set `different` exactly when some path differs from a
later one. -/
theorem differentPaths_iff (paths : List Path) :
    differentPaths paths = true ↔
      ∃ i j pi pj, i < j ∧ paths.get? i = some pi ∧ paths.get? j = some pj ∧
        pathsEqual pi pj = false := by
  have key : ∀ n, forRange n (fun i different =>
        match paths.get? i with
        | none => different
        | some pi =>
          if (paths.drop (i + 1)).any (fun pj => !pathsEqual pi pj) then true else different)
        false = true ↔
      ∃ i j pi pj, i < n ∧ i < j ∧ paths.get? i = some pi ∧ paths.get? j = some pj ∧
        pathsEqual pi pj = false := by
    intro n
    induction n with
    | zero =>
      simp [forRange]
    | succ n ih =>
      rw [forRange]
      cases hg : paths.get? n with
      | none =>
        simp only
        rw [ih]
        constructor
        · rintro ⟨i, j, pi, pj, h1, h2⟩
          exact ⟨i, j, pi, pj, by omega, h2⟩
        · rintro ⟨i, j, pi, pj, h1, h2, h3, h4⟩
          have hne : i ≠ n := by
            intro e
            rw [e, hg] at h3
            cases h3
          exact ⟨i, j, pi, pj, by omega, h2, h3, h4⟩
      | some pn =>
        simp only
        by_cases hany : (paths.drop (n + 1)).any (fun pj => !pathsEqual pn pj) = true
        · rw [if_pos hany]
          simp only [true_iff]
          obtain ⟨pj, hm, hne⟩ := List.any_eq_true.1 hany
          obtain ⟨j, hj, hgj⟩ := (mem_drop_succ_iff paths n pj).1 hm
          exact ⟨n, j, pn, pj, by omega, hj, hg, hgj, by simpa using hne⟩
        · rw [if_neg hany, ih]
          constructor
          · rintro ⟨i, j, pi, pj, h1, h2⟩
            exact ⟨i, j, pi, pj, by omega, h2⟩
          · rintro ⟨i, j, pi, pj, h1, h2, h3, h4, h5⟩
            by_cases e : i = n
            · exfalso
              apply hany
              rw [e, hg] at h3
              cases h3
              rw [e] at h2
              exact List.any_eq_true.2
                ⟨pj, (mem_drop_succ_iff paths n pj).2 ⟨j, h2, h4⟩, by simp [h5]⟩
            · exact ⟨i, j, pi, pj, by omega, h2, h3, h4, h5⟩
  unfold differentPaths
  refine (key (paths.length - 1)).trans ?_
  constructor
  · rintro ⟨i, j, pi, pj, -, h⟩
    exact ⟨i, j, pi, pj, h⟩
  · rintro ⟨i, j, pi, pj, h1, h2, h3, h4⟩
    refine ⟨i, j, pi, pj, ?_, h1, h2, h3, h4⟩
    have : j < paths.length := by
      rw [List.get?_eq_getElem?] at h3
      exact (List.getElem?_eq_some_iff.1 h3).1
    omega

/-- Whenever `AnalyzeNetwork` returns (it does when no hop is stored under TTL 0), `GetPaths`
returns too, and `AsymmetricRouting` is true exactly when two of the paths `GetPaths` returns,
at different positions, are not equal under `pathsEqual`. -/
theorem asymmetric_flag_iff_two_paths_differ (tr : TracerouteResult) :
    (tr.Hops.lookup 0 = none → ∃ a, tr.AnalyzeNetwork 257 = some a) ∧
    ∀ fuel a, tr.AnalyzeNetwork fuel = some a →
      ∃ paths, tr.GetPaths fuel = some paths ∧
        (a.AsymmetricRouting = true ↔
          ∃ i j pi pj, i ≠ j ∧ paths.get? i = some pi ∧ paths.get? j = some pj ∧
            pathsEqual pi pj = false) := by
  refine ⟨analyzeNetwork_returns tr, ?_⟩
  intro fuel a h
  obtain ⟨issues, paths, -, hp, -, -, -, -, ha, -⟩ := analyzeNetwork_eq_some tr fuel a h
  refine ⟨paths, hp, ?_⟩
  rw [ha]
  have hsym : (∃ i j pi pj, i ≠ j ∧ paths.get? i = some pi ∧ paths.get? j = some pj ∧
        pathsEqual pi pj = false) ↔
      ∃ i j pi pj, i < j ∧ paths.get? i = some pi ∧ paths.get? j = some pj ∧
        pathsEqual pi pj = false := by
    constructor
    · rintro ⟨i, j, pi, pj, hne, h1, h2, h3⟩
      rcases Nat.lt_or_gt_of_ne hne with hlt | hgt
      · exact ⟨i, j, pi, pj, hlt, h1, h2, h3⟩
      · exact ⟨j, i, pj, pi, hgt, h2, h1, by rw [pathsEqual_comm]; exact h3⟩
    · rintro ⟨i, j, pi, pj, hlt, h⟩
      exact ⟨i, j, pi, pj, Nat.ne_of_lt hlt, h⟩
  rw [hsym, ← differentPaths_iff]
  by_cases hlen : paths.length > 1
  · rw [if_pos hlen]
  · rw [if_neg hlen]
    simp only [Bool.false_eq_true, false_iff]
    intro hd
    obtain ⟨i, j, pi, pj, hlt, h1, h2, -⟩ := (differentPaths_iff paths).1 hd
    have : j < paths.length := by
      rw [List.get?_eq_getElem?] at h2
      exact (List.getElem?_eq_some_iff.1 h2).1
    omega

/-! ## Packet loss -/

/-- Counterexample to C19 as stated: in the run of `twoFlows` whose replies are read within the
clock tick in which the probes were sent, both records have a responder, no error and an RTT
of 0; `AnalyzeNetwork` counts neither as successful and reports a loss rate of 100, where the
formula of the claim, with `S` the number of records without error, gives 0. -/
theorem zero_rtt_replies_are_counted_as_lost :
    Scenario.twoFlows.Traceroute Scenario.sameTick 2
      = some { result := some Scenario.instant, err := none } ∧
    Scenario.instant.records.map (fun flow => (flow.Error, flow.ResponseIP, flow.RTT))
      = [("", "10.0.0.1", 0), ("", "10.0.0.1", 0)] ∧
    (Scenario.instant.AnalyzeNetwork 257).map (fun a => a.PacketLossRate) = some 100 ∧
    ¬ ∀ (tr : TracerouteResult) (fuel : Nat) (a : NetworkAnalysis),
      0 < tr.records.length → tr.AnalyzeNetwork fuel = some a →
      a.PacketLossRate = 100 * ((tr.records.length : ℚ)
        - ((tr.records.filter (fun flow => flow.Error == "")).length : ℚ))
        / (tr.records.length : ℚ) := by
  have hcount : (Scenario.instant.totalProbes, Scenario.instant.successfulProbes) = (2, 0) := by
    decide
  have hrate : Scenario.instant.PacketLossRate = 100 := by
    unfold TracerouteResult.PacketLossRate
    simp only [Prod.mk.injEq] at hcount
    rw [hcount.1, hcount.2, if_pos (by norm_num)]
    exact f64Percent_self 2 (by norm_num)
  obtain ⟨a, ha⟩ := analyzeNetwork_returns Scenario.instant (by decide)
  obtain ⟨_, _, -, -, -, -, hloss, -⟩ := analyzeNetwork_eq_some _ _ _ ha
  have hlen : Scenario.instant.records.length = 2 := by decide
  have hok : (Scenario.instant.records.filter (fun flow => flow.Error == "")).length = 2 := by
    decide
  refine ⟨by decide, by decide, ?_, ?_⟩
  · rw [ha, Option.map_some', hloss, hrate]
  · intro hall
    have := hall Scenario.instant 257 a (by rw [hlen]; norm_num) ha
    rw [hloss, hrate, hlen, hok] at this
    norm_num at this

/-- C19, as the code has it: on a result with no hop under TTL 0, `AnalyzeNetwork` returns
within 257 evaluations of its loops, and whenever it returns, `PacketLossRate` is the `float64`
the code computes, `float64(T - S) / float64(T) * 100` with each operation rounded, where `T`
is the number of probe records and `S` the number of records with no error and a positive RTT
(`S ≤ T`), and 0 when there is no record. That value lies between 0 and 100, is 0 when
`S = T`, is 100 when `S = 0 < T`, and is within `2^-45` of the exact `100 × (T − S) / T` when
`T ≤ 2^53`. When every record without error has a positive RTT, `S` is the number of records
without error. -/
theorem packet_loss_rate_counts_replies_with_positive_rtt (tr : TracerouteResult)
    (h0 : tr.Hops.lookup 0 = none) :
    (∃ a, tr.AnalyzeNetwork 257 = some a) ∧
    ∀ fuel a, tr.AnalyzeNetwork fuel = some a →
      a.PacketLossRate =
        (if 0 < tr.records.length then
          f64Percent
            (tr.records.length
              - (tr.records.filter (fun flow => flow.Error == "" && flow.RTT > 0)).length)
            tr.records.length
        else 0) ∧
      (tr.records.filter (fun flow => flow.Error == "" && flow.RTT > 0)).length
        ≤ tr.records.length ∧
      (tr.records.length = 0 → a.PacketLossRate = 0) ∧
      0 ≤ a.PacketLossRate ∧ a.PacketLossRate ≤ 100 ∧
      ((tr.records.filter (fun flow => flow.Error == "" && flow.RTT > 0)).length
          = tr.records.length → a.PacketLossRate = 0) ∧
      (0 < tr.records.length →
        (tr.records.filter (fun flow => flow.Error == "" && flow.RTT > 0)).length = 0 →
        a.PacketLossRate = 100) ∧
      (0 < tr.records.length → tr.records.length ≤ 2 ^ 53 →
        |a.PacketLossRate - 100 * ((tr.records.length : ℚ)
            - ((tr.records.filter
                (fun flow => flow.Error == "" && flow.RTT > 0)).length : ℚ))
          / (tr.records.length : ℚ)| ≤ 1 / 2 ^ 45) ∧
      ((∀ flow ∈ tr.records, flow.Error = "" → 0 < flow.RTT) →
        (tr.records.filter (fun flow => flow.Error == "" && flow.RTT > 0)).length
          = (tr.records.filter (fun flow => flow.Error == "")).length) := by
  refine ⟨analyzeNetwork_returns tr h0, ?_⟩
  intro fuel a h
  obtain ⟨_, _, -, -, -, -, hloss, -⟩ := analyzeNetwork_eq_some tr fuel a h
  have hle : (tr.records.filter (fun flow => flow.Error == "" && flow.RTT > 0)).length
      ≤ tr.records.length := List.length_filter_le _ _
  generalize hS : (tr.records.filter (fun flow => flow.Error == "" && flow.RTT > 0)).length
    = S at hle ⊢
  have hrate : a.PacketLossRate =
      (if 0 < tr.records.length then f64Percent (tr.records.length - S) tr.records.length
        else 0) := by
    rw [hloss, ← hS]
    rfl
  refine ⟨hrate, hle, ?_, ?_, ?_, ?_, ?_, ?_, ?_⟩
  · intro hz
    rw [hrate, if_neg (by omega)]
  · rw [hrate]
    split_ifs with hpos
    · exact (f64Percent_bounds _ _ (Nat.sub_le _ _) hpos).1
    · exact le_refl 0
  · rw [hrate]
    split_ifs with hpos
    · exact (f64Percent_bounds _ _ (Nat.sub_le _ _) hpos).2
    · norm_num
  · intro hST
    rw [hrate, hST, Nat.sub_self]
    split_ifs
    · exact f64Percent_zero _
    · rfl
  · intro hpos hz
    rw [hrate, if_pos hpos, hz, Nat.sub_zero]
    exact f64Percent_self _ hpos
  · intro hpos h53
    rw [hrate, if_pos hpos]
    have hacc := (f64Percent_accuracy (tr.records.length - S) tr.records.length
      (Nat.sub_le _ _) hpos h53).1
    have hcast : ((tr.records.length - S : Nat) : ℚ) = (tr.records.length : ℚ) - (S : ℚ) := by
      push_cast [hle]
      ring
    rw [hcast] at hacc
    exact hacc
  · intro hall
    rw [← hS]
    congr 1
    apply List.filter_congr
    intro flow hm
    by_cases he : flow.Error = ""
    · simp [he, hall flow hm he]
    · simp [he]

/-- A result for the amended C19: the run of `twoFlows` in which every probe is answered after
2 ms has no hop under TTL 0, its analysis returns, and it reports the loss rate
`float64(2 - 2) / float64(2) * 100`, which is 0. -/
theorem packet_loss_rate_counts_replies_with_positive_rtt_witness :
    Scenario.unbalanced.Hops.lookup 0 = none ∧
    ∃ a, Scenario.unbalanced.AnalyzeNetwork 257 = some a ∧
      a.PacketLossRate =
        (if 0 < Scenario.unbalanced.records.length then
          f64Percent
            (Scenario.unbalanced.records.length
              - (Scenario.unbalanced.records.filter
                  (fun flow => flow.Error == "" && flow.RTT > 0)).length)
            Scenario.unbalanced.records.length
        else 0) ∧
      a.PacketLossRate = 0 :=
  ⟨by decide,
    (packet_loss_rate_counts_replies_with_positive_rtt Scenario.unbalanced (by decide)).1.elim
      (fun a ha => ⟨a, ha,
        ((packet_loss_rate_counts_replies_with_positive_rtt Scenario.unbalanced (by decide)).2
          257 a ha).1,
        ((packet_loss_rate_counts_replies_with_positive_rtt Scenario.unbalanced (by decide)).2
          257 a ha).2.2.2.2.2.1 (by decide)⟩)⟩

/-! ## Per-hop statistics -/

/-- One record more is counted as sent, and as received when it has a responder and no
error. -/
theorem recordFlow_counts (acc : HopStatistics × List (String × Nat)) (flowResult : FlowResult) :
    (recordFlow acc flowResult).1.Sent = acc.1.Sent + 1 ∧
    (recordFlow acc flowResult).1.Received = acc.1.Received +
      (if (flowResult.ResponseIP != "" && flowResult.Error == "") = true then 1 else 0) := by
  unfold recordFlow
  by_cases he : flowResult.Error = "" <;> by_cases hr : flowResult.ResponseIP = ""
  all_goals simp only [he, hr]
  all_goals constructor
  all_goals split_ifs
  all_goals simp_all

theorem foldl_recordFlow_counts (flows : List FlowResult) :
    ∀ acc : HopStatistics × List (String × Nat),
      (flows.foldl recordFlow acc).1.Sent = acc.1.Sent + flows.length ∧
      (flows.foldl recordFlow acc).1.Received = acc.1.Received +
        (flows.filter
          (fun flow => flow.ResponseIP != "" && flow.Error == "")).length := by
  induction flows with
  | nil => intro acc; simp
  | cons f fs ih =>
    intro acc
    obtain ⟨h1, h2⟩ := ih (recordFlow acc f)
    obtain ⟨c1, c2⟩ := recordFlow_counts acc f
    rw [List.foldl_cons, h1, h2, c1, c2, List.filter_cons]
    constructor
    · simp only [List.length_cons]
      omega
    · split_ifs
      · simp only [List.length_cons]
        omega
      · omega

/-- The first loop leaves the loss percentage alone. -/
theorem foldl_recordFlow_lossPercent (flows : List FlowResult) :
    ∀ acc : HopStatistics × List (String × Nat),
      (flows.foldl recordFlow acc).1.LossPercent = acc.1.LossPercent := by
  induction flows with
  | nil => intro acc; rfl
  | cons f fs ih =>
    intro acc
    rw [List.foldl_cons, ih]
    unfold recordFlow
    simp only
    split_ifs <;> rfl

theorem pickHostname_counts (stat : HopStatistics) (flows : List FlowResult) :
    (pickHostname stat flows).Sent = stat.Sent ∧
    (pickHostname stat flows).Received = stat.Received ∧
    (pickHostname stat flows).LossPercent = stat.LossPercent := by
  unfold pickHostname
  split_ifs
  · split <;> exact ⟨rfl, rfl, rfl⟩
  · exact ⟨rfl, rfl, rfl⟩

theorem setRTTStatistics_counts (stat : HopStatistics) :
    (setRTTStatistics stat).Sent = stat.Sent ∧
    (setRTTStatistics stat).Received = stat.Received ∧
    (setRTTStatistics stat).LossPercent = stat.LossPercent := by
  unfold setRTTStatistics
  simp only
  split_ifs <;> exact ⟨rfl, rfl, rfl⟩

theorem setLossPercent_counts (stat : HopStatistics) :
    (setLossPercent stat).Sent = stat.Sent ∧
    (setLossPercent stat).Received = stat.Received ∧
    (setLossPercent stat).LossPercent =
      (if stat.Sent > 0 then f64Percent (stat.Sent - stat.Received) stat.Sent
      else stat.LossPercent) := by
  unfold setLossPercent
  split_ifs <;> exact ⟨rfl, rfl, rfl⟩

/-- The counters and the loss percentage of the statistics of a hop. -/
theorem hopStatistics_counts (ttl : Nat) (hopResult : HopResult) :
    (hopStatistics ttl hopResult).Sent = hopResult.Flows.values.length ∧
    (hopStatistics ttl hopResult).Received = (hopResult.Flows.values.filter
      (fun flow => flow.ResponseIP != "" && flow.Error == "")).length ∧
    (hopStatistics ttl hopResult).LossPercent =
      (if hopResult.Flows.values.length > 0 then
        f64Percent
          (hopResult.Flows.values.length - (hopResult.Flows.values.filter
            (fun flow => flow.ResponseIP != "" && flow.Error == "")).length)
          hopResult.Flows.values.length
      else 0) := by
  have hc := foldl_recordFlow_counts hopResult.Flows.values
    ({ TTL := ttl, IP := "", Hostname := "", Sent := 0, Received := 0, LossPercent := 0,
       RTTs := [], MinRTT := 0, AvgRTT := 0, MaxRTT := 0, StdDevRTT := 0, BestTime := 0,
       WorstTime := 0 }, [])
  simp only [Nat.zero_add] at hc
  obtain ⟨h1, h2⟩ := hc
  have hl := foldl_recordFlow_lossPercent hopResult.Flows.values
    ({ TTL := ttl, IP := "", Hostname := "", Sent := 0, Received := 0, LossPercent := 0,
       RTTs := [], MinRTT := 0, AvgRTT := 0, MaxRTT := 0, StdDevRTT := 0, BestTime := 0,
       WorstTime := 0 }, [])
  simp only at hl
  unfold hopStatistics aggregateFlows
  simp only
  obtain ⟨a1, a2, a3⟩ := setRTTStatistics_counts (setLossPercent (pickHostname
    { (List.foldl recordFlow
        ({ TTL := ttl, IP := "", Hostname := "", Sent := 0, Received := 0, LossPercent := 0,
           RTTs := [], MinRTT := 0, AvgRTT := 0, MaxRTT := 0, StdDevRTT := 0, BestTime := 0,
           WorstTime := 0 }, []) hopResult.Flows.values).1 with
      IP := mostCommonIP (List.foldl recordFlow
        ({ TTL := ttl, IP := "", Hostname := "", Sent := 0, Received := 0, LossPercent := 0,
           RTTs := [], MinRTT := 0, AvgRTT := 0, MaxRTT := 0, StdDevRTT := 0, BestTime := 0,
           WorstTime := 0 }, []) hopResult.Flows.values).2 }
    hopResult.Flows.values))
  obtain ⟨b1, b2, b3⟩ := setLossPercent_counts (pickHostname
    { (List.foldl recordFlow
        ({ TTL := ttl, IP := "", Hostname := "", Sent := 0, Received := 0, LossPercent := 0,
           RTTs := [], MinRTT := 0, AvgRTT := 0, MaxRTT := 0, StdDevRTT := 0, BestTime := 0,
           WorstTime := 0 }, []) hopResult.Flows.values).1 with
      IP := mostCommonIP (List.foldl recordFlow
        ({ TTL := ttl, IP := "", Hostname := "", Sent := 0, Received := 0, LossPercent := 0,
           RTTs := [], MinRTT := 0, AvgRTT := 0, MaxRTT := 0, StdDevRTT := 0, BestTime := 0,
           WorstTime := 0 }, []) hopResult.Flows.values).2 }
    hopResult.Flows.values)
  obtain ⟨c1, c2, c3⟩ := pickHostname_counts
    { (List.foldl recordFlow
        ({ TTL := ttl, IP := "", Hostname := "", Sent := 0, Received := 0, LossPercent := 0,
           RTTs := [], MinRTT := 0, AvgRTT := 0, MaxRTT := 0, StdDevRTT := 0, BestTime := 0,
           WorstTime := 0 }, []) hopResult.Flows.values).1 with
      IP := mostCommonIP (List.foldl recordFlow
        ({ TTL := ttl, IP := "", Hostname := "", Sent := 0, Received := 0, LossPercent := 0,
           RTTs := [], MinRTT := 0, AvgRTT := 0, MaxRTT := 0, StdDevRTT := 0, BestTime := 0,
           WorstTime := 0 }, []) hopResult.Flows.values).2 }
    hopResult.Flows.values
  simp only at c1 c2 c3
  refine ⟨?_, ?_, ?_⟩
  · rw [a1, b1, c1, h1]
  · rw [a2, b2, c2, h2]
  · rw [a3, b3, c1, c2, c3, h1, h2, hl]

/-- Storing one value per entry of a list with distinct keys, into a map that has none of these
keys, appends one entry per entry of the list. -/
theorem foldl_store_entries {α β : Type} (g : Nat → α → β) (l : List (Nat × α)) :
    ∀ m : GoMap β, (l.map (fun e => e.1)).Nodup → (∀ k ∈ l.map (fun e => e.1), k ∉ m.keys) →
      (l.foldl (fun stats e => stats.store e.1 (g e.1 e.2)) m).entries
        = m.entries ++ l.map (fun e => (e.1, g e.1 e.2)) := by
  induction l with
  | nil => intro m _ _; simp
  | cons e es ih =>
    intro m hnd hfresh
    rw [List.map_cons, List.nodup_cons] at hnd
    have hstore : (m.store e.1 (g e.1 e.2)).entries = m.entries ++ [(e.1, g e.1 e.2)] := by
      unfold GoMap.store
      simp only [List.append_left_inj]
      rw [List.filter_eq_self]
      intro x hx
      have hne : x.1 ≠ e.1 := by
        intro heq
        apply hfresh e.1 (by simp)
        rw [← heq]
        exact List.mem_map.2 ⟨x, hx, rfl⟩
      simpa using hne
    rw [List.foldl_cons, ih _ hnd.2, hstore]
    · simp
    · intro k hk hmem
      simp only [GoMap.keys, hstore, List.map_append, List.map_cons, List.map_nil,
        List.mem_append, List.mem_singleton] at hmem
      rcases hmem with hmem | hmem
      · exact hfresh k (by simp only [List.map_cons, List.mem_cons]; exact Or.inr hk) hmem
      · rw [hmem] at hk
        exact hnd.1 hk

/-- The statistics map has one entry per hop, computed from that hop. -/
theorem calculateHopStatistics_lookup (tr : TracerouteResult) (hk : tr.Hops.keys.Nodup)
    (ttl : Nat) (hopResult : HopResult) (h : tr.Hops.lookup ttl = some hopResult) :
    tr.CalculateHopStatistics.keys = tr.Hops.keys ∧
    tr.CalculateHopStatistics.lookup ttl = some (hopStatistics ttl hopResult) := by
  have he : tr.CalculateHopStatistics.entries
      = tr.Hops.entries.map (fun e => (e.1, hopStatistics e.1 e.2)) := by
    unfold TracerouteResult.CalculateHopStatistics
    rw [foldl_store_entries hopStatistics tr.Hops.entries GoMap.empty hk]
    · simp [GoMap.empty]
    · intro k _ hm
      simp [GoMap.empty, GoMap.keys] at hm
  have hkeys : tr.CalculateHopStatistics.keys = tr.Hops.keys := by
    simp only [GoMap.keys, he, List.map_map]
    rfl
  refine ⟨hkeys, ?_⟩
  rw [goMap_lookup_iff_mem _ (by rw [hkeys]; exact hk), he]
  exact List.mem_map.2 ⟨(ttl, hopResult), (goMap_lookup_iff_mem _ hk _ _).1 h, rfl⟩

/-- The quotient 11 / 20 is no `float64`: the nearest one is `4953959590107546 / 2^53`, and its
product with 100, rounded again, is `7740561859543041 / 2^47`, one unit in the last place
above 55. -/
theorem f64Percent_eleven_of_twenty :
    f64Percent 11 20 = 7740561859543041 / 140737488355328 := by
  unfold f64Percent
  have h11 : f64Round ((11 : Nat) : ℚ) = 11 := by
    rw [f64Round_natCast 11 (by norm_num)]
    norm_num
  have h20 : f64Round ((20 : Nat) : ℚ) = 20 := by
    rw [f64Round_natCast 20 (by norm_num)]
    norm_num
  have hq : f64Round ((11 : ℚ) / 20) = 4953959590107546 / 9007199254740992 := by
    rw [f64Round_eq_of (11 / 20) 4953959590107546 (-53) (by norm_num) (by norm_num)
      (by rw [pow2_eq_zpow]; norm_num) (by rw [pow2_eq_zpow]; norm_num)
      (by rw [pow2_eq_zpow, abs_lt]; norm_num)]
    rw [pow2_eq_zpow]
    norm_num
  have hp : f64Round ((4953959590107546 : ℚ) / 9007199254740992 * 100)
      = 7740561859543041 / 140737488355328 := by
    rw [f64Round_eq_of _ 7740561859543041 (-47) (by norm_num) (by norm_num)
      (by rw [pow2_eq_zpow]; norm_num) (by rw [pow2_eq_zpow]; norm_num)
      (by rw [pow2_eq_zpow, abs_lt]; norm_num)]
    rw [pow2_eq_zpow]
    norm_num
  rw [h11, h20, hq, hp]

/-- Counterexample to C20 as stated: in the validated run of four flows and five rounds at TTL 1
in which nine of the twenty probes are answered, the hop has `Sent = 20` and `Received = 9`,
and `LossPercent` is the `float64` `float64(11) / float64(20) * 100`, which is
`7740561859543041 / 2^47` (printed 55.00000000000001), not `100 × 11 / 20 = 55`. -/
theorem loss_percent_of_eleven_in_twenty_is_not_55 :
    Scenario.twentyProbes.Valid ∧
    (Scenario.twentyProbes.Traceroute Scenario.nineAnswered 2).map
      (fun ret => (ret.result.isSome, ret.err)) = some (true, none) ∧
    Scenario.elevenLost.Hops.keys = [1] ∧
    (Scenario.elevenLost.CalculateHopStatistics.lookup 1).map
      (fun stat => (stat.Sent, stat.Received, stat.LossPercent))
      = some (20, 9, 7740561859543041 / 140737488355328) ∧
    (7740561859543041 / 140737488355328 : ℚ) ≠ 100 * ((20 : ℚ) - 9) / 20 ∧
    ¬ ∀ (tr : TracerouteResult) (ttl : Nat) (stat : HopStatistics), tr.Hops.keys.Nodup →
      tr.CalculateHopStatistics.lookup ttl = some stat →
      stat.LossPercent = 100 * ((stat.Sent : ℚ) - (stat.Received : ℚ)) / (stat.Sent : ℚ) := by
  have hk : Scenario.elevenLost.Hops.keys.Nodup := by decide
  have hhop : ∃ hopResult, Scenario.elevenLost.Hops.lookup 1 = some hopResult ∧
      hopResult.Flows.values.length = 20 ∧
      (hopResult.Flows.values.filter
        (fun flow => flow.ResponseIP != "" && flow.Error == "")).length = 9 := by
    decide
  obtain ⟨hopResult, hl, hlen, hrec⟩ := hhop
  obtain ⟨-, hlook⟩ := calculateHopStatistics_lookup _ hk 1 hopResult hl
  obtain ⟨h1, h2, h3⟩ := hopStatistics_counts 1 hopResult
  rw [hlen] at h1
  rw [hrec] at h2
  rw [hlen, hrec, if_pos (by norm_num)] at h3
  have h3b : (hopStatistics 1 hopResult).LossPercent = 7740561859543041 / 140737488355328 := by
    rw [h3]
    exact f64Percent_eleven_of_twenty
  refine ⟨by decide, by decide, by decide, ?_, by norm_num, ?_⟩
  · rw [hlook, Option.map_some', h1, h2, h3b]
  · intro hall
    have := hall Scenario.elevenLost 1 _ hk hlook
    rw [h1, h2, h3b] at this
    norm_num at this

/-- C20, as the code has it: on a result whose hop map has distinct keys,
`CalculateHopStatistics` has an entry for every hop, in which `Sent` is the number of records
of the hop, `Received` the number of those with a responder IP and no error
(`Received ≤ Sent`), and `LossPercent` is the `float64` the code computes,
`float64(Sent - Received) / float64(Sent) * 100` with each operation rounded, and 0 for a hop
without records. That value lies between 0 and 100, is 0 when `Received = Sent`, is 100 when
`Received = 0 < Sent`, and is within `2^-45` of the exact `100 × (Sent − Received) / Sent`
when `Sent ≤ 2^53`. For the hops held by a state of a validated run of either engine, `Sent`
is `NumPaths × ProbeCount`. -/
theorem hop_statistics_count_sent_and_received (tr : TracerouteResult)
    (hk : tr.Hops.keys.Nodup) (ttl : Nat) (hopResult : HopResult)
    (h : tr.Hops.lookup ttl = some hopResult) :
    ∃ stat, tr.CalculateHopStatistics.lookup ttl = some stat ∧
      stat.Sent = hopResult.Flows.len ∧
      stat.Received = (hopResult.Flows.values.filter
        (fun flow => flow.ResponseIP != "" && flow.Error == "")).length ∧
      stat.LossPercent =
        (if 0 < stat.Sent then f64Percent (stat.Sent - stat.Received) stat.Sent else 0) ∧
      (stat.Sent = 0 → stat.LossPercent = 0) ∧
      stat.Received ≤ stat.Sent ∧ 0 ≤ stat.LossPercent ∧ stat.LossPercent ≤ 100 ∧
      (stat.Received = stat.Sent → stat.LossPercent = 0) ∧
      (0 < stat.Sent → stat.Received = 0 → stat.LossPercent = 100) ∧
      (0 < stat.Sent → stat.Sent ≤ 2 ^ 53 →
        |stat.LossPercent - 100 * ((stat.Sent : ℚ) - (stat.Received : ℚ)) / (stat.Sent : ℚ)|
          ≤ 1 / 2 ^ 45) ∧
      (∀ (p : UDPProbe) (env : Env) (k : Nat), p.Valid → tr.Hops = (p.run env k).Hops →
        stat.Sent = p.NumPaths * p.ProbeCount) ∧
      (∀ (q : TCPProbe) (env : Env) (k : Nat), q.Valid → tr.Hops = (q.run env k).Hops →
        stat.Sent = q.NumPaths * q.ProbeCount) := by
  obtain ⟨-, hlook⟩ := calculateHopStatistics_lookup tr hk ttl hopResult h
  obtain ⟨h1, h2, h3⟩ := hopStatistics_counts ttl hopResult
  have hlen : hopResult.Flows.values.length = hopResult.Flows.len := by
    simp [GoMap.values, GoMap.len]
  have hle : (hopStatistics ttl hopResult).Received ≤ (hopStatistics ttl hopResult).Sent := by
    rw [h1, h2]
    exact List.length_filter_le _ _
  have hloss : (hopStatistics ttl hopResult).LossPercent
      = (if 0 < (hopStatistics ttl hopResult).Sent then
          f64Percent ((hopStatistics ttl hopResult).Sent - (hopStatistics ttl hopResult).Received)
            (hopStatistics ttl hopResult).Sent
        else 0) := by
    rw [h3, h1, h2]
  have hmem : hopResult ∈ tr.Hops.values :=
    List.mem_map.2 ⟨(ttl, hopResult), (goMap_lookup_iff_mem _ hk _ _).1 h, rfl⟩
  refine ⟨hopStatistics ttl hopResult, hlook, by rw [h1, hlen], h2, hloss, ?_, hle, ?_, ?_, ?_,
    ?_, ?_, ?_, ?_⟩
  · intro hz
    rw [hloss, if_neg (by omega)]
  · rw [hloss]
    split_ifs with hpos
    · exact (f64Percent_bounds _ _ (Nat.sub_le _ _) hpos).1
    · exact le_refl 0
  · rw [hloss]
    split_ifs with hpos
    · exact (f64Percent_bounds _ _ (Nat.sub_le _ _) hpos).2
    · norm_num
  · intro heq
    rw [hloss, heq, Nat.sub_self]
    split_ifs
    · exact f64Percent_zero _
    · rfl
  · intro hpos hz
    rw [hloss, if_pos hpos, hz, Nat.sub_zero]
    exact f64Percent_self _ hpos
  · intro hpos h53
    rw [hloss, if_pos hpos]
    have hacc := (f64Percent_accuracy
      ((hopStatistics ttl hopResult).Sent - (hopStatistics ttl hopResult).Received)
      (hopStatistics ttl hopResult).Sent (Nat.sub_le _ _) hpos h53).1
    have hcast : (((hopStatistics ttl hopResult).Sent
          - (hopStatistics ttl hopResult).Received : Nat) : ℚ)
        = ((hopStatistics ttl hopResult).Sent : ℚ)
          - ((hopStatistics ttl hopResult).Received : ℚ) := by
      push_cast [hle]
      ring
    rw [hcast] at hacc
    exact hacc
  · intro p env k hp he
    rw [he] at hmem
    obtain ⟨n, hn⟩ := udp_run_hopOf p (udp_count_le hp) env k hopResult hmem
    rw [h1, hlen, (HopOf_len hn).1, Nat.mul_comm]
  · intro q env k hq he
    rw [he] at hmem
    obtain ⟨n, hn⟩ := tcp_run_hopOf q (tcp_count_le hq) env k hopResult hmem
    rw [h1, hlen, (HopOf_len hn).1, Nat.mul_comm]

/-- A hop for the amended C20: the hop under TTL 1 of the result whose two probes are answered
has `Sent = 2 = NumPaths × ProbeCount`, `Received = 2` and the loss percentage
`float64(0) / float64(2) * 100`, which is 0. -/
theorem hop_statistics_count_sent_and_received_witness :
    Scenario.balanced.Hops.keys.Nodup ∧
    Scenario.balanced.Hops.lookup 1 = some Scenario.balancedHop ∧
    Scenario.balancedHop.Flows.len = 2 ∧
    (Scenario.balancedHop.Flows.values.filter
      (fun flow => flow.ResponseIP != "" && flow.Error == "")).length = 2 ∧
    ∃ stat, Scenario.balanced.CalculateHopStatistics.lookup 1 = some stat ∧
      stat.Sent = Scenario.balancedHop.Flows.len ∧
      stat.Received = (Scenario.balancedHop.Flows.values.filter
        (fun flow => flow.ResponseIP != "" && flow.Error == "")).length ∧
      stat.LossPercent =
        (if 0 < stat.Sent then f64Percent (stat.Sent - stat.Received) stat.Sent else 0) ∧
      0 ≤ stat.LossPercent ∧ stat.LossPercent ≤ 100 ∧
      stat.Sent = Scenario.twoFlows.NumPaths * Scenario.twoFlows.ProbeCount :=
  ⟨by decide, by decide, by decide, by decide,
    (hop_statistics_count_sent_and_received Scenario.balanced (by decide) 1
      Scenario.balancedHop (by decide)).elim
      (fun stat hs => ⟨stat, hs.1, hs.2.1, hs.2.2.1, hs.2.2.2.1,
        hs.2.2.2.2.2.2.1, hs.2.2.2.2.2.2.2.1,
        hs.2.2.2.2.2.2.2.2.2.2.2.1 Scenario.twoFlows Scenario.alternating 2 (by decide)
          (by decide)⟩)⟩

/-! ## A capture source that closes during the run -/

/-- As long as the `uint32` accumulator does not overflow, the summation loop adds the words of
the data. -/
theorem sumWords_eq_wordSum : ∀ (data : List Nat) (csum : Nat),
    csum + wordSum data < 4294967296 → sumWords data csum = csum + wordSum data
  | [], csum, _ => by simp [sumWords, wordSum]
  | [a], csum, h => by
    simp only [wordSum] at h
    simp only [sumWords, wordSum, u32]
    omega
  | a :: b :: rest, csum, h => by
    simp only [wordSum] at h
    have e1 : u32 (u32 (csum + a * 256) + b) = csum + a * 256 + b := by
      simp only [u32]
      omega
    rw [sumWords, e1, sumWords_eq_wordSum rest _ (by omega)]
    simp only [wordSum]
    omega

/-- The carry loop keeps the value modulo `0xFFFF`. -/
theorem foldCarries_mod (n x : Nat) : foldCarries n x % 65535 = x % 65535 := by
  induction n generalizing x with
  | zero => rfl
  | succ n ih =>
    rw [foldCarries]
    split_ifs
    · rw [ih]
      omega
    · rfl

/-- The carry loop keeps a positive value positive. -/
theorem foldCarries_pos (n x : Nat) (h : 0 < x) : 0 < foldCarries n x := by
  induction n generalizing x with
  | zero => exact h
  | succ n ih =>
    rw [foldCarries]
    split_ifs with hx
    · apply ih
      have : 1 ≤ x / 65536 := by omega
      omega
    · exact h

/-- The carry loop brings a `uint32` down to 16 bits. -/
theorem foldCarries_le (x : Nat) (h : x < 4294967296) : foldCarries 4 x ≤ 65535 := by
  simp only [foldCarries]
  split_ifs <;> omega

/-- A sum completed by the complement of its folded value folds to `0xFFFF`. -/
theorem foldCarries_with_complement (x : Nat) (h : x + 65535 < 4294967296) :
    foldCarries 4 (x + (65535 - foldCarries 4 x)) = 65535 := by
  have h1 := foldCarries_le x (by omega)
  have h2 := foldCarries_mod 4 x
  have h3 := foldCarries_le (x + (65535 - foldCarries 4 x)) (by omega)
  have h4 := foldCarries_mod 4 (x + (65535 - foldCarries 4 x))
  have h5 : 0 < foldCarries 4 (x + (65535 - foldCarries 4 x)) := by
    apply foldCarries_pos
    rcases Nat.eq_zero_or_pos x with h0 | h0
    · subst h0
      have : foldCarries 4 0 = 0 := rfl
      rw [this]
      norm_num
    · omega
  omega

/-- The checksum computed by the library makes the one's-complement sum of the data and the
checksum `0xFFFF`. -/
theorem tcpipChecksum_validates (data : List Nat) (csum : Nat)
    (h : csum + wordSum data + 65535 < 4294967296) :
    tcpipChecksum data csum ≤ 65535 ∧
    foldCarries 4 (csum + wordSum data + tcpipChecksum data csum) = 65535 := by
  unfold tcpipChecksum complement16
  rw [sumWords_eq_wordSum data csum (by omega)]
  have h1 := foldCarries_le (csum + wordSum data) (by omega)
  have e : u16 (foldCarries 4 (csum + wordSum data)) = foldCarries 4 (csum + wordSum data) := by
    unfold u16
    omega
  rw [e]
  exact ⟨by omega, foldCarries_with_complement _ h⟩

/-! ## Building a UDP probe and reading it back -/

/-- The 36 bytes of a probe: the IPv4 header with its checksum, the UDP header with its
checksum, the payload. -/
theorem craftUDPPacket_bytes (p : UDPProbe) (ttl flowID : Nat) :
    p.craftUDPPacket ttl flowID =
      [69, 0, 0, 36, flowID / 256, flowID % 256, 64, 0, ttl, 17,
        tcpipChecksum [69, 0, 0, 36, flowID / 256, flowID % 256, 64, 0, ttl, 17, 0, 0,
          p.SrcIP.b0, p.SrcIP.b1, p.SrcIP.b2, p.SrcIP.b3,
          p.Target.b0, p.Target.b1, p.Target.b2, p.Target.b3] 0 / 256,
        tcpipChecksum [69, 0, 0, 36, flowID / 256, flowID % 256, 64, 0, ttl, 17, 0, 0,
          p.SrcIP.b0, p.SrcIP.b1, p.SrcIP.b2, p.SrcIP.b3,
          p.Target.b0, p.Target.b1, p.Target.b2, p.Target.b3] 0 % 256,
        p.SrcIP.b0, p.SrcIP.b1, p.SrcIP.b2, p.SrcIP.b3,
        p.Target.b0, p.Target.b1, p.Target.b2, p.Target.b3,
        u16 (p.SrcPort + flowID) / 256, u16 (p.SrcPort + flowID) % 256,
        p.DstPort / 256, p.DstPort % 256, 0, 16,
        tcpipChecksum [u16 (p.SrcPort + flowID) / 256, u16 (p.SrcPort + flowID) % 256,
            p.DstPort / 256, p.DstPort % 256, 0, 16, 0, 0,
            222, 173, 190, 239, 202, 254, 186, 190]
          (u32 (u32 (u32 (u32 (u32 (u32 (u32 ((p.SrcIP.b0 + p.SrcIP.b2) * 256)
            + (p.SrcIP.b1 + p.SrcIP.b3)) + (p.Target.b0 + p.Target.b2) * 256)
            + (p.Target.b1 + p.Target.b3)) + 17) + 16) + 0)) / 256,
        tcpipChecksum [u16 (p.SrcPort + flowID) / 256, u16 (p.SrcPort + flowID) % 256,
            p.DstPort / 256, p.DstPort % 256, 0, 16, 0, 0,
            222, 173, 190, 239, 202, 254, 186, 190]
          (u32 (u32 (u32 (u32 (u32 (u32 (u32 ((p.SrcIP.b0 + p.SrcIP.b2) * 256)
            + (p.SrcIP.b1 + p.SrcIP.b3)) + (p.Target.b0 + p.Target.b2) * 256)
            + (p.Target.b1 + p.Target.b3)) + 17) + 16) + 0)) % 256,
        222, 173, 190, 239, 202, 254, 186, 190] := by
  have h : ∃ ic uc, p.craftUDPPacket ttl flowID =
      [69, 0, 0, 36, flowID / 256, flowID % 256, 64, 0, ttl, 17, ic / 256, ic % 256,
        p.SrcIP.b0, p.SrcIP.b1, p.SrcIP.b2, p.SrcIP.b3,
        p.Target.b0, p.Target.b1, p.Target.b2, p.Target.b3,
        u16 (p.SrcPort + flowID) / 256, u16 (p.SrcPort + flowID) % 256,
        p.DstPort / 256, p.DstPort % 256, 0, 16, uc / 256, uc % 256,
        222, 173, 190, 239, 202, 254, 186, 190] ∧
      ic = tcpipChecksum [69, 0, 0, 36, flowID / 256, flowID % 256, 64, 0, ttl, 17, 0, 0,
          p.SrcIP.b0, p.SrcIP.b1, p.SrcIP.b2, p.SrcIP.b3,
          p.Target.b0, p.Target.b1, p.Target.b2, p.Target.b3] 0 ∧
      uc = tcpipChecksum [u16 (p.SrcPort + flowID) / 256, u16 (p.SrcPort + flowID) % 256,
            p.DstPort / 256, p.DstPort % 256, 0, 16, 0, 0,
            222, 173, 190, 239, 202, 254, 186, 190]
          (u32 (u32 (u32 (u32 (u32 (u32 (u32 ((p.SrcIP.b0 + p.SrcIP.b2) * 256)
            + (p.SrcIP.b1 + p.SrcIP.b3)) + (p.Target.b0 + p.Target.b2) * 256)
            + (p.Target.b1 + p.Target.b3)) + 17) + 16) + 0)) := by
    refine ⟨_, _, ?_, rfl, rfl⟩
    unfold UDPProbe.craftUDPPacket
    simp only [udpPayload, List.cons_append, List.nil_append, List.length_cons,
      List.length_nil, List.set_cons_succ, List.set_cons_zero, ipv4HeaderChecksum]
    norm_num [u16, u32]
    exact ⟨rfl, rfl⟩
  obtain ⟨ic, uc, hb, hic, huc⟩ := h
  rw [hb, hic, huc]

/-- C12: for a validated UDP probe with IPv4 source and target, every TTL of a `uint8` and
every flow index below `NumPaths`, `craftUDPPacket` returns 36 bytes that the packet library
parses back to an IPv4 header with version 4, header length 5, the flag DF and no fragment
offset, the TTL `ttl`, protocol 17, total length 36 and the addresses of the probe, followed by
a UDP datagram with source port `SrcPort + flowID`, destination port `DstPort`, length 16 and
the eight payload bytes DE AD BE EF CA FE BA BE; the checksum of the IPv4 header and the
pseudo-header checksum of the UDP datagram both validate. -/
theorem craftUDPPacket_parses_back (p : UDPProbe) (hp : p.Valid) (hsrc : p.SrcIP.IsBytes)
    (hdst : p.Target.IsBytes) (ttl flowID : Nat) (httl : ttl ≤ 255)
    (hflow : flowID < p.NumPaths) :
    (p.craftUDPPacket ttl flowID).length = 36 ∧
    (∀ b ∈ p.craftUDPPacket ttl flowID, b < 256) ∧
    ∃ ip udp, IPv4.DecodeFromBytes (p.craftUDPPacket ttl flowID) = some ip ∧
      ip.Version = 4 ∧ ip.IHL = 5 ∧ ip.Flags = IPv4DontFragment ∧ ip.FragOffset = 0 ∧
      ip.TTL = ttl ∧ ip.Protocol = 17 ∧ ip.Length = 36 ∧ ip.Id = flowID ∧
      ip.SrcIP = p.SrcIP ∧ ip.DstIP = p.Target ∧
      UDP.DecodeFromBytes (IPv4.payloadOf (p.craftUDPPacket ttl flowID)) = some udp ∧
      udp.SrcPort = p.SrcPort + flowID ∧ udp.DstPort = p.DstPort ∧ udp.Length = 16 ∧
      udp.Payload = [0xDE, 0xAD, 0xBE, 0xEF, 0xCA, 0xFE, 0xBA, 0xBE] ∧
      ipv4ChecksumValid ((p.craftUDPPacket ttl flowID).take (ip.IHL * 4)) = true ∧
      udpChecksumValid ip.SrcIP ip.DstIP (IPv4.payloadOf (p.craftUDPPacket ttl flowID))
        = true := by
  obtain ⟨⟨hs1, hs2⟩, ⟨hd1, hd2⟩, -, -, ⟨hn1, hn2⟩, -, hsum⟩ := hp
  obtain ⟨s0, s1, s2, s3⟩ := hsrc
  obtain ⟨d0, d1, d2, d3⟩ := hdst
  have hport : u16 (p.SrcPort + flowID) = p.SrcPort + flowID := by
    unfold u16
    omega
  have hic := tcpipChecksum_validates
    [69, 0, 0, 36, flowID / 256, flowID % 256, 64, 0, ttl, 17, 0, 0,
      p.SrcIP.b0, p.SrcIP.b1, p.SrcIP.b2, p.SrcIP.b3,
      p.Target.b0, p.Target.b1, p.Target.b2, p.Target.b3] 0
    (by simp only [wordSum]; omega)
  have hcsum : u32 (u32 (u32 (u32 (u32 (u32 (u32 ((p.SrcIP.b0 + p.SrcIP.b2) * 256)
      + (p.SrcIP.b1 + p.SrcIP.b3)) + (p.Target.b0 + p.Target.b2) * 256)
      + (p.Target.b1 + p.Target.b3)) + 17) + 16) + 0)
      = (p.SrcIP.b0 + p.SrcIP.b2) * 256 + (p.SrcIP.b1 + p.SrcIP.b3)
        + (p.Target.b0 + p.Target.b2) * 256 + (p.Target.b1 + p.Target.b3) + 17 + 16 := by
    simp only [u32]
    omega
  have huc := tcpipChecksum_validates
    [(p.SrcPort + flowID) / 256, (p.SrcPort + flowID) % 256,
      p.DstPort / 256, p.DstPort % 256, 0, 16, 0, 0,
      222, 173, 190, 239, 202, 254, 186, 190]
    ((p.SrcIP.b0 + p.SrcIP.b2) * 256 + (p.SrcIP.b1 + p.SrcIP.b3)
        + (p.Target.b0 + p.Target.b2) * 256 + (p.Target.b1 + p.Target.b3) + 17 + 16)
    (by simp only [wordSum]; omega)
  have hb := craftUDPPacket_bytes p ttl flowID
  rw [hport, hcsum] at hb
  generalize tcpipChecksum
    [69, 0, 0, 36, flowID / 256, flowID % 256, 64, 0, ttl, 17, 0, 0,
      p.SrcIP.b0, p.SrcIP.b1, p.SrcIP.b2, p.SrcIP.b3,
      p.Target.b0, p.Target.b1, p.Target.b2, p.Target.b3] 0 = ic at hic hb
  generalize tcpipChecksum
    [(p.SrcPort + flowID) / 256, (p.SrcPort + flowID) % 256,
      p.DstPort / 256, p.DstPort % 256, 0, 16, 0, 0,
      222, 173, 190, 239, 202, 254, 186, 190]
    ((p.SrcIP.b0 + p.SrcIP.b2) * 256 + (p.SrcIP.b1 + p.SrcIP.b3)
        + (p.Target.b0 + p.Target.b2) * 256 + (p.Target.b1 + p.Target.b3) + 17 + 16)
    = uc at huc hb
  obtain ⟨hic1, hic2⟩ := hic
  obtain ⟨huc1, huc2⟩ := huc
  simp only [wordSum] at hic2 huc2
  rw [hb]
  have hpay : IPv4.payloadOf
      [69, 0, 0, 36, flowID / 256, flowID % 256, 64, 0, ttl, 17, ic / 256, ic % 256,
        p.SrcIP.b0, p.SrcIP.b1, p.SrcIP.b2, p.SrcIP.b3,
        p.Target.b0, p.Target.b1, p.Target.b2, p.Target.b3,
        (p.SrcPort + flowID) / 256, (p.SrcPort + flowID) % 256,
        p.DstPort / 256, p.DstPort % 256, 0, 16, uc / 256, uc % 256,
        222, 173, 190, 239, 202, 254, 186, 190]
      = [(p.SrcPort + flowID) / 256, (p.SrcPort + flowID) % 256,
        p.DstPort / 256, p.DstPort % 256, 0, 16, uc / 256, uc % 256,
        222, 173, 190, 239, 202, 254, 186, 190] := by
    simp [IPv4.payloadOf, u16]
  rw [hpay]
  refine ⟨rfl, ?_, ?_⟩
  · intro b hbm
    simp only [List.mem_cons, List.mem_singleton, List.not_mem_nil, or_false] at hbm
    rcases hbm with h | h | h | h | h | h | h | h | h | h | h | h | h | h | h | h | h | h |
      h | h | h | h | h | h | h | h | h | h | h | h | h | h | h | h | h | h
    all_goals (subst h; omega)
  · have hdm : ∀ a : Nat, a / 256 * 256 + a % 256 = a := fun a => Nat.div_add_mod' a 256
    refine ⟨{ Version := 4, IHL := 5, TOS := 0, Length := 36, Id := flowID,
              Flags := IPv4DontFragment, FragOffset := 0, TTL := ttl, Protocol := 17,
              Checksum := ic, SrcIP := p.SrcIP, DstIP := p.Target },
      { SrcPort := p.SrcPort + flowID, DstPort := p.DstPort, Length := 16, Checksum := uc,
        Payload := [0xDE, 0xAD, 0xBE, 0xEF, 0xCA, 0xFE, 0xBA, 0xBE] },
      ?_, rfl, rfl, rfl, rfl, rfl, rfl, rfl, rfl, rfl, rfl, ?_, rfl, rfl, rfl, rfl, ?_, ?_⟩
    · simp [IPv4.DecodeFromBytes, u16, ipv4OptionsOK, hdm, IPv4DontFragment]
    · simp [UDP.DecodeFromBytes, hdm]
    · show ipv4ChecksumValid (List.take 20 _) = true
      simp only [List.take_succ_cons, List.take_zero, ipv4ChecksumValid, wordSum]
      have e : 69 * 256 + 0 + (0 * 256 + 36 + (flowID / 256 * 256 + flowID % 256 +
          (64 * 256 + 0 + (ttl * 256 + 17 + (ic / 256 * 256 + ic % 256 +
          (p.SrcIP.b0 * 256 + p.SrcIP.b1 + (p.SrcIP.b2 * 256 + p.SrcIP.b3 +
          (p.Target.b0 * 256 + p.Target.b1 + (p.Target.b2 * 256 + p.Target.b3 + 0)))))))))
          = 0 + (69 * 256 + 0 + (0 * 256 + 36 + (flowID / 256 * 256 + flowID % 256 +
          (64 * 256 + 0 + (ttl * 256 + 17 + (0 * 256 + 0 +
          (p.SrcIP.b0 * 256 + p.SrcIP.b1 + (p.SrcIP.b2 * 256 + p.SrcIP.b3 +
          (p.Target.b0 * 256 + p.Target.b1 + (p.Target.b2 * 256 + p.Target.b3 + 0)))))))))) + ic
          := by
        have := hdm ic
        omega
      rw [e, hic2]
      rfl
    · simp only [udpChecksumValid, wordSum, List.length_cons, List.length_nil]
      have e : p.SrcIP.b0 * 256 + p.SrcIP.b1 + (p.SrcIP.b2 * 256 + p.SrcIP.b3 +
          (p.Target.b0 * 256 + p.Target.b1 + (p.Target.b2 * 256 + p.Target.b3 +
          (0 * 256 + 17 + ((0 + 1 + 1 + 1 + 1 + 1 + 1 + 1 + 1 + 1 + 1 + 1 + 1 + 1 + 1 + 1 + 1)
            / 256 * 256 + (0 + 1 + 1 + 1 + 1 + 1 + 1 + 1 + 1 + 1 + 1 + 1 + 1 + 1 + 1 + 1 + 1)
            % 256 + 0))))) +
          ((p.SrcPort + flowID) / 256 * 256 + (p.SrcPort + flowID) % 256 +
          (p.DstPort / 256 * 256 + p.DstPort % 256 + (0 * 256 + 16 +
          (uc / 256 * 256 + uc % 256 + (222 * 256 + 173 + (190 * 256 + 239 +
          (202 * 256 + 254 + (186 * 256 + 190 + 0))))))))
          = (p.SrcIP.b0 + p.SrcIP.b2) * 256 + (p.SrcIP.b1 + p.SrcIP.b3)
            + (p.Target.b0 + p.Target.b2) * 256 + (p.Target.b1 + p.Target.b3) + 17 + 16 +
          ((p.SrcPort + flowID) / 256 * 256 + (p.SrcPort + flowID) % 256 +
          (p.DstPort / 256 * 256 + p.DstPort % 256 + (0 * 256 + 16 + (0 * 256 + 0 +
          (222 * 256 + 173 + (190 * 256 + 239 + (202 * 256 + 254 + (186 * 256 + 190 + 0))))))))
          + uc := by
        have := hdm uc
        omega
      rw [e, huc2]
      rfl

/-- The example of C12: the probe of flow 3 with TTL 7 of a run with the default ports 33434 has
36 bytes and parses back to TTL 7, source port 33437 and destination port 33434. -/
theorem craftUDPPacket_parses_back_witness :
    Scenario.s5.Valid ∧ Scenario.s5.SrcIP.IsBytes ∧ Scenario.s5.Target.IsBytes ∧
    (Scenario.s5.craftUDPPacket 7 3).length = 36 ∧
    (IPv4.DecodeFromBytes (Scenario.s5.craftUDPPacket 7 3)).map
      (fun ip => (ip.TTL, ip.Flags, ip.Protocol)) = some (7, 2, 17) ∧
    (UDP.DecodeFromBytes (IPv4.payloadOf (Scenario.s5.craftUDPPacket 7 3))).map
      (fun udp => (udp.SrcPort, udp.DstPort, udp.Length)) = some (33437, 33434, 16) ∧
    ipv4ChecksumValid ((Scenario.s5.craftUDPPacket 7 3).take 20) = true ∧
    udpChecksumValid Scenario.localIP Scenario.targetIP
      (IPv4.payloadOf (Scenario.s5.craftUDPPacket 7 3)) = true :=
  ⟨by decide, by decide, by decide,
    (craftUDPPacket_parses_back Scenario.s5 (by decide) (by decide) (by decide) 7 3
      (by decide) (by decide)).1,
    by decide, by decide, by decide, by decide⟩

/-! ## The RTT statistics of a hop -/

/-- The statistics of a hop, stage by stage. -/
theorem hopStatistics_eq (ttl : Nat) (hopResult : HopResult) :
    hopStatistics ttl hopResult =
      setRTTStatistics (setLossPercent (pickHostname
        { (hopResult.Flows.values.foldl recordFlow (HopStatistics.initial ttl, [])).1 with
          IP := mostCommonIP
            (hopResult.Flows.values.foldl recordFlow (HopStatistics.initial ttl, [])).2 }
        hopResult.Flows.values)) := rfl

/-- A record whose RTT is not collected leaves the RTT fields alone. -/
theorem recordFlow_untimed (acc : HopStatistics × List (String × Nat)) (flowResult : FlowResult)
    (h : (flowResult.Error == "" && flowResult.ResponseIP != "" && flowResult.RTT > 0)
      = false) :
    (recordFlow acc flowResult).1.RTTs = acc.1.RTTs ∧
    (recordFlow acc flowResult).1.MinRTT = acc.1.MinRTT ∧
    (recordFlow acc flowResult).1.MaxRTT = acc.1.MaxRTT ∧
    (recordFlow acc flowResult).1.BestTime = acc.1.BestTime := by
  unfold recordFlow
  simp only
  by_cases h1 : (flowResult.Error == "" && flowResult.ResponseIP != "") = true
  · rw [if_pos h1]
    have h2 : ¬ flowResult.RTT > 0 := by
      intro hpos
      rw [h1] at h
      simp [hpos] at h
    rw [if_neg h2]
    exact ⟨rfl, rfl, rfl, rfl⟩
  · rw [if_neg h1]
    exact ⟨rfl, rfl, rfl, rfl⟩

/-- A record whose RTT is collected: the RTT is appended, and the extremes are updated by the
two tests of the loop. -/
theorem recordFlow_timed (acc : HopStatistics × List (String × Nat)) (flowResult : FlowResult)
    (h : (flowResult.Error == "" && flowResult.ResponseIP != "" && flowResult.RTT > 0)
      = true) :
    (recordFlow acc flowResult).1.RTTs = acc.1.RTTs ++ [flowResult.RTT] ∧
    (recordFlow acc flowResult).1.MinRTT =
      (if (acc.1.BestTime == 0 || flowResult.RTT < acc.1.MinRTT || acc.1.MinRTT == 0) = true
        then flowResult.RTT else acc.1.MinRTT) ∧
    (recordFlow acc flowResult).1.BestTime =
      (if (acc.1.BestTime == 0 || flowResult.RTT < acc.1.MinRTT || acc.1.MinRTT == 0) = true
        then flowResult.RecvTime else acc.1.BestTime) ∧
    (recordFlow acc flowResult).1.MaxRTT =
      (if flowResult.RTT > acc.1.MaxRTT then flowResult.RTT else acc.1.MaxRTT) := by
  have h1 : (flowResult.Error == "" && flowResult.ResponseIP != "") = true := by
    cases hh : (flowResult.Error == "" && flowResult.ResponseIP != "")
    · rw [hh] at h
      simp at h
    · rfl
  have h2 : flowResult.RTT > 0 := by
    rw [h1] at h
    simpa using h
  unfold recordFlow
  simp only
  rw [if_pos h1, if_pos h2]
  refine ⟨?_, ?_, ?_, ?_⟩
  · split_ifs <;> rfl
  · split_ifs <;> rfl
  · split_ifs <;> rfl
  · split_ifs <;> rfl

/-- The RTTs collected by the first loop: those of the records with no error, a responder and
a positive RTT, in the order of the records. -/
theorem foldl_recordFlow_rtts (flows : List FlowResult) :
    ∀ acc : HopStatistics × List (String × Nat),
      (flows.foldl recordFlow acc).1.RTTs = acc.1.RTTs ++
        (flows.filter (fun flowResult => flowResult.Error == "" && flowResult.ResponseIP != ""
          && flowResult.RTT > 0)).map (fun flowResult => flowResult.RTT) := by
  induction flows with
  | nil => intro acc; simp
  | cons f fs ih =>
    intro acc
    rw [List.foldl_cons, ih, List.filter_cons]
    cases hc : (f.Error == "" && f.ResponseIP != "" && decide (f.RTT > 0))
    · rw [(recordFlow_untimed acc f hc).1]
      simp
    · rw [(recordFlow_timed acc f hc).1]
      simp

/-- The first loop keeps `MaxRTT` the greatest of the collected RTTs, which are positive. -/
theorem foldl_recordFlow_max (flows : List FlowResult) :
    ∀ acc : HopStatistics × List (String × Nat),
      ((∀ r ∈ acc.1.RTTs, 0 < r) ∧ (acc.1.RTTs = [] → acc.1.MaxRTT = 0) ∧
        (acc.1.RTTs ≠ [] → acc.1.MaxRTT ∈ acc.1.RTTs ∧ ∀ r ∈ acc.1.RTTs, r ≤ acc.1.MaxRTT)) →
      ((∀ r ∈ (flows.foldl recordFlow acc).1.RTTs, 0 < r) ∧
        ((flows.foldl recordFlow acc).1.RTTs = [] → (flows.foldl recordFlow acc).1.MaxRTT = 0) ∧
        ((flows.foldl recordFlow acc).1.RTTs ≠ [] →
          (flows.foldl recordFlow acc).1.MaxRTT ∈ (flows.foldl recordFlow acc).1.RTTs ∧
          ∀ r ∈ (flows.foldl recordFlow acc).1.RTTs,
            r ≤ (flows.foldl recordFlow acc).1.MaxRTT)) := by
  induction flows with
  | nil => intro acc h; exact h
  | cons f fs ih =>
    intro acc ⟨hpos, hnil, hne⟩
    rw [List.foldl_cons]
    apply ih
    cases hc : (f.Error == "" && f.ResponseIP != "" && decide (f.RTT > 0))
    · obtain ⟨e1, -, e3, -⟩ := recordFlow_untimed acc f hc
      rw [e1, e3]
      exact ⟨hpos, hnil, hne⟩
    · obtain ⟨e1, -, -, e4⟩ := recordFlow_timed acc f hc
      have hfpos : 0 < f.RTT := by
        have : decide (f.RTT > 0) = true := by
          cases hd : decide (f.RTT > 0)
          · rw [hd] at hc
            simp at hc
          · rfl
        simpa using this
      rw [e1, e4]
      refine ⟨?_, ?_, ?_⟩
      · intro r hr
        rcases List.mem_append.1 hr with hr | hr
        · exact hpos r hr
        · rw [List.mem_singleton] at hr
          rw [hr]
          exact hfpos
      · intro hcontra
        simp at hcontra
      · intro _
        by_cases hempty : acc.1.RTTs = []
        · rw [hnil hempty, if_pos hfpos, hempty]
          simp
        · obtain ⟨hm, hle⟩ := hne hempty
          split_ifs with hgt
          · refine ⟨by simp, ?_⟩
            intro r hr
            rcases List.mem_append.1 hr with hr | hr
            · exact le_of_lt (lt_of_le_of_lt (hle r hr) hgt)
            · rw [List.mem_singleton] at hr
              rw [hr]
          · refine ⟨List.mem_append_left _ hm, ?_⟩
            intro r hr
            rcases List.mem_append.1 hr with hr | hr
            · exact hle r hr
            · rw [List.mem_singleton] at hr
              rw [hr]
              exact not_lt.1 hgt

/-- The first loop keeps `MinRTT` the least of the collected RTTs, as long as the records whose
RTT is collected do not carry the zero time as `RecvTime`. -/
theorem foldl_recordFlow_min (flows : List FlowResult)
    (hrecv : ∀ f ∈ flows,
      (f.Error == "" && f.ResponseIP != "" && decide (f.RTT > 0)) = true → f.RecvTime ≠ 0) :
    ∀ acc : HopStatistics × List (String × Nat),
      ((∀ r ∈ acc.1.RTTs, 0 < r) ∧ (acc.1.RTTs = [] → acc.1.BestTime = 0) ∧
        (acc.1.RTTs ≠ [] → acc.1.BestTime ≠ 0 ∧ acc.1.MinRTT ∈ acc.1.RTTs ∧
          ∀ r ∈ acc.1.RTTs, acc.1.MinRTT ≤ r)) →
      ((flows.foldl recordFlow acc).1.RTTs ≠ [] →
          (flows.foldl recordFlow acc).1.MinRTT ∈ (flows.foldl recordFlow acc).1.RTTs ∧
          ∀ r ∈ (flows.foldl recordFlow acc).1.RTTs,
            (flows.foldl recordFlow acc).1.MinRTT ≤ r) := by
  induction flows with
  | nil => intro acc h hne; exact (h.2.2 hne).2
  | cons f fs ih =>
    intro acc ⟨hpos, hnil, hne⟩
    rw [List.foldl_cons]
    apply ih (fun g hg => hrecv g (List.mem_cons_of_mem _ hg))
    cases hc : (f.Error == "" && f.ResponseIP != "" && decide (f.RTT > 0))
    · obtain ⟨e1, e2, -, e4⟩ := recordFlow_untimed acc f hc
      rw [e1, e2, e4]
      exact ⟨hpos, hnil, hne⟩
    · obtain ⟨e1, e2, e3, -⟩ := recordFlow_timed acc f hc
      have hfpos : 0 < f.RTT := by
        have : decide (f.RTT > 0) = true := by
          cases hd : decide (f.RTT > 0)
          · rw [hd] at hc
            simp at hc
          · rfl
        simpa using this
      have hfrecv : f.RecvTime ≠ 0 := hrecv f (List.mem_cons_self _ _) hc
      rw [e1, e2, e3]
      refine ⟨?_, ?_, ?_⟩
      · intro r hr
        rcases List.mem_append.1 hr with hr | hr
        · exact hpos r hr
        · rw [List.mem_singleton] at hr
          rw [hr]
          exact hfpos
      · intro hcontra
        simp at hcontra
      · intro _
        by_cases hempty : acc.1.RTTs = []
        · have hb : (acc.1.BestTime == 0 || decide (f.RTT < acc.1.MinRTT)
              || acc.1.MinRTT == 0) = true := by
            rw [hnil hempty]
            rfl
          rw [if_pos hb, if_pos hb, hempty]
          exact ⟨hfrecv, by simp, by simp⟩
        · obtain ⟨hbest, hm, hle⟩ := hne hempty
          have hminpos : 0 < acc.1.MinRTT := hpos _ hm
          by_cases hlt : f.RTT < acc.1.MinRTT
          · have hb : (acc.1.BestTime == 0 || decide (f.RTT < acc.1.MinRTT)
                || acc.1.MinRTT == 0) = true := by
              simp [hlt]
            rw [if_pos hb, if_pos hb]
            refine ⟨hfrecv, by simp, ?_⟩
            intro r hr
            rcases List.mem_append.1 hr with hr | hr
            · exact le_of_lt (lt_of_lt_of_le hlt (hle r hr))
            · rw [List.mem_singleton] at hr
              rw [hr]
          · have hb : ¬ (acc.1.BestTime == 0 || decide (f.RTT < acc.1.MinRTT)
                || acc.1.MinRTT == 0) = true := by
              have h1 : (acc.1.BestTime == 0) = false := by simpa using hbest
              have h3 : (acc.1.MinRTT == 0) = false := by
                simpa using ne_of_gt hminpos
              simp [h1, h3, hlt]
            rw [if_neg hb, if_neg hb]
            refine ⟨hbest, List.mem_append_left _ hm, ?_⟩
            intro r hr
            rcases List.mem_append.1 hr with hr | hr
            · exact hle r hr
            · rw [List.mem_singleton] at hr
              rw [hr]
              exact not_lt.1 hlt

/-- Without a collected RTT the first loop leaves `MinRTT` as it was. -/
theorem foldl_recordFlow_min_unset (flows : List FlowResult) :
    ∀ acc : HopStatistics × List (String × Nat),
      (flows.foldl recordFlow acc).1.RTTs = [] →
      (flows.foldl recordFlow acc).1.MinRTT = acc.1.MinRTT := by
  induction flows with
  | nil => intro acc _; rfl
  | cons f fs ih =>
    intro acc hnil
    rw [List.foldl_cons] at hnil ⊢
    rw [ih _ hnil]
    cases hc : (f.Error == "" && f.ResponseIP != "" && decide (f.RTT > 0))
    · exact (recordFlow_untimed acc f hc).2.1
    · exfalso
      rw [foldl_recordFlow_rtts, (recordFlow_timed acc f hc).1] at hnil
      simp at hnil

/-- The first loop writes neither the TTL, nor the average, nor the standard deviation. -/
theorem foldl_recordFlow_static (flows : List FlowResult) :
    ∀ acc : HopStatistics × List (String × Nat),
      (flows.foldl recordFlow acc).1.TTL = acc.1.TTL ∧
      (flows.foldl recordFlow acc).1.AvgRTT = acc.1.AvgRTT ∧
      (flows.foldl recordFlow acc).1.StdDevRTT = acc.1.StdDevRTT := by
  induction flows with
  | nil => intro acc; exact ⟨rfl, rfl, rfl⟩
  | cons f fs ih =>
    intro acc
    rw [List.foldl_cons]
    obtain ⟨h1, h2, h3⟩ := ih (recordFlow acc f)
    rw [h1, h2, h3]
    unfold recordFlow
    simp only
    split_ifs <;> exact ⟨rfl, rfl, rfl⟩

theorem pickHostname_fields (stat : HopStatistics) (flows : List FlowResult) :
    (pickHostname stat flows).RTTs = stat.RTTs ∧
    (pickHostname stat flows).MinRTT = stat.MinRTT ∧
    (pickHostname stat flows).MaxRTT = stat.MaxRTT ∧
    (pickHostname stat flows).AvgRTT = stat.AvgRTT ∧
    (pickHostname stat flows).StdDevRTT = stat.StdDevRTT ∧
    (pickHostname stat flows).TTL = stat.TTL ∧
    (pickHostname stat flows).IP = stat.IP := by
  unfold pickHostname
  split_ifs
  · split <;> exact ⟨rfl, rfl, rfl, rfl, rfl, rfl, rfl⟩
  · exact ⟨rfl, rfl, rfl, rfl, rfl, rfl, rfl⟩

theorem setLossPercent_fields (stat : HopStatistics) :
    (setLossPercent stat).RTTs = stat.RTTs ∧
    (setLossPercent stat).MinRTT = stat.MinRTT ∧
    (setLossPercent stat).MaxRTT = stat.MaxRTT ∧
    (setLossPercent stat).AvgRTT = stat.AvgRTT ∧
    (setLossPercent stat).StdDevRTT = stat.StdDevRTT ∧
    (setLossPercent stat).TTL = stat.TTL ∧
    (setLossPercent stat).IP = stat.IP := by
  unfold setLossPercent
  split_ifs <;> exact ⟨rfl, rfl, rfl, rfl, rfl, rfl, rfl⟩

theorem setRTTStatistics_fields (stat : HopStatistics) :
    (setRTTStatistics stat).RTTs = stat.RTTs ∧
    (setRTTStatistics stat).MinRTT = stat.MinRTT ∧
    (setRTTStatistics stat).MaxRTT = stat.MaxRTT ∧
    (setRTTStatistics stat).AvgRTT =
      (if stat.RTTs.length > 0 then
        Int.tdiv (sumDurations stat.RTTs) (stat.RTTs.length : Int)
      else stat.AvgRTT) ∧
    (setRTTStatistics stat).StdDevRTT =
      (if stat.RTTs.length > 1 then
        stdDevRTT stat.RTTs (Int.tdiv (sumDurations stat.RTTs) (stat.RTTs.length : Int))
      else stat.StdDevRTT) ∧
    (setRTTStatistics stat).TTL = stat.TTL ∧
    (setRTTStatistics stat).IP = stat.IP := by
  unfold setRTTStatistics
  simp only
  by_cases h0 : stat.RTTs.length > 0
  · by_cases h1 : stat.RTTs.length > 1
    · rw [if_pos h0, if_pos h1, if_pos h0, if_pos h1]
      exact ⟨rfl, rfl, rfl, rfl, rfl, rfl, rfl⟩
    · rw [if_pos h0, if_neg h1, if_pos h0, if_neg h1]
      exact ⟨rfl, rfl, rfl, rfl, rfl, rfl, rfl⟩
  · have h1 : ¬ stat.RTTs.length > 1 := by omega
    rw [if_neg h0, if_neg h0, if_neg h1]
    exact ⟨rfl, rfl, rfl, rfl, rfl, rfl, rfl⟩

/-- The RTT fields, the TTL and the IP of the statistics of a hop, in terms of what the first
loop has collected. -/
theorem hopStatistics_fields (ttl : Nat) (hopResult : HopResult) :
    (hopStatistics ttl hopResult).RTTs = hopResult.timedReplies.map (fun f => f.RTT) ∧
    (hopStatistics ttl hopResult).MinRTT =
      (hopResult.Flows.values.foldl recordFlow (HopStatistics.initial ttl, [])).1.MinRTT ∧
    (hopStatistics ttl hopResult).MaxRTT =
      (hopResult.Flows.values.foldl recordFlow (HopStatistics.initial ttl, [])).1.MaxRTT ∧
    (hopStatistics ttl hopResult).AvgRTT =
      (if (hopResult.timedReplies.map (fun f => f.RTT)).length > 0 then
        Int.tdiv (sumDurations (hopResult.timedReplies.map (fun f => f.RTT)))
          ((hopResult.timedReplies.map (fun f => f.RTT)).length : Int)
      else 0) ∧
    (hopStatistics ttl hopResult).StdDevRTT =
      (if (hopResult.timedReplies.map (fun f => f.RTT)).length > 1 then
        stdDevRTT (hopResult.timedReplies.map (fun f => f.RTT))
          (Int.tdiv (sumDurations (hopResult.timedReplies.map (fun f => f.RTT)))
            ((hopResult.timedReplies.map (fun f => f.RTT)).length : Int))
      else 0) ∧
    (hopStatistics ttl hopResult).TTL = ttl ∧
    (hopStatistics ttl hopResult).IP = mostCommonIP
      (hopResult.Flows.values.foldl recordFlow (HopStatistics.initial ttl, [])).2 := by
  have hr : (hopResult.Flows.values.foldl recordFlow (HopStatistics.initial ttl, [])).1.RTTs
      = hopResult.timedReplies.map (fun f => f.RTT) := by
    rw [foldl_recordFlow_rtts]
    rfl
  obtain ⟨hs1, hs2, hs3⟩ :=
    foldl_recordFlow_static hopResult.Flows.values (HopStatistics.initial ttl, [])
  rw [hopStatistics_eq]
  obtain ⟨a1, a2, a3, a4, a5, a6, a7⟩ := setRTTStatistics_fields (setLossPercent (pickHostname
    { (hopResult.Flows.values.foldl recordFlow (HopStatistics.initial ttl, [])).1 with
      IP := mostCommonIP
        (hopResult.Flows.values.foldl recordFlow (HopStatistics.initial ttl, [])).2 }
    hopResult.Flows.values))
  obtain ⟨b1, b2, b3, b4, b5, b6, b7⟩ := setLossPercent_fields (pickHostname
    { (hopResult.Flows.values.foldl recordFlow (HopStatistics.initial ttl, [])).1 with
      IP := mostCommonIP
        (hopResult.Flows.values.foldl recordFlow (HopStatistics.initial ttl, [])).2 }
    hopResult.Flows.values)
  obtain ⟨c1, c2, c3, c4, c5, c6, c7⟩ := pickHostname_fields
    { (hopResult.Flows.values.foldl recordFlow (HopStatistics.initial ttl, [])).1 with
      IP := mostCommonIP
        (hopResult.Flows.values.foldl recordFlow (HopStatistics.initial ttl, [])).2 }
    hopResult.Flows.values
  rw [b1, c1] at a1 a4 a5
  rw [b2, c2] at a2
  rw [b3, c3] at a3
  rw [b4, c4] at a4
  rw [b5, c5] at a5
  rw [b6, c6] at a6
  rw [b7, c7] at a7
  refine ⟨a1.trans hr, a2, a3, ?_, ?_, a6.trans hs1, a7⟩
  · rw [a4]
    show (if (hopResult.Flows.values.foldl recordFlow
        (HopStatistics.initial ttl, [])).1.RTTs.length > 0 then _ else _) = _
    rw [hr, hs2]
    rfl
  · rw [a5]
    show (if (hopResult.Flows.values.foldl recordFlow
        (HopStatistics.initial ttl, [])).1.RTTs.length > 1 then _ else _) = _
    rw [hr, hs3]
    rfl

/-! ## Sums of durations -/

/-- The 64-bit sum of non-negative durations is their sum as long as that fits. -/
theorem foldl_wrap_eq_sum (rtts : List Int) :
    ∀ total : Int, (∀ r ∈ rtts, 0 ≤ r) → 0 ≤ total → total + rtts.sum < 2 ^ 63 →
      rtts.foldl (fun total rtt => wrapInt64 (total + rtt)) total = total + rtts.sum := by
  induction rtts with
  | nil => intro total _ _ _; simp
  | cons r rs ih =>
    intro total hpos h0 hfit
    have hr : 0 ≤ r := hpos r (List.mem_cons_self _ _)
    have hrs : (0 : Int) ≤ rs.sum := List.sum_nonneg (fun x hx => hpos x (List.mem_cons_of_mem _ hx))
    rw [List.sum_cons] at hfit
    have e63 : (2 : Int) ^ 63 = 9223372036854775808 := by norm_num
    have e64 : (2 : Int) ^ 64 = 18446744073709551616 := by norm_num
    have hw : wrapInt64 (total + r) = total + r := by
      unfold wrapInt64
      rw [e63, e64]
      rw [e63] at hfit
      have h1 : (0 : Int) ≤ total + r := add_nonneg h0 hr
      have h2 : total + r < 9223372036854775808 := by linarith
      omega
    rw [List.foldl_cons, hw, ih (total + r) (fun x hx => hpos x (List.mem_cons_of_mem _ hx))
      (add_nonneg h0 hr) (by linarith), List.sum_cons]
    ring

theorem sumDurations_eq_sum (rtts : List Int) (hpos : ∀ r ∈ rtts, 0 < r)
    (hfit : rtts.sum < 2 ^ 63) : sumDurations rtts = rtts.sum := by
  unfold sumDurations
  rw [foldl_wrap_eq_sum rtts 0 (fun r hr => le_of_lt (hpos r hr)) (le_refl _) (by simpa using hfit)]
  simp

theorem sum_ge_of_forall_ge (rtts : List Int) (lo : Int) (h : ∀ r ∈ rtts, lo ≤ r) :
    lo * (rtts.length : Int) ≤ rtts.sum := by
  induction rtts with
  | nil => simp
  | cons r rs ih =>
    have h1 := h r (List.mem_cons_self _ _)
    have h2 := ih (fun x hx => h x (List.mem_cons_of_mem _ hx))
    simp only [List.length_cons, List.sum_cons, Nat.cast_add, Nat.cast_one]
    linarith

theorem sum_le_of_forall_le (rtts : List Int) (hi : Int) (h : ∀ r ∈ rtts, r ≤ hi) :
    rtts.sum ≤ hi * (rtts.length : Int) := by
  induction rtts with
  | nil => simp
  | cons r rs ih =>
    have h1 := h r (List.mem_cons_self _ _)
    have h2 := ih (fun x hx => h x (List.mem_cons_of_mem _ hx))
    simp only [List.length_cons, List.sum_cons, Nat.cast_add, Nat.cast_one]
    linarith

/-- The truncated mean of positive durations whose sum fits 64 bits: the quotient of their sum
by their number, between every lower and every upper bound of the durations. -/
theorem truncated_mean_between (rtts : List Int) (hne : rtts ≠ [])
    (hpos : ∀ r ∈ rtts, 0 < r) (hfit : rtts.sum < 2 ^ 63) :
    Int.tdiv (sumDurations rtts) (rtts.length : Int) = rtts.sum / (rtts.length : Int) ∧
    (∀ lo, (∀ r ∈ rtts, lo ≤ r) → lo ≤ Int.tdiv (sumDurations rtts) (rtts.length : Int)) ∧
    (∀ hi, (∀ r ∈ rtts, r ≤ hi) → Int.tdiv (sumDurations rtts) (rtts.length : Int) ≤ hi) := by
  have hlen : (0 : Int) < (rtts.length : Int) := by
    have : 0 < rtts.length := List.length_pos.2 hne
    exact_mod_cast this
  have hsum0 : (0 : Int) ≤ rtts.sum := List.sum_nonneg (fun x hx => le_of_lt (hpos x hx))
  have he : Int.tdiv (sumDurations rtts) (rtts.length : Int) = rtts.sum / (rtts.length : Int) := by
    rw [sumDurations_eq_sum rtts hpos hfit]
    exact Int.tdiv_eq_ediv hsum0 (le_of_lt hlen)
  refine ⟨he, ?_, ?_⟩
  · intro lo hlo
    rw [he]
    exact Int.le_ediv_of_mul_le hlen (sum_ge_of_forall_ge rtts lo hlo)
  · intro hi hhi
    rw [he]
    exact Int.ediv_le_of_le_mul hlen (sum_le_of_forall_le rtts hi hhi)

/-! ## Minimum, average and maximum of a hop -/

/-- Under a monotonic clock, every record the UDP engine writes for a reply carries a non-zero
`RecvTime`. -/
theorem udp_reply_recvTime_ne_zero (p : UDPProbe) (env : Env) (hclock : env.Monotonic)
    (k : Nat) : ∀ hop ∈ (p.run env k).Hops.values, ∀ flow ∈ hop.Flows.values,
      flow.Error = "" → flow.RecvTime ≠ 0 := by
  intro hop hmem flow hflow herr
  obtain ⟨i, r, f, rfl⟩ := udp_run_records p env k hop hmem flow hflow
  obtain ⟨h0, h1, -⟩ := hclock i
  rcases udp_probeFlow_outcome p (env.probe i) hop.TTL r f with
    ⟨-, -, -, hrecv, -⟩ | ⟨-, hne, -⟩
  · rw [hrecv]
    exact Nat.ne_of_gt (lt_of_lt_of_le h0 h1)
  · exact absurd herr hne

/-- Under a monotonic clock, every record the TCP engine writes for a reply carries a non-zero
`RecvTime`. -/
theorem tcp_reply_recvTime_ne_zero (p : TCPProbe) (env : Env) (hclock : env.Monotonic)
    (k : Nat) : ∀ hop ∈ (p.run env k).Hops.values, ∀ flow ∈ hop.Flows.values,
      flow.Error = "" → flow.RecvTime ≠ 0 := by
  intro hop hmem flow hflow herr
  obtain ⟨i, r, f, rfl⟩ := tcp_run_records p env k hop hmem flow hflow
  obtain ⟨h0, h1, -⟩ := hclock i
  rcases tcp_probeFlow_outcome p (env.probe i) hop.TTL r f with
    ⟨-, -, -, hrecv, -⟩ | ⟨-, hne, -⟩
  · rw [hrecv]
    exact Nat.ne_of_gt (lt_of_lt_of_le h0 h1)
  · exact absurd herr hne

/-- The records whose RTT is collected have no error. -/
theorem timedReplies_spec (hopResult : HopResult) (flow : FlowResult) :
    flow ∈ hopResult.timedReplies ↔
      flow ∈ hopResult.Flows.values ∧ flow.Error = "" ∧ flow.ResponseIP ≠ "" ∧ 0 < flow.RTT := by
  unfold HopResult.timedReplies
  simp [List.mem_filter, and_assoc]

/-- Counterexample to C21 as stated: in the run of `twoFlows` whose first probe is answered
within the clock tick of its sending and whose second probe is answered after 2 ms, the hop
has two replies, with the RTTs 0 and 2 ms. `CalculateHopStatistics` collects the positive RTT
only and reports `MinRTT = AvgRTT = 2 ms`; the minimum of the RTTs of the replies is 0 and
their mean is 1 ms. -/
theorem zero_rtt_reply_is_left_out_of_min_and_avg :
    Scenario.twoFlows.Traceroute Scenario.firstAtOnce 2
      = some { result := some Scenario.mixedTicks, err := none } ∧
    Scenario.mixedTicks.Hops.lookup 1 = some Scenario.mixedTicksHop ∧
    Scenario.mixedTicksHop.Flows.values.map
        (fun flow => (flow.Error, flow.ResponseIP, flow.RTT))
      = [("", "10.0.0.1", 0), ("", "10.0.0.1", 2000000)] ∧
    (Scenario.mixedTicks.CalculateHopStatistics.lookup 1).map
        (fun stat => (stat.Received, stat.RTTs, stat.MinRTT, stat.AvgRTT, stat.MaxRTT))
      = some (2, [2000000], 2000000, 2000000, 2000000) ∧
    ¬ ∀ (tr : TracerouteResult) (ttl : Nat) (hopResult : HopResult) (stat : HopStatistics),
      tr.Hops.lookup ttl = some hopResult →
      tr.CalculateHopStatistics.lookup ttl = some stat →
      ∀ flow ∈ hopResult.Flows.values, flow.Error = "" → flow.ResponseIP ≠ "" →
        stat.MinRTT ≤ flow.RTT := by
  have h1 : Scenario.mixedTicks.Hops.lookup 1 = some Scenario.mixedTicksHop := by decide
  have h2 : (Scenario.mixedTicks.CalculateHopStatistics.lookup 1).map
        (fun stat => (stat.Received, stat.RTTs, stat.MinRTT, stat.AvgRTT, stat.MaxRTT))
      = some (2, [2000000], 2000000, 2000000, 2000000) := by rfl
  refine ⟨by decide, h1, by rfl, h2, ?_⟩
  intro hall
  obtain ⟨stat, hs, hmin⟩ : ∃ stat, Scenario.mixedTicks.CalculateHopStatistics.lookup 1
      = some stat ∧ stat.MinRTT = 2000000 := by
    cases hl : Scenario.mixedTicks.CalculateHopStatistics.lookup 1 with
    | none => rw [hl] at h2; cases h2
    | some stat =>
      rw [hl] at h2
      simp only [Option.map_some', Option.some.injEq, Prod.mk.injEq] at h2
      exact ⟨stat, rfl, h2.2.2.1⟩
  have hmem : (Scenario.mixedTicksHop.Flows.values.get? 0).map
      (fun flow => (flow.Error, flow.ResponseIP, flow.RTT)) = some ("", "10.0.0.1", 0) := by
    rfl
  cases hg : Scenario.mixedTicksHop.Flows.values.get? 0 with
  | none => rw [hg] at hmem; cases hmem
  | some flow =>
    rw [hg] at hmem
    simp only [Option.map_some', Option.some.injEq, Prod.mk.injEq] at hmem
    have hin : flow ∈ Scenario.mixedTicksHop.Flows.values := List.get?_mem hg
    have := hall Scenario.mixedTicks 1 Scenario.mixedTicksHop stat h1 hs flow hin hmem.1
      (by rw [hmem.2.1]; decide)
    rw [hmin, hmem.2.2] at this
    exact absurd this (by decide)

/-- C21, as the code has it: on a result whose hop map has distinct keys, the statistics of a
hop collect the RTTs of the records with no error, a responder and a positive RTT. When there
is none, `MinRTT`, `AvgRTT` and `MaxRTT` are 0. Otherwise `MaxRTT` is the greatest of the
collected RTTs; `MinRTT` is the least of them, provided the collected records do not carry the
zero time as `RecvTime`; and `AvgRTT` is their sum divided by their number, rounded down,
provided the sum fits a signed 64-bit integer. The records the engines write under a monotonic
clock have a non-zero `RecvTime`. -/
theorem hop_statistics_min_avg_max_of_positive_rtts (tr : TracerouteResult)
    (hk : tr.Hops.keys.Nodup) (ttl : Nat) (hopResult : HopResult)
    (h : tr.Hops.lookup ttl = some hopResult) :
    ∃ stat, tr.CalculateHopStatistics.lookup ttl = some stat ∧
      stat.RTTs = hopResult.timedReplies.map (fun flow => flow.RTT) ∧
      (∀ flow, flow ∈ hopResult.timedReplies ↔
        flow ∈ hopResult.Flows.values ∧ flow.Error = "" ∧ flow.ResponseIP ≠ "" ∧
          0 < flow.RTT) ∧
      (stat.RTTs = [] → stat.MinRTT = 0 ∧ stat.AvgRTT = 0 ∧ stat.MaxRTT = 0) ∧
      (stat.RTTs ≠ [] →
        (stat.MaxRTT ∈ stat.RTTs ∧ ∀ r ∈ stat.RTTs, r ≤ stat.MaxRTT) ∧
        ((∀ flow ∈ hopResult.timedReplies, flow.RecvTime ≠ 0) →
          stat.MinRTT ∈ stat.RTTs ∧ ∀ r ∈ stat.RTTs, stat.MinRTT ≤ r) ∧
        (stat.RTTs.sum < 2 ^ 63 →
          stat.AvgRTT = stat.RTTs.sum / (stat.RTTs.length : Int) ∧
          (∀ lo, (∀ r ∈ stat.RTTs, lo ≤ r) → lo ≤ stat.AvgRTT) ∧
          (∀ hi, (∀ r ∈ stat.RTTs, r ≤ hi) → stat.AvgRTT ≤ hi))) ∧
      (∀ (p : UDPProbe) (env : Env) (k : Nat), env.Monotonic →
        tr.Hops = (p.run env k).Hops → ∀ flow ∈ hopResult.timedReplies, flow.RecvTime ≠ 0) ∧
      (∀ (q : TCPProbe) (env : Env) (k : Nat), env.Monotonic →
        tr.Hops = (q.run env k).Hops → ∀ flow ∈ hopResult.timedReplies, flow.RecvTime ≠ 0) := by
  obtain ⟨-, hlook⟩ := calculateHopStatistics_lookup tr hk ttl hopResult h
  obtain ⟨f1, f2, f3, f4, -, -, -⟩ := hopStatistics_fields ttl hopResult
  have hmem : hopResult ∈ tr.Hops.values :=
    List.mem_map.2 ⟨(ttl, hopResult), (goMap_lookup_iff_mem _ hk _ _).1 h, rfl⟩
  have hrtts : (hopResult.Flows.values.foldl recordFlow (HopStatistics.initial ttl, [])).1.RTTs
      = hopResult.timedReplies.map (fun f => f.RTT) := by
    rw [foldl_recordFlow_rtts]
    rfl
  have hmax := foldl_recordFlow_max hopResult.Flows.values (HopStatistics.initial ttl, [])
    ⟨fun r hr => (by cases hr), fun _ => rfl, fun hne => absurd rfl hne⟩
  rw [hrtts] at hmax
  obtain ⟨hpos, hmax0, hmaxne⟩ := hmax
  refine ⟨hopStatistics ttl hopResult, hlook, f1, timedReplies_spec hopResult, ?_, ?_, ?_, ?_⟩
  · intro hnil
    rw [f1] at hnil
    refine ⟨?_, ?_, ?_⟩
    · rw [f2, foldl_recordFlow_min_unset _ _ (by rw [hrtts]; exact hnil)]
      rfl
    · rw [f4, hnil]
      rfl
    · rw [f3]
      exact hmax0 hnil
  · intro hne
    rw [f1] at hne ⊢
    refine ⟨?_, ?_, ?_⟩
    · rw [f3]
      exact hmaxne hne
    · intro hrecv
      have hmin := foldl_recordFlow_min hopResult.Flows.values
        (fun f hf hc => hrecv f (by
          unfold HopResult.timedReplies
          exact List.mem_filter.2 ⟨hf, hc⟩))
        (HopStatistics.initial ttl, [])
        ⟨fun r hr => (by cases hr), fun _ => rfl, fun hne => absurd rfl hne⟩
      rw [hrtts] at hmin
      rw [f2]
      exact hmin hne
    · intro hfit
      have hlen : (hopResult.timedReplies.map (fun f => f.RTT)).length > 0 :=
        List.length_pos.2 hne
      rw [f4, if_pos hlen]
      exact truncated_mean_between _ hne hpos hfit
  · intro p env k hclock he flow hf
    rw [he] at hmem
    obtain ⟨hv, herr, -, -⟩ := (timedReplies_spec hopResult flow).1 hf
    exact udp_reply_recvTime_ne_zero p env hclock k hopResult hmem flow hv herr
  · intro q env k hclock he flow hf
    rw [he] at hmem
    obtain ⟨hv, herr, -, -⟩ := (timedReplies_spec hopResult flow).1 hf
    exact tcp_reply_recvTime_ne_zero q env hclock k hopResult hmem flow hv herr

/-- The example of C21: four replies with the RTTs 10, 12, 14 and 16 ms give a minimum of
10 ms, a maximum of 16 ms and an average of 13 ms. -/
theorem hop_statistics_min_avg_max_of_positive_rtts_witness :
    Scenario.fourReplies.Hops.keys.Nodup ∧
    Scenario.fourReplies.Hops.lookup 1 = some Scenario.fourRepliesHop ∧
    (Scenario.fourReplies.CalculateHopStatistics.lookup 1).map
        (fun stat => (stat.RTTs, stat.MinRTT, stat.AvgRTT, stat.MaxRTT))
      = some ([10000000, 12000000, 14000000, 16000000], 10000000, 13000000, 16000000) ∧
    ∃ stat, Scenario.fourReplies.CalculateHopStatistics.lookup 1 = some stat ∧
      stat.RTTs = Scenario.fourRepliesHop.timedReplies.map (fun flow => flow.RTT) :=
  ⟨by decide, by decide, by rfl,
    (hop_statistics_min_avg_max_of_positive_rtts Scenario.fourReplies (by decide) 1
      Scenario.fourRepliesHop (by decide)).elim (fun stat hs => ⟨stat, hs.1, hs.2.1⟩)⟩

/-! ## The standard deviation of a hop -/

/-- A value within the range of `int64` is not changed by the conversion. -/
theorem wrapInt64_of_small (x : Int) (h1 : -2 ^ 63 ≤ x) (h2 : x < 2 ^ 63) : wrapInt64 x = x := by
  unfold wrapInt64
  omega

/-- While the microsecond values and the running sum of the squares stay within `2^53`, every
`float64` operation of the loop of the standard deviation is exact: the loop computes the sum
of the squares of the distances. -/
theorem foldl_squares_exact (m : Int) (rtts : List Duration) :
    ∀ A : Nat, (∀ rtt ∈ rtts, |Duration.Microseconds rtt| ≤ 2 ^ 53) →
      A + (rtts.map (fun rtt => ((Duration.Microseconds rtt - m) ^ 2).toNat)).sum ≤ 2 ^ 53 →
      rtts.foldl (fun (variance : ℚ) (rtt : Duration) =>
          f64Round (variance + f64Round
            (f64Round (f64Round (Duration.Microseconds rtt : ℚ) - (m : ℚ))
              * f64Round (f64Round (Duration.Microseconds rtt : ℚ) - (m : ℚ))))) (A : ℚ)
        = ((A + (rtts.map
            (fun rtt => ((Duration.Microseconds rtt - m) ^ 2).toNat)).sum : Nat) : ℚ) := by
  induction rtts with
  | nil =>
    intro A _ _
    simp
  | cons r rs ih =>
    intro A hx hS
    simp only [List.map_cons, List.sum_cons] at hS
    simp only [List.foldl_cons, List.map_cons, List.sum_cons]
    have hxr := hx r (List.mem_cons_self _ _)
    obtain ⟨d, hd⟩ : ∃ d : Int, d = Duration.Microseconds r - m := ⟨_, rfl⟩
    rw [← hd] at hS ⊢
    have hdn : (d ^ 2).toNat ≤ 2 ^ 53 := by omega
    have hd2 : ((d ^ 2).toNat : Int) = d ^ 2 := Int.toNat_of_nonneg (sq_nonneg d)
    have hdabs : |d| ≤ 2 ^ 53 := by
      have h1 : (d.natAbs : Int) ≤ d ^ 2 := Int.natAbs_le_self_sq d
      have h2 : d ^ 2 ≤ 2 ^ 53 := by
        rw [← hd2]
        exact_mod_cast hdn
      rw [Int.abs_eq_natAbs]
      exact le_trans h1 h2
    have e1 : f64Round (Duration.Microseconds r : ℚ) = (Duration.Microseconds r : ℚ) :=
      f64Round_intCast _ hxr
    have e2 : f64Round ((Duration.Microseconds r : ℚ) - (m : ℚ)) = (d : ℚ) := by
      have hc : (Duration.Microseconds r : ℚ) - (m : ℚ) = (d : ℚ) := by
        rw [hd]
        push_cast
        rfl
      rw [hc, f64Round_intCast d hdabs]
    have e3 : (d : ℚ) * (d : ℚ) = (((d ^ 2).toNat : Nat) : ℚ) := by
      have hc : (((d ^ 2).toNat : Nat) : ℚ) = (((d ^ 2).toNat : Int) : ℚ) := by norm_cast
      rw [hc, hd2]
      push_cast
      ring
    have e4 : f64Round (((d ^ 2).toNat : Nat) : ℚ) = (((d ^ 2).toNat : Nat) : ℚ) :=
      f64Round_natCast _ hdn
    have e5 : (A : ℚ) + (((d ^ 2).toNat : Nat) : ℚ) = ((A + (d ^ 2).toNat : Nat) : ℚ) := by
      push_cast
      rfl
    have e6 := f64Round_natCast (A + (d ^ 2).toNat) (by omega)
    rw [e1, e2, e3, e4, e5, e6]
    rw [ih (A + (d ^ 2).toNat) (fun rtt h => hx rtt (List.mem_cons_of_mem _ h)) (by omega)]
    rw [Nat.add_assoc]

/-- The value of `stdDevRTT` when every `float64` operation before the quotient is exact: the
microsecond values, the number of RTTs and the sum of the squares do not exceed `2^53`. -/
theorem stdDevRTT_of_exact_sums (rtts : List Duration) (avg : Duration)
    (hx : ∀ rtt ∈ rtts, |Duration.Microseconds rtt| ≤ 2 ^ 53)
    (hm : |Duration.Microseconds avg| ≤ 2 ^ 53) (hN : rtts.length ≤ 2 ^ 53)
    (hS : sumOfSquares rtts avg ≤ 2 ^ 53) :
    stdDevRTT rtts avg = wrapInt64 (f64ToInt (f64Sqrt (f64Round
      ((sumOfSquares rtts avg : ℚ) / (rtts.length : ℚ)))) * 1000) := by
  unfold stdDevRTT
  simp only []
  rw [f64Round_intCast _ hm, f64Round_natCast _ hN]
  have h := foldl_squares_exact (Duration.Microseconds avg) rtts 0 hx
    (by rw [Nat.zero_add]; exact hS)
  rw [Nat.zero_add, Nat.cast_zero] at h
  rw [h]
  rfl

/-- With exact sums, `stdDevRTT` is `k` or `k + 1` microseconds, `k` being the integer part of
the square root of the quotient of the sum of squares by the number of RTTs, and `k` when the
quotient is the square of `k`. -/
theorem stdDevRTT_brackets (rtts : List Duration) (avg : Duration)
    (hx : ∀ rtt ∈ rtts, |Duration.Microseconds rtt| ≤ 2 ^ 53)
    (hm : |Duration.Microseconds avg| ≤ 2 ^ 53) (hN : rtts.length ≤ 2 ^ 53)
    (hS : sumOfSquares rtts avg ≤ 2 ^ 53) (h2 : 2 ≤ rtts.length) (k : Nat)
    (hk1 : k * k ≤ sumOfSquares rtts avg / rtts.length)
    (hk2 : sumOfSquares rtts avg / rtts.length < (k + 1) * (k + 1)) :
    (stdDevRTT rtts avg = (k : Int) * 1000 ∨ stdDevRTT rtts avg = ((k : Int) + 1) * 1000) ∧
    (sumOfSquares rtts avg = rtts.length * (k * k) → stdDevRTT rtts avg = (k : Int) * 1000) := by
  rw [stdDevRTT_of_exact_sums rtts avg hx hm hN hS]
  clear hx hm
  generalize sumOfSquares rtts avg = S at *
  generalize rtts.length = N at *
  have hNpos : 0 < N := by omega
  have hNq : (0 : ℚ) < (N : ℚ) := by exact_mod_cast hNpos
  have a1 : k * k * N ≤ S := (Nat.le_div_iff_mul_le hNpos).1 hk1
  have a2 : S < (k + 1) * (k + 1) * N := (Nat.div_lt_iff_lt_mul hNpos).1 hk2
  have hkk : k * k ≤ 2 ^ 52 := by
    have h3 : k * k * 2 ≤ 2 ^ 52 * 2 :=
      le_trans (le_trans (Nat.mul_le_mul_left _ h2) a1) (by norm_num at hS ⊢; exact hS)
    exact Nat.le_of_mul_le_mul_right h3 (by norm_num)
  have hk26 : k ≤ 2 ^ 26 := by
    by_contra hc
    push_neg at hc
    have := Nat.mul_self_lt_mul_self hc
    norm_num at this hkk
    omega
  have hk53 : (k + 1) * (k + 1) ≤ 2 ^ 53 := by
    have : (k + 1) * (k + 1) ≤ (2 ^ 26 + 1) * (2 ^ 26 + 1) :=
      Nat.mul_le_mul (by omega) (by omega)
    norm_num at this ⊢
    omega
  have q1 : (((k * k : Nat)) : ℚ) ≤ (S : ℚ) / (N : ℚ) := by
    rw [le_div_iff₀ hNq]
    exact_mod_cast a1
  have q2 : (S : ℚ) / (N : ℚ) ≤ ((((k + 1) * (k + 1) : Nat)) : ℚ) := by
    rw [div_le_iff₀ hNq]
    exact_mod_cast le_of_lt a2
  have q0 : (0 : ℚ) ≤ (S : ℚ) / (N : ℚ) := div_nonneg (Nat.cast_nonneg _) (le_of_lt hNq)
  have v1 : ((k : ℚ)) * (k : ℚ) ≤ f64Round ((S : ℚ) / (N : ℚ)) := by
    have := f64Round_mono (Nat.cast_nonneg (k * k)) q1
    rw [f64Round_natCast (k * k) (by omega)] at this
    push_cast at this
    exact this
  have v2 : f64Round ((S : ℚ) / (N : ℚ)) ≤ (((k + 1 : Nat)) : ℚ) * (((k + 1 : Nat)) : ℚ) := by
    have := f64Round_mono q0 q2
    rw [f64Round_natCast _ hk53] at this
    push_cast at this ⊢
    exact this
  have hv0 : (0 : ℚ) ≤ f64Round ((S : ℚ) / (N : ℚ)) :=
    le_trans (mul_nonneg (Nat.cast_nonneg _) (Nat.cast_nonneg _)) v1
  have hsmall : ∀ j : Int, 0 ≤ j → j ≤ (k : Int) + 1 → wrapInt64 (j * 1000) = j * 1000 := by
    intro j hj0 hj
    apply wrapInt64_of_small
    · norm_num
      omega
    · norm_num at hk26 ⊢
      omega
  constructor
  · have b1 := (f64Sqrt_bracket _ hv0 k (by norm_num at hk26 ⊢; omega)).1 v1
    have b2 := (f64Sqrt_bracket _ hv0 (k + 1) (by norm_num at hk26 ⊢; omega)).2 v2
    rw [f64ToInt_of_nonneg _ (le_trans (Nat.cast_nonneg k) b1)]
    have f1 : (k : Int) ≤ ⌊f64Sqrt (f64Round ((S : ℚ) / (N : ℚ)))⌋ :=
      Int.le_floor.2 (by exact_mod_cast b1)
    have f2 : ⌊f64Sqrt (f64Round ((S : ℚ) / (N : ℚ)))⌋ ≤ (k : Int) + 1 := by
      have h3 := Int.floor_le (f64Sqrt (f64Round ((S : ℚ) / (N : ℚ))))
      have h4 : ((⌊f64Sqrt (f64Round ((S : ℚ) / (N : ℚ)))⌋ : Int) : ℚ)
          ≤ (((k : Int) + 1 : Int) : ℚ) := by
        refine le_trans h3 ?_
        push_cast at b2 ⊢
        exact b2
      exact_mod_cast h4
    rw [hsmall _ (by omega) f2]
    rcases lt_or_le (⌊f64Sqrt (f64Round ((S : ℚ) / (N : ℚ)))⌋) ((k : Int) + 1)
      with hlt | hge
    · left
      have : ⌊f64Sqrt (f64Round ((S : ℚ) / (N : ℚ)))⌋ = (k : Int) := by omega
      rw [this]
    · right
      have : ⌊f64Sqrt (f64Round ((S : ℚ) / (N : ℚ)))⌋ = (k : Int) + 1 := by omega
      rw [this]
  · intro hsq
    have hq : (S : ℚ) / (N : ℚ) = (((k * k : Nat)) : ℚ) := by
      rw [hsq]
      push_cast
      field_simp
    rw [hq, f64Round_natCast (k * k) (by omega)]
    have hv : (0 : ℚ) ≤ (((k * k : Nat)) : ℚ) := Nat.cast_nonneg _
    have hkq : (k : ℚ) * (k : ℚ) = (((k * k : Nat)) : ℚ) := by push_cast; rfl
    have b1 := (f64Sqrt_bracket _ hv k (by norm_num at hk26 ⊢; omega)).1 (le_of_eq hkq)
    have b2 := (f64Sqrt_bracket _ hv k (by norm_num at hk26 ⊢; omega)).2 (le_of_eq hkq.symm)
    have heq : f64Sqrt (((k * k : Nat)) : ℚ) = (k : ℚ) := le_antisymm b2 b1
    rw [heq, f64ToInt_of_nonneg _ (Nat.cast_nonneg k)]
    have : ⌊(k : ℚ)⌋ = (k : Int) := by
      have := Int.floor_intCast (α := ℚ) (k : Int)
      rw [Int.cast_natCast] at this
      exact this
    rw [this]
    exact hsmall _ (by omega) (by omega)

/-- The sum of rational squares of integers is the cast of the natural sum of their squares. -/
theorem sum_sq_cast (xs : List Int) (m : Int) :
    (xs.map (fun (x : Int) => ((x : ℚ) - (m : ℚ)) ^ 2)).sum
      = (((xs.map (fun x => ((x - m) ^ 2).toNat)).sum : Nat) : ℚ) := by
  induction xs with
  | nil => simp
  | cons x xs ih =>
    simp only [List.map_cons, List.sum_cons, Nat.cast_add]
    rw [ih]
    congr 1
    have h : (((x - m) ^ 2).toNat : Int) = (x - m) ^ 2 := Int.toNat_of_nonneg (sq_nonneg _)
    have h2 : ((((x - m) ^ 2).toNat : Nat) : ℚ) = (((((x - m) ^ 2).toNat : Nat) : Int) : ℚ) := by
      norm_cast
    rw [h2, h]
    push_cast
    ring

/-- When the mean of the values is the whole number `m`, the population variance is the sum of
the squares of the distances to `m`, divided by the number of values. -/
theorem populationVariance_of_whole_mean (xs : List Int) (m : Int) (hne : xs ≠ [])
    (hmean : (xs.length : Int) * m = xs.sum) :
    ⌊populationVariance xs⌋₊ = (xs.map (fun x => ((x - m) ^ 2).toNat)).sum / xs.length := by
  have hlen : (xs.length : ℚ) ≠ 0 := by
    have : 0 < xs.length := List.length_pos.2 hne
    exact_mod_cast Nat.pos_iff_ne_zero.1 this
  have hmu : ((xs.sum : Int) : ℚ) / (xs.length : ℚ) = (m : ℚ) := by
    rw [← hmean]
    push_cast
    field_simp
  unfold populationVariance
  rw [hmu, sum_sq_cast]
  exact Nat.floor_div_eq_div _ _

/-- The standard deviation of the statistics of a hop whose collected RTTs are `rtts`, more
than one, with the truncated average `avg`. -/
theorem hopStatistics_stdDev_of (ttl : Nat) (hopResult : HopResult) (rtts : List Duration)
    (avg value : Duration) (hr : hopResult.timedReplies.map (fun flow => flow.RTT) = rtts)
    (hlen : rtts.length > 1)
    (havg : Int.tdiv (sumDurations rtts) (rtts.length : Int) = avg)
    (hv : stdDevRTT rtts avg = value) :
    (hopStatistics ttl hopResult).StdDevRTT = value := by
  obtain ⟨-, -, -, -, f5, -, -⟩ := hopStatistics_fields ttl hopResult
  rw [f5, hr, if_pos hlen, havg, hv]

/-- The RTTs 1, 1, 1 and 3 µs around the truncated average 1 µs: the sum of squares is 4, the
variance 1, the standard deviation 1 µs. -/
theorem stdDevRTT_micro : stdDevRTT [1000, 1000, 1000, 3000] 1500 = 1000 := by
  have h := (stdDevRTT_brackets [1000, 1000, 1000, 3000] 1500 (by decide) (by decide)
    (by decide) (by decide) (by decide) 1 (by decide) (by decide)).2 (by decide)
  rw [h]
  rfl

/-- The RTTs 10, 12, 14 and 16 ms around their average 13 ms: the sum of squares is
20 000 000 µs², the variance 5 000 000, whose `float64` square root is
`4917165483517164 / 2^41 = 2236.06...`, cut to 2236 µs. -/
theorem stdDevRTT_ten_to_sixteen :
    stdDevRTT [10000000, 12000000, 14000000, 16000000] 13000000 = 2236000 := by
  rw [stdDevRTT_of_exact_sums _ _ (by decide) (by decide) (by decide) (by decide)]
  have hS : sumOfSquares [10000000, 12000000, 14000000, 16000000] 13000000 = 20000000 := by
    decide
  have hq : (((20000000 : Nat)) : ℚ)
      / ((([10000000, 12000000, 14000000, 16000000] : List Duration).length : Nat) : ℚ)
      = ((5000000 : Nat) : ℚ) := by
    simp only [List.length_cons, List.length_nil]
    norm_num
  rw [hS, hq, f64Round_natCast 5000000 (by norm_num)]
  have hs : f64Sqrt ((5000000 : Nat) : ℚ) = 4917165483517164 / 2199023255552 := by
    rw [f64Sqrt_eq_of _ 4917165483517164 (-41) (by norm_num)
      (by simp only [pow2_eq_zpow]; norm_num) (by simp only [pow2_eq_zpow]; norm_num)
      (by simp only [pow2_eq_zpow]; norm_num) (by simp only [pow2_eq_zpow]; norm_num)]
    rw [pow2_eq_zpow]
    norm_num
  rw [hs, f64ToInt_of_nonneg _ (by norm_num)]
  have hf : ⌊(4917165483517164 / 2199023255552 : ℚ)⌋ = 2236 := by
    rw [Int.floor_eq_iff]
    constructor <;> norm_num
  rw [hf]
  rfl

/-- The square root is rounded to the nearest `float64` before it is cut: for the RTTs
67123495, 67111909, 3 and 2 µs the quotient of the sum of squares by 4 is
`1126196413322499.75`, below the square of 33558850, and `math.Sqrt` of it is 33558850
exactly. -/
theorem stdDevRTT_rounds_up :
    stdDevRTT [67123495000, 67111909000, 3000, 2000] 33558852250 = 33558850000 ∧
    sumOfSquares [67123495000, 67111909000, 3000, 2000] 33558852250 = 4504785653289999 ∧
    33558849 * 33558849 ≤ 4504785653289999 / 4 ∧
    4504785653289999 / 4 < 33558850 * 33558850 := by
  have hS : sumOfSquares [67123495000, 67111909000, 3000, 2000] 33558852250
      = 4504785653289999 := by decide
  refine ⟨?_, hS, by norm_num, by norm_num⟩
  rw [stdDevRTT_of_exact_sums _ _ (by decide) (by decide) (by decide) (by decide)]
  have hq : (((4504785653289999 : Nat)) : ℚ)
      / ((([67123495000, 67111909000, 3000, 2000] : List Duration).length : Nat) : ℚ)
      = 4504785653289999 / 4 := by
    simp only [List.length_cons, List.length_nil]
    norm_num
  rw [hS, hq]
  have hv : f64Round (4504785653289999 / 4 : ℚ) = 4504785653289999 / 4 := by
    rw [f64Round_eq_of _ 4504785653289999 (-2) (by norm_num) (by norm_num)
      (by simp only [pow2_eq_zpow]; norm_num) (by simp only [pow2_eq_zpow]; norm_num)
      (by simp only [pow2_eq_zpow, abs_lt]; norm_num)]
    rw [pow2_eq_zpow]
    norm_num
  have hs : f64Sqrt (4504785653289999 / 4 : ℚ) = 33558850 := by
    rw [f64Sqrt_eq_of _ 4504192601292800 (-27) (by norm_num)
      (by simp only [pow2_eq_zpow]; norm_num) (by simp only [pow2_eq_zpow]; norm_num)
      (by simp only [pow2_eq_zpow]; norm_num) (by simp only [pow2_eq_zpow]; norm_num)]
    rw [pow2_eq_zpow]
    norm_num
  rw [hv, hs, f64ToInt_of_nonneg _ (by norm_num)]
  have hf : ⌊(33558850 : ℚ)⌋ = 33558850 := by
    rw [Int.floor_eq_iff]
    constructor <;> norm_num
  rw [hf]
  rfl

set_option maxRecDepth 100000 in
/-- The standard deviation reported for the RTTs 1, 1, 1 and 3 µs. -/
theorem microReplies_std_dev : (hopStatistics 1 Scenario.microRepliesHop).StdDevRTT = 1000 :=
  hopStatistics_stdDev_of 1 Scenario.microRepliesHop [1000, 1000, 1000, 3000] 1500 1000
    (by decide) (by decide) (by decide) stdDevRTT_micro

/-- Counterexample to C22 as stated: four replies with the RTTs 1, 1, 1 and 3 µs have the mean
1.5 µs and the population variance 0.75 µs², whose square root cut to whole microseconds is 0.
`CalculateHopStatistics` takes the squares around its truncated average, 1 µs, gets the
variance 1 and reports a standard deviation of 1 µs. -/
theorem std_dev_is_not_taken_around_the_mean :
    Scenario.fourRounds.Traceroute Scenario.microRTTs 2
      = some { result := some Scenario.microReplies, err := none } ∧
    (Scenario.microReplies.CalculateHopStatistics.lookup 1).map
        (fun stat => (stat.RTTs, stat.AvgRTT)) = some ([1000, 1000, 1000, 3000], 1500) ∧
    (Scenario.microReplies.CalculateHopStatistics.lookup 1).map
        (fun stat => stat.StdDevRTT) = some 1000 ∧
    populationVariance [1, 1, 1, 3] = 3 / 4 ∧
    specStdDev [1000, 1000, 1000, 3000] = 0 ∧
    ¬ ∀ (tr : TracerouteResult) (ttl : Nat) (stat : HopStatistics),
      tr.CalculateHopStatistics.lookup ttl = some stat →
      stat.StdDevRTT = specStdDev stat.RTTs := by
  have hvar : populationVariance [1, 1, 1, 3] = 3 / 4 := by
    norm_num [populationVariance]
  have hspec : specStdDev [1000, 1000, 1000, 3000] = 0 := by
    have hmap : ([1000, 1000, 1000, 3000] : List Duration).map Duration.Microseconds
        = [1, 1, 1, 3] := by decide
    unfold specStdDev
    rw [if_neg (by decide), hmap, hvar]
    have : ⌊(3 / 4 : ℚ)⌋₊ = 0 := Nat.floor_eq_zero.2 (by norm_num)
    rw [this]
    simp
  have hlook : Scenario.microReplies.CalculateHopStatistics.lookup 1
      = some (hopStatistics 1 Scenario.microRepliesHop) :=
    (calculateHopStatistics_lookup Scenario.microReplies (by decide) 1
      Scenario.microRepliesHop (by decide)).2
  have hrtts : (hopStatistics 1 Scenario.microRepliesHop).RTTs = [1000, 1000, 1000, 3000] := by
    rfl
  have hdev := microReplies_std_dev
  refine ⟨by decide, by rfl, ?_, hvar, hspec, ?_⟩
  · rw [hlook, Option.map_some', hdev]
  · intro hall
    have := hall Scenario.microReplies 1 _ hlook
    rw [hdev, hrtts, hspec] at this
    exact absurd this (by decide)

/-- C22, as the code has it: on a result whose hop map has distinct keys, the statistics of a
hop with fewer than two collected RTTs have `StdDevRTT = 0`. With `N ≥ 2` collected RTTs,
`StdDevRTT` is what lines 402-411 compute in `float64` from the RTTs and the reported average
`AvgRTT`, both cut to whole microseconds. When `N`, the microsecond values and the sum `S` of
the squares of the distances between the RTTs and that average do not exceed `2^53`, the sum
is exact and `StdDevRTT` is `k` or `k + 1` microseconds, where `k` is the integer part of the
square root of `S / N` (`k² ≤ S / N < (k + 1)²`), and `k` microseconds when `S = N × k²`;
when the average is the mean of the RTTs in whole microseconds, `k` microseconds is the
standard deviation of the specification. -/
theorem std_dev_is_taken_around_truncated_average (tr : TracerouteResult)
    (hk : tr.Hops.keys.Nodup) (ttl : Nat) (hopResult : HopResult)
    (h : tr.Hops.lookup ttl = some hopResult) :
    ∃ stat, tr.CalculateHopStatistics.lookup ttl = some stat ∧
      stat.RTTs = hopResult.timedReplies.map (fun flow => flow.RTT) ∧
      (stat.RTTs.length < 2 → stat.StdDevRTT = 0) ∧
      (2 ≤ stat.RTTs.length → stat.StdDevRTT = stdDevRTT stat.RTTs stat.AvgRTT) ∧
      (2 ≤ stat.RTTs.length → stat.RTTs.length ≤ 2 ^ 53 →
        (∀ rtt ∈ stat.RTTs, |Duration.Microseconds rtt| ≤ 2 ^ 53) →
        |Duration.Microseconds stat.AvgRTT| ≤ 2 ^ 53 →
        sumOfSquares stat.RTTs stat.AvgRTT ≤ 2 ^ 53 →
        ∃ k : Nat,
          k * k ≤ sumOfSquares stat.RTTs stat.AvgRTT / stat.RTTs.length ∧
          sumOfSquares stat.RTTs stat.AvgRTT / stat.RTTs.length < (k + 1) * (k + 1) ∧
          (stat.StdDevRTT = (k : Int) * 1000 ∨ stat.StdDevRTT = ((k : Int) + 1) * 1000) ∧
          (sumOfSquares stat.RTTs stat.AvgRTT = stat.RTTs.length * (k * k) →
            stat.StdDevRTT = (k : Int) * 1000) ∧
          ((stat.RTTs.length : Int) * Duration.Microseconds stat.AvgRTT
              = (stat.RTTs.map Duration.Microseconds).sum →
            specStdDev stat.RTTs = (k : Int) * 1000)) := by
  obtain ⟨-, hlook⟩ := calculateHopStatistics_lookup tr hk ttl hopResult h
  obtain ⟨f1, -, -, f4, f5, -, -⟩ := hopStatistics_fields ttl hopResult
  have havg : 2 ≤ (hopResult.timedReplies.map (fun f => f.RTT)).length →
      (hopStatistics ttl hopResult).AvgRTT
        = Int.tdiv (sumDurations (hopResult.timedReplies.map (fun f => f.RTT)))
          ((hopResult.timedReplies.map (fun f => f.RTT)).length : Int) := by
    intro h2
    rw [f4, if_pos (by omega)]
  have hdev : 2 ≤ (hopResult.timedReplies.map (fun f => f.RTT)).length →
      (hopStatistics ttl hopResult).StdDevRTT
        = stdDevRTT (hopResult.timedReplies.map (fun f => f.RTT))
          (hopStatistics ttl hopResult).AvgRTT := by
    intro h2
    rw [f5, if_pos (by omega), havg h2]
  refine ⟨hopStatistics ttl hopResult, hlook, f1, ?_, ?_, ?_⟩
  · intro hlt
    rw [f1] at hlt
    rw [f5, if_neg (by omega)]
  · intro h2
    rw [f1] at h2 ⊢
    exact hdev h2
  · intro h2 hN hx hm hS
    rw [f1] at h2 hN hx hS ⊢
    rw [hdev h2]
    generalize (hopStatistics ttl hopResult).AvgRTT = avg at hm hS ⊢
    generalize hopResult.timedReplies.map (fun f => f.RTT) = rtts at h2 hN hx hS ⊢
    have hk1 := Nat.sqrt_le (sumOfSquares rtts avg / rtts.length)
    have hk2 := Nat.lt_succ_sqrt (sumOfSquares rtts avg / rtts.length)
    obtain ⟨b1, b2⟩ := stdDevRTT_brackets rtts avg hx hm hN hS h2
      (Nat.sqrt (sumOfSquares rtts avg / rtts.length)) hk1 hk2
    refine ⟨Nat.sqrt (sumOfSquares rtts avg / rtts.length), hk1, hk2, b1, b2, ?_⟩
    intro hmean
    unfold specStdDev
    rw [if_neg (by omega)]
    have hne : rtts.map Duration.Microseconds ≠ [] := by
      intro hnil
      have := congrArg List.length hnil
      simp only [List.length_map, List.length_nil] at this
      omega
    have hfloor := populationVariance_of_whole_mean (rtts.map Duration.Microseconds)
      (Duration.Microseconds avg) hne (by rw [List.length_map]; exact hmean)
    rw [hfloor]
    simp only [List.map_map, List.length_map, Function.comp_def]
    rfl

set_option maxRecDepth 100000 in
/-- The standard deviation reported for the RTTs 10, 12, 14 and 16 ms. -/
theorem fourReplies_std_dev : (hopStatistics 1 Scenario.fourRepliesHop).StdDevRTT = 2236000 :=
  hopStatistics_stdDev_of 1 Scenario.fourRepliesHop
    [10000000, 12000000, 14000000, 16000000] 13000000 2236000 (by decide) (by decide)
    (by decide) stdDevRTT_ten_to_sixteen

set_option maxRecDepth 100000 in
/-- The collected RTTs and the average of the hop of `fourReplies`. -/
theorem fourReplies_rtts :
    (hopStatistics 1 Scenario.fourRepliesHop).RTTs
        = [10000000, 12000000, 14000000, 16000000] ∧
    (hopStatistics 1 Scenario.fourRepliesHop).AvgRTT = 13000000 := by
  obtain ⟨f1, -, -, f4, -, -, -⟩ := hopStatistics_fields 1 Scenario.fourRepliesHop
  have hr : Scenario.fourRepliesHop.timedReplies.map (fun f => f.RTT)
      = [10000000, 12000000, 14000000, 16000000] := by decide
  rw [f1, f4, hr]
  exact ⟨rfl, by decide⟩

/-- The example of C22: the RTTs 10, 12, 14 and 16 ms, within the bounds, have the sum of
squares 20 000 000 µs² around their average 13 ms, which is their mean; the integer part of
the square root of 20 000 000 / 4 is 2236, and the standard deviation reported is 2236 µs,
the value of the specification. The value `k + 1` occurs too: for the RTTs 67123495,
67111909, 3 and 2 µs the code gives 33558850 µs, where `k` is 33558849. -/
theorem std_dev_is_taken_around_truncated_average_witness :
    Scenario.fourReplies.Hops.keys.Nodup ∧
    Scenario.fourReplies.Hops.lookup 1 = some Scenario.fourRepliesHop ∧
    (Scenario.fourReplies.CalculateHopStatistics.lookup 1).map
        (fun stat => (stat.RTTs, stat.AvgRTT, stat.StdDevRTT))
      = some ([10000000, 12000000, 14000000, 16000000], 13000000, 2236000) ∧
    sumOfSquares [10000000, 12000000, 14000000, 16000000] 13000000 = 20000000 ∧
    2236 * 2236 ≤ 20000000 / 4 ∧ 20000000 / 4 < 2237 * 2237 ∧
    specStdDev [10000000, 12000000, 14000000, 16000000] = 2236000 ∧
    (∃ stat, Scenario.fourReplies.CalculateHopStatistics.lookup 1 = some stat ∧
      stat.RTTs = Scenario.fourRepliesHop.timedReplies.map (fun flow => flow.RTT) ∧
      (2 ≤ stat.RTTs.length → stat.StdDevRTT = stdDevRTT stat.RTTs stat.AvgRTT)) ∧
    stdDevRTT [67123495000, 67111909000, 3000, 2000] 33558852250 = 33558850000 ∧
    33558849 * 33558849
      ≤ sumOfSquares [67123495000, 67111909000, 3000, 2000] 33558852250 / 4 ∧
    sumOfSquares [67123495000, 67111909000, 3000, 2000] 33558852250 / 4
      < 33558850 * 33558850 := by
  have hlook := (calculateHopStatistics_lookup Scenario.fourReplies (by decide) 1
    Scenario.fourRepliesHop (by decide)).2
  obtain ⟨r1, r2⟩ := fourReplies_rtts
  obtain ⟨u1, u2, u3, u4⟩ := stdDevRTT_rounds_up
  have hS : sumOfSquares [10000000, 12000000, 14000000, 16000000] 13000000 = 20000000 := by
    decide
  obtain ⟨stat, hs⟩ := std_dev_is_taken_around_truncated_average Scenario.fourReplies
    (by decide) 1 Scenario.fourRepliesHop (by decide)
  have hstat : stat = hopStatistics 1 Scenario.fourRepliesHop := by
    have := hs.1
    rw [hlook] at this
    exact (Option.some.inj this).symm
  have hspec : specStdDev [10000000, 12000000, 14000000, 16000000] = 2236000 := by
    obtain ⟨k, k1, k2, -, -, k5⟩ := hs.2.2.2.2 (by rw [hstat, r1]; decide)
      (by rw [hstat, r1]; decide) (by rw [hstat, r1]; decide) (by rw [hstat, r2]; decide)
      (by rw [hstat, r1, r2, hS]; norm_num)
    rw [hstat, r1, r2] at k5
    rw [hstat, r1, r2, hS] at k1 k2
    have hk : k = 2236 := by
      simp only [List.length_cons, List.length_nil] at k1 k2
      norm_num at k1 k2
      nlinarith
    rw [k5 (by decide), hk]
    rfl
  refine ⟨by decide, by decide, ?_, hS, by norm_num, by norm_num, hspec,
    ⟨stat, hs.1, hs.2.1, hs.2.2.2.1⟩, u1, ?_, ?_⟩
  · rw [hlook, Option.map_some', r1, r2, fourReplies_std_dev]
  · rw [u2]
    exact u3
  · rw [u2]
    exact u4

/-! ## The standard deviation with one probe per flow -/

/-- Every value stored by the fold of `CalculateHopStatistics` is a value of the map it starts
from or the statistics of an entry of the list. -/
theorem foldl_store_values (l : List (Nat × HopResult)) :
    ∀ (m : GoMap HopStatistics),
      ∀ stat ∈ (l.foldl (fun stats e => stats.store e.1 (hopStatistics e.1 e.2)) m).values,
        stat ∈ m.values ∨ ∃ e ∈ l, stat = hopStatistics e.1 e.2 := by
  induction l with
  | nil =>
    intro m stat h
    exact Or.inl h
  | cons e es ih =>
    intro m stat h
    rw [List.foldl_cons] at h
    rcases ih _ stat h with h1 | ⟨e2, he2, h2⟩
    · rcases goMap_mem_values_store m e.1 _ stat h1 with h3 | h3
      · exact Or.inl h3
      · exact Or.inr ⟨e, List.mem_cons_self _ _, h3⟩
    · exact Or.inr ⟨e2, List.mem_cons_of_mem _ he2, h2⟩

/-- Every row of the statistics is computed from one entry of the hop map. -/
theorem calculateHopStatistics_values (tr : TracerouteResult) :
    ∀ stat ∈ tr.CalculateHopStatistics.values,
      ∃ e ∈ tr.Hops.entries, stat = hopStatistics e.1 e.2 := by
  intro stat h
  unfold TracerouteResult.CalculateHopStatistics at h
  rcases foldl_store_values tr.Hops.entries GoMap.empty stat h with h1 | h1
  · simp [GoMap.empty, GoMap.values] at h1
  · exact h1

/-- The statistics of a hop with at most one record collect at most one RTT and have a zero
standard deviation. -/
theorem hopStatistics_single_record (ttl : Nat) (hopResult : HopResult)
    (h : hopResult.Flows.values.length ≤ 1) :
    (hopStatistics ttl hopResult).RTTs.length ≤ 1 ∧
    (hopStatistics ttl hopResult).StdDevRTT = 0 := by
  obtain ⟨f1, -, -, -, f5, -, -⟩ := hopStatistics_fields ttl hopResult
  have hlen : (hopResult.timedReplies.map (fun f => f.RTT)).length ≤ 1 := by
    rw [List.length_map]
    unfold HopResult.timedReplies
    exact le_trans (List.length_filter_le _ _) h
  constructor
  · rw [f1]
    exact hlen
  · rw [f5, if_neg (by omega)]

/-- A run with one flow and one round stores one record in every hop. -/
theorem single_probe_run_records (p : UDPProbe) (q : TCPProbe)
    (hp : p.NumPaths = 1 ∧ p.ProbeCount = 1) (hq : q.NumPaths = 1 ∧ q.ProbeCount = 1)
    (env : Env) (fuel : Nat) (ret : TracerouteReturn) (tr : TracerouteResult)
    (h : p.Traceroute env fuel = some ret ∨ q.Traceroute env fuel = some ret)
    (hr : ret.result = some tr) :
    ∀ hop ∈ tr.Hops.values, hop.Flows.len = 1 := by
  rcases h with h | h
  · unfold UDPProbe.Traceroute at h
    simp only at h
    split_ifs at h with hh
    simp only [Option.some.injEq] at h
    subst h
    simp only [Option.some.injEq] at hr
    subst hr
    intro hop hm
    obtain ⟨n, hn⟩ := udp_run_hopOf p (by rw [hp.1, hp.2]; norm_num) env fuel hop hm
    rw [hp.1, hp.2] at hn
    simp [GoMap.len, hn]
  · unfold TCPProbe.Traceroute at h
    cases hc : env.captureErr with
    | some err =>
      rw [hc] at h
      simp only [Option.some.injEq] at h
      subst h
      cases hr
    | none =>
      rw [hc] at h
      simp only at h
      split_ifs at h with hh
      simp only [Option.some.injEq] at h
      subst h
      simp only [Option.some.injEq] at hr
      subst hr
      intro hop hm
      obtain ⟨n, hn⟩ := tcp_run_hopOf q (by rw [hq.1, hq.2]; norm_num) env fuel hop hm
      rw [hq.1, hq.2] at hn
      simp [GoMap.len, hn]

/-- The RTTs 10 and 16 ms around their average 13 ms: the sum of squares is
18 000 000 µs², the variance 9 000 000, the standard deviation 3000 µs. -/
theorem stdDevRTT_ten_and_sixteen : stdDevRTT [10000000, 16000000] 13000000 = 3000000 := by
  have h := (stdDevRTT_brackets [10000000, 16000000] 13000000 (by decide) (by decide)
    (by decide) (by decide) (by decide) 3000 (by decide) (by decide)).2 (by decide)
  rw [h]
  rfl

set_option maxRecDepth 100000 in
/-- The standard deviation reported for the RTTs 10 and 16 ms. -/
theorem twoReplies_std_dev :
    (hopStatistics 1 ((Scenario.twoReplies.Hops.lookup 1).getD
      { TTL := 0, Flows := GoMap.empty })).StdDevRTT = 3000000 :=
  hopStatistics_stdDev_of 1 _ [10000000, 16000000] 13000000 3000000 (by decide) (by decide)
    (by decide) stdDevRTT_ten_and_sixteen

/-- Counterexample to C23 as stated: a run with two flows and `ProbeCount = 1`
(`-npaths 2 -count 1`) stores two records in the hop of TTL 1; answered after 10 ms and after
16 ms, they give the hop the standard deviation 3 ms. -/
theorem two_flows_one_round_have_a_std_dev :
    Scenario.twoFlows.Valid ∧ Scenario.twoFlows.NumPaths = 2 ∧
    Scenario.twoFlows.ProbeCount = 1 ∧
    Scenario.twoFlows.Traceroute Scenario.tenAndSixteen 2
      = some { result := some Scenario.twoReplies, err := none } ∧
    (Scenario.twoReplies.CalculateHopStatistics.lookup 1).map
        (fun stat => stat.RTTs) = some [10000000, 16000000] ∧
    (Scenario.twoReplies.CalculateHopStatistics.lookup 1).map
        (fun stat => stat.StdDevRTT) = some 3000000 ∧
    ¬ ∀ (p : UDPProbe) (env : Env) (fuel : Nat) (tr : TracerouteResult),
      p.ProbeCount = 1 → p.Traceroute env fuel = some { result := some tr, err := none } →
      ∀ stat ∈ tr.CalculateHopStatistics.values, stat.StdDevRTT = 0 := by
  have hrun : Scenario.twoFlows.Traceroute Scenario.tenAndSixteen 2
      = some { result := some Scenario.twoReplies, err := none } := by decide
  have hlook : Scenario.twoReplies.CalculateHopStatistics.lookup 1
      = some (hopStatistics 1 ((Scenario.twoReplies.Hops.lookup 1).getD
        { TTL := 0, Flows := GoMap.empty })) :=
    (calculateHopStatistics_lookup Scenario.twoReplies (by decide) 1 _ (by decide)).2
  have hdev : (Scenario.twoReplies.CalculateHopStatistics.lookup 1).map
      (fun stat => stat.StdDevRTT) = some 3000000 := by
    rw [hlook, Option.map_some', twoReplies_std_dev]
  refine ⟨by decide, rfl, rfl, hrun, by rfl, hdev, ?_⟩
  intro hall
  have hmem : hopStatistics 1 ((Scenario.twoReplies.Hops.lookup 1).getD
      { TTL := 0, Flows := GoMap.empty }) ∈ Scenario.twoReplies.CalculateHopStatistics.values := by
    have hentry := hlook
    unfold GoMap.lookup at hentry
    unfold GoMap.values
    cases hfind : Scenario.twoReplies.CalculateHopStatistics.entries.find?
        (fun e => e.1 == 1) with
    | none =>
      rw [hfind] at hentry
      cases hentry
    | some e =>
      rw [hfind] at hentry
      simp only [Option.map_some', Option.some.injEq] at hentry
      exact List.mem_map.2 ⟨e, List.mem_of_find?_eq_some hfind, hentry⟩
  have h0 := hall Scenario.twoFlows Scenario.tenAndSixteen 2 Scenario.twoReplies rfl hrun _ hmem
  rw [twoReplies_std_dev] at h0
  exact absurd h0 (by decide)

/-- C23, as the code has it: a run with `NumPaths = 1` and `ProbeCount = 1` stores one record
in every hop, and every row of `CalculateHopStatistics` for its result collects at most one
RTT and has `StdDevRTT = 0`, in the UDP and in the TCP engine, whatever the RTTs of the
replies. -/
theorem single_probe_per_hop_has_zero_std_dev (p : UDPProbe) (q : TCPProbe)
    (hp : p.NumPaths = 1 ∧ p.ProbeCount = 1) (hq : q.NumPaths = 1 ∧ q.ProbeCount = 1)
    (env : Env) (fuel : Nat) (ret : TracerouteReturn) (tr : TracerouteResult)
    (h : p.Traceroute env fuel = some ret ∨ q.Traceroute env fuel = some ret)
    (hr : ret.result = some tr) :
    (∀ hop ∈ tr.Hops.values, hop.Flows.len = 1) ∧
    ∀ stat ∈ tr.CalculateHopStatistics.values, stat.RTTs.length ≤ 1 ∧ stat.StdDevRTT = 0 := by
  have hone := single_probe_run_records p q hp hq env fuel ret tr h hr
  refine ⟨hone, ?_⟩
  intro stat hs
  obtain ⟨e, he, rfl⟩ := calculateHopStatistics_values tr stat hs
  have hlen : e.2.Flows.values.length ≤ 1 := by
    have := hone e.2 (List.mem_map.2 ⟨e, he, rfl⟩)
    simp only [GoMap.len] at this
    simp [GoMap.values, this]
  exact hopStatistics_single_record e.1 e.2 hlen

/-- A run with one flow and one round, for C23: its single probe is answered, and the row of
its hop has a zero standard deviation. -/
theorem single_probe_per_hop_has_zero_std_dev_witness :
    (Scenario.oneProbe.NumPaths = 1 ∧ Scenario.oneProbe.ProbeCount = 1) ∧
    Scenario.oneProbe.Traceroute Scenario.alternating 2
      = some { result := some (Scenario.resultOf
          (Scenario.oneProbe.Traceroute Scenario.alternating 2)), err := none } ∧
    (Scenario.resultOf
        (Scenario.oneProbe.Traceroute Scenario.alternating 2)).CalculateHopStatistics.values.map
      (fun stat => (stat.Received, stat.StdDevRTT)) = [(1, 0)] ∧
    ∀ stat ∈ (Scenario.resultOf
        (Scenario.oneProbe.Traceroute Scenario.alternating 2)).CalculateHopStatistics.values,
      stat.RTTs.length ≤ 1 ∧ stat.StdDevRTT = 0 :=
  ⟨⟨rfl, rfl⟩, by decide, by rfl,
    (single_probe_per_hop_has_zero_std_dev Scenario.oneProbe Scenario.tcpOneProbe
      ⟨rfl, rfl⟩ ⟨rfl, rfl⟩ Scenario.alternating 2
      { result := some (Scenario.resultOf
          (Scenario.oneProbe.Traceroute Scenario.alternating 2)), err := none }
      (Scenario.resultOf (Scenario.oneProbe.Traceroute Scenario.alternating 2))
      (Or.inl (by decide)) rfl).2⟩

/-! ## The representative IP of a hop -/

/-- The reply counts after a record: a reply counts its responder, any other record leaves the
counts alone. -/
theorem recordFlow_ipMap (acc : HopStatistics × List (String × Nat)) (flowResult : FlowResult) :
    (recordFlow acc flowResult).2 =
      if flowResult.Error == "" && flowResult.ResponseIP != "" then
        countIP acc.2 flowResult.ResponseIP
      else acc.2 := by
  unfold recordFlow
  simp only
  split_ifs <;> rfl

/-- The entries of the reply counts built by the first loop of `CalculateHopStatistics`: one
entry per responder named in a reply, with the number of the replies that name it. -/
theorem foldl_recordFlow_ipMap (stat : HopStatistics) (flows : List FlowResult) :
    ∀ (ip : String) (c : Nat), (ip, c) ∈ (flows.foldl recordFlow (stat, [])).2 ↔
      (c = (flows.filter (fun flowResult => flowResult.Error == ""
            && flowResult.ResponseIP != "" && flowResult.ResponseIP == ip)).length ∧ 0 < c) := by
  induction flows using List.reverseRecOn with
  | nil =>
    intro ip c
    simp only [List.foldl_nil, List.not_mem_nil, List.filter_nil, List.length_nil, false_iff,
      not_and, not_lt, Nat.le_zero]
    exact fun h => h
  | append_singleton l f ih =>
    intro ip c
    rw [List.foldl_append, List.foldl_cons, List.foldl_nil, recordFlow_ipMap, List.filter_append,
      List.length_append]
    by_cases hrep : (f.Error == "" && f.ResponseIP != "") = true
    · rw [if_pos hrep]
      have hcnt : ∀ ip2 : String, ([f].filter (fun flowResult => flowResult.Error == ""
            && flowResult.ResponseIP != "" && flowResult.ResponseIP == ip2)).length
          = if f.ResponseIP = ip2 then 1 else 0 := by
        intro ip2
        by_cases hx : f.ResponseIP = ip2
        · have hrep2 : (f.Error == "" && f.ResponseIP != "" && f.ResponseIP == ip2) = true := by
            rw [hrep, Bool.true_and]
            simpa using hx
          rw [if_pos hx, List.filter_cons, if_pos hrep2]
          rfl
        · have hrep3 : ¬ (f.Error == "" && f.ResponseIP != "" && f.ResponseIP == ip2) = true := by
            rw [hrep, Bool.true_and]
            simpa using hx
          rw [if_neg hx, List.filter_cons, if_neg hrep3]
          rfl
      rw [hcnt]
      unfold countIP
      by_cases hany : ((l.foldl recordFlow (stat, [])).2.any
          (fun e => e.1 == f.ResponseIP)) = true
      · rw [if_pos hany]
        obtain ⟨e0, he0, hk0⟩ := List.any_eq_true.1 hany
        have hk0 : e0.1 = f.ResponseIP := by simpa using hk0
        have hin0 := (ih e0.1 e0.2).1 he0
        rw [hk0] at hin0
        constructor
        · intro hm
          obtain ⟨e, he, hg⟩ := List.mem_map.1 hm
          have hin := (ih e.1 e.2).1 he
          by_cases hk : e.1 = f.ResponseIP
          · rw [if_pos (by simpa using hk)] at hg
            have h1 : e.1 = ip := congrArg Prod.fst hg
            have h2 : e.2 + 1 = c := congrArg Prod.snd hg
            rw [← h1, if_pos hk.symm, ← h2, ← hin.1]
            exact ⟨rfl, Nat.succ_pos _⟩
          · rw [if_neg (by simpa using hk)] at hg
            have h1 : e.1 = ip := congrArg Prod.fst hg
            have h2 : e.2 = c := congrArg Prod.snd hg
            rw [← h1, if_neg (fun h => hk h.symm), ← h2, ← hin.1]
            exact ⟨rfl, hin.2⟩
        · rintro ⟨hc, hpos⟩
          by_cases hk : f.ResponseIP = ip
          · rw [if_pos hk] at hc
            refine List.mem_map.2 ⟨e0, he0, ?_⟩
            rw [if_pos (by simpa using hk0), hc, ← hk, ← hin0.1, hk0]
          · rw [if_neg hk, Nat.add_zero] at hc
            refine List.mem_map.2 ⟨(ip, c), (ih ip c).2 ⟨hc, hpos⟩, ?_⟩
            rw [if_neg]
            simpa using fun h => hk h.symm
      · rw [if_neg hany]
        have hnone : (l.filter (fun flowResult => flowResult.Error == ""
              && flowResult.ResponseIP != "" && flowResult.ResponseIP == f.ResponseIP)).length
            = 0 := by
          by_contra hne
          have hm := (ih f.ResponseIP _).2 ⟨rfl, Nat.pos_of_ne_zero hne⟩
          exact hany (List.any_eq_true.2 ⟨_, hm, by simp⟩)
        rw [List.mem_append, List.mem_singleton]
        constructor
        · rintro (hm | hm)
          · have hin := (ih ip c).1 hm
            have hk : ¬ f.ResponseIP = ip := by
              intro hk
              rw [← hk, hnone] at hin
              omega
            rw [if_neg hk, Nat.add_zero]
            exact hin
          · have h1 : ip = f.ResponseIP := congrArg Prod.fst hm
            have h2 : c = 1 := congrArg Prod.snd hm
            rw [h1, hnone, if_pos rfl, h2]
            exact ⟨rfl, Nat.one_pos⟩
        · rintro ⟨hc, hpos⟩
          by_cases hk : f.ResponseIP = ip
          · right
            rw [if_pos hk, ← hk, hnone] at hc
            rw [hc, ← hk]
          · left
            rw [if_neg hk, Nat.add_zero] at hc
            exact (ih ip c).2 ⟨hc, hpos⟩
    · have hrep4 : ¬ (f.Error == "" && f.ResponseIP != "" && f.ResponseIP == ip) = true := by
        intro h
        apply hrep
        rw [Bool.and_eq_true] at h
        exact h.1
      rw [if_neg hrep, List.filter_cons, if_neg hrep4, List.filter_nil, List.length_nil,
        Nat.add_zero]
      exact ih ip c

/-- The loop choosing the hop IP ends on the pair it started from or on an entry of the map,
whose count no entry exceeds. -/
theorem foldl_mostCommon (ipMap : List (String × Nat)) :
    ∀ acc : String × Nat,
      acc.2 ≤ (ipMap.foldl
        (fun (acc : String × Nat) e => if e.2 > acc.2 then (e.1, e.2) else acc) acc).2 ∧
      (∀ e ∈ ipMap, e.2 ≤ (ipMap.foldl
        (fun (acc : String × Nat) e => if e.2 > acc.2 then (e.1, e.2) else acc) acc).2) ∧
      ((ipMap.foldl
        (fun (acc : String × Nat) e => if e.2 > acc.2 then (e.1, e.2) else acc) acc) = acc ∨
       (ipMap.foldl
        (fun (acc : String × Nat) e => if e.2 > acc.2 then (e.1, e.2) else acc) acc) ∈ ipMap) := by
  induction ipMap with
  | nil =>
    intro acc
    exact ⟨le_refl _, fun e he => (by cases he), Or.inl rfl⟩
  | cons x xs ih =>
    intro acc
    rw [List.foldl_cons]
    by_cases hx : x.2 > acc.2
    · rw [if_pos hx]
      obtain ⟨h1, h2, h3⟩ := ih (x.1, x.2)
      refine ⟨le_trans (le_of_lt hx) h1, ?_, ?_⟩
      · intro e he
        rcases List.mem_cons.1 he with rfl | he
        · exact h1
        · exact h2 e he
      · rcases h3 with h3 | h3
        · right
          rw [h3]
          exact List.mem_cons_self _ _
        · right
          exact List.mem_cons_of_mem _ h3
    · rw [if_neg hx]
      obtain ⟨h1, h2, h3⟩ := ih acc
      refine ⟨h1, ?_, ?_⟩
      · intro e he
        rcases List.mem_cons.1 he with rfl | he
        · exact le_trans (not_lt.1 hx) h1
        · exact h2 e he
      · rcases h3 with h3 | h3
        · exact Or.inl h3
        · exact Or.inr (List.mem_cons_of_mem _ h3)

/-- The IP chosen from the reply counts of a hop, enumerated in any order: no responder has
more replies, it is a responder when the hop has a reply, and empty when it has none. -/
theorem mostCommonIP_of_order (ttl : Nat) (hopResult : HopResult)
    (order : List (String × Nat))
    (h : order.Perm (aggregateFlows (HopStatistics.initial ttl) hopResult.Flows.values).2) :
    (∀ ip, hopResult.replyCount ip ≤ hopResult.replyCount (mostCommonIP order)) ∧
    ((∃ ip, 0 < hopResult.replyCount ip) → 0 < hopResult.replyCount (mostCommonIP order)) ∧
    ((∀ ip, hopResult.replyCount ip = 0) → mostCommonIP order = "") := by
  have hmem : ∀ (ip : String) (c : Nat),
      (ip, c) ∈ order ↔ (c = hopResult.replyCount ip ∧ 0 < c) := by
    intro ip c
    rw [h.mem_iff]
    exact foldl_recordFlow_ipMap (HopStatistics.initial ttl) hopResult.Flows.values ip c
  obtain ⟨-, h2, h3⟩ := foldl_mostCommon order ("", 0)
  have hres : ∀ r : String × Nat, r ∈ order → r.2 = hopResult.replyCount r.1 ∧ 0 < r.2 :=
    fun r hr => (hmem r.1 r.2).1 hr
  unfold mostCommonIP
  rcases h3 with h3 | h3
  · -- the loop never assigned: the map is empty
    have hzero : ∀ ip, hopResult.replyCount ip = 0 := by
      intro ip
      by_contra hne
      have hm := (hmem ip _).2 ⟨rfl, Nat.pos_of_ne_zero hne⟩
      have := h2 _ hm
      rw [h3] at this
      exact hne (Nat.le_zero.1 this)
    rw [h3]
    refine ⟨fun ip => ?_, ?_, fun _ => rfl⟩
    · rw [hzero ip]
      exact Nat.zero_le _
    · rintro ⟨ip, hip⟩
      rw [hzero ip] at hip
      exact absurd hip (lt_irrefl _)
  · obtain ⟨hr1, hr2⟩ := hres _ h3
    refine ⟨fun ip => ?_, fun _ => ?_, fun hz => ?_⟩
    · by_cases hne : hopResult.replyCount ip = 0
      · rw [hne]
        exact Nat.zero_le _
      · have hm := (hmem ip _).2 ⟨rfl, Nat.pos_of_ne_zero hne⟩
        have := h2 _ hm
        rw [hr1] at this
        exact this
    · rw [← hr1]
      exact hr2
    · rw [hz] at hr1
      rw [hr1] at hr2
      exact absurd hr2 (lt_irrefl _)

/-- C24: on a result whose hop map has distinct keys, the row of a hop has as its IP the choice
of the loop over the reply counts of the hop, and that choice, in whichever order the counts
are enumerated, is an IP no other responder has more error-free replies than; it is the IP of
a reply when the hop has one, and empty when it has none. -/
theorem representative_ip_has_maximal_reply_count (tr : TracerouteResult)
    (hk : tr.Hops.keys.Nodup) (ttl : Nat) (hopResult : HopResult)
    (h : tr.Hops.lookup ttl = some hopResult) :
    ∃ stat, tr.CalculateHopStatistics.lookup ttl = some stat ∧
      stat.IP = mostCommonIP
        (aggregateFlows (HopStatistics.initial ttl) hopResult.Flows.values).2 ∧
      (∀ ip, hopResult.replyCount ip ≤ hopResult.replyCount stat.IP) ∧
      ((∃ ip, 0 < hopResult.replyCount ip) → 0 < hopResult.replyCount stat.IP) ∧
      ((∀ ip, hopResult.replyCount ip = 0) → stat.IP = "") ∧
      ∀ order : List (String × Nat),
        order.Perm (aggregateFlows (HopStatistics.initial ttl) hopResult.Flows.values).2 →
        (∀ ip, hopResult.replyCount ip ≤ hopResult.replyCount (mostCommonIP order)) ∧
        ((∃ ip, 0 < hopResult.replyCount ip) →
          0 < hopResult.replyCount (mostCommonIP order)) ∧
        ((∀ ip, hopResult.replyCount ip = 0) → mostCommonIP order = "") := by
  obtain ⟨-, hlook⟩ := calculateHopStatistics_lookup tr hk ttl hopResult h
  obtain ⟨-, -, -, -, -, -, f7⟩ := hopStatistics_fields ttl hopResult
  have hip : (hopStatistics ttl hopResult).IP = mostCommonIP
      (aggregateFlows (HopStatistics.initial ttl) hopResult.Flows.values).2 := f7
  obtain ⟨g1, g2, g3⟩ := mostCommonIP_of_order ttl hopResult _ (List.Perm.refl _)
  refine ⟨hopStatistics ttl hopResult, hlook, hip, ?_, ?_, ?_, ?_⟩
  · rw [hip]
    exact g1
  · rw [hip]
    exact g2
  · rw [hip]
    exact g3
  · intro order ho
    exact mostCommonIP_of_order ttl hopResult order ho

/-- A hop with four replies, for C24: in `fourReplies` the four probes of TTL 1 are answered
by 10.0.0.1, which is the IP of the row. -/
theorem representative_ip_has_maximal_reply_count_witness :
    Scenario.fourReplies.Hops.keys.Nodup ∧
    Scenario.fourReplies.Hops.lookup 1 = some Scenario.fourRepliesHop ∧
    Scenario.fourRepliesHop.replyCount "10.0.0.1" = 4 ∧
    (Scenario.fourReplies.CalculateHopStatistics.lookup 1).map (fun stat => stat.IP)
      = some "10.0.0.1" ∧
    ∃ stat, Scenario.fourReplies.CalculateHopStatistics.lookup 1 = some stat ∧
      ∀ ip, Scenario.fourRepliesHop.replyCount ip ≤ Scenario.fourRepliesHop.replyCount stat.IP :=
  ⟨by decide, by decide, by decide, by rfl,
    (representative_ip_has_maximal_reply_count Scenario.fourReplies (by decide) 1
      Scenario.fourRepliesHop (by decide)).elim (fun stat hs => ⟨stat, hs.1, hs.2.2.1⟩)⟩

/-! ## The iteration order of the reply counts -/

/-- When one entry of the reply counts has a positive count above that of every other entry,
the loop choosing the hop IP ends on it in whichever order the entries come. -/
theorem mostCommonIP_of_strict_maximum (ipMap order : List (String × Nat)) (e : String × Nat)
    (ho : order.Perm ipMap) (he : e ∈ ipMap) (hpos : 0 < e.2)
    (hmax : ∀ e2 ∈ ipMap, e2 ≠ e → e2.2 < e.2) : mostCommonIP order = e.1 := by
  obtain ⟨-, h2, h3⟩ := foldl_mostCommon order ("", 0)
  have hle := h2 e (ho.mem_iff.2 he)
  unfold mostCommonIP
  rcases h3 with h3 | h3
  · rw [h3] at hle
    exact absurd hpos (not_lt.2 hle)
  · by_cases heq : (order.foldl
        (fun (acc : String × Nat) e => if e.2 > acc.2 then (e.1, e.2) else acc) ("", 0)) = e
    · rw [heq]
    · exact absurd (hmax _ (ho.mem_iff.1 h3) heq) (not_lt.2 hle)

/-- C26 fails on the code when two responders tie. In the hop of TTL 1 of the run of two flows
answered by 10.0.0.1 and by 10.0.0.2, each responder has one reply. The loop
`for ip, count := range ipMap` keeps the first entry it meets with the highest count, and Go
leaves the order of a map iteration unspecified: met in the order 10.0.0.1, 10.0.0.2 the loop
chooses 10.0.0.1, met in the other order it chooses 10.0.0.2. The same holds for the order in
which the records of the hop are met: the hop with the same records under the same keys,
enumerated the other way, gets the other IP. The choice is the same in every order only when
one responder has more replies than every other. -/
theorem representative_ip_depends_on_iteration_order :
    Scenario.twoFlows.Traceroute Scenario.alternating 2
      = some { result := some Scenario.balanced, err := none } ∧
    Scenario.balanced.Hops.lookup 1 = some Scenario.balancedHop ∧
    (aggregateFlows (HopStatistics.initial 1) Scenario.balancedHop.Flows.values).2
      = [("10.0.0.1", 1), ("10.0.0.2", 1)] ∧
    Scenario.balancedHop.replyCount "10.0.0.1" = 1 ∧
    Scenario.balancedHop.replyCount "10.0.0.2" = 1 ∧
    List.Perm [("10.0.0.2", 1), ("10.0.0.1", 1)] [("10.0.0.1", 1), ("10.0.0.2", 1)] ∧
    mostCommonIP [("10.0.0.1", 1), ("10.0.0.2", 1)] = "10.0.0.1" ∧
    mostCommonIP [("10.0.0.2", 1), ("10.0.0.1", 1)] = "10.0.0.2" ∧
    (∀ flowID, GoMap.lookup
        (⟨Scenario.balancedHop.Flows.entries.reverse⟩ : GoMap FlowResult) flowID
      = Scenario.balancedHop.Flows.lookup flowID) ∧
    (hopStatistics 1 Scenario.balancedHop).IP = "10.0.0.1" ∧
    (hopStatistics 1 { Scenario.balancedHop with
      Flows := ⟨Scenario.balancedHop.Flows.entries.reverse⟩ }).IP = "10.0.0.2" ∧
    (¬ ∀ ipMap order : List (String × Nat),
      order.Perm ipMap → mostCommonIP order = mostCommonIP ipMap) ∧
    ∀ (ipMap order : List (String × Nat)) (e : String × Nat), order.Perm ipMap → e ∈ ipMap →
      0 < e.2 → (∀ e2 ∈ ipMap, e2 ≠ e → e2.2 < e.2) → mostCommonIP order = e.1 := by
  have hperm : List.Perm [(("10.0.0.2", 1) : String × Nat), ("10.0.0.1", 1)]
      [("10.0.0.1", 1), ("10.0.0.2", 1)] := List.Perm.swap _ _ _
  refine ⟨by decide, by decide, by decide, by decide, by decide, hperm, by decide, by decide,
    ?_, by rfl, by rfl, ?_, ?_⟩
  · intro flowID
    have hentries : Scenario.balancedHop.Flows.entries.map (fun e => e.1) = [0, 1] := by decide
    rcases flowID with _ | _ | n
    · decide
    · decide
    · have hl : ∀ l : List (Nat × FlowResult), (∀ e ∈ l, e.1 < 2) →
          GoMap.lookup (⟨l⟩ : GoMap FlowResult) (n + 1 + 1) = none := by
        intro l hl
        unfold GoMap.lookup
        rw [Option.map_eq_none', List.find?_eq_none]
        intro e he hk
        have := hl e he
        have hk : e.1 = n + 1 + 1 := by simpa using hk
        omega
      have hsmall : ∀ e ∈ Scenario.balancedHop.Flows.entries, e.1 < 2 := by
        intro e he
        have : e.1 ∈ Scenario.balancedHop.Flows.entries.map (fun e => e.1) :=
          List.mem_map_of_mem _ he
        rw [hentries] at this
        simp only [List.mem_cons, List.mem_singleton, List.not_mem_nil, or_false] at this
        omega
      rw [hl _ (fun e he => hsmall e (List.mem_reverse.1 he))]
      exact (hl Scenario.balancedHop.Flows.entries hsmall).symm
  · intro hall
    have := hall [("10.0.0.1", 1), ("10.0.0.2", 1)] [("10.0.0.2", 1), ("10.0.0.1", 1)] hperm
    exact absurd this (by decide)
  · exact mostCommonIP_of_strict_maximum

/-! ## The timeout of the capture handle -/

/-- C25 fails on the TCP engine. `NewTCPProbe` sets `Timeout` to 1 s and `SetTimeout` sets it
to the value of the caller, but `TCPProbe.Traceroute` creates the capture handle it waits on
with the constant `3*time.Second`, so that every wait of a TCP run has the deadline
`time.Now() + 3 s` whatever `Timeout` is: 3 s by default, where the claim says 1 s, and 3 s
after `SetTimeout(500 ms)`. In the UDP engine the handle is created with 3 s, the default of
`Timeout`, and `SetTimeout` replaces it by a handle with the new timeout when that handle can
be opened; when it cannot, the old handle is kept, closed. -/
theorem tcp_deadline_is_three_seconds_whatever_the_timeout :
    (∀ (p : TCPProbe) (dev : String),
      p.runCapture none dev = .ok { iface := dev, timeout := 3 * second, closed := false }) ∧
    (∀ (p : TCPProbe) (t : Duration) (dev : String),
      (p.SetTimeout t).Timeout = t ∧
      (p.SetTimeout t).runCapture none dev
        = .ok { iface := dev, timeout := 3 * second, closed := false }) ∧
    (∀ (target srcIP : IPv4Addr) (srcPort dstPort numPaths minTTL maxTTL probeCount : Nat),
      (NewTCPProbe target srcIP srcPort dstPort numPaths minTTL maxTTL probeCount).Timeout
        = 1 * second) ∧
    Scenario.tcpToFive.Timeout = 1 * second ∧
    (∃ cap, Scenario.tcpToFive.runCapture none "eth0" = .ok cap ∧
      cap.deadline 5000000 = 5000000 + 3 * second ∧
      cap.deadline 5000000 ≠ 5000000 + Scenario.tcpToFive.Timeout) ∧
    (∃ cap, (Scenario.tcpToFive.SetTimeout (second / 2)).runCapture none "eth0" = .ok cap ∧
      cap.deadline 5000000 = 5000000 + 3 * second ∧
      cap.deadline 5000000 ≠ 5000000 + (Scenario.tcpToFive.SetTimeout (second / 2)).Timeout) ∧
    (∀ (dev : String) (target srcIP : IPv4Addr)
        (srcPort dstPort numPaths minTTL maxTTL probeCount : Nat),
      ∃ prober, NewUDPProber none dev target srcIP srcPort dstPort numPaths minTTL maxTTL
          probeCount = .ok prober ∧
        prober.probe.Timeout = 3 * second ∧
        prober.capture = some { iface := dev, timeout := 3 * second, closed := false } ∧
        ∀ (t : Duration) (dev2 : String),
          (prober.SetTimeout none dev2 t).probe.Timeout = t ∧
          ((prober.SetTimeout none dev2 t).capture.map (fun cap => (cap.timeout, cap.closed))
            = some (t, false)) ∧
          ∀ err, (prober.SetTimeout (some err) dev2 t).probe.Timeout = t ∧
            ((prober.SetTimeout (some err) dev2 t).capture.map
              (fun cap => (cap.timeout, cap.closed)) = some (3 * second, true))) := by
  refine ⟨?_, ?_, fun _ _ _ _ _ _ _ _ => rfl, rfl, ⟨_, rfl, by decide, by decide⟩,
    ⟨_, rfl, by decide, by decide⟩, ?_⟩
  · intro p dev
    simp [TCPProbe.runCapture, NewCapture]
  · intro p t dev
    refine ⟨rfl, ?_⟩
    simp [TCPProbe.runCapture, NewCapture]
  · intro dev target srcIP srcPort dstPort numPaths minTTL maxTTL probeCount
    refine ⟨_, rfl, rfl, ?_, ?_⟩
    · simp
    · intro t dev2
      refine ⟨rfl, ?_, ?_⟩
      · simp [UDPProber.SetTimeout, NewCapture]
      · intro err
        refine ⟨rfl, ?_⟩
        simp [UDPProber.SetTimeout, NewCapture]

/-! ## The sort of the MTR table -/

/-- Induction over a counted loop: a property of the state and the number of iterations made
that holds before the loop and is kept by every iteration holds after it. -/
theorem forRange_induction {σ : Type} (J : Nat → σ → Prop) (n : Nat) (body : Nat → σ → σ)
    (s0 : σ) (h0 : J 0 s0) (hstep : ∀ k s, k < n → J k s → J (k + 1) (body k s)) :
    J n (forRange n body s0) := by
  induction n with
  | zero => exact h0
  | succ n ih =>
    rw [forRange]
    exact hstep n _ (Nat.lt_succ_self n)
      (ih (fun k s hk hJ => hstep k s (Nat.lt_succ_of_lt hk) hJ))

/-- An assignment to an element of a slice leaves the other elements in place. -/
theorem set_perm_cons (l : List Nat) (i x : Nat) (hi : i < l.length) :
    (l.set i x).Perm (x :: (l.take i ++ l.drop (i + 1))) := by
  rw [List.set_eq_take_append_cons_drop, if_pos hi]
  exact List.perm_middle

/-- A slice is its element at `i` and the others. -/
theorem perm_getD_cons (l : List Nat) (i : Nat) (hi : i < l.length) :
    l.Perm (l.getD i 0 :: (l.take i ++ l.drop (i + 1))) := by
  have hsplit : l = l.take i ++ l.getD i 0 :: l.drop (i + 1) := by
    rw [List.getD_eq_getElem l 0 hi, List.getElem_cons_drop l i hi, List.take_append_drop]
  have h : (l.take i ++ l.getD i 0 :: l.drop (i + 1)).Perm
      (l.getD i 0 :: (l.take i ++ l.drop (i + 1))) := List.perm_middle
  rw [← hsplit] at h
  exact h

/-- The elements of a slice after the exchange of those at `i` and `j`. -/
theorem swap_getD (l : List Nat) (i j k : Nat) (hi : i < l.length) (hj : j < l.length)
    (hij : i ≠ j) :
    ((l.set i (l.getD j 0)).set j (l.getD i 0)).getD k 0
      = if k = j then l.getD i 0 else if k = i then l.getD j 0 else l.getD k 0 := by
  simp only [List.getD_eq_getElem?_getD, List.getElem?_set, List.length_set]
  by_cases h1 : k = j
  · subst h1
    simp [hj]
  · by_cases h2 : k = i
    · subst h2
      simp [h1, hi, Ne.symm h1]
    · simp [h1, h2, Ne.symm h1, Ne.symm h2]

/-- The exchange of two elements of a slice permutes it. -/
theorem swap_perm (l : List Nat) (i j : Nat) (hi : i < l.length) (hj : j < l.length)
    (hij : i ≠ j) : ((l.set i (l.getD j 0)).set j (l.getD i 0)).Perm l := by
  have hj1 : j < (l.set i (l.getD j 0)).length := by
    rw [List.length_set]
    exact hj
  have h1 := set_perm_cons l i (l.getD j 0) hi
  have h2 := perm_getD_cons l i hi
  have h3 := set_perm_cons (l.set i (l.getD j 0)) j (l.getD i 0) hj1
  have h4 := perm_getD_cons (l.set i (l.getD j 0)) j hj1
  have hget : (l.set i (l.getD j 0)).getD j 0 = l.getD j 0 := by
    simp only [List.getD_eq_getElem?_getD, List.getElem?_set]
    rw [if_neg hij]
  rw [hget] at h4
  have h5 : ((l.set i (l.getD j 0)).take j ++ (l.set i (l.getD j 0)).drop (j + 1)).Perm
      (l.take i ++ l.drop (i + 1)) := (h4.symm.trans h1).cons_inv
  exact (h3.trans (h5.cons _)).trans h2.symm

/-- The statement of the sort keeps the length of the slice. -/
theorem swapIfGreater_length (l : List Nat) (i j : Nat) :
    (swapIfGreater l i j).length = l.length := by
  unfold swapIfGreater
  split_ifs
  · rw [List.length_set, List.length_set]
  · rfl

/-- The statement of the sort permutes the slice. -/
theorem swapIfGreater_perm (l : List Nat) (i j : Nat) (hi : i < l.length) (hj : j < l.length)
    (hij : i ≠ j) : (swapIfGreater l i j).Perm l := by
  unfold swapIfGreater
  split_ifs
  · exact swap_perm l i j hi hj hij
  · exact List.Perm.refl _

/-- One pass of the inner loop of the sort, for the index `i`: the slice is permuted, the
elements before `i` stay below all later ones, and the element at `i` ends below all later
ones. -/
theorem inner_pass (l0 : List Nat) (i : Nat) (hi : i < l0.length)
    (hQ : ∀ a b, a < i → a < b → b < l0.length → l0.getD a 0 ≤ l0.getD b 0) :
    (forRange (l0.length - (i + 1)) (fun k l => swapIfGreater l i (i + 1 + k)) l0).length
      = l0.length ∧
    (forRange (l0.length - (i + 1)) (fun k l => swapIfGreater l i (i + 1 + k)) l0).Perm l0 ∧
    ∀ a b, a < i + 1 → a < b → b < l0.length →
      (forRange (l0.length - (i + 1)) (fun k l => swapIfGreater l i (i + 1 + k)) l0).getD a 0
        ≤ (forRange (l0.length - (i + 1))
            (fun k l => swapIfGreater l i (i + 1 + k)) l0).getD b 0 := by
  have key := forRange_induction
    (fun k (l : List Nat) => l.length = l0.length ∧ l.Perm l0 ∧
      (∀ a b, a < i → a < b → b < l0.length → l.getD a 0 ≤ l.getD b 0) ∧
      (∀ m, i < m → m ≤ i + k → m < l0.length → l.getD i 0 ≤ l.getD m 0))
    (l0.length - (i + 1)) (fun k l => swapIfGreater l i (i + 1 + k)) l0
    ⟨rfl, List.Perm.refl _, hQ, fun m h1 h2 _ => absurd h1 (not_lt.2 h2)⟩
    (by
      intro k l hk ⟨hlen, hperm, hpre, hcur⟩
      beta_reduce
      have hj : i + 1 + k < l.length := by
        rw [hlen]
        omega
      have hil : i < l.length := by
        rw [hlen]
        exact hi
      have hij : i ≠ i + 1 + k := by omega
      refine ⟨?_, ?_, ?_, ?_⟩
      · rw [swapIfGreater_length, hlen]
      · exact (swapIfGreater_perm l i _ hil hj hij).trans hperm
      · intro a b ha hab hb
        unfold swapIfGreater
        split_ifs with hgt
        · rw [swap_getD l i _ a hil hj hij, swap_getD l i _ b hil hj hij,
            if_neg (by omega), if_neg (by omega)]
          split_ifs
          · exact hpre a i ha ha hi
          · exact hpre a (i + 1 + k) ha (by omega) (by omega)
          · exact hpre a b ha hab hb
        · exact hpre a b ha hab hb
      · intro m hm1 hm2 hm3
        unfold swapIfGreater
        split_ifs with hgt
        · rw [swap_getD l i _ i hil hj hij, swap_getD l i _ m hil hj hij,
            if_neg hij, if_pos rfl]
          by_cases hmj : m = i + 1 + k
          · rw [if_pos hmj]
            exact le_of_lt hgt
          · rw [if_neg hmj, if_neg (by omega)]
            exact le_trans (le_of_lt hgt) (hcur m hm1 (by omega) hm3)
        · by_cases hmj : m = i + 1 + k
          · rw [hmj]
            exact not_lt.1 hgt
          · exact hcur m hm1 (by omega) hm3)
  obtain ⟨k1, k2, k3, k4⟩ := key
  refine ⟨k1, k2, ?_⟩
  intro a b ha hab hb
  by_cases hai : a < i
  · exact k3 a b hai hab hb
  · have hai : a = i := by omega
    rw [hai]
    exact k4 b (by omega) (by omega) hb

/-- The sort permutes the slice and leaves every element below all later ones. -/
theorem exchangeSort_spec (ttls : List Nat) :
    (exchangeSort ttls).length = ttls.length ∧ (exchangeSort ttls).Perm ttls ∧
    ∀ a b, a < b → b < ttls.length →
      (exchangeSort ttls).getD a 0 ≤ (exchangeSort ttls).getD b 0 := by
  have key := forRange_induction
    (fun i (l : List Nat) => l.length = ttls.length ∧ l.Perm ttls ∧
      (∀ a b, a < i → a < b → b < ttls.length → l.getD a 0 ≤ l.getD b 0))
    ttls.length (fun i ttls =>
      forRange (ttls.length - (i + 1)) (fun k ttls => swapIfGreater ttls i (i + 1 + k)) ttls)
    ttls ⟨rfl, List.Perm.refl _, fun a b ha _ _ => absurd ha (Nat.not_lt_zero a)⟩
    (by
      intro i l hi ⟨hlen, hperm, hpre⟩
      obtain ⟨p1, p2, p3⟩ := inner_pass l i (by rw [hlen]; exact hi)
        (by rw [hlen]; exact hpre)
      beta_reduce
      exact ⟨p1.trans hlen, p2.trans hperm,
        fun a b ha hab hb => p3 a b ha hab (by rw [hlen]; exact hb)⟩)
  obtain ⟨k1, k2, k3⟩ := key
  refine ⟨k1, k2, ?_⟩
  intro a b hab hb
  exact k3 a b (by omega) hab hb

/-- The slice the sort leaves is in ascending order. -/
theorem exchangeSort_sorted (ttls : List Nat) :
    (exchangeSort ttls).Sorted (fun x y => x ≤ y) := by
  obtain ⟨h1, -, h3⟩ := exchangeSort_spec ttls
  unfold List.Sorted
  rw [List.pairwise_iff_getElem]
  intro a b ha hb hab
  have := h3 a b hab (by rw [← h1]; exact hb)
  rw [List.getD_eq_getElem _ 0 ha, List.getD_eq_getElem _ 0 hb] at this
  exact this

/-- The sort gives the same slice for every order of the same keys. -/
theorem exchangeSort_eq_of_perm (ttls ttls2 : List Nat) (h : ttls2.Perm ttls) :
    exchangeSort ttls2 = exchangeSort ttls :=
  List.eq_of_perm_of_sorted
    (((exchangeSort_spec ttls2).2.1.trans h).trans (exchangeSort_spec ttls).2.1.symm)
    (exchangeSort_sorted ttls2) (exchangeSort_sorted ttls)

/-- The entries of the statistics map of a result whose hop map has distinct keys: one per
hop, in the order of the hops. -/
theorem calculateHopStatistics_entries (tr : TracerouteResult) (hk : tr.Hops.keys.Nodup) :
    tr.CalculateHopStatistics.entries
      = tr.Hops.entries.map (fun e => (e.1, hopStatistics e.1 e.2)) := by
  unfold TracerouteResult.CalculateHopStatistics
  rw [foldl_store_entries hopStatistics tr.Hops.entries GoMap.empty hk]
  · simp [GoMap.empty]
  · intro k _ hm
    simp [GoMap.empty, GoMap.keys] at hm

/-- C27: on a result whose hop map has distinct keys, in whichever order `order` the loop
`for ttl := range stats` yields the keys of the statistics, the sort of `PrintMTRStyle` leaves
a permutation of the hop keys in strictly ascending order; the rows printed are the statistics
of these TTLs in that order, one per hop, and they are the same for every order. -/
theorem mtr_rows_ascend_in_every_iteration_order (tr : TracerouteResult)
    (hk : tr.Hops.keys.Nodup) (order : List Nat)
    (ho : order.Perm tr.CalculateHopStatistics.keys) :
    (exchangeSort order).Perm tr.Hops.keys ∧
    (exchangeSort order).Sorted (fun x y => x < y) ∧
    (tr.mtrRows order).map (fun stat => stat.TTL) = exchangeSort order ∧
    (∀ stat ∈ tr.mtrRows order, tr.CalculateHopStatistics.lookup stat.TTL = some stat) ∧
    ∀ order2 : List Nat, order2.Perm tr.CalculateHopStatistics.keys →
      exchangeSort order2 = exchangeSort order ∧ tr.mtrRows order2 = tr.mtrRows order := by
  have hkeys : tr.CalculateHopStatistics.keys = tr.Hops.keys := by
    simp only [GoMap.keys, calculateHopStatistics_entries tr hk, List.map_map]
    rfl
  rw [hkeys] at ho
  have hperm : (exchangeSort order).Perm tr.Hops.keys := (exchangeSort_spec order).2.1.trans ho
  have hnodup : (exchangeSort order).Nodup := hperm.nodup_iff.2 hk
  have hlook : ∀ ttl ∈ exchangeSort order, ∃ stat,
      tr.CalculateHopStatistics.lookup ttl = some stat ∧ stat.TTL = ttl := by
    intro ttl hm
    have hm2 : ttl ∈ tr.Hops.keys := hperm.mem_iff.1 hm
    obtain ⟨e, he, hke⟩ := List.mem_map.1 hm2
    have hl : tr.Hops.lookup ttl = some e.2 := by
      rw [goMap_lookup_iff_mem tr.Hops hk, ← hke]
      exact he
    refine ⟨hopStatistics ttl e.2, (calculateHopStatistics_lookup tr hk ttl e.2 hl).2, ?_⟩
    exact (hopStatistics_fields ttl e.2).2.2.2.2.2.1
  have hrows : ∀ l : List Nat, (∀ ttl ∈ l, ∃ stat,
      tr.CalculateHopStatistics.lookup ttl = some stat ∧ stat.TTL = ttl) →
      (l.filterMap (fun ttl => tr.CalculateHopStatistics.lookup ttl)).map
        (fun stat => stat.TTL) = l := by
    intro l
    induction l with
    | nil => intro _; rfl
    | cons x xs ih =>
      intro hl
      obtain ⟨stat, hs1, hs2⟩ := hl x (List.mem_cons_self _ _)
      rw [List.filterMap_cons, hs1]
      simp only [List.map_cons]
      rw [hs2, ih (fun ttl hm => hl ttl (List.mem_cons_of_mem _ hm))]
  refine ⟨hperm, (exchangeSort_sorted order).lt_of_le hnodup, hrows _ hlook, ?_, ?_⟩
  · intro stat hs
    unfold TracerouteResult.mtrRows at hs
    obtain ⟨ttl, hm, hl⟩ := List.mem_filterMap.1 hs
    obtain ⟨stat2, hs1, hs2⟩ := hlook ttl hm
    rw [hs1] at hl
    have : stat2 = stat := Option.some.inj hl
    rw [← this, hs2]
    exact hs1
  · intro order2 ho2
    rw [hkeys] at ho2
    have heq := exchangeSort_eq_of_perm order order2 (ho2.trans ho.symm)
    refine ⟨heq, ?_⟩
    unfold TracerouteResult.mtrRows
    rw [heq]

/-- The rows of the run over the TTLs 1 to 5, for C27: with the keys met in the order
3, 1, 5, 2, 4 the sort leaves 1, 2, 3, 4, 5 and the rows come in that order. -/
theorem mtr_rows_ascend_in_every_iteration_order_witness :
    (Scenario.resultOf (Scenario.toFive.Traceroute Scenario.routed 6)).Hops.keys.Nodup ∧
    List.Perm [3, 1, 5, 2, 4] (Scenario.resultOf
      (Scenario.toFive.Traceroute Scenario.routed 6)).CalculateHopStatistics.keys ∧
    exchangeSort [3, 1, 5, 2, 4] = [1, 2, 3, 4, 5] ∧
    ((Scenario.resultOf (Scenario.toFive.Traceroute Scenario.routed 6)).mtrRows
      [3, 1, 5, 2, 4]).map (fun stat => stat.TTL) = exchangeSort [3, 1, 5, 2, 4] :=
  ⟨by decide, by decide, by decide,
    (mtr_rows_ascend_in_every_iteration_order
      (Scenario.resultOf (Scenario.toFive.Traceroute Scenario.routed 6)) (by decide)
      [3, 1, 5, 2, 4] (by decide)).2.2.1⟩

/-! ## Termination of `GetPaths` -/

/-- When the body of the scan of a flow reaches no `break` at any value of the counter, the
scan is still running after any number of evaluations: the `uint8` counter wraps from 255 to 0
and the loop test `ttl <= 255` never fails. -/
theorem scanFlow_never_returns (tr : TracerouteResult) (flowID : Nat)
    (h : ∀ ttl, ttl ≤ 255 → tr.scanGoesOn flowID ttl = true) :
    ∀ fuel ttl hops, ttl ≤ 255 → tr.scanFlow flowID fuel ttl hops = none := by
  have hu8 : ∀ n, u8 n ≤ 255 := by
    intro n
    unfold u8
    omega
  intro fuel
  induction fuel with
  | zero =>
    intro ttl hops _
    rfl
  | succ fuel ih =>
    intro ttl hops httl
    have hgo := h ttl httl
    unfold TracerouteResult.scanGoesOn at hgo
    rw [TracerouteResult.scanFlow, if_pos httl]
    cases hl : tr.Hops.lookup ttl with
    | none =>
      rw [hl] at hgo
      cases hgo
    | some hopResult =>
      rw [hl] at hgo
      simp only at hgo ⊢
      cases hf : hopResult.Flows.lookup flowID with
      | none => exact ih _ _ (hu8 _)
      | some flowResult =>
        rw [hf] at hgo
        simp only at hgo ⊢
        by_cases herr : (flowResult.Error != "") = true
        · rw [if_pos herr]
          exact ih _ _ (hu8 _)
        · rw [if_neg herr]
          have hne : (flowResult.ResponseIP != tr.Target) = true := by
            rw [Bool.or_eq_true] at hgo
            rcases hgo with hgo | hgo
            · exact absurd hgo herr
            · exact hgo
          have hnt : ¬ (flowResult.ResponseIP == tr.Target) = true := by
            intro heq
            rw [bne, heq] at hne
            cases hne
          rw [if_neg hnt]
          exact ih _ _ (hu8 _)

/-- The loop over the flows does not return when the scan of one of them does not. -/
theorem buildPaths_never_returns (tr : TracerouteResult) (fuel : Nat) (flowID : Nat)
    (h : tr.scanFlow flowID fuel 1 [] = none) :
    ∀ ids pathID, flowID ∈ ids → tr.buildPaths fuel ids pathID = none := by
  intro ids
  induction ids with
  | nil =>
    intro pathID hm
    cases hm
  | cons x rest ih =>
    intro pathID hm
    rw [TracerouteResult.buildPaths]
    rcases List.mem_cons.1 hm with rfl | hm
    · rw [h]
    · cases hx : tr.scanFlow x fuel 1 [] with
      | none => rfl
      | some hops =>
        simp only
        rw [ih (pathID + 1) hm]

/-- The analysis and `HasMultiplePaths` do not return when `GetPaths` does not. -/
theorem callers_of_getPaths_never_return (tr : TracerouteResult) (fuel : Nat)
    (h : tr.GetPaths fuel = none) :
    tr.AnalyzeNetwork fuel = none ∧ tr.HasMultiplePaths fuel = none := by
  constructor
  · unfold TracerouteResult.AnalyzeNetwork
    simp only
    cases tr.latencyScan fuel 1 0 [] with
    | none => rfl
    | some issues =>
      simp only
      rw [h]
  · unfold TracerouteResult.HasMultiplePaths
    rw [h]

/-- With two flows and one round the two inner loops make two probes, stored under the flow
keys 0 and 1. -/
theorem twoFlow_probeHop (env : Env) (ttl n : Nat) (log : List (Nat × Nat)) :
    ((Scenario.flags255TwoFlows.udpProbe Scenario.targetIP Scenario.localIP).probeHop env ttl
        ⟨GoMap.empty, n, log⟩).Flows
      = ⟨[(0, (Scenario.flags255TwoFlows.udpProbe Scenario.targetIP Scenario.localIP).probeFlow
            (env.probe n) ttl 0 0),
          (1, (Scenario.flags255TwoFlows.udpProbe Scenario.targetIP Scenario.localIP).probeFlow
            (env.probe (n + 1)) ttl 0 1)]⟩ ∧
    ((Scenario.flags255TwoFlows.udpProbe Scenario.targetIP Scenario.localIP).probeHop env ttl
        ⟨GoMap.empty, n, log⟩).next = n + 2 ∧
    ((Scenario.flags255TwoFlows.udpProbe Scenario.targetIP Scenario.localIP).probeHop env ttl
        ⟨GoMap.empty, n, log⟩).sent = log ++ [(ttl, 0), (ttl, 1)] := by
  obtain ⟨h1, h2, h3⟩ := udp_probeHop_spec
    (Scenario.flags255TwoFlows.udpProbe Scenario.targetIP Scenario.localIP) (by decide) env ttl
    n log
  have htwo : (Scenario.flags255TwoFlows.udpProbe Scenario.targetIP Scenario.localIP).ProbeCount
      * (Scenario.flags255TwoFlows.udpProbe Scenario.targetIP Scenario.localIP).NumPaths
      = 2 := by decide
  rw [htwo] at h1 h2 h3
  refine ⟨?_, h2, h3⟩
  have hext : ∀ m : GoMap FlowResult, ∀ l, m.entries = l → m = ⟨l⟩ := by
    intro m l h
    cases m
    simp only at h
    rw [h]
  exact hext _ _ h1

/-- One evaluation of the outer loop when neither probe is answered: the hop is stored and the
`uint8` counter incremented. -/
theorem twoFlow_step_silent (env : Env) (st : UDPState) (hh : st.halted = false)
    (ht : st.ttl ≤ 255) (hev0 : env.probe st.next = Scenario.unanswered)
    (hev1 : env.probe (st.next + 1) = Scenario.unanswered) :
    (Scenario.flags255TwoFlows.udpProbe Scenario.targetIP Scenario.localIP).step env st
      = { ttl := u8 (st.ttl + 1),
          Hops := st.Hops.store st.ttl
            (Scenario.twoFlowHop Scenario.unanswered Scenario.unanswered st.ttl),
          next := st.next + 2, sent := st.sent ++ [(st.ttl, 0), (st.ttl, 1)],
          halted := false } := by
  obtain ⟨h1, h2, h3⟩ := twoFlow_probeHop env st.ttl st.next st.sent
  unfold UDPProbe.step
  rw [if_neg (by simp [hh]), if_pos (by exact ht)]
  simp only [h1, h2, h3, hev0, hev1]
  rfl

/-- One evaluation of the outer loop when the first probe is answered by the target: the hop is
stored and the loop is left. -/
theorem twoFlow_step_target (env : Env) (st : UDPState) (hh : st.halted = false)
    (ht : st.ttl ≤ 255) (hev0 : env.probe st.next = Scenario.answeredByTarget)
    (hev1 : env.probe (st.next + 1) = Scenario.unanswered) :
    (Scenario.flags255TwoFlows.udpProbe Scenario.targetIP Scenario.localIP).step env st
      = { ttl := st.ttl,
          Hops := st.Hops.store st.ttl
            (Scenario.twoFlowHop Scenario.answeredByTarget Scenario.unanswered st.ttl),
          next := st.next + 2, sent := st.sent ++ [(st.ttl, 0), (st.ttl, 1)],
          halted := true } := by
  obtain ⟨h1, h2, h3⟩ := twoFlow_probeHop env st.ttl st.next st.sent
  unfold UDPProbe.step
  rw [if_neg (by simp [hh]), if_pos (by exact ht)]
  simp only [h1, h2, h3, hev0, hev1]
  rfl

/-- Storing under a key that the map does not hold appends the entry. -/
theorem goMap_store_new {β : Type} (l : List (Nat × β)) (k : Nat) (v : β)
    (h : ∀ e ∈ l, e.1 ≠ k) : GoMap.store ⟨l⟩ k v = ⟨l ++ [(k, v)]⟩ := by
  unfold GoMap.store
  simp only [GoMap.mk.injEq, List.append_left_inj]
  rw [List.filter_eq_self]
  intro e he
  simpa using h e he

/-- The state of the run in `targetAnswersProbe510` after `k ≤ 255` evaluations of the outer
loop: the hops of the TTLs 1 to `k`, and the counter at `uint8(k + 1)`. -/
theorem wrapped_run (k : Nat) (hk : k ≤ 255) :
    ((Scenario.flags255TwoFlows.udpProbe Scenario.targetIP Scenario.localIP).run
        Scenario.targetAnswersProbe510 k).ttl = u8 (k + 1) ∧
    ((Scenario.flags255TwoFlows.udpProbe Scenario.targetIP Scenario.localIP).run
        Scenario.targetAnswersProbe510 k).Hops
      = ⟨(List.range' 1 k).map
          (fun ttl => (ttl, Scenario.twoFlowHop Scenario.unanswered Scenario.unanswered ttl))⟩ ∧
    ((Scenario.flags255TwoFlows.udpProbe Scenario.targetIP Scenario.localIP).run
        Scenario.targetAnswersProbe510 k).next = 2 * k ∧
    ((Scenario.flags255TwoFlows.udpProbe Scenario.targetIP Scenario.localIP).run
        Scenario.targetAnswersProbe510 k).halted = false := by
  induction k with
  | zero => exact ⟨rfl, rfl, rfl, rfl⟩
  | succ k ih =>
    obtain ⟨i1, i2, i3, i4⟩ := ih (by omega)
    have hu : u8 (k + 1) = k + 1 := by
      unfold u8
      omega
    have hsilent : ∀ i, i < 510 → Scenario.targetAnswersProbe510.probe i = Scenario.unanswered := by
      intro i hi
      unfold Scenario.targetAnswersProbe510
      simp only
      rw [if_neg (by omega)]
    rw [udp_run_succ, twoFlow_step_silent Scenario.targetAnswersProbe510 _ i4
      (by rw [i1, hu]; omega) (hsilent _ (by rw [i3]; omega)) (hsilent _ (by rw [i3]; omega))]
    refine ⟨?_, ?_, ?_, rfl⟩
    · simp only [i1, hu]
    · simp only [i1, i2, hu]
      rw [goMap_store_new _ _ _ (by
        intro e he
        simp only [List.mem_map, List.mem_range'_1] at he
        obtain ⟨t, ht, rfl⟩ := he
        simp only
        omega)]
      rw [List.range'_concat, List.map_append]
      have hk1 : 1 + 1 * k = k + 1 := by omega
      simp only [List.map_cons, List.map_nil, hk1]
    · simp only [i3]
      omega

/-- The run in `targetAnswersProbe510` is left at the 256th evaluation of the outer loop, made
with the TTL counter wrapped to 0, with the hops `wrappedHops`. -/
theorem wrapped_returned :
    ((Scenario.flags255TwoFlows.udpProbe Scenario.targetIP Scenario.localIP).run
        Scenario.targetAnswersProbe510 256).halted = true ∧
    ((Scenario.flags255TwoFlows.udpProbe Scenario.targetIP Scenario.localIP).run
        Scenario.targetAnswersProbe510 256).Hops = Scenario.wrappedHops := by
  obtain ⟨i1, i2, i3, i4⟩ := wrapped_run 255 (by omega)
  have hu : u8 (255 + 1) = 0 := by decide
  rw [udp_run_succ, twoFlow_step_target Scenario.targetAnswersProbe510 _ i4
    (by rw [i1, hu]; omega) (by rw [i3]; rfl) (by rw [i3]; rfl)]
  refine ⟨rfl, ?_⟩
  simp only [i1, i2, hu]
  rw [goMap_store_new _ _ _ (by
    intro e he
    simp only [List.mem_map, List.mem_range'_1] at he
    obtain ⟨t, ht, rfl⟩ := he
    simp only
    omega)]
  rfl

/-- The hops of the result `wrapped`. -/
theorem wrapped_hops : Scenario.wrapped.Hops = Scenario.wrappedHops := by
  obtain ⟨h1, h2⟩ := wrapped_returned
  unfold Scenario.wrapped UDPProbe.Traceroute
  simp only [h1, h2, if_true]
  rfl

/-- The keys of the hops of `wrapped`: 1 to 255, then 0. -/
theorem wrappedHops_keys : Scenario.wrappedHops.keys = List.range' 1 255 ++ [0] := by
  unfold Scenario.wrappedHops GoMap.keys
  simp only [List.map_append, List.map_map, List.map_cons, List.map_nil]
  have hid : ((fun e : Nat × HopResult => e.1)
        ∘ fun ttl => (ttl, Scenario.twoFlowHop Scenario.unanswered Scenario.unanswered ttl))
      = id := rfl
  rw [hid, List.map_id]

/-- The keys of the hops of `wrapped` are distinct. -/
theorem wrappedHops_nodup : Scenario.wrappedHops.keys.Nodup := by
  rw [wrappedHops_keys, List.nodup_append]
  refine ⟨List.nodup_range' 1 255, List.nodup_singleton 0, ?_⟩
  intro a ha hb
  rw [List.mem_range'_1] at ha
  rw [List.mem_singleton] at hb
  omega

/-- The hop stored under a TTL from 1 to 255. -/
theorem wrappedHops_lookup (t : Nat) (h1 : 1 ≤ t) (h2 : t ≤ 255) :
    Scenario.wrappedHops.lookup t
      = some (Scenario.twoFlowHop Scenario.unanswered Scenario.unanswered t) := by
  rw [goMap_lookup_iff_mem _ wrappedHops_nodup]
  unfold Scenario.wrappedHops
  simp only [List.mem_append, List.mem_map, List.mem_range'_1]
  exact Or.inl ⟨t, ⟨h1, by omega⟩, rfl⟩

/-- The hop stored under the wrapped TTL 0. -/
theorem wrappedHops_lookup_zero :
    Scenario.wrappedHops.lookup 0
      = some (Scenario.twoFlowHop Scenario.answeredByTarget Scenario.unanswered 0) := by
  rw [goMap_lookup_iff_mem _ wrappedHops_nodup]
  unfold Scenario.wrappedHops
  exact List.mem_append_right _ (List.mem_singleton.2 rfl)

/-- The run with `-max-ttl 255 -npaths 2` in which the target answers the probe number 510
only: it returns a result without error, with hops under 256 keys, the flows 0 and 1 in the
first hop, and no `break` for the scan of flow 1 at any value of the counter. -/
theorem wrapped_facts :
    ((Scenario.flags255TwoFlows.udpProbe Scenario.targetIP Scenario.localIP).Traceroute
        Scenario.targetAnswersProbe510 256).map (fun ret => (ret.result.isSome, ret.err))
      = some (true, none) ∧
    Scenario.wrapped.Hops.keys.length = 256 ∧
    Scenario.wrapped.firstHopFlowIDs = [0, 1] ∧
    ∀ ttl, ttl ≤ 255 → Scenario.wrapped.scanGoesOn 1 ttl = true := by
  refine ⟨?_, ?_, ?_, ?_⟩
  · unfold UDPProbe.Traceroute
    simp only [wrapped_returned.1, if_true]
    rfl
  · rw [wrapped_hops, wrappedHops_keys, List.length_append, List.length_range']
    rfl
  · unfold TracerouteResult.firstHopFlowIDs
    rw [wrapped_hops, wrappedHops_lookup 1 (by omega) (by omega)]
    rfl
  · intro ttl httl
    unfold TracerouteResult.scanGoesOn
    rw [wrapped_hops]
    rcases Nat.eq_zero_or_pos ttl with h0 | hpos
    · rw [h0, wrappedHops_lookup_zero]
      rfl
    · rw [wrappedHops_lookup ttl hpos httl]
      rfl

/-- C28 fails on the code when the hop map has a hop under every key from 0 to 255 and some
flow of the first hop has no error-free record that names the target. In `everyKey` every hop
holds the single flow 0, timed out: the first hop gives the flow ID 0, and the scan
`for ttl := uint8(1); ttl <= 255; ttl++` of that flow finds a hop at every value of the
counter, skips its record, and goes from 255 back to 0 without ever reaching a `break`:
`GetPaths` is still running after any number of evaluations of the loop, and so are
`HasMultiplePaths` and `AnalyzeNetwork`, which call it. The engine itself returns such a
result: the validated run with `-max-ttl 255 -npaths 2` whose TTL counter has wrapped, ended
by the target answering a probe of the wrapped TTL 0, holds hops under all 256 keys, and the
scan of its flow 1, never answered, does not end either. When no hop is stored under TTL 0,
`GetPaths` returns within 257 evaluations per flow. -/
theorem getPaths_never_ends_with_hops_under_every_key :
    Scenario.everyKey.Hops.keys = List.range 256 ∧
    Scenario.everyKey.firstHopFlowIDs = [0] ∧
    (∀ ttl, ttl ≤ 255 → Scenario.everyKey.scanGoesOn 0 ttl = true) ∧
    (∀ fuel, Scenario.everyKey.GetPaths fuel = none) ∧
    (∀ fuel, Scenario.everyKey.HasMultiplePaths fuel = none) ∧
    (∀ fuel, Scenario.everyKey.AnalyzeNetwork fuel = none) ∧
    (¬ ∀ tr : TracerouteResult, (∀ ttl ∈ tr.Hops.keys, ttl ≤ 255) →
      ∃ fuel paths, tr.GetPaths fuel = some paths) ∧
    (Scenario.flags255TwoFlows.udpProbe Scenario.targetIP Scenario.localIP).Valid ∧
    ((Scenario.flags255TwoFlows.udpProbe Scenario.targetIP Scenario.localIP).Traceroute
        Scenario.targetAnswersProbe510 256).map (fun ret => (ret.result.isSome, ret.err))
      = some (true, none) ∧
    Scenario.wrapped.Hops.keys.length = 256 ∧
    Scenario.wrapped.firstHopFlowIDs = [0, 1] ∧
    (∀ fuel, Scenario.wrapped.GetPaths fuel = none) ∧
    (∀ fuel, Scenario.wrapped.AnalyzeNetwork fuel = none) ∧
    ∀ tr : TracerouteResult, tr.Hops.lookup 0 = none →
      ∃ paths, tr.GetPaths 257 = some paths := by
  obtain ⟨hw1, hw2, hw3, hw4⟩ := wrapped_facts
  have hwget : ∀ fuel, Scenario.wrapped.GetPaths fuel = none := by
    intro fuel
    unfold TracerouteResult.GetPaths
    rw [hw3]
    exact buildPaths_never_returns _ fuel 1
      (scanFlow_never_returns _ 1 hw4 fuel 1 [] (by omega))
      _ _ (by decide)
  have hkeys : Scenario.everyKey.Hops.keys = List.range 256 := by
    unfold Scenario.everyKey GoMap.keys
    simp only [List.map_map]
    exact List.map_id _
  have hgo : ∀ ttl, ttl ≤ 255 → Scenario.everyKey.scanGoesOn 0 ttl = true := by
    intro ttl httl
    unfold TracerouteResult.scanGoesOn
    have hl : Scenario.everyKey.Hops.lookup ttl
        = some { TTL := ttl, Flows := ⟨[(0, Scenario.timedOut)]⟩ } :=
      goMap_lookup_range 256 ttl
        (fun ttl => ({ TTL := ttl, Flows := ⟨[(0, Scenario.timedOut)]⟩ } : HopResult))
        (by omega)
    rw [hl]
    rfl
  have hget : ∀ fuel, Scenario.everyKey.GetPaths fuel = none := by
    intro fuel
    unfold TracerouteResult.GetPaths
    exact buildPaths_never_returns _ fuel 0
      (scanFlow_never_returns _ 0 hgo fuel 1 [] (by omega)) _ _ (by decide)
  refine ⟨hkeys, by decide, hgo, hget,
    fun fuel => (callers_of_getPaths_never_return _ fuel (hget fuel)).2,
    fun fuel => (callers_of_getPaths_never_return _ fuel (hget fuel)).1, ?_,
    by decide, hw1, hw2, hw3, hwget,
    fun fuel => (callers_of_getPaths_never_return _ fuel (hwget fuel)).1,
    fun tr h0 => getPaths_returns tr h0⟩
  intro hall
  obtain ⟨fuel, paths, hp⟩ := hall Scenario.everyKey (by
    intro ttl hm
    rw [hkeys, List.mem_range] at hm
    omega)
  rw [hget fuel] at hp
  cases hp

/-! ## `HasMultiplePaths` and the asymmetric-routing flag -/

/-- The nested loops of `HasMultiplePaths` return `true` exactly when some path differs from a
later one. -/
theorem hasDifferentPair_iff (paths : List Path) :
    hasDifferentPair paths = true ↔
      ∃ i j pi pj, i < j ∧ paths.get? i = some pi ∧ paths.get? j = some pj ∧
        pathsEqual pi pj = false := by
  unfold hasDifferentPair
  constructor
  · intro h
    obtain ⟨i, -, h⟩ := List.any_eq_true.1 h
    obtain ⟨k, -, h⟩ := List.any_eq_true.1 h
    cases hi : paths.get? i with
    | none =>
      rw [hi] at h
      cases h
    | some pi =>
      cases hj : paths.get? (i + 1 + k) with
      | none =>
        rw [hi, hj] at h
        cases h
      | some pj =>
        rw [hi, hj] at h
        simp only [Bool.not_eq_true'] at h
        exact ⟨i, i + 1 + k, pi, pj, by omega, hi, hj, h⟩
  · rintro ⟨i, j, pi, pj, hij, hi, hj, hne⟩
    have hjl : j < paths.length := by
      rw [List.get?_eq_getElem?] at hj
      exact (List.getElem?_eq_some_iff.1 hj).1
    refine List.any_eq_true.2 ⟨i, List.mem_range.2 (by omega), ?_⟩
    refine List.any_eq_true.2 ⟨j - (i + 1), List.mem_range.2 (by omega), ?_⟩
    have hidx : i + 1 + (j - (i + 1)) = j := by omega
    rw [hidx, hi, hj]
    simp only [Bool.not_eq_true']
    exact hne

/-- Some path differs from a later one exactly when two of the paths differ. -/
theorem different_pair_iff_members (paths : List Path) :
    (∃ i j pi pj, i < j ∧ paths.get? i = some pi ∧ paths.get? j = some pj ∧
        pathsEqual pi pj = false) ↔
      ∃ p ∈ paths, ∃ q ∈ paths, pathsEqual p q = false := by
  constructor
  · rintro ⟨i, j, pi, pj, -, hi, hj, hne⟩
    exact ⟨pi, List.get?_mem hi, pj, List.get?_mem hj, hne⟩
  · rintro ⟨p, hp, q, hq, hne⟩
    obtain ⟨i, hi⟩ := List.mem_iff_get?.1 hp
    obtain ⟨j, hj⟩ := List.mem_iff_get?.1 hq
    rcases Nat.lt_trichotomy i j with hij | hij | hij
    · exact ⟨i, j, p, q, hij, hi, hj, hne⟩
    · exfalso
      rw [hij, hj] at hi
      have hpq : q = p := Option.some.inj hi
      rw [hpq] at hne
      have htrue : pathsEqual p p = true := (pathsEqual_eq_true_iff p p).2 rfl
      rw [htrue] at hne
      cases hne
    · exact ⟨j, i, q, p, hij, hj, hi, by rw [pathsEqual_comm]; exact hne⟩

/-- The value `HasMultiplePaths` returns for the paths `paths`. -/
theorem multiple_paths_flag_iff_members (paths : List Path) :
    (if paths.length ≤ 1 then false else hasDifferentPair paths) = true ↔
      ∃ p ∈ paths, ∃ q ∈ paths, pathsEqual p q = false := by
  rw [← different_pair_iff_members, ← hasDifferentPair_iff]
  by_cases hlen : paths.length ≤ 1
  · rw [if_pos hlen]
    constructor
    · intro h
      cases h
    · intro h
      obtain ⟨i, j, pi, pj, hij, -, hj, -⟩ := (hasDifferentPair_iff paths).1 h
      have hjl : j < paths.length := by
        rw [List.get?_eq_getElem?] at hj
        exact (List.getElem?_eq_some_iff.1 hj).1
      omega
  · rw [if_neg hlen]

/-- The value `AnalyzeNetwork` gives `AsymmetricRouting` for the paths `paths`. -/
theorem asymmetric_flag_iff_members (paths : List Path) :
    (if paths.length > 1 then differentPaths paths else false) = true ↔
      ∃ p ∈ paths, ∃ q ∈ paths, pathsEqual p q = false := by
  rw [← different_pair_iff_members, ← differentPaths_iff]
  by_cases hlen : paths.length > 1
  · rw [if_pos hlen]
  · rw [if_neg hlen]
    constructor
    · intro h
      cases h
    · intro h
      obtain ⟨i, j, pi, pj, hij, -, hj, -⟩ := (differentPaths_iff paths).1 h
      have hjl : j < paths.length := by
        rw [List.get?_eq_getElem?] at hj
        exact (List.getElem?_eq_some_iff.1 hj).1
      omega

/-- The hops of the paths built for the flows `ids` are the results of the scans of these
flows, in order. -/
theorem buildPaths_hops (tr : TracerouteResult) (fuel : Nat) :
    ∀ ids pathID paths, tr.buildPaths fuel ids pathID = some paths →
      paths.map (fun path => some path.Hops)
        = ids.map (fun flowID => tr.scanFlow flowID fuel 1 []) := by
  intro ids
  induction ids with
  | nil =>
    intro pathID paths h
    simp only [TracerouteResult.buildPaths, Option.some.injEq] at h
    subst h
    rfl
  | cons flowID rest ih =>
    intro pathID paths h
    rw [TracerouteResult.buildPaths] at h
    cases hs : tr.scanFlow flowID fuel 1 [] with
    | none => rw [hs] at h; cases h
    | some hops =>
      rw [hs] at h
      simp only at h
      cases hb : tr.buildPaths fuel rest (pathID + 1) with
      | none => rw [hb] at h; cases h
      | some rest2 =>
        rw [hb] at h
        simp only [Option.some.injEq] at h
        subst h
        rw [List.map_cons, List.map_cons, ih _ _ hb, hs]

/-- Two of the paths built for the flows `ids` differ exactly when the scans of two of these
flows give different sequences of IPs. -/
theorem paths_differ_iff_scans_differ (tr : TracerouteResult) (fuel : Nat) (ids : List Nat)
    (pathID : Nat) (paths : List Path) (h : tr.buildPaths fuel ids pathID = some paths) :
    (∃ p ∈ paths, ∃ q ∈ paths, pathsEqual p q = false) ↔
      ∃ f ∈ ids, ∃ g ∈ ids, ∃ hf hg, tr.scanFlow f fuel 1 [] = some hf ∧
        tr.scanFlow g fuel 1 [] = some hg ∧
        hf.map (fun hop => hop.IP) ≠ hg.map (fun hop => hop.IP) := by
  have hmap := buildPaths_hops tr fuel ids pathID paths h
  have hto : ∀ p ∈ paths, ∃ f ∈ ids, tr.scanFlow f fuel 1 [] = some p.Hops := by
    intro p hp
    have : some p.Hops ∈ paths.map (fun path => some path.Hops) :=
      List.mem_map.2 ⟨p, hp, rfl⟩
    rw [hmap] at this
    obtain ⟨f, hf, hfe⟩ := List.mem_map.1 this
    exact ⟨f, hf, hfe⟩
  have hfrom : ∀ f ∈ ids, ∀ hops, tr.scanFlow f fuel 1 [] = some hops →
      ∃ p ∈ paths, p.Hops = hops := by
    intro f hf hops hs
    have : some hops ∈ ids.map (fun flowID => tr.scanFlow flowID fuel 1 []) :=
      List.mem_map.2 ⟨f, hf, hs⟩
    rw [← hmap] at this
    obtain ⟨p, hp, hpe⟩ := List.mem_map.1 this
    exact ⟨p, hp, Option.some.inj hpe⟩
  have hne : ∀ p q : Path, pathsEqual p q = false ↔
      p.Hops.map (fun hop => hop.IP) ≠ q.Hops.map (fun hop => hop.IP) := by
    intro p q
    rw [← Bool.not_eq_true, pathsEqual_eq_true_iff]
  constructor
  · rintro ⟨p, hp, q, hq, hpq⟩
    obtain ⟨f, hf, hfs⟩ := hto p hp
    obtain ⟨g, hg, hgs⟩ := hto q hq
    exact ⟨f, hf, g, hg, p.Hops, q.Hops, hfs, hgs, (hne p q).1 hpq⟩
  · rintro ⟨f, hf, g, hg, h1, h2, hfs, hgs, hd⟩
    obtain ⟨p, hp, hpe⟩ := hfrom f hf h1 hfs
    obtain ⟨q, hq, hqe⟩ := hfrom g hg h2 hgs
    refine ⟨p, hp, q, hq, (hne p q).2 ?_⟩
    rw [hpe, hqe]
    exact hd

/-- On every result, when `HasMultiplePaths` and `AnalyzeNetwork` return, the boolean of
the first is the `AsymmetricRouting` of the second: both are true exactly when two of the
paths have different sequences of IPs; both return, within 257 evaluations of each scan, when
no hop is stored under TTL 0. This does not depend on the order in which the two calls of
`GetPaths` enumerate the flows of the first hop: for any two orders `ids1` and `ids2` of these
flows, the value `HasMultiplePaths` computes from the paths built in the order `ids1` is the
value `AnalyzeNetwork` computes from the paths built in the order `ids2`. -/
theorem multiple_paths_flag_is_asymmetric_flag (tr : TracerouteResult) :
    (tr.Hops.lookup 0 = none →
      ∃ b a, tr.HasMultiplePaths 257 = some b ∧ tr.AnalyzeNetwork 257 = some a ∧
        b = a.AsymmetricRouting) ∧
    (∀ fuel b a, tr.HasMultiplePaths fuel = some b → tr.AnalyzeNetwork fuel = some a →
      b = a.AsymmetricRouting ∧
      (b = true ↔ ∃ paths, tr.GetPaths fuel = some paths ∧
        ∃ p ∈ paths, ∃ q ∈ paths,
          p.Hops.map (fun hop => hop.IP) ≠ q.Hops.map (fun hop => hop.IP))) ∧
    ∀ (fuel : Nat) (ids1 ids2 : List Nat) (paths1 paths2 : List Path),
      ids1.Perm tr.firstHopFlowIDs → ids2.Perm tr.firstHopFlowIDs →
      tr.buildPaths fuel ids1 0 = some paths1 → tr.buildPaths fuel ids2 0 = some paths2 →
      (if paths1.length ≤ 1 then false else hasDifferentPair paths1)
        = (if paths2.length > 1 then differentPaths paths2 else false) := by
  have hsame : ∀ fuel b a, tr.HasMultiplePaths fuel = some b → tr.AnalyzeNetwork fuel = some a →
      b = a.AsymmetricRouting ∧
      (b = true ↔ ∃ paths, tr.GetPaths fuel = some paths ∧
        ∃ p ∈ paths, ∃ q ∈ paths,
          p.Hops.map (fun hop => hop.IP) ≠ q.Hops.map (fun hop => hop.IP)) := by
    intro fuel b a hb ha
    obtain ⟨issues, paths, -, hp, -, -, -, -, hasym, -⟩ := analyzeNetwork_eq_some tr fuel a ha
    unfold TracerouteResult.HasMultiplePaths at hb
    rw [hp] at hb
    simp only [Option.some.injEq] at hb
    have hiff : b = true ↔ ∃ p ∈ paths, ∃ q ∈ paths, pathsEqual p q = false := by
      rw [← hb]
      exact multiple_paths_flag_iff_members paths
    constructor
    · rw [hasym, Bool.eq_iff_iff, hiff]
      exact (asymmetric_flag_iff_members paths).symm
    · rw [hiff]
      constructor
      · rintro ⟨p, hp1, q, hq1, hpq⟩
        refine ⟨paths, hp, p, hp1, q, hq1, ?_⟩
        intro heq
        rw [(pathsEqual_eq_true_iff p q).2 heq] at hpq
        cases hpq
      · rintro ⟨paths2, hp2, p, hp1, q, hq1, hpq⟩
        rw [hp] at hp2
        have hpp : paths = paths2 := Option.some.inj hp2
        subst hpp
        refine ⟨p, hp1, q, hq1, ?_⟩
        rw [← Bool.not_eq_true, pathsEqual_eq_true_iff]
        exact hpq
  refine ⟨?_, hsame, ?_⟩
  · intro h0
    obtain ⟨a, ha⟩ := analyzeNetwork_returns tr h0
    obtain ⟨paths, hp⟩ := getPaths_returns tr h0
    have hb : tr.HasMultiplePaths 257
        = some (if paths.length ≤ 1 then false else hasDifferentPair paths) := by
      unfold TracerouteResult.HasMultiplePaths
      rw [hp]
    exact ⟨_, a, hb, ha, (hsame 257 _ a hb ha).1⟩
  · intro fuel ids1 ids2 paths1 paths2 h1 h2 hb1 hb2
    rw [Bool.eq_iff_iff, multiple_paths_flag_iff_members, asymmetric_flag_iff_members,
      paths_differ_iff_scans_differ tr fuel ids1 0 paths1 hb1,
      paths_differ_iff_scans_differ tr fuel ids2 0 paths2 hb2]
    have h12 : ∀ f, f ∈ ids1 ↔ f ∈ ids2 := fun f => (h1.trans h2.symm).mem_iff
    constructor
    · rintro ⟨f, hf, g, hg, rest⟩
      exact ⟨f, (h12 f).1 hf, g, (h12 g).1 hg, rest⟩
    · rintro ⟨f, hf, g, hg, rest⟩
      exact ⟨f, (h12 f).2 hf, g, (h12 g).2 hg, rest⟩

/-! ## The RTT statistics of the analysis -/

/-- The RTT fields of what `AnalyzeNetwork` returns. -/
theorem analyzeNetwork_rtt_fields (tr : TracerouteResult) (fuel : Nat) (a : NetworkAnalysis)
    (h : tr.AnalyzeNetwork fuel = some a) :
    a.MinRTT = tr.rtts.foldl (fun m rtt => if rtt < m then rtt else m) (tr.rtts.headD 0) ∧
    a.MaxRTT = tr.rtts.foldl (fun m rtt => if rtt > m then rtt else m) (tr.rtts.headD 0) ∧
    a.AverageRTT = (if tr.rtts.length > 0 then
      Int.tdiv (sumDurations tr.rtts) (tr.rtts.length : Int) else 0) := by
  unfold TracerouteResult.AnalyzeNetwork at h
  simp only at h
  cases hl : tr.latencyScan fuel 1 0 [] with
  | none => rw [hl] at h; cases h
  | some issues =>
    rw [hl] at h
    simp only at h
    cases hp : tr.GetPaths fuel with
    | none => rw [hp] at h; cases h
    | some paths =>
      rw [hp] at h
      simp only [Option.some.injEq] at h
      subst h
      exact ⟨rfl, rfl, rfl⟩

/-- The running minimum of a loop over a slice: below its start and every element, and one of
them. -/
theorem foldl_running_min (l : List Int) :
    ∀ m0 : Int,
      l.foldl (fun m x => if x < m then x else m) m0 ≤ m0 ∧
      (∀ x ∈ l, l.foldl (fun m x => if x < m then x else m) m0 ≤ x) ∧
      (l.foldl (fun m x => if x < m then x else m) m0 = m0 ∨
        l.foldl (fun m x => if x < m then x else m) m0 ∈ l) := by
  induction l with
  | nil =>
    intro m0
    exact ⟨le_refl _, fun x hx => (by cases hx), Or.inl rfl⟩
  | cons y ys ih =>
    intro m0
    rw [List.foldl_cons]
    by_cases hy : y < m0
    · rw [if_pos hy]
      obtain ⟨h1, h2, h3⟩ := ih y
      refine ⟨le_trans h1 (le_of_lt hy), ?_, ?_⟩
      · intro x hx
        rcases List.mem_cons.1 hx with rfl | hx
        · exact h1
        · exact h2 x hx
      · rcases h3 with h3 | h3
        · right
          rw [h3]
          exact List.mem_cons_self _ _
        · exact Or.inr (List.mem_cons_of_mem _ h3)
    · rw [if_neg hy]
      obtain ⟨h1, h2, h3⟩ := ih m0
      refine ⟨h1, ?_, ?_⟩
      · intro x hx
        rcases List.mem_cons.1 hx with rfl | hx
        · exact le_trans h1 (not_lt.1 hy)
        · exact h2 x hx
      · rcases h3 with h3 | h3
        · exact Or.inl h3
        · exact Or.inr (List.mem_cons_of_mem _ h3)

/-- The running maximum of a loop over a slice: above its start and every element, and one of
them. -/
theorem foldl_running_max (l : List Int) :
    ∀ m0 : Int,
      m0 ≤ l.foldl (fun m x => if x > m then x else m) m0 ∧
      (∀ x ∈ l, x ≤ l.foldl (fun m x => if x > m then x else m) m0) ∧
      (l.foldl (fun m x => if x > m then x else m) m0 = m0 ∨
        l.foldl (fun m x => if x > m then x else m) m0 ∈ l) := by
  induction l with
  | nil =>
    intro m0
    exact ⟨le_refl _, fun x hx => (by cases hx), Or.inl rfl⟩
  | cons y ys ih =>
    intro m0
    rw [List.foldl_cons]
    by_cases hy : y > m0
    · rw [if_pos hy]
      obtain ⟨h1, h2, h3⟩ := ih y
      refine ⟨le_trans (le_of_lt hy) h1, ?_, ?_⟩
      · intro x hx
        rcases List.mem_cons.1 hx with rfl | hx
        · exact h1
        · exact h2 x hx
      · rcases h3 with h3 | h3
        · right
          rw [h3]
          exact List.mem_cons_self _ _
        · exact Or.inr (List.mem_cons_of_mem _ h3)
    · rw [if_neg hy]
      obtain ⟨h1, h2, h3⟩ := ih m0
      refine ⟨h1, ?_, ?_⟩
      · intro x hx
        rcases List.mem_cons.1 hx with rfl | hx
        · exact le_trans (not_lt.1 hy) h1
        · exact h2 x hx
      · rcases h3 with h3 | h3
        · exact Or.inl h3
        · exact Or.inr (List.mem_cons_of_mem _ h3)

/-- The minimum and the maximum the analysis takes over a non-empty slice, started at its first
element, are elements of the slice that bound every element. -/
theorem extremes_of_nonempty (l : List Int) (hne : l ≠ []) :
    l.foldl (fun m x => if x < m then x else m) (l.headD 0) ∈ l ∧
    l.foldl (fun m x => if x > m then x else m) (l.headD 0) ∈ l ∧
    ∀ x ∈ l, l.foldl (fun m x => if x < m then x else m) (l.headD 0) ≤ x ∧
      x ≤ l.foldl (fun m x => if x > m then x else m) (l.headD 0) := by
  cases l with
  | nil => exact absurd rfl hne
  | cons y ys =>
    have hhead : (y :: ys).headD 0 = y := rfl
    rw [hhead]
    obtain ⟨-, a2, a3⟩ := foldl_running_min (y :: ys) y
    obtain ⟨-, b2, b3⟩ := foldl_running_max (y :: ys) y
    refine ⟨?_, ?_, fun x hx => ⟨a2 x hx, b2 x hx⟩⟩
    · rcases a3 with a3 | a3
      · rw [a3]
        exact List.mem_cons_self _ _
      · exact a3
    · rcases b3 with b3 | b3
      · rw [b3]
        exact List.mem_cons_self _ _
      · exact b3

/-- The slice `rtts` of the analysis holds the RTTs of the records with no error and a positive
RTT. -/
theorem mem_rtts_iff (tr : TracerouteResult) (x : Int) :
    x ∈ tr.rtts ↔ ∃ r ∈ tr.records, r.Error = "" ∧ 0 < r.RTT ∧ r.RTT = x := by
  unfold TracerouteResult.rtts
  simp only [List.mem_map, List.mem_filter, Bool.and_eq_true, beq_iff_eq, decide_eq_true_eq,
    gt_iff_lt]
  constructor
  · rintro ⟨r, ⟨hr, he, hp⟩, hx⟩
    exact ⟨r, hr, he, hp, hx⟩
  · rintro ⟨r, hr, he, hp, hx⟩
    exact ⟨r, ⟨hr, he, hp⟩, hx⟩

/-- On a result with no hop under TTL 0 `AnalyzeNetwork` returns, and whatever it
returns: when no record has an empty error and a positive RTT, `MinRTT`, `AverageRTT` and
`MaxRTT` are 0; when one has, `MinRTT` and `MaxRTT` are each the RTT of such a record, every
such RTT lies between them, and, when the sum of these RTTs is below `2^63` (it fits the
`int64` of `time.Duration`), `AverageRTT` is the quotient of the sum by their number and
`MinRTT ≤ AverageRTT ≤ MaxRTT`. -/
theorem analysis_rtt_extremes_and_average (tr : TracerouteResult) :
    (tr.Hops.lookup 0 = none → ∃ a, tr.AnalyzeNetwork 257 = some a) ∧
    ∀ fuel a, tr.AnalyzeNetwork fuel = some a →
      ((∀ r ∈ tr.records, ¬ (r.Error = "" ∧ 0 < r.RTT)) →
        a.MinRTT = 0 ∧ a.AverageRTT = 0 ∧ a.MaxRTT = 0) ∧
      ((∃ r ∈ tr.records, r.Error = "" ∧ 0 < r.RTT) →
        (∃ r ∈ tr.records, r.Error = "" ∧ 0 < r.RTT ∧ a.MinRTT = r.RTT) ∧
        (∃ r ∈ tr.records, r.Error = "" ∧ 0 < r.RTT ∧ a.MaxRTT = r.RTT) ∧
        (∀ r ∈ tr.records, r.Error = "" → 0 < r.RTT →
          a.MinRTT ≤ r.RTT ∧ r.RTT ≤ a.MaxRTT) ∧
        (List.sum tr.rtts < 2 ^ 63 →
          a.AverageRTT = List.sum tr.rtts / (tr.rtts.length : Int) ∧
          a.MinRTT ≤ a.AverageRTT ∧ a.AverageRTT ≤ a.MaxRTT)) := by
  refine ⟨analyzeNetwork_returns tr, ?_⟩
  intro fuel a ha
  obtain ⟨hmin, hmax, havg⟩ := analyzeNetwork_rtt_fields tr fuel a ha
  constructor
  · intro hnone
    have hnil : tr.rtts = [] := by
      rw [List.eq_nil_iff_forall_not_mem]
      intro x hx
      obtain ⟨r, hr, he, hp, -⟩ := (mem_rtts_iff tr x).1 hx
      exact hnone r hr ⟨he, hp⟩
    rw [hnil] at hmin hmax havg
    exact ⟨hmin, havg, hmax⟩
  · rintro ⟨r0, hr0, he0, hp0⟩
    have hne : tr.rtts ≠ [] := by
      intro hnil
      have : r0.RTT ∈ tr.rtts := (mem_rtts_iff tr r0.RTT).2 ⟨r0, hr0, he0, hp0, rfl⟩
      rw [hnil] at this
      cases this
    obtain ⟨e1, e2, e3⟩ := extremes_of_nonempty tr.rtts hne
    rw [← hmin] at e1 e3
    rw [← hmax] at e2 e3
    have hposall : ∀ x ∈ tr.rtts, (0 : Int) < x := by
      intro x hx
      obtain ⟨r, -, -, hp, hx⟩ := (mem_rtts_iff tr x).1 hx
      rw [← hx]
      exact hp
    refine ⟨?_, ?_, ?_, ?_⟩
    · obtain ⟨r, hr, he, hp, hx⟩ := (mem_rtts_iff tr _).1 e1
      exact ⟨r, hr, he, hp, hx.symm⟩
    · obtain ⟨r, hr, he, hp, hx⟩ := (mem_rtts_iff tr _).1 e2
      exact ⟨r, hr, he, hp, hx.symm⟩
    · intro r hr he hp
      exact e3 r.RTT ((mem_rtts_iff tr r.RTT).2 ⟨r, hr, he, hp, rfl⟩)
    · intro hfit
      obtain ⟨t1, t2, t3⟩ := truncated_mean_between tr.rtts hne hposall hfit
      have hlen : tr.rtts.length > 0 := List.length_pos.2 hne
      rw [if_pos hlen] at havg
      rw [havg]
      exact ⟨t1, t2 _ (fun x hx => (e3 x hx).1), t3 _ (fun x hx => (e3 x hx).2)⟩

set_option maxRecDepth 100000 in
/-- The RTT statistics of the analysis of the four replies after 10, 12, 14 and 16 ms. -/
theorem fourReplies_analysis_rtts :
    (Scenario.fourReplies.AnalyzeNetwork 257).map
        (fun a => (a.MinRTT, a.AverageRTT, a.MaxRTT))
      = some (10000000, 13000000, 16000000) := by
  rfl

/-! ## Results of a run whose TTL counter has wrapped -/

/-- When a hop is stored under every key from 0 to 255, the latency loop of `AnalyzeNetwork`
is still running after any number of evaluations: its only exit is a missing key, the `uint8`
counter wraps from 255 to 0 and the loop test `ttl <= 255` never fails. -/
theorem latencyScan_never_returns (tr : TracerouteResult)
    (h : ∀ ttl, ttl ≤ 255 → tr.Hops.lookup ttl ≠ none) :
    ∀ fuel ttl prevRTT issues, ttl ≤ 255 →
      tr.latencyScan fuel ttl prevRTT issues = none := by
  have hu8 : ∀ n, u8 n ≤ 255 := by
    intro n
    unfold u8
    omega
  intro fuel
  induction fuel with
  | zero =>
    intro ttl prevRTT issues _
    rfl
  | succ fuel ih =>
    intro ttl prevRTT issues httl
    rw [TracerouteResult.latencyScan, if_pos httl]
    cases hl : tr.Hops.lookup ttl with
    | none => exact absurd hl (h ttl httl)
    | some hopResult =>
      simp only
      split_ifs
      all_goals exact ih _ _ _ (hu8 _)

/-- The analysis does not return on a result with a hop under every key from 0 to 255. -/
theorem analyzeNetwork_never_returns (tr : TracerouteResult)
    (h : ∀ ttl, ttl ≤ 255 → tr.Hops.lookup ttl ≠ none) (fuel : Nat) :
    tr.AnalyzeNetwork fuel = none := by
  unfold TracerouteResult.AnalyzeNetwork
  simp only
  rw [latencyScan_never_returns tr h fuel 1 0 [] (by omega)]

/-- With one flow and one round the two inner loops make a single probe, stored under the flow
key 0. -/
theorem oneFlow_probeHop (env : Env) (ttl n : Nat) (log : List (Nat × Nat)) :
    ((Scenario.flags255OneFlow.udpProbe Scenario.targetIP Scenario.localIP).probeHop env ttl
        ⟨GoMap.empty, n, log⟩).Flows
      = ⟨[(0, (Scenario.flags255OneFlow.udpProbe Scenario.targetIP Scenario.localIP).probeFlow
            (env.probe n) ttl 0 0)]⟩ ∧
    ((Scenario.flags255OneFlow.udpProbe Scenario.targetIP Scenario.localIP).probeHop env ttl
        ⟨GoMap.empty, n, log⟩).next = n + 1 ∧
    ((Scenario.flags255OneFlow.udpProbe Scenario.targetIP Scenario.localIP).probeHop env ttl
        ⟨GoMap.empty, n, log⟩).sent = log ++ [(ttl, 0)] := by
  obtain ⟨h1, h2, h3⟩ := udp_probeHop_spec
    (Scenario.flags255OneFlow.udpProbe Scenario.targetIP Scenario.localIP) (by decide) env ttl
    n log
  have hone : (Scenario.flags255OneFlow.udpProbe Scenario.targetIP Scenario.localIP).ProbeCount
      * (Scenario.flags255OneFlow.udpProbe Scenario.targetIP Scenario.localIP).NumPaths
      = 1 := by decide
  rw [hone] at h1 h2 h3
  refine ⟨?_, h2, h3⟩
  have hext : ∀ m : GoMap FlowResult, ∀ l, m.entries = l → m = ⟨l⟩ := by
    intro m l h
    cases m
    simp only at h
    rw [h]
  exact hext _ _ h1

/-- One evaluation of the outer loop when the probe is answered by the router: the hop is
stored and the `uint8` counter incremented. -/
theorem oneFlow_step_router (env : Env) (st : UDPState) (hh : st.halted = false)
    (ht : st.ttl ≤ 255) (hev : env.probe st.next = Scenario.answered) :
    (Scenario.flags255OneFlow.udpProbe Scenario.targetIP Scenario.localIP).step env st
      = { ttl := u8 (st.ttl + 1),
          Hops := st.Hops.store st.ttl (Scenario.hopWith Scenario.answered st.ttl),
          next := st.next + 1, sent := st.sent ++ [(st.ttl, 0)], halted := false } := by
  obtain ⟨h1, h2, h3⟩ := oneFlow_probeHop env st.ttl st.next st.sent
  unfold UDPProbe.step
  rw [if_neg (by simp [hh]), if_pos (by exact ht)]
  simp only [h1, h2, h3, hev]
  rfl

/-- One evaluation of the outer loop when the probe is answered by the target: the hop is
stored and the loop is left. -/
theorem oneFlow_step_target (env : Env) (st : UDPState) (hh : st.halted = false)
    (ht : st.ttl ≤ 255) (hev : env.probe st.next = Scenario.answeredByTarget) :
    (Scenario.flags255OneFlow.udpProbe Scenario.targetIP Scenario.localIP).step env st
      = { ttl := st.ttl,
          Hops := st.Hops.store st.ttl (Scenario.hopWith Scenario.answeredByTarget st.ttl),
          next := st.next + 1, sent := st.sent ++ [(st.ttl, 0)], halted := true } := by
  obtain ⟨h1, h2, h3⟩ := oneFlow_probeHop env st.ttl st.next st.sent
  unfold UDPProbe.step
  rw [if_neg (by simp [hh]), if_pos (by exact ht)]
  simp only [h1, h2, h3, hev]
  rfl

/-- The state of the run in `routersThenTarget` after `k ≤ 255` evaluations of the outer loop:
the hops of the TTLs 1 to `k`, and the counter at `uint8(k + 1)`. -/
theorem wrappedRouted_run (k : Nat) (hk : k ≤ 255) :
    (Scenario.flags255OneFlow.udpProbe Scenario.targetIP Scenario.localIP).run
        Scenario.routersThenTarget k
      = { ttl := u8 (k + 1),
          Hops := ⟨(List.range' 1 k).map
            (fun ttl => (ttl, Scenario.hopWith Scenario.answered ttl))⟩,
          next := k, sent := (List.range' 1 k).map (fun ttl => (ttl, 0)), halted := false } := by
  induction k with
  | zero => rfl
  | succ k ih =>
    have hu : u8 (k + 1) = k + 1 := by
      unfold u8
      omega
    rw [udp_run_succ, ih (by omega), oneFlow_step_router Scenario.routersThenTarget _ rfl
      (by show u8 (k + 1) ≤ 255; omega)
      (by show Scenario.routersThenTarget.probe k = Scenario.answered
          unfold Scenario.routersThenTarget
          simp only
          rw [if_pos (by omega)])]
    simp only [hu]
    rw [goMap_store_new _ _ _ (by
      intro e he
      simp only [List.mem_map, List.mem_range'_1] at he
      obtain ⟨t, ht, rfl⟩ := he
      simp only
      omega)]
    rw [List.range'_concat, List.map_append, List.map_append]
    have hk1 : 1 + 1 * k = k + 1 := by omega
    simp only [List.map_cons, List.map_nil, hk1]

/-- The run in `routersThenTarget` returns after 256 evaluations of the outer loop, the last one
with the TTL counter wrapped to 0, with the hops `wrappedRoutedHops`. -/
theorem wrappedRouted_returned :
    (Scenario.flags255OneFlow.udpProbe Scenario.targetIP Scenario.localIP).Traceroute
        Scenario.routersThenTarget 256
      = some { result := some Scenario.wrappedRoutedResult, err := none } := by
  have hrun : (Scenario.flags255OneFlow.udpProbe Scenario.targetIP Scenario.localIP).run
        Scenario.routersThenTarget 256
      = { ttl := 0, Hops := Scenario.wrappedRoutedHops, next := 256,
          sent := (List.range' 1 255).map (fun ttl => (ttl, 0)) ++ [(0, 0)], halted := true } := by
    rw [udp_run_succ, wrappedRouted_run 255 (by omega)]
    rw [oneFlow_step_target Scenario.routersThenTarget
      { ttl := u8 (255 + 1),
        Hops := ⟨(List.range' 1 255).map
          (fun ttl => (ttl, Scenario.hopWith Scenario.answered ttl))⟩,
        next := 255, sent := (List.range' 1 255).map (fun ttl => (ttl, 0)), halted := false }
      rfl (by decide) rfl]
    have hu : u8 (255 + 1) = 0 := by decide
    simp only [hu]
    rw [goMap_store_new _ _ _ (by
      intro e he
      simp only [List.mem_map, List.mem_range'_1] at he
      obtain ⟨t, ht, rfl⟩ := he
      simp only
      omega)]
    rfl
  unfold UDPProbe.Traceroute
  simp only [hrun]
  rfl

/-- The result of the run is `wrappedRoutedResult`. -/
theorem wrappedRouted_eq : Scenario.wrappedRouted = Scenario.wrappedRoutedResult := by
  unfold Scenario.wrappedRouted
  rw [wrappedRouted_returned]
  rfl

/-- The keys of the returned hops: 1 to 255, then 0. -/
theorem wrappedRoutedHops_keys : Scenario.wrappedRoutedHops.keys = List.range' 1 255 ++ [0] := by
  unfold Scenario.wrappedRoutedHops GoMap.keys
  simp only [List.map_append, List.map_map, List.map_cons, List.map_nil]
  have hid : ((fun e : Nat × HopResult => e.1)
        ∘ fun ttl => (ttl, Scenario.hopWith Scenario.answered ttl))
      = id := rfl
  rw [hid, List.map_id]

/-- The keys of the returned hops are distinct. -/
theorem wrappedRoutedHops_nodup : Scenario.wrappedRoutedHops.keys.Nodup := by
  rw [wrappedRoutedHops_keys, List.nodup_append]
  refine ⟨List.nodup_range' 1 255, List.nodup_singleton 0, ?_⟩
  intro a ha hb
  rw [List.mem_range'_1] at ha
  rw [List.mem_singleton] at hb
  omega

/-- The hop stored under a TTL from 1 to 255. -/
theorem wrappedRoutedHops_lookup (t : Nat) (h1 : 1 ≤ t) (h2 : t ≤ 255) :
    Scenario.wrappedRoutedHops.lookup t = some (Scenario.hopWith Scenario.answered t) := by
  rw [goMap_lookup_iff_mem _ wrappedRoutedHops_nodup]
  unfold Scenario.wrappedRoutedHops
  simp only [List.mem_append, List.mem_map, List.mem_range'_1]
  exact Or.inl ⟨t, ⟨h1, by omega⟩, rfl⟩

/-- The hop stored under the wrapped TTL 0. -/
theorem wrappedRoutedHops_lookup_zero :
    Scenario.wrappedRoutedHops.lookup 0 = some (Scenario.hopWith Scenario.answeredByTarget 0) := by
  rw [goMap_lookup_iff_mem _ wrappedRoutedHops_nodup]
  unfold Scenario.wrappedRoutedHops
  exact List.mem_append_right _ (List.mem_singleton.2 rfl)

/-- The scan of `GetPaths` at a TTL from 1 to 255: the hop of the router is appended and the
counter incremented. -/
theorem wrappedRouted_scan_step (fuel t : Nat) (hops : List PathHop) (h1 : 1 ≤ t)
    (h2 : t ≤ 255) :
    Scenario.wrappedRoutedResult.scanFlow 0 (fuel + 1) t hops
      = Scenario.wrappedRoutedResult.scanFlow 0 fuel (u8 (t + 1))
          (hops ++ [Scenario.pathHopWith Scenario.answered t]) := by
  have hl : Scenario.wrappedRoutedResult.Hops.lookup t
      = some (Scenario.hopWith Scenario.answered t) :=
    wrappedRoutedHops_lookup t h1 h2
  rw [TracerouteResult.scanFlow, if_pos h2, hl]
  rfl

/-- The scan of `GetPaths` at the TTL 0: the hop of the target is appended and the loop left. -/
theorem wrappedRouted_scan_end (fuel : Nat) (hops : List PathHop) :
    Scenario.wrappedRoutedResult.scanFlow 0 (fuel + 1) 0 hops
      = some (hops ++ [Scenario.pathHopWith Scenario.answeredByTarget 0]) := by
  have hl : Scenario.wrappedRoutedResult.Hops.lookup 0
      = some (Scenario.hopWith Scenario.answeredByTarget 0) :=
    wrappedRoutedHops_lookup_zero
  rw [TracerouteResult.scanFlow, if_pos (by omega), hl]
  rfl

/-- The scan of `GetPaths` from the TTL `t` on: the hops of the TTLs `t` to 255, then that of
the TTL 0. -/
theorem wrappedRouted_scan (n : Nat) :
    ∀ t fuel hops, 1 ≤ t → t + n = 255 → n + 2 ≤ fuel →
      Scenario.wrappedRoutedResult.scanFlow 0 fuel t hops
        = some (hops
            ++ (List.range' t (n + 1)).map (fun u => Scenario.pathHopWith Scenario.answered u)
            ++ [Scenario.pathHopWith Scenario.answeredByTarget 0]) := by
  induction n with
  | zero =>
    intro t fuel hops h1 ht hf
    have ht255 : t = 255 := by omega
    subst ht255
    obtain ⟨fuel, rfl⟩ : ∃ f, fuel = f + 2 := ⟨fuel - 2, by omega⟩
    have hu : u8 (255 + 1) = 0 := by decide
    rw [wrappedRouted_scan_step (fuel + 1) 255 hops h1 (by omega), hu, wrappedRouted_scan_end]
    rfl
  | succ n ih =>
    intro t fuel hops h1 ht hf
    obtain ⟨fuel, rfl⟩ : ∃ f, fuel = f + 1 := ⟨fuel - 1, by omega⟩
    have hu : u8 (t + 1) = t + 1 := by
      unfold u8
      omega
    rw [wrappedRouted_scan_step fuel t hops h1 (by omega), hu,
      ih (t + 1) fuel _ (by omega) (by omega) (by omega)]
    rw [List.range'_succ t (n + 1), List.map_cons, List.append_assoc hops, List.singleton_append]

/-- The paths of `wrappedRoutedResult`. -/
theorem wrappedRouted_getPaths :
    Scenario.wrappedRoutedResult.GetPaths 257
      = some [{ PathID := 0,
                Hops := (List.range' 1 255).map (fun u => Scenario.pathHopWith Scenario.answered u)
                  ++ [Scenario.pathHopWith Scenario.answeredByTarget 0] }] := by
  have hids : Scenario.wrappedRoutedResult.firstHopFlowIDs = [0] := by
    unfold TracerouteResult.firstHopFlowIDs
    have hl : Scenario.wrappedRoutedResult.Hops.lookup 1
        = some (Scenario.hopWith Scenario.answered 1) :=
      wrappedRoutedHops_lookup 1 (by omega) (by omega)
    rw [hl]
    rfl
  unfold TracerouteResult.GetPaths
  rw [hids, TracerouteResult.buildPaths,
    wrappedRouted_scan 254 1 257 [] (by omega) (by omega) (by omega)]
  rfl

set_option maxRecDepth 100000 in
/-- The 256 records of `wrappedRoutedResult` have no error and a positive RTT, and the sum of
their RTTs is below `2^63`. -/
theorem wrappedRouted_rtts :
    Scenario.wrappedRoutedResult.rtts.length = 256 ∧
    List.sum Scenario.wrappedRoutedResult.rtts < 2 ^ 63 := by
  decide

/-- The run with `-max-ttl 255 -npaths 1` in which a router answers each of the 255 probes and
the target answers the probe sent after the TTL counter has wrapped to 0: it returns a result
without error, with a hop under every key from 0 to 255; `GetPaths` returns for it one path,
with the TTLs 1 to 255 and then 0; the analysis never returns; its 256 records have no error and
a positive RTT, and the sum of their RTTs is below `2^63`. -/
theorem wrappedRouted_facts :
    ((Scenario.flags255OneFlow.udpProbe Scenario.targetIP Scenario.localIP).Traceroute
        Scenario.routersThenTarget 256).map (fun ret => (ret.result.isSome, ret.err))
      = some (true, none) ∧
    (∃ path, Scenario.wrappedRouted.GetPaths 257 = some [path] ∧
      path.Hops.map (fun hop => (hop.TTL, hop.IP))
        = (List.range' 1 255).map (fun ttl => (ttl, "10.0.0.1")) ++ [(0, "8.8.8.8")]) ∧
    (∀ ttl, ttl ≤ 255 → Scenario.wrappedRouted.Hops.lookup ttl ≠ none) ∧
    (∀ fuel, Scenario.wrappedRouted.AnalyzeNetwork fuel = none) ∧
    Scenario.wrappedRouted.rtts.length = 256 ∧
    List.sum Scenario.wrappedRouted.rtts < 2 ^ 63 := by
  have hkeys : ∀ ttl, ttl ≤ 255 → Scenario.wrappedRouted.Hops.lookup ttl ≠ none := by
    intro ttl httl
    rw [wrappedRouted_eq]
    show Scenario.wrappedRoutedHops.lookup ttl ≠ none
    rcases Nat.eq_zero_or_pos ttl with h0 | hpos
    · rw [h0, wrappedRoutedHops_lookup_zero]
      exact Option.some_ne_none _
    · rw [wrappedRoutedHops_lookup ttl hpos httl]
      exact Option.some_ne_none _
  have hrtts := wrappedRouted_rtts
  refine ⟨?_, ?_, hkeys, analyzeNetwork_never_returns _ hkeys, ?_, ?_⟩
  · rw [wrappedRouted_returned]
    rfl
  · rw [wrappedRouted_eq, wrappedRouted_getPaths]
    refine ⟨_, rfl, ?_⟩
    simp only [List.map_append, List.map_map, List.map_cons, List.map_nil]
    rfl
  · rw [wrappedRouted_eq]
    exact hrtts.1
  · rw [wrappedRouted_eq]
    exact hrtts.2

/-- With a single path, `HasMultiplePaths` returns `false`. -/
theorem hasMultiplePaths_of_single_path (tr : TracerouteResult) (fuel : Nat) (path : Path)
    (h : tr.GetPaths fuel = some [path]) : tr.HasMultiplePaths fuel = some false := by
  unfold TracerouteResult.HasMultiplePaths
  rw [h]
  rfl

/-- C14 fails on the code for a result with a hop under TTL 0, which a validated run returns
once its `uint8` TTL counter has wrapped (the defect of C1, C7, C9, C10 and C28): in the run
with `-max-ttl 255 -npaths 1` whose 255 probes are answered by a router and whose next probe,
sent with the wrapped TTL 0, is answered by the target, the scan
`for ttl := uint8(1); ttl <= 255; ttl++` of `GetPaths` goes from 255 back to 0 and appends the
record stored under TTL 0: the path has the TTLs 1, 2, ..., 255, 0, which are not in ascending
order. On a result with no hop under TTL 0, `GetPaths` returns within 257 evaluations per flow,
and every path is that of one flow of the first hop: the TTLs of its hops are strictly
ascending; each hop gives the responder IP of the error-free record of that flow at its TTL;
every error-free record of the flow at a TTL from 1 to that of the last hop has its hop in the
path, and so has every error-free record of the flow at a TTL `t` such that the hops 1 to `t`
are all there and none of the flow's error-free records before `t` names the target; a hop whose
IP is the target is followed by no hop, so that the target appears at most once, as the last
hop. -/
theorem getPaths_lists_ttl_0_after_ttl_255 :
    (Scenario.flags255OneFlow.udpProbe Scenario.targetIP Scenario.localIP).Valid ∧
    ((Scenario.flags255OneFlow.udpProbe Scenario.targetIP Scenario.localIP).Traceroute
        Scenario.routersThenTarget 256).map (fun ret => (ret.result.isSome, ret.err))
      = some (true, none) ∧
    (∃ path, Scenario.wrappedRouted.GetPaths 257 = some [path] ∧
      path.Hops.map (fun hop => (hop.TTL, hop.IP))
        = (List.range' 1 255).map (fun ttl => (ttl, "10.0.0.1")) ++ [(0, "8.8.8.8")] ∧
      ¬ (path.Hops.map (fun hop => hop.TTL)).Pairwise (fun a b => a < b)) ∧
    (Scenario.reachedAtThird.Hops.lookup 0 = none ∧
      Scenario.reachedAtThird.GetPaths 257 = some Scenario.reachedAtThirdPaths) ∧
    ∀ tr : TracerouteResult, tr.Hops.lookup 0 = none →
      (∃ paths, tr.GetPaths 257 = some paths) ∧
      ∀ fuel paths, tr.GetPaths fuel = some paths →
        paths.length = tr.firstHopFlowIDs.length ∧
        ∀ i path, paths.get? i = some path →
          ∃ flowID, tr.firstHopFlowIDs.get? i = some flowID ∧
            (path.Hops.map (fun hop => hop.TTL)).Pairwise (fun a b => a < b) ∧
            (∀ hop ∈ path.Hops, ∃ hopResult flowResult,
              tr.Hops.lookup hop.TTL = some hopResult ∧
              hopResult.Flows.lookup flowID = some flowResult ∧ flowResult.Error = "" ∧
              hop.IP = flowResult.ResponseIP) ∧
            (∀ t hopResult flowResult, 1 ≤ t → (∃ hop ∈ path.Hops, t ≤ hop.TTL) →
              tr.Hops.lookup t = some hopResult →
              hopResult.Flows.lookup flowID = some flowResult → flowResult.Error = "" →
              ∃ hop ∈ path.Hops, hop.TTL = t ∧ hop.IP = flowResult.ResponseIP) ∧
            (∀ t hopResult flowResult, 1 ≤ t → t ≤ 255 →
              (∀ u, 1 ≤ u → u ≤ t → tr.Hops.lookup u ≠ none) →
              (∀ u earlierHop earlier, 1 ≤ u → u < t → tr.Hops.lookup u = some earlierHop →
                earlierHop.Flows.lookup flowID = some earlier → earlier.Error = "" →
                earlier.ResponseIP ≠ tr.Target) →
              tr.Hops.lookup t = some hopResult →
              hopResult.Flows.lookup flowID = some flowResult → flowResult.Error = "" →
              ∃ hop ∈ path.Hops, hop.TTL = t ∧ hop.IP = flowResult.ResponseIP) ∧
            (∀ before hop after, path.Hops = before ++ hop :: after → hop.IP = tr.Target →
              after = []) ∧
            (path.Hops.filter (fun hop => hop.IP == tr.Target)).length ≤ 1 := by
  obtain ⟨hrun, ⟨path, hget, hhops⟩, -, -, -, -⟩ := wrappedRouted_facts
  refine ⟨by decide, hrun, ⟨path, hget, hhops, ?_⟩, ⟨by decide, by decide⟩,
    fun tr h0 => getPaths_paths_without_hop_0 tr h0⟩
  have httl : path.Hops.map (fun hop => hop.TTL) = List.range' 1 255 ++ [0] := by
    have := congrArg (List.map (fun e : Nat × String => e.1)) hhops
    simp only [List.map_map, List.map_append, List.map_cons, List.map_nil,
      Function.comp_def] at this
    rw [this]
    simp
  rw [httl, List.pairwise_append]
  intro hp
  have := hp.2.2 1 (by decide) 0 (by simp)
  omega

/-- C16 fails on the code for a result with a hop under every key from 0 to 255, which a
validated run returns once its `uint8` TTL counter has wrapped (the defect of C1, C7, C9, C10
and C28): for the result of the run with `-max-ttl 255 -npaths 1` whose 255 probes are answered by a
router and whose next probe is answered by the target, the latency loop
`for ttl := uint8(1); ttl <= 255; ttl++` of `AnalyzeNetwork` (lines 82-124), whose only exit
is a missing key, is still running after any number of evaluations, and no analysis, hence no
`HasLoadBalancing`, is returned. On a result with no hop under TTL 0 and distinct hop keys,
`AnalyzeNetwork` returns within 257 evaluations of its loops, and whatever it returns has
`HasLoadBalancing` true exactly when some TTL has a hop in which two replies without error
name different responders, and `LoadBalancingHops` lists exactly the TTLs of such hops, each
once. The two examples of the claim hold: flows answered by 10.0.0.1 and 10.0.0.2 at hop 1
give `true` and `[1]`, both answered by 10.0.0.1 give `false` and no hop. -/
theorem no_load_balancing_report_after_ttl_wrap :
    (Scenario.flags255OneFlow.udpProbe Scenario.targetIP Scenario.localIP).Valid ∧
    ((Scenario.flags255OneFlow.udpProbe Scenario.targetIP Scenario.localIP).Traceroute
        Scenario.routersThenTarget 256).map (fun ret => (ret.result.isSome, ret.err))
      = some (true, none) ∧
    (∀ ttl, ttl ≤ 255 → Scenario.wrappedRouted.Hops.lookup ttl ≠ none) ∧
    (∀ fuel, Scenario.wrappedRouted.AnalyzeNetwork fuel = none) ∧
    (¬ ∀ tr : TracerouteResult, ∃ fuel a, tr.AnalyzeNetwork fuel = some a) ∧
    (∀ tr : TracerouteResult, tr.Hops.keys.Nodup → tr.Hops.lookup 0 = none →
      ∃ a, tr.AnalyzeNetwork 257 = some a) ∧
    (∀ (tr : TracerouteResult) (fuel : Nat) (a : NetworkAnalysis), tr.Hops.keys.Nodup →
      tr.AnalyzeNetwork fuel = some a →
      (a.HasLoadBalancing = true ↔
        ∃ ttl hopResult, tr.Hops.lookup ttl = some hopResult ∧
          ∃ f1 ∈ hopResult.Flows.values, ∃ f2 ∈ hopResult.Flows.values,
            (f1.ResponseIP ≠ "" ∧ f1.Error = "") ∧ (f2.ResponseIP ≠ "" ∧ f2.Error = "") ∧
            f1.ResponseIP ≠ f2.ResponseIP) ∧
      (∀ ttl, ttl ∈ a.LoadBalancingHops ↔
        ∃ hopResult, tr.Hops.lookup ttl = some hopResult ∧
          ∃ f1 ∈ hopResult.Flows.values, ∃ f2 ∈ hopResult.Flows.values,
            (f1.ResponseIP ≠ "" ∧ f1.Error = "") ∧ (f2.ResponseIP ≠ "" ∧ f2.Error = "") ∧
            f1.ResponseIP ≠ f2.ResponseIP) ∧
      a.LoadBalancingHops.Nodup) ∧
    (Scenario.balanced.AnalyzeNetwork 257).map
      (fun a => (a.HasLoadBalancing, a.LoadBalancingHops)) = some (true, [1]) ∧
    (Scenario.unbalanced.AnalyzeNetwork 257).map
      (fun a => (a.HasLoadBalancing, a.LoadBalancingHops)) = some (false, []) := by
  obtain ⟨hrun, -, hkeys, hnever, -, -⟩ := wrappedRouted_facts
  refine ⟨by decide, hrun, hkeys, hnever, ?_,
    fun tr hk h0 => (load_balancing_flag_iff_two_responders tr hk).1 h0,
    fun tr fuel a hk ha => (load_balancing_flag_iff_two_responders tr hk).2 fuel a ha,
    by decide, by decide⟩
  intro hall
  obtain ⟨fuel, a, ha⟩ := hall Scenario.wrappedRouted
  rw [hnever fuel] at ha
  cases ha

/-- C18 fails on the code for a result with a hop under every key from 0 to 255, which a
validated run returns once its `uint8` TTL counter has wrapped (the defect of C1, C7, C9, C10
and C28): for the result of the run with `-max-ttl 255 -npaths 1` whose 255 probes are answered by a
router and whose next probe is answered by the target, `GetPaths` returns a single path, so
that no two paths differ, but the latency loop of `AnalyzeNetwork` (lines 82-124) is still
running after any number of evaluations and no analysis, hence no `AsymmetricRouting`, is
returned. On a result with no hop under TTL 0, `AnalyzeNetwork` returns within 257
evaluations of its loops; whenever it returns, `GetPaths` returns too, and
`AsymmetricRouting` is true exactly when two of the paths `GetPaths` returns, at different
positions, are not equal under `pathsEqual`: it is true for the two flows answered by
different routers and false for the two flows answered by the same router. -/
theorem no_asymmetric_routing_report_after_ttl_wrap :
    (Scenario.flags255OneFlow.udpProbe Scenario.targetIP Scenario.localIP).Valid ∧
    ((Scenario.flags255OneFlow.udpProbe Scenario.targetIP Scenario.localIP).Traceroute
        Scenario.routersThenTarget 256).map (fun ret => (ret.result.isSome, ret.err))
      = some (true, none) ∧
    (∃ path, Scenario.wrappedRouted.GetPaths 257 = some [path]) ∧
    (∀ fuel, Scenario.wrappedRouted.AnalyzeNetwork fuel = none) ∧
    (¬ ∀ tr : TracerouteResult, ∃ fuel a, tr.AnalyzeNetwork fuel = some a) ∧
    (∀ tr : TracerouteResult, tr.Hops.lookup 0 = none →
      ∃ a, tr.AnalyzeNetwork 257 = some a) ∧
    (∀ (tr : TracerouteResult) (fuel : Nat) (a : NetworkAnalysis),
      tr.AnalyzeNetwork fuel = some a →
      ∃ paths, tr.GetPaths fuel = some paths ∧
        (a.AsymmetricRouting = true ↔
          ∃ i j pi pj, i ≠ j ∧ paths.get? i = some pi ∧ paths.get? j = some pj ∧
            pathsEqual pi pj = false)) ∧
    (Scenario.balanced.AnalyzeNetwork 257).map (fun a => a.AsymmetricRouting) = some true ∧
    (Scenario.balanced.GetPaths 257).map
      (fun paths => paths.map (fun path => path.Hops.map (fun hop => hop.IP)))
      = some [["10.0.0.1"], ["10.0.0.2"]] ∧
    (Scenario.unbalanced.AnalyzeNetwork 257).map (fun a => a.AsymmetricRouting) = some false ∧
    (Scenario.unbalanced.GetPaths 257).map
      (fun paths => paths.map (fun path => path.Hops.map (fun hop => hop.IP)))
      = some [["10.0.0.1"], ["10.0.0.1"]] := by
  obtain ⟨hrun, ⟨path, hget, -⟩, -, hnever, -, -⟩ := wrappedRouted_facts
  refine ⟨by decide, hrun, ⟨path, hget⟩, hnever, ?_,
    fun tr h0 => (asymmetric_flag_iff_two_paths_differ tr).1 h0,
    fun tr fuel a ha => (asymmetric_flag_iff_two_paths_differ tr).2 fuel a ha,
    by decide, by decide, by decide, by decide⟩
  intro hall
  obtain ⟨fuel, a, ha⟩ := hall Scenario.wrappedRouted
  rw [hnever fuel] at ha
  cases ha

/-- C29 fails on the code for a result with a hop under every key from 0 to 255, which a
validated run returns once its `uint8` TTL counter has wrapped (the defect of C1, C7, C9, C10
and C28): for the result of the run with `-max-ttl 255 -npaths 1` whose 255 probes are answered by a
router and whose next probe is answered by the target, `GetPaths` returns a single path and
`HasMultiplePaths` returns `false`, while the latency loop of `AnalyzeNetwork` (lines 82-124)
is still running after any number of evaluations: there is no `AsymmetricRouting` to compare
with. On a result with no hop under TTL 0 both return within 257 evaluations of each loop, and
whenever both return, the boolean of `HasMultiplePaths` is the `AsymmetricRouting` of the
analysis, true exactly when two of the paths have different sequences of IPs; this does not
depend on the order in which the two calls of `GetPaths` enumerate the flows of the first
hop: for any two orders `ids1` and `ids2` of these flows, the value `HasMultiplePaths`
computes from the paths built in the order `ids1` is the value `AnalyzeNetwork` computes from
the paths built in the order `ids2`. -/
theorem hasMultiplePaths_answers_where_analysis_never_returns :
    (Scenario.flags255OneFlow.udpProbe Scenario.targetIP Scenario.localIP).Valid ∧
    ((Scenario.flags255OneFlow.udpProbe Scenario.targetIP Scenario.localIP).Traceroute
        Scenario.routersThenTarget 256).map (fun ret => (ret.result.isSome, ret.err))
      = some (true, none) ∧
    Scenario.wrappedRouted.HasMultiplePaths 257 = some false ∧
    (∀ fuel, Scenario.wrappedRouted.AnalyzeNetwork fuel = none) ∧
    (¬ ∀ tr : TracerouteResult, ∀ fuel b, tr.HasMultiplePaths fuel = some b →
      ∃ fuel2 a, tr.AnalyzeNetwork fuel2 = some a ∧ b = a.AsymmetricRouting) ∧
    (∀ tr : TracerouteResult, tr.Hops.lookup 0 = none →
      ∃ b a, tr.HasMultiplePaths 257 = some b ∧ tr.AnalyzeNetwork 257 = some a ∧
        b = a.AsymmetricRouting) ∧
    (∀ (tr : TracerouteResult) (fuel : Nat) (b : Bool) (a : NetworkAnalysis),
      tr.HasMultiplePaths fuel = some b → tr.AnalyzeNetwork fuel = some a →
      b = a.AsymmetricRouting ∧
      (b = true ↔ ∃ paths, tr.GetPaths fuel = some paths ∧
        ∃ p ∈ paths, ∃ q ∈ paths,
          p.Hops.map (fun hop => hop.IP) ≠ q.Hops.map (fun hop => hop.IP))) ∧
    (∀ (tr : TracerouteResult) (fuel : Nat) (ids1 ids2 : List Nat) (paths1 paths2 : List Path),
      ids1.Perm tr.firstHopFlowIDs → ids2.Perm tr.firstHopFlowIDs →
      tr.buildPaths fuel ids1 0 = some paths1 → tr.buildPaths fuel ids2 0 = some paths2 →
      (if paths1.length ≤ 1 then false else hasDifferentPair paths1)
        = (if paths2.length > 1 then differentPaths paths2 else false)) ∧
    Scenario.balanced.HasMultiplePaths 257 = some true ∧
    (Scenario.balanced.AnalyzeNetwork 257).map (fun a => a.AsymmetricRouting) = some true ∧
    Scenario.unbalanced.HasMultiplePaths 257 = some false ∧
    (Scenario.unbalanced.AnalyzeNetwork 257).map (fun a => a.AsymmetricRouting)
      = some false := by
  obtain ⟨hrun, ⟨path, hget, -⟩, -, hnever, -, -⟩ := wrappedRouted_facts
  have hmulti : Scenario.wrappedRouted.HasMultiplePaths 257 = some false :=
    hasMultiplePaths_of_single_path _ _ path hget
  refine ⟨by decide, hrun, hmulti, hnever, ?_,
    fun tr h0 => (multiple_paths_flag_is_asymmetric_flag tr).1 h0,
    fun tr fuel b a hb ha => (multiple_paths_flag_is_asymmetric_flag tr).2.1 fuel b a hb ha,
    fun tr fuel ids1 ids2 paths1 paths2 h1 h2 hb1 hb2 =>
      (multiple_paths_flag_is_asymmetric_flag tr).2.2 fuel ids1 ids2 paths1 paths2 h1 h2 hb1 hb2,
    by decide, by rfl, by decide, by rfl⟩
  intro hall
  obtain ⟨fuel2, a, ha, -⟩ := hall Scenario.wrappedRouted 257 false hmulti
  rw [hnever fuel2] at ha
  cases ha

/-- C30 fails on the code for a result with a hop under every key from 0 to 255, which a
validated run returns once its `uint8` TTL counter has wrapped (the defect of C1, C7, C9, C10
and C28): for the result of the run with `-max-ttl 255 -npaths 1` whose 255 probes are answered by a
router and whose next probe is answered by the target, whose 256 records have a positive RTT
with a sum below `2^63`, the latency loop of `AnalyzeNetwork` (lines 82-124) is still running
after any number of evaluations, and no `MinRTT`, `AverageRTT` or `MaxRTT` is reported. On a
result with no hop under TTL 0 `AnalyzeNetwork`
returns within 257 evaluations of its loops, and whatever it returns: when no record has an
empty error and a positive RTT, `MinRTT`, `AverageRTT` and `MaxRTT` are 0; when one has,
`MinRTT` and `MaxRTT` are each the RTT of such a record, every such RTT lies between them,
and, when the sum of these RTTs is below `2^63` (it fits the `int64` of `time.Duration`),
`AverageRTT` is the quotient of the sum by their number and
`MinRTT ≤ AverageRTT ≤ MaxRTT`. The four replies after 10, 12, 14 and 16 ms give 10, 13 and
16 ms. -/
theorem no_rtt_report_after_ttl_wrap :
    (Scenario.flags255OneFlow.udpProbe Scenario.targetIP Scenario.localIP).Valid ∧
    ((Scenario.flags255OneFlow.udpProbe Scenario.targetIP Scenario.localIP).Traceroute
        Scenario.routersThenTarget 256).map (fun ret => (ret.result.isSome, ret.err))
      = some (true, none) ∧
    (∀ ttl, ttl ≤ 255 → Scenario.wrappedRouted.Hops.lookup ttl ≠ none) ∧
    Scenario.wrappedRouted.rtts.length = 256 ∧
    List.sum Scenario.wrappedRouted.rtts < 2 ^ 63 ∧
    (∀ fuel, Scenario.wrappedRouted.AnalyzeNetwork fuel = none) ∧
    (¬ ∀ tr : TracerouteResult, List.sum tr.rtts < 2 ^ 63 →
      ∃ fuel a, tr.AnalyzeNetwork fuel = some a) ∧
    (∀ tr : TracerouteResult, tr.Hops.lookup 0 = none →
      ∃ a, tr.AnalyzeNetwork 257 = some a) ∧
    (∀ (tr : TracerouteResult) (fuel : Nat) (a : NetworkAnalysis),
      tr.AnalyzeNetwork fuel = some a →
      ((∀ r ∈ tr.records, ¬ (r.Error = "" ∧ 0 < r.RTT)) →
        a.MinRTT = 0 ∧ a.AverageRTT = 0 ∧ a.MaxRTT = 0) ∧
      ((∃ r ∈ tr.records, r.Error = "" ∧ 0 < r.RTT) →
        (∃ r ∈ tr.records, r.Error = "" ∧ 0 < r.RTT ∧ a.MinRTT = r.RTT) ∧
        (∃ r ∈ tr.records, r.Error = "" ∧ 0 < r.RTT ∧ a.MaxRTT = r.RTT) ∧
        (∀ r ∈ tr.records, r.Error = "" → 0 < r.RTT →
          a.MinRTT ≤ r.RTT ∧ r.RTT ≤ a.MaxRTT) ∧
        (List.sum tr.rtts < 2 ^ 63 →
          a.AverageRTT = List.sum tr.rtts / (tr.rtts.length : Int) ∧
          a.MinRTT ≤ a.AverageRTT ∧ a.AverageRTT ≤ a.MaxRTT))) ∧
    Scenario.fourReplies.rtts = [10000000, 12000000, 14000000, 16000000] ∧
    (Scenario.fourReplies.AnalyzeNetwork 257).map
        (fun a => (a.MinRTT, a.AverageRTT, a.MaxRTT))
      = some (10000000, 13000000, 16000000) := by
  obtain ⟨hrun, -, hkeys, hnever, hlen, hsum⟩ := wrappedRouted_facts
  refine ⟨by decide, hrun, hkeys, hlen, hsum, hnever, ?_,
    fun tr h0 => (analysis_rtt_extremes_and_average tr).1 h0,
    fun tr fuel a ha => (analysis_rtt_extremes_and_average tr).2 fuel a ha,
    by decide, fourReplies_analysis_rtts⟩
  intro hall
  obtain ⟨fuel, a, ha⟩ := hall Scenario.wrappedRouted hsum
  rw [hnever fuel] at ha
  cases ha

end DublinTraceroute
